import Mathlib

/-!
ADFlib device and volume layer

A shallow embedding of the device layer (`adf_dev.c`, `adf_dev_hd.c`,
`adf_dev_hdfile.c`, `adf_dev_flop.c`, `adf_dev_type.c`), of the drivers
(`adf_dev_driver_dump.c`, `adf_dev_driver_ramdisk.c`,
`linux/adf_dev_driver_nativ.c`), of the volume functions of `adf_vol.c`, of
`adf_vector.c` and of the option parsing of `examples/adfformat.c` of ADFlib,
followed by theorems about them.

Conventions
* C memory buffers are functions `Nat → Nat` from byte index to byte value.
* `uint32_t` values are natural numbers below `2^32`, every C operation that
  can wrap is written with an explicit `% 2^32`; `int32_t` values are integers
  normalised with `toInt32`.
* Calls of the log callbacks (`adfEnv.eFct`, `wFct`, `vFct`, `rwhAccess`) have
  no effect on the modelled state and are left out.
* `malloc` is assumed to succeed, except where a function takes `malloc` as a
  parameter.
-/

namespace ADFlib

/-! ## Machine integers and buffers -/

/-- Conversion to `uint32_t`. -/
def toUInt32 (x : Int) : Nat := (x % 4294967296).toNat

/-- Conversion to `int32_t` (two's complement wrap-around). -/
def toInt32 (x : Int) : Int := (x + 2147483648) % 4294967296 - 2147483648

/-- A C byte buffer: byte index to byte value. -/
abbrev Bytes := Nat → Nat

/-- The C call `memcpy( dst + dOff, src + sOff, n )`. -/
def memcpy (dst : Bytes) (dOff : Nat) (src : Bytes) (sOff n : Nat) : Bytes :=
  fun i => if dOff ≤ i ∧ i < dOff + n then src (sOff + (i - dOff)) else dst i

/-- The C call `memset( dst + off, val, n )`. -/
def memset (dst : Bytes) (off val n : Nat) : Bytes :=
  fun i => if off ≤ i ∧ i < off + n then val else dst i

/-- A buffer holding the bytes of a list, zero elsewhere. -/
def bytesOfList (l : List Nat) : Bytes := fun i => l.getD i 0

/-- Modelled from the spec: the public error codes of `adf_err.h`, which is not
among the sources; the first six carry the names used in the C code, the others the
names of the specification. -/
inductive ADF_RETCODE where
  | ADF_RC_OK
  | ADF_RC_ERROR
  | ADF_RC_NULLPTR
  | ADF_RC_MALLOC
  | ADF_RC_BLOCKOUTOFRANGE
  | ADF_RC_BLOCKSUM
  | volFull
  | dirNotFound
  | fileNotFound
  | nameTooLong
  | nameInvalid
  | entryExists
  | fileReadOnly
  | deviceReadOnly
  deriving DecidableEq, Repr

open ADF_RETCODE

/-! ## Block-device drivers -/

/-- The container behind a device (`dev->drvData`): an image file, with its length
in bytes, its content, and whether the stream was opened for writing. -/
structure Container where
  size : Nat
  data : Bytes
  writable : Bool

/-- One call of a driver function, as recorded in access traces. -/
inductive DrvCall where
  | read (block lenBlocks : Nat)
  | write (block lenBlocks : Nat)
  deriving DecidableEq, Repr

/-- The driver dispatch table `struct AdfDeviceDriver` (the members used after a
device is open). `readSectors` and `writeSectors` receive the container, the
`sizeBlocks` and `geometry.blockSize` fields of the device, the first block, the
number of blocks and the buffer. -/
structure AdfDeviceDriver where
  name : String
  isNative : Bool
  readSectors : Container → Nat → Nat → Nat → Nat → Bytes → ADF_RETCODE × Bytes
  writeSectors : Container → Nat → Nat → Nat → Nat → Bytes → ADF_RETCODE × Container

/-- The function `adfReadDumpSectors` of `adf_dev_driver_dump.c`. The offset given to
`fseek` is the 32-bit product `blockSize * block`; `fread` copies the bytes that the
file holds from there and returns the number of complete blocks. -/
def adfReadDumpSectors (c : Container) (sizeBlocks blockSize block lenBlocks : Nat)
    (buf : Bytes) : ADF_RETCODE × Bytes :=
  if (block + lenBlocks) % 4294967296 > sizeBlocks then (ADF_RC_ERROR, buf)
  else
    let pos := (blockSize * block) % 4294967296
    let got := min (blockSize * lenBlocks) (c.size - pos)
    let buf1 := memcpy buf 0 c.data pos got
    if got / blockSize ≠ lenBlocks then (ADF_RC_ERROR, buf1) else (ADF_RC_OK, buf1)

/-- The function `adfWriteDumpSectors` of `adf_dev_driver_dump.c`. `fwrite` writes
nothing on a stream opened read-only and otherwise stores all the blocks, extending
the file when needed. -/
def adfWriteDumpSectors (c : Container) (sizeBlocks blockSize block lenBlocks : Nat)
    (buf : Bytes) : ADF_RETCODE × Container :=
  if (block + lenBlocks) % 4294967296 > sizeBlocks then (ADF_RC_ERROR, c)
  else
    let pos := (blockSize * block) % 4294967296
    let written := if c.writable then lenBlocks else 0
    let c1 : Container :=
      if written = 0 then c
      else { c with data := memcpy c.data pos buf 0 (blockSize * written),
                    size := max c.size (pos + blockSize * written) }
    if written ≠ lenBlocks then (ADF_RC_ERROR, c1) else (ADF_RC_OK, c1)

/-- The dispatch table `adfDeviceDriverDump`. -/
def adfDeviceDriverDump : AdfDeviceDriver where
  name := "dump"
  isNative := false
  readSectors := adfReadDumpSectors
  writeSectors := adfWriteDumpSectors

/-! ## Devices and volumes -/

/-- The record `struct AdfDevGeometry`. -/
structure AdfDevGeometry where
  cylinders : Nat
  heads : Nat
  sectors : Nat
  blockSize : Nat
  deriving DecidableEq, Repr

/-- The enumeration `AdfDevClass`. -/
inductive AdfDevClass where
  | ADF_DEVCLASS_UNKNOWN
  | ADF_DEVCLASS_FLOP
  | ADF_DEVCLASS_HARDDISK
  | ADF_DEVCLASS_HARDFILE
  deriving DecidableEq, Repr

open AdfDevClass

/-- The enumeration `AdfAccessMode`; a C enumeration can carry any other integer,
which is the third case. -/
inductive AdfAccessMode where
  | ADF_ACCESS_MODE_READWRITE
  | ADF_ACCESS_MODE_READONLY
  | other (value : Int)
  deriving DecidableEq, Repr

open AdfAccessMode

/-- The record `struct AdfVolume` (the members used by the modelled functions). The
block numbers are `int32_t`; `fs_id` holds the three characters of `fs.id`;
`volName` is `none` for a null pointer. Members which the C code leaves
uninitialised after `malloc` start as `false` or `0`. -/
structure AdfVolume where
  firstBlock : Int
  lastBlock : Int
  rootBlock : Int
  blockSize : Nat
  fs_id : List Nat
  fs_type : Nat
  datablockSize : Nat
  volName : Option (List Nat)
  mounted : Bool
  readOnly : Bool := false
  curDirPtr : Int := 0
  bootCode : Bool := false
  deriving DecidableEq, Repr

/-- The record `struct AdfRDSKblock`: the members used by the modelled functions,
every 32-bit member as the unsigned word decoded from the block. -/
structure AdfRDSKblock where
  id : List Nat
  size : Nat
  checksum : Nat
  blockSize : Nat
  badBlockList : Nat
  partitionList : Nat
  fileSysHdrList : Nat
  cylinders : Nat
  sectors : Nat
  heads : Nat
  cylBlocks : Nat
  deriving DecidableEq, Repr

/-- The enumeration of `dev->rdb.status`. -/
inductive AdfDevRdbStatus where
  | ADF_DEV_RDB_STATUS_UNREADABLE
  | ADF_DEV_RDB_STATUS_NOTFOUND
  | ADF_DEV_RDB_STATUS_EXIST
  | ADF_DEV_RDB_STATUS_CHECKSUMERROR
  | ADF_DEV_RDB_STATUS_OK
  | ADF_DEV_RDB_STATUS_SAMEGEOMETRY
  deriving DecidableEq, Repr

open AdfDevRdbStatus

/-- The record `struct AdfDevice`. `volList` is `none` for a null pointer; `rdbBlock`
is `dev->rdb.block`. -/
structure AdfDevice where
  name : String
  dev_class : AdfDevClass
  type : Nat
  readOnly : Bool
  sizeBlocks : Nat
  geometry : AdfDevGeometry
  rdbStatus : AdfDevRdbStatus
  rdbBlock : Option AdfRDSKblock
  drv : AdfDeviceDriver
  drvData : Container
  mounted : Bool
  nVol : Int
  volList : Option (List AdfVolume)

/-- Outcome of a read: return code, the caller's buffer afterwards, and the driver
calls that were made, in order. -/
structure DevRead where
  rc : ADF_RETCODE
  buf : Bytes
  calls : List DrvCall

/-- Outcome of a write: return code, the device afterwards, and the driver calls that
were made, in order. -/
structure DevWrite where
  rc : ADF_RETCODE
  dev : AdfDevice
  calls : List DrvCall

/-- The function `adfDevReadBlock` of `adf_dev.c`. The local `blockBuf` starts as
zeroes. -/
def adfDevReadBlock (dev : AdfDevice) (pSect size : Nat) (buf : Bytes) : DevRead :=
  let nFullBlocks := size / dev.geometry.blockSize
  let r1 := dev.drv.readSectors dev.drvData dev.sizeBlocks dev.geometry.blockSize
    pSect nFullBlocks buf
  if r1.1 ≠ ADF_RC_OK then ⟨r1.1, r1.2, [DrvCall.read pSect nFullBlocks]⟩
  else
    let remainder := size % dev.geometry.blockSize
    if remainder ≠ 0 then
      let pLast := (pSect + nFullBlocks) % 4294967296
      let r2 := dev.drv.readSectors dev.drvData dev.sizeBlocks dev.geometry.blockSize
        pLast 1 (fun _ => 0)
      if r2.1 ≠ ADF_RC_OK then
        ⟨r2.1, r1.2, [DrvCall.read pSect nFullBlocks, DrvCall.read pLast 1]⟩
      else
        ⟨ADF_RC_OK, memcpy r1.2 (size - remainder) r2.2 0 remainder,
          [DrvCall.read pSect nFullBlocks, DrvCall.read pLast 1]⟩
    else ⟨ADF_RC_OK, r1.2, [DrvCall.read pSect nFullBlocks]⟩

/-- The function `adfDevWriteBlock` of `adf_dev.c`. -/
def adfDevWriteBlock (dev : AdfDevice) (pSect size : Nat) (buf : Bytes) : DevWrite :=
  let nFullBlocks := size / dev.geometry.blockSize
  let w1 := dev.drv.writeSectors dev.drvData dev.sizeBlocks dev.geometry.blockSize
    pSect nFullBlocks buf
  let dev1 : AdfDevice := { dev with drvData := w1.2 }
  if w1.1 ≠ ADF_RC_OK then ⟨w1.1, dev1, [DrvCall.write pSect nFullBlocks]⟩
  else
    let remainder := size % dev.geometry.blockSize
    if remainder ≠ 0 then
      let blockBuf := memset (memcpy (fun _ => 0) 0 buf (size - remainder) remainder)
        remainder 0 (dev.geometry.blockSize - remainder)
      let pLast := (pSect + nFullBlocks) % 4294967296
      let w2 := dev.drv.writeSectors w1.2 dev.sizeBlocks dev.geometry.blockSize
        pLast 1 blockBuf
      ⟨w2.1, { dev with drvData := w2.2 },
        [DrvCall.write pSect nFullBlocks, DrvCall.write pLast 1]⟩
    else ⟨ADF_RC_OK, dev1, [DrvCall.write pSect nFullBlocks]⟩

/-- The function `adfVolIsSectNumValid` of `adf_vol.c`; `nSect` is an `int32_t`. -/
def adfVolIsSectNumValid (vol : AdfVolume) (nSect : Int) : Bool :=
  decide (nSect ≥ 0) && decide (nSect ≤ toInt32 (vol.lastBlock - vol.firstBlock))

/-- The function `adfVolReadBlock` of `adf_vol.c`; `nSect` is a `uint32_t`. -/
def adfVolReadBlock (dev : AdfDevice) (vol : AdfVolume) (nSect : Nat) (buf : Bytes) :
    DevRead :=
  if ¬ vol.mounted then ⟨ADF_RC_ERROR, buf, []⟩
  else
    let pSect := (nSect + toUInt32 vol.firstBlock) % 4294967296
    if pSect < toUInt32 vol.firstBlock ∨ pSect > toUInt32 vol.lastBlock then
      ⟨ADF_RC_BLOCKOUTOFRANGE, buf, []⟩
    else adfDevReadBlock dev pSect 512 buf

/-- The function `adfVolWriteBlock` of `adf_vol.c`; `nSect` is a `uint32_t`. -/
def adfVolWriteBlock (dev : AdfDevice) (vol : AdfVolume) (nSect : Nat) (buf : Bytes) :
    DevWrite :=
  if ¬ vol.mounted then ⟨ADF_RC_ERROR, dev, []⟩
  else if vol.readOnly then ⟨ADF_RC_ERROR, dev, []⟩
  else
    let pSect := (nSect + toUInt32 vol.firstBlock) % 4294967296
    if pSect < toUInt32 vol.firstBlock ∨ pSect > toUInt32 vol.lastBlock then
      ⟨ADF_RC_BLOCKOUTOFRANGE, dev, []⟩
    else adfDevWriteBlock dev pSect 512 buf

/-! ## Predefined media (`adf_dev_type.c`) -/

/-- The record `struct AdfDevMedium`; `name` and `descr` are `none` for null
pointers. -/
structure AdfDevMedium where
  name : Option String
  geometry : AdfDevGeometry
  dev_class : AdfDevClass
  descr : Option String
  deriving DecidableEq, Repr

/-- The number of device types: the table `adfDevMedia` is declared with
`ADF_DEVTYPE_NUMTYPES + 1` entries and initialised with 23. -/
def ADF_DEVTYPE_NUMTYPES : Nat := 22

/-- The device type of entry 0 of the table, `"unknown"`. -/
def ADF_DEVTYPE_UNKNOWN : Nat := 0

/-- The table `adfDevMedia` of `adf_dev_type.c`. -/
def adfDevMedia : List AdfDevMedium :=
  [ ⟨some "unknown", ⟨0, 0, 0, 512⟩, ADF_DEVCLASS_UNKNOWN, some "unknown"⟩,
    ⟨some "dd", ⟨80, 2, 11, 512⟩, ADF_DEVCLASS_FLOP, some "880 KiB floppy"⟩,
    ⟨some "sd", ⟨40, 2, 11, 512⟩, ADF_DEVCLASS_FLOP, some "440 KiB floppy (SD, 5.25\")"⟩,
    ⟨some "hd1520", ⟨80, 2, 19, 512⟩, ADF_DEVCLASS_FLOP, some "1520 KiB floppy (HD)"⟩,
    ⟨some "hd1760", ⟨80, 2, 22, 512⟩, ADF_DEVCLASS_FLOP, some "1760 KiB floppy (HD)"⟩,
    ⟨some "dd81", ⟨81, 2, 11, 512⟩, ADF_DEVCLASS_FLOP, some "891 KiB floppy (81 tracks)"⟩,
    ⟨some "dd82", ⟨82, 2, 11, 512⟩, ADF_DEVCLASS_FLOP, some "902 KiB floppy (82 tracks)"⟩,
    ⟨some "dd83", ⟨83, 2, 11, 512⟩, ADF_DEVCLASS_FLOP, some "913 KiB floppy (83 tracks)"⟩,
    ⟨some "hd81", ⟨81, 2, 22, 512⟩, ADF_DEVCLASS_FLOP,
      some "1782 KiB floppy (HD, 81 tracks)"⟩,
    ⟨some "hd82", ⟨82, 2, 22, 512⟩, ADF_DEVCLASS_FLOP,
      some "1804 KiB floppy (HD, 82 tracks)"⟩,
    ⟨some "hd83", ⟨83, 2, 22, 512⟩, ADF_DEVCLASS_FLOP,
      some "1826 KiB floppy (HD, 83 tracks)"⟩,
    ⟨some "pc360", ⟨40, 2, 9, 512⟩, ADF_DEVCLASS_FLOP, some "PC 360 KiB floppy 5.25\""⟩,
    ⟨some "pc1200", ⟨80, 2, 15, 512⟩, ADF_DEVCLASS_FLOP, some "PC 1,2 MiB floppy 5.25\""⟩,
    ⟨some "pc720", ⟨80, 2, 9, 512⟩, ADF_DEVCLASS_FLOP, some "PC 720 KiB floppy 3.5\""⟩,
    ⟨some "pc1440", ⟨80, 2, 18, 512⟩, ADF_DEVCLASS_FLOP, some "PC 1.440 MiB floppy 3.5\""⟩,
    ⟨some "pc2880", ⟨80, 2, 36, 512⟩, ADF_DEVCLASS_FLOP, some "PC 2.80 MiB floppy 3.5\""⟩,
    ⟨some "adf", ⟨0, 0, 0, 512⟩, ADF_DEVCLASS_FLOP, some "Amiga disk file (ADF)"⟩,
    ⟨some "hdf", ⟨0, 0, 0, 512⟩, ADF_DEVCLASS_HARDFILE, some "hard disk file (HDF)"⟩,
    ⟨some "hd", ⟨0, 0, 0, 512⟩, ADF_DEVCLASS_HARDDISK, some "hard disk"⟩,
    ⟨some "zip", ⟨2891, 1, 68, 512⟩, ADF_DEVCLASS_HARDDISK, some "Zip Disk"⟩,
    ⟨some "a590", ⟨782, 2, 27, 512⟩, ADF_DEVCLASS_HARDDISK,
      some "Western Digital WD9302x (A590)"⟩,
    ⟨some "wdac280", ⟨980, 10, 17, 512⟩, ADF_DEVCLASS_HARDDISK,
      some "Western Digital WDAC280"⟩,
    ⟨none, ⟨0, 0, 0, 512⟩, ADF_DEVCLASS_UNKNOWN, none⟩ ]

/-- The 32-bit product `cylinders * heads * sectors` of a geometry. -/
def geometryBlocks (g : AdfDevGeometry) : Nat :=
  (g.cylinders * g.heads * g.sectors) % 4294967296

/-- The function `adfDevTypeGetGeometry`. -/
def adfDevTypeGetGeometry (type : Nat) : AdfDevGeometry :=
  (adfDevMedia.getD type ⟨none, ⟨0, 0, 0, 512⟩, ADF_DEVCLASS_UNKNOWN, none⟩).geometry

/-- The function `adfDevGetTypeBySizeBlocks`: the index of the first of the
`ADF_DEVTYPE_NUMTYPES` entries whose geometry gives the size. -/
def adfDevGetTypeBySizeBlocks (sizeBlocks : Nat) : Nat :=
  match (List.range ADF_DEVTYPE_NUMTYPES).find?
      (fun i => geometryBlocks (adfDevTypeGetGeometry i) == sizeBlocks) with
  | some i => i
  | none => ADF_DEVTYPE_UNKNOWN

/-- The function `adfDevGetTypeByGeometry`. -/
def adfDevGetTypeByGeometry (geometry : AdfDevGeometry) : Nat :=
  match (List.range ADF_DEVTYPE_NUMTYPES).find? (fun i =>
      (adfDevTypeGetGeometry i).cylinders == geometry.cylinders &&
      (adfDevTypeGetGeometry i).heads == geometry.heads &&
      (adfDevTypeGetGeometry i).sectors == geometry.sectors) with
  | some i => i
  | none => ADF_DEVTYPE_UNKNOWN

/-- The static function `adfDevGetMediumBySizeBlocks`: the first entry, before the
entry with a null name, whose geometry gives the size. -/
def adfDevGetMediumBySizeBlocks (sizeBlocks : Nat) : Option AdfDevMedium :=
  (adfDevMedia.takeWhile (fun dm => dm.name.isSome)).find?
    (fun dm => geometryBlocks dm.geometry == sizeBlocks)

/-- The function `adfDevGetClassBySizeBlocks`. -/
def adfDevGetClassBySizeBlocks (sizeBlocks : Nat) : AdfDevClass :=
  match adfDevGetMediumBySizeBlocks sizeBlocks with
  | some dm => dm.dev_class
  | none => ADF_DEVCLASS_HARDDISK

/-- The size is that of one of the predefined floppy media: the product of the
geometry of an entry of `adfDevMedia` of class FLOP. -/
def isFloppySize (sizeBlocks : Nat) : Bool :=
  adfDevMedia.any (fun dm => decide (dm.dev_class = ADF_DEVCLASS_FLOP)
    && geometryBlocks dm.geometry == sizeBlocks)

/-! ## Declarations that are not among the sources -/

/-- Modelled from the spec: `swapUint32fromPtr` of `adf_byteorder.h`, the big-endian
32-bit word that starts at a byte offset. -/
def swapUint32fromPtr (buf : Bytes) (off : Nat) : Nat :=
  (buf off % 256) * 16777216 + (buf (off + 1) % 256) * 65536
    + (buf (off + 2) % 256) * 256 + buf (off + 3) % 256

/-- Modelled from the spec: `adfNormalSum` of `adf_raw.c`: the block is a sequence of
big-endian 32-bit words; the 32-bit two's-complement sum of all the words, with the
checksum word (at byte `offset`) read as zero, is negated. -/
def adfNormalSum (buf : Bytes) (offset bufLen : Nat) : Nat :=
  (4294967296 - (List.range (bufLen / 4)).foldl
      (fun sum i => if i = offset / 4 then sum
        else (sum + swapUint32fromPtr buf (4 * i)) % 4294967296) 0) % 4294967296

/-- Modelled from the spec: the primary type `T_HEADER` of root, directory and file
header blocks. -/
def ADF_T_HEADER : Nat := 2

/-- Modelled from the spec: the secondary type `ROOT`. -/
def ADF_ST_ROOT : Nat := 1

/-- Modelled from the spec: `ADF_MAX_NAME_LEN`, the longest volume name. -/
def ADF_MAX_NAME_LEN : Nat := 30

/-- Modelled from the spec: `adfVolIsDosFS` of `adf_vol.h`: the filesystem id of the
volume is `"DOS"`. -/
def adfVolIsDosFS (vol : AdfVolume) : Bool := vol.fs_id == [68, 79, 83]

/-- Modelled from the spec: `adfVolIsPFS` of `adf_vol.h`: the filesystem id of the
volume is `"PFS"`. -/
def adfVolIsPFS (vol : AdfVolume) : Bool := vol.fs_id == [80, 70, 83]

/-- Modelled from the spec: `adfVolIsOFS` of `adf_vol.h`: a DOS volume whose type has
bit 0 clear (bit 0 selects FFS). -/
def adfVolIsOFS (vol : AdfVolume) : Bool := adfVolIsDosFS vol && (vol.fs_type % 2 == 0)

/-- Modelled from the spec: `adfVolCalcRootBlk` of `adf_vol.h`, the calculated
position `(firstBlock + lastBlock + 1) / 2` of the root block, in `int32_t`. -/
def adfVolCalcRootBlk (vol : AdfVolume) : Int :=
  toInt32 (Int.tdiv (toInt32 (toInt32 (vol.firstBlock + vol.lastBlock) + 1)) 2)

/-- The record `struct AdfPARTblock`: the members read by the modelled functions, every
32-bit member as the unsigned word decoded from the block, `nameLen` as a byte. -/
structure AdfPARTblock where
  id : List Nat
  size : Nat
  checksum : Nat
  next : Nat
  nameLen : Nat
  name : List Nat
  blockSize : Nat
  lowCyl : Nat
  highCyl : Nat
  deriving DecidableEq, Repr

/-- The record `struct AdfFSHDblock`, the members read by the modelled functions. -/
structure AdfFSHDblock where
  id : List Nat
  size : Nat
  checksum : Nat
  next : Nat
  segListBlock : Nat
  deriving DecidableEq, Repr

/-- The record `struct AdfLSEGblock`, the members read by the modelled functions. -/
structure AdfLSEGblock where
  id : List Nat
  size : Nat
  checksum : Nat
  next : Nat
  deriving DecidableEq, Repr

/-- The record `struct AdfBADBblock`, the members read by the modelled functions. -/
structure AdfBADBblock where
  id : List Nat
  size : Nat
  checksum : Nat
  next : Nat
  deriving DecidableEq, Repr

/-- The record `struct AdfRootBlock`, the members read by the modelled functions. -/
structure AdfRootBlock where
  nameLen : Nat
  diskName : List Nat
  bmFlag : Nat
  deriving DecidableEq, Repr

/-- The declarations of `adf_blk.h`, which is not among the sources, that the block
readers depend on: the sizes of the block records and the byte offsets of their
members. They are parameters of the model. -/
structure AdfBlkLayout where
  rdsk_id : Nat
  rdsk_size : Nat
  rdsk_checksum : Nat
  rdsk_blockSize : Nat
  rdsk_badBlockList : Nat
  rdsk_partitionList : Nat
  rdsk_fileSysHdrList : Nat
  rdsk_cylinders : Nat
  rdsk_sectors : Nat
  rdsk_heads : Nat
  rdsk_cylBlocks : Nat
  part_sizeof : Nat
  part_id : Nat
  part_size : Nat
  part_checksum : Nat
  part_next : Nat
  part_nameLen : Nat
  part_name : Nat
  part_nameSize : Nat
  part_blockSize : Nat
  part_lowCyl : Nat
  part_highCyl : Nat
  fshd_sizeof : Nat
  fshd_id : Nat
  fshd_size : Nat
  fshd_checksum : Nat
  fshd_next : Nat
  fshd_segListBlock : Nat
  lseg_sizeof : Nat
  lseg_id : Nat
  lseg_size : Nat
  lseg_checksum : Nat
  lseg_next : Nat
  badb_sizeof : Nat
  badb_id : Nat
  badb_size : Nat
  badb_checksum : Nat
  badb_next : Nat
  rdsk_sizeof : Nat
  rdsk_diskVendor : Nat
  rdsk_diskProduct : Nat
  rdsk_diskRevision : Nat
  part_vectorSize : Nat
  part_sectorsPerBlock : Nat
  part_dosReserved : Nat
  boot_rootBlock : Nat
  deriving DecidableEq, Repr

/-- Modelled from the spec: the layout of the Rigid Disk Block family (RDSK, PART,
FSHD, LSEG, BADB) of `adf_blk.h`: 256-byte RDSK, PART and FSHD records and 512-byte
LSEG and BADB records, each starting with the id, the size in words and the checksum at
byte 8; and the root block number of the boot block, the word after its checksum. -/
def stdBlkLayout : AdfBlkLayout where
  rdsk_id := 0
  rdsk_size := 4
  rdsk_checksum := 8
  rdsk_blockSize := 16
  rdsk_badBlockList := 24
  rdsk_partitionList := 28
  rdsk_fileSysHdrList := 32
  rdsk_cylinders := 64
  rdsk_sectors := 68
  rdsk_heads := 72
  rdsk_cylBlocks := 144
  part_sizeof := 256
  part_id := 0
  part_size := 4
  part_checksum := 8
  part_next := 16
  part_nameLen := 36
  part_name := 37
  part_nameSize := 31
  part_blockSize := 132
  part_lowCyl := 164
  part_highCyl := 168
  fshd_sizeof := 256
  fshd_id := 0
  fshd_size := 4
  fshd_checksum := 8
  fshd_next := 16
  fshd_segListBlock := 72
  lseg_sizeof := 512
  lseg_id := 0
  lseg_size := 4
  lseg_checksum := 8
  lseg_next := 16
  badb_sizeof := 512
  badb_id := 0
  badb_size := 4
  badb_checksum := 8
  badb_next := 16
  rdsk_sizeof := 256
  rdsk_diskVendor := 160
  rdsk_diskProduct := 168
  rdsk_diskRevision := 184
  part_vectorSize := 128
  part_sectorsPerBlock := 144
  part_dosReserved := 152
  boot_rootBlock := 8

/-- The global `adfEnv`: the flag read by the modelled functions. -/
structure AdfEnv where
  ignoreChecksumErrors : Bool
  deriving DecidableEq, Repr

/-- The declarations and functions of the library that the modelled functions use and
that are not among the sources (`adf_blk.h`, `adf_limits.h`, `adf_dev.h`, `adf_raw.c`,
`adf_bitm.c`); they are parameters of the model. `adfReadRootBlock` gives the return
code and the decoded root block; the bitmap functions give their return code. -/
structure AdfDecls where
  blk : AdfBlkLayout
  ADF_DEV_SIZE_MAX_BLOCKS : Nat
  adfDevIsGeometryValid : AdfDevGeometry → Nat → Bool
  adfReadRootBlock : AdfDevice → AdfVolume → Nat → ADF_RETCODE × AdfRootBlock
  adfBitmapAllocate : AdfDevice → AdfVolume → ADF_RETCODE
  adfReadBitmap : AdfDevice → AdfVolume → AdfRootBlock → ADF_RETCODE

/-! ## Rigid Disk Block readers (`adf_dev_hd.c`) -/

/-- The bytes `buf[off .. off+n)` as a list. -/
def bytesAt (buf : Bytes) (off n : Nat) : List Nat :=
  (List.range n).map (fun i => buf (off + i) % 256)

/-- The characters of `"RDSK"`. -/
def idRDSK : List Nat := [82, 68, 83, 75]

/-- The characters of `"PART"`. -/
def idPART : List Nat := [80, 65, 82, 84]

/-- The characters of `"FSHD"`. -/
def idFSHD : List Nat := [70, 83, 72, 68]

/-- The characters of `"LSEG"`. -/
def idLSEG : List Nat := [76, 83, 69, 71]

/-- The record obtained from a raw RDSK block by `memcpy` and `adfSwapEndian`. -/
def decodeRDSK (L : AdfBlkLayout) (buf : Bytes) : AdfRDSKblock where
  id := bytesAt buf L.rdsk_id 4
  size := swapUint32fromPtr buf L.rdsk_size
  checksum := swapUint32fromPtr buf L.rdsk_checksum
  blockSize := swapUint32fromPtr buf L.rdsk_blockSize
  badBlockList := swapUint32fromPtr buf L.rdsk_badBlockList
  partitionList := swapUint32fromPtr buf L.rdsk_partitionList
  fileSysHdrList := swapUint32fromPtr buf L.rdsk_fileSysHdrList
  cylinders := swapUint32fromPtr buf L.rdsk_cylinders
  sectors := swapUint32fromPtr buf L.rdsk_sectors
  heads := swapUint32fromPtr buf L.rdsk_heads
  cylBlocks := swapUint32fromPtr buf L.rdsk_cylBlocks

/-- The record obtained from a raw PART block by `memcpy` and `adfSwapEndian`. -/
def decodePART (L : AdfBlkLayout) (buf : Bytes) : AdfPARTblock where
  id := bytesAt buf L.part_id 4
  size := swapUint32fromPtr buf L.part_size
  checksum := swapUint32fromPtr buf L.part_checksum
  next := swapUint32fromPtr buf L.part_next
  nameLen := buf L.part_nameLen % 256
  name := bytesAt buf L.part_name L.part_nameSize
  blockSize := swapUint32fromPtr buf L.part_blockSize
  lowCyl := swapUint32fromPtr buf L.part_lowCyl
  highCyl := swapUint32fromPtr buf L.part_highCyl

/-- The record obtained from a raw FSHD block by `memcpy` and `adfSwapEndian`. -/
def decodeFSHD (L : AdfBlkLayout) (buf : Bytes) : AdfFSHDblock where
  id := bytesAt buf L.fshd_id 4
  size := swapUint32fromPtr buf L.fshd_size
  checksum := swapUint32fromPtr buf L.fshd_checksum
  next := swapUint32fromPtr buf L.fshd_next
  segListBlock := swapUint32fromPtr buf L.fshd_segListBlock

/-- The record obtained from a raw LSEG block by `memcpy` and `adfSwapEndian`. -/
def decodeLSEG (L : AdfBlkLayout) (buf : Bytes) : AdfLSEGblock where
  id := bytesAt buf L.lseg_id 4
  size := swapUint32fromPtr buf L.lseg_size
  checksum := swapUint32fromPtr buf L.lseg_checksum
  next := swapUint32fromPtr buf L.lseg_next

/-- The function `adfReadRDSKblock`; `blk` is the record of the caller before the
call, the result carries it after the call. -/
def adfReadRDSKblock (L : AdfBlkLayout) (env : AdfEnv) (dev : AdfDevice)
    (blk : AdfRDSKblock) : ADF_RETCODE × AdfRDSKblock :=
  let r := adfDevReadBlock dev 0 256 (fun _ => 0)
  if r.rc ≠ ADF_RC_OK then (r.rc, blk)
  else
    let blk1 := decodeRDSK L r.buf
    if blk1.id ≠ idRDSK then (ADF_RC_ERROR, blk1)
    else if blk1.checksum ≠ adfNormalSum r.buf 8 256 ∧ ¬ env.ignoreChecksumErrors then
      (ADF_RC_BLOCKSUM, blk1)
    else (ADF_RC_OK, blk1)

/-- The function `adfReadPARTblock`; `nSect` is an `int32_t`. -/
def adfReadPARTblock (L : AdfBlkLayout) (env : AdfEnv) (dev : AdfDevice) (nSect : Int)
    (blk : AdfPARTblock) : ADF_RETCODE × AdfPARTblock :=
  let r := adfDevReadBlock dev (toUInt32 nSect) L.part_sizeof (fun _ => 0)
  if r.rc ≠ ADF_RC_OK then (r.rc, blk)
  else
    let blk1 := decodePART L r.buf
    if blk1.id ≠ idPART then (ADF_RC_ERROR, blk1)
    else if blk1.blockSize ≠ 128 then (ADF_RC_ERROR, blk1)
    else if blk1.checksum ≠ adfNormalSum r.buf 8 256 ∧ ¬ env.ignoreChecksumErrors then
      (ADF_RC_BLOCKSUM, blk1)
    else (ADF_RC_OK, blk1)

/-- The function `adfReadFSHDblock`; `nSect` is an `int32_t`. -/
def adfReadFSHDblock (L : AdfBlkLayout) (env : AdfEnv) (dev : AdfDevice) (nSect : Int)
    (blk : AdfFSHDblock) : ADF_RETCODE × AdfFSHDblock :=
  let r := adfDevReadBlock dev (toUInt32 nSect) L.fshd_sizeof (fun _ => 0)
  if r.rc ≠ ADF_RC_OK then (r.rc, blk)
  else
    let blk1 := decodeFSHD L r.buf
    if blk1.id ≠ idFSHD then (ADF_RC_ERROR, blk1)
    else if blk1.checksum ≠ adfNormalSum r.buf 8 256 ∧ ¬ env.ignoreChecksumErrors then
      (ADF_RC_BLOCKSUM, blk1)
    else (ADF_RC_OK, blk1)

/-- The function `adfReadLSEGblock`; `nSect` is an `int32_t`. -/
def adfReadLSEGblock (L : AdfBlkLayout) (env : AdfEnv) (dev : AdfDevice) (nSect : Int)
    (blk : AdfLSEGblock) : ADF_RETCODE × AdfLSEGblock :=
  let r := adfDevReadBlock dev (toUInt32 nSect) L.lseg_sizeof (fun _ => 0)
  if r.rc ≠ ADF_RC_OK then (r.rc, blk)
  else
    let blk1 := decodeLSEG L r.buf
    if blk1.id ≠ idLSEG then (ADF_RC_ERROR, blk1)
    else if blk1.checksum ≠ adfNormalSum r.buf 8 L.lseg_sizeof
        ∧ ¬ env.ignoreChecksumErrors then
      (ADF_RC_BLOCKSUM, blk1)
    else (ADF_RC_OK, blk1)

/-- The characters of `"BADB"`. -/
def idBADB : List Nat := [66, 65, 68, 66]

/-- The record obtained from a raw BADB block by `memcpy` and `adfSwapEndian`. -/
def decodeBADB (L : AdfBlkLayout) (buf : Bytes) : AdfBADBblock where
  id := bytesAt buf L.badb_id 4
  size := swapUint32fromPtr buf L.badb_size
  checksum := swapUint32fromPtr buf L.badb_checksum
  next := swapUint32fromPtr buf L.badb_next

/-- The function `adfReadBADBblock`; `nSect` is an `int32_t`. -/
def adfReadBADBblock (L : AdfBlkLayout) (env : AdfEnv) (dev : AdfDevice) (nSect : Int)
    (blk : AdfBADBblock) : ADF_RETCODE × AdfBADBblock :=
  let r := adfDevReadBlock dev (toUInt32 nSect) L.badb_sizeof (fun _ => 0)
  if r.rc ≠ ADF_RC_OK then (r.rc, blk)
  else
    let blk1 := decodeBADB L r.buf
    if blk1.id ≠ idBADB then (ADF_RC_ERROR, blk1)
    else if blk1.checksum ≠ adfNormalSum r.buf 8 L.badb_sizeof
        ∧ ¬ env.ignoreChecksumErrors then
      (ADF_RC_BLOCKSUM, blk1)
    else (ADF_RC_OK, blk1)

/-- A RDSK record of zeroes, for a local or allocated record before it is filled. -/
def zeroRDSK : AdfRDSKblock := ⟨[], 0, 0, 0, 0, 0, 0, 0, 0, 0, 0⟩

/-- A PART record of zeroes. -/
def zeroPART : AdfPARTblock := ⟨[], 0, 0, 0, 0, [], 0, 0, 0⟩

/-- The local `fshd` of `adfMountHd` before its loop: `segListBlock` is set to -1. -/
def initFSHD : AdfFSHDblock := ⟨[], 0, 0, 0, 4294967295⟩

/-- A LSEG record of zeroes. -/
def zeroLSEG : AdfLSEGblock := ⟨[], 0, 0, 0⟩

/-! ## Mounting a hard disk (`adfMountHd`) -/

/-- A `char` as a signed value (as on x86). -/
def toInt8 (b : Nat) : Int := if b % 256 < 128 then (b % 256 : Nat) else (b % 256 : Nat) - 256

/-- The volume that one round of the PART loop of `adfMountHd` fills from the RDSK
block, the PART block and the boot block read at the first block of the volume. -/
def adfMountHd.newVolume (rdsk : AdfRDSKblock) (part : AdfPARTblock) (boot : Bytes) :
    AdfVolume :=
  let vol0 : AdfVolume :=
    { firstBlock := toInt32 (toInt32 rdsk.cylBlocks * toInt32 part.lowCyl)
      lastBlock := toInt32 (toInt32 (toInt32 (toInt32 part.highCyl + 1)
        * toInt32 rdsk.cylBlocks) - 1)
      rootBlock := 0
      blockSize := (part.blockSize * 4) % 4294967296
      fs_id := bytesAt boot 0 3
      fs_type := boot 3 % 256
      datablockSize := 0
      volName := none
      mounted := false }
  let vol1 : AdfVolume := { vol0 with datablockSize := if adfVolIsOFS vol0 then 488 else 512 }
  let len := toUInt32 (min 31 (toInt8 part.nameLen))
  let vol2 : AdfVolume := { vol1 with volName := some (part.name.take len), mounted := false }
  { vol2 with rootBlock := if adfVolIsDosFS vol2 then adfVolCalcRootBlk vol2 else -1 }

/-- First block of the volume of a PART block, as computed before the boot block is
read. -/
def adfMountHd.firstBlock (rdsk : AdfRDSKblock) (part : AdfPARTblock) : Int :=
  toInt32 (toInt32 rdsk.cylBlocks * toInt32 part.lowCyl)

/-- The first `while` loop of `adfMountHd`, over the PART chain. The state is the
sector `next`, the record `part`, the counter `dev->nVol` and the temporary list of
volumes; the result is `none` when the loop has not ended after `fuel` rounds, and
otherwise the return code (OK when the loop ran to its end), `dev->nVol` and the list
(empty after `adfFreeTmpVolList`). -/
def adfMountHd.partLoop (L : AdfBlkLayout) (env : AdfEnv) (dev : AdfDevice)
    (rdsk : AdfRDSKblock) :
    Nat → Int → AdfPARTblock → Int → List AdfVolume →
      Option (ADF_RETCODE × Int × List AdfVolume)
  | 0, next, _, nVol, vList => if next = -1 then some (ADF_RC_OK, nVol, vList) else none
  | fuel + 1, next, part, nVol, vList =>
    if next = -1 then some (ADF_RC_OK, nVol, vList)
    else
      let rp := adfReadPARTblock L env dev next part
      if rp.1 ≠ ADF_RC_OK then some (rp.1, nVol, [])
      else
        let rb := adfDevReadBlock dev (toUInt32 (adfMountHd.firstBlock rdsk rp.2)) 512
          (fun _ => 0)
        if rb.rc ≠ ADF_RC_OK then some (rb.rc, nVol + 1, [])
        else
          adfMountHd.partLoop L env dev rdsk fuel (toInt32 rp.2.next) rp.2 (nVol + 1)
            (vList ++ [adfMountHd.newVolume rdsk rp.2 rb.buf])

/-- The second `while` loop of `adfMountHd`, over the FSHD chain; it ends at -1 or at
the first block that cannot be read. The result is the record `fshd` after the loop,
`none` when the loop has not ended after `fuel` rounds. -/
def adfMountHd.fshdLoop (L : AdfBlkLayout) (env : AdfEnv) (dev : AdfDevice) :
    Nat → Int → AdfFSHDblock → Option AdfFSHDblock
  | 0, next, fshd => if next = -1 then some fshd else none
  | fuel + 1, next, fshd =>
    if next = -1 then some fshd
    else
      let r := adfReadFSHDblock L env dev next fshd
      if r.1 ≠ ADF_RC_OK then some r.2
      else adfMountHd.fshdLoop L env dev fuel (toInt32 r.2.next) r.2

/-- The third `while` loop of `adfMountHd`, over the LSEG chain. The result is `none`
when the loop has not ended after `fuel` rounds. -/
def adfMountHd.lsegLoop (L : AdfBlkLayout) (env : AdfEnv) (dev : AdfDevice) :
    Nat → Int → AdfLSEGblock → Option Unit
  | 0, next, _ => if next = -1 then some () else none
  | fuel + 1, next, lseg =>
    if next = -1 then some ()
    else
      let r := adfReadLSEGblock L env dev next lseg
      if r.1 ≠ ADF_RC_OK then some ()
      else adfMountHd.lsegLoop L env dev fuel (toInt32 r.2.next) r.2

/-- The function `adfMountHd`. Each of its three loops may run `fuel` rounds; the
result is `none` when one of them has not ended by then, and otherwise the return code
and the device. The locals `rdsk`, `part` and `lseg` start as zeroes. -/
def adfMountHd (L : AdfBlkLayout) (env : AdfEnv) (fuel : Nat) (dev : AdfDevice) :
    Option (ADF_RETCODE × AdfDevice) :=
  let rr := adfReadRDSKblock L env dev zeroRDSK
  if rr.1 ≠ ADF_RC_OK then some (rr.1, dev)
  else
    let rdsk := rr.2
    match adfMountHd.partLoop L env dev rdsk fuel (toInt32 rdsk.partitionList)
        zeroPART 0 [] with
    | none => none
    | some (rc, nVol, vList) =>
      if rc ≠ ADF_RC_OK then some (rc, { dev with nVol := nVol })
      else
        let dev1 : AdfDevice :=
          { dev with nVol := nVol, volList := some (vList.take nVol.toNat) }
        match adfMountHd.fshdLoop L env dev1 fuel (toInt32 rdsk.fileSysHdrList)
            initFSHD with
        | none => none
        | some fshd =>
          match adfMountHd.lsegLoop L env dev1 fuel (toInt32 fshd.segListBlock)
              zeroLSEG with
          | none => none
          | some _ => some (ADF_RC_OK, dev1)

/-! ## Opening a device (`adf_dev.c`, `adf_dev_driver_dump.c`) -/

/-- An image file of the host: its length in bytes and its content. -/
structure HostFile where
  size : Nat
  data : Bytes

/-- The function `adfDevDumpOpen`; `file` is `none` when `fopen` fails. The geometry
and the RDB status, which the C code leaves uninitialised, start as zeroes and
NOTFOUND. -/
def adfDevDumpOpen (file : Option HostFile) (name : String) (mode : AdfAccessMode) :
    Option AdfDevice :=
  match file with
  | none => none
  | some f =>
    let readOnly : Bool := decide (mode ≠ ADF_ACCESS_MODE_READWRITE)
    let sizeBlocks := (f.size / 512) % 4294967296
    some { name := name
           dev_class := adfDevGetClassBySizeBlocks sizeBlocks
           type := ADF_DEVTYPE_UNKNOWN
           readOnly := readOnly
           sizeBlocks := sizeBlocks
           geometry := ⟨0, 0, 0, 512⟩
           rdbStatus := ADF_DEV_RDB_STATUS_NOTFOUND
           rdbBlock := none
           drv := adfDeviceDriverDump
           drvData := ⟨f.size, f.data, !readOnly⟩
           mounted := false
           nVol := 0
           volList := none }

/-- The static function `adfDevSetCalculatedGeometry_`. -/
def adfDevSetCalculatedGeometry_ (dev : AdfDevice) : ADF_RETCODE × AdfDevice :=
  let dev1 : AdfDevice := { dev with type := adfDevGetTypeBySizeBlocks dev.sizeBlocks }
  if dev1.type ≠ ADF_DEVTYPE_UNKNOWN then
    (ADF_RC_OK, { dev1 with geometry := adfDevTypeGetGeometry dev1.type })
  else if dev1.dev_class = ADF_DEVCLASS_HARDDISK ∨ dev1.dev_class = ADF_DEVCLASS_HARDFILE then
    (ADF_RC_OK, { dev1 with geometry :=
      { dev1.geometry with cylinders := dev1.sizeBlocks, heads := 1, sectors := 1 } })
  else (ADF_RC_ERROR, dev1)

/-- Modelled from the spec: the order of the enumeration of `dev->rdb.status` in
`adf_dev.h`: the states from EXIST on are those of a device on which the RDB was
found. -/
def AdfDevRdbStatus.rank : AdfDevRdbStatus → Nat
  | ADF_DEV_RDB_STATUS_UNREADABLE => 0
  | ADF_DEV_RDB_STATUS_NOTFOUND => 1
  | ADF_DEV_RDB_STATUS_EXIST => 2
  | ADF_DEV_RDB_STATUS_CHECKSUMERROR => 3
  | ADF_DEV_RDB_STATUS_OK => 4
  | ADF_DEV_RDB_STATUS_SAMEGEOMETRY => 5

/-- The static function `adfDevReadRdb`. The record allocated for `dev->rdb.block`
starts as zeroes. -/
def adfDevReadRdb (L : AdfBlkLayout) (env : AdfEnv) (dev : AdfDevice) :
    ADF_RETCODE × AdfDevice :=
  let r := adfDevReadBlock dev 0 dev.geometry.blockSize (fun _ => 0)
  if r.rc ≠ ADF_RC_OK then (r.rc, { dev with rdbStatus := ADF_DEV_RDB_STATUS_UNREADABLE })
  else if bytesAt r.buf 0 4 ≠ idRDSK then
    (ADF_RC_OK, { dev with rdbStatus := ADF_DEV_RDB_STATUS_NOTFOUND })
  else
    let blk0 : AdfRDSKblock := dev.rdbBlock.getD zeroRDSK
    let dev1 : AdfDevice :=
      { dev with rdbStatus := ADF_DEV_RDB_STATUS_EXIST, rdbBlock := some blk0 }
    let rr := adfReadRDSKblock L env dev1 blk0
    let dev2 : AdfDevice := { dev1 with rdbBlock := some rr.2 }
    if rr.1 ≠ ADF_RC_OK then
      if rr.1 = ADF_RC_BLOCKSUM then
        (ADF_RC_OK, { dev2 with rdbStatus := ADF_DEV_RDB_STATUS_CHECKSUMERROR })
      else (ADF_RC_OK, dev2)
    else (ADF_RC_OK, { dev2 with rdbStatus := ADF_DEV_RDB_STATUS_OK })

/-- The part of `adfDevOpenWithDrv_` that classifies the device by the presence of
an RDB. -/
def adfDevOpenWithDrv_.classify (dev : AdfDevice) : AdfDevice :=
  if dev.rdbStatus.rank ≥ ADF_DEV_RDB_STATUS_EXIST.rank then
    { dev with dev_class := ADF_DEVCLASS_HARDDISK }
  else if dev.dev_class = ADF_DEVCLASS_HARDDISK then
    { dev with dev_class := ADF_DEVCLASS_HARDFILE }
  else dev

/-- The part of `adfDevOpenWithDrv_` that takes the geometry of a hard disk from the
RDSK block; `none` when `assert( rdsk != NULL )` fails. -/
def adfDevOpenWithDrv_.rdbGeometry (dev : AdfDevice) : Option AdfDevice :=
  if dev.dev_class = ADF_DEVCLASS_HARDDISK then
    match dev.rdbBlock with
    | none => none
    | some rdsk =>
      if dev.geometry.cylinders = rdsk.cylinders ∧ dev.geometry.heads = rdsk.heads
          ∧ dev.geometry.sectors = rdsk.sectors then
        some { dev with rdbStatus := ADF_DEV_RDB_STATUS_SAMEGEOMETRY }
      else
        some { dev with geometry :=
          { dev.geometry with cylinders := rdsk.cylinders, heads := rdsk.heads,
                              sectors := rdsk.sectors } }
  else some dev

/-- The static function `adfDevOpenWithDrv_`; `opened` is the result of
`driver->openDev( name, mode )`, `none` also when the driver or its `openDev` is null.
The result is `none` for a null pointer. -/
def adfDevOpenWithDrv_ (K : AdfDecls) (env : AdfEnv) (opened : Option AdfDevice) :
    Option AdfDevice :=
  match opened with
  | none => none
  | some dev0 =>
    let dev1 : AdfDevice :=
      { dev0 with dev_class := adfDevGetClassBySizeBlocks dev0.sizeBlocks }
    let g := if ¬ dev1.drv.isNative then adfDevSetCalculatedGeometry_ dev1
      else (ADF_RC_OK, dev1)
    if g.1 ≠ ADF_RC_OK then none
    else if ¬ K.adfDevIsGeometryValid g.2.geometry g.2.sizeBlocks
        ∧ (g.2.drv.isNative ∨ g.2.type ≠ ADF_DEVTYPE_UNKNOWN) then none
    else
      let r := adfDevReadRdb K.blk env { g.2 with rdbBlock := none }
      if r.1 ≠ ADF_RC_OK then none
      else
        match adfDevOpenWithDrv_.rdbGeometry (adfDevOpenWithDrv_.classify r.2) with
        | none => none
        | some dev6 =>
          let dev7 : AdfDevice := { dev6 with type := adfDevGetTypeByGeometry dev6.geometry }
          if dev7.sizeBlocks > K.ADF_DEV_SIZE_MAX_BLOCKS then none else some dev7

/-! ## Mounting a hardfile (`adf_dev_hdfile.c`) -/

/-- The `do ... while` loop of `adfMountHdFile` that looks for the root block from
`vol->rootBlock` downwards. The result is the return code of a failed `readSectors`
(OK when the loop ran to its end), `vol->rootBlock` and `found`. The first argument
bounds the number of further rounds; `adfMountHdFile` passes the number of blocks of
the device, which the loop, starting at half of it, cannot use up. -/
def adfMountHdFile.scan (dev : AdfDevice) : Nat → Int → ADF_RETCODE × Int × Bool
  | 0, rootBlock =>
    let r := dev.drv.readSectors dev.drvData dev.sizeBlocks dev.geometry.blockSize
      (toUInt32 rootBlock) 1 (fun _ => 0)
    if r.1 ≠ ADF_RC_OK then (r.1, rootBlock, false)
    else
      let found : Bool := swapUint32fromPtr r.2 0 == ADF_T_HEADER
        && swapUint32fromPtr r.2 508 == ADF_ST_ROOT
      (ADF_RC_OK, if found then rootBlock else toInt32 (rootBlock - 1), found)
  | fuel + 1, rootBlock =>
    let r := dev.drv.readSectors dev.drvData dev.sizeBlocks dev.geometry.blockSize
      (toUInt32 rootBlock) 1 (fun _ => 0)
    if r.1 ≠ ADF_RC_OK then (r.1, rootBlock, false)
    else
      let found : Bool := swapUint32fromPtr r.2 0 == ADF_T_HEADER
        && swapUint32fromPtr r.2 508 == ADF_ST_ROOT
      let rootBlock1 := if found then rootBlock else toInt32 (rootBlock - 1)
      if rootBlock1 > 1 ∧ ¬ found then adfMountHdFile.scan dev fuel rootBlock1
      else (ADF_RC_OK, rootBlock1, found)

/-- The C call `strndup( s, n )`: the characters of `s` before the first NUL, at most
`n` of them. -/
def strndup (s : List Nat) (n : Nat) : List Nat := (s.take n).takeWhile (fun c => c ≠ 0)

/-- The branch of `adfMountHdFile` for a DOS filesystem: the search for the root block,
the end of the volume and its name. `dev1` is the device with its one-volume list,
`vol` the volume filled so far. -/
def adfMountHdFile.mountDos (K : AdfDecls) (dev1 : AdfDevice) (vol : AdfVolume) :
    ADF_RETCODE × AdfDevice :=
  let start := toInt32 (dev1.sizeBlocks / 2 : Nat)
  let sc := adfMountHdFile.scan dev1 dev1.sizeBlocks start
  if sc.1 ≠ ADF_RC_OK then (sc.1, { dev1 with volList := none })
  else if sc.2.1 = 1 then (ADF_RC_ERROR, { dev1 with volList := none, nVol := 0 })
  else
    let vol3 : AdfVolume :=
      { vol with rootBlock := sc.2.1, lastBlock := toInt32 (sc.2.1 * 2 - 1) }
    let rr := K.adfReadRootBlock { dev1 with volList := some [{ vol3 with mounted := true }] }
      { vol3 with mounted := true } (toUInt32 vol3.rootBlock)
    if rr.1 ≠ ADF_RC_OK then (rr.1, { dev1 with volList := none, nVol := 0 })
    else
      let volName := strndup rr.2.diskName (min rr.2.nameLen ADF_MAX_NAME_LEN)
      (ADF_RC_OK, { dev1 with volList := some [{ vol3 with volName := some volName }] })

/-- The volume of `adfMountHdFile` as allocated, before the boot block is read. -/
def adfMountHdFile.newVolume : AdfVolume :=
  { firstBlock := 0, lastBlock := 0, rootBlock := 0, blockSize := 512, fs_id := [],
    fs_type := 0, datablockSize := 0, volName := none, mounted := false }

/-- The function `adfMountHdFile`. -/
def adfMountHdFile (K : AdfDecls) (dev : AdfDevice) : ADF_RETCODE × AdfDevice :=
  let vol0 := adfMountHdFile.newVolume
  let dev1 : AdfDevice := { dev with nVol := 1, volList := some [vol0] }
  let rb := adfDevReadBlock dev1 (toUInt32 vol0.firstBlock) 512 (fun _ => 0)
  if rb.rc ≠ ADF_RC_OK then (rb.rc, { dev1 with volList := none })
  else
    let vol1 : AdfVolume := { vol0 with fs_id := bytesAt rb.buf 0 3, fs_type := rb.buf 3 % 256 }
    let vol2 : AdfVolume := { vol1 with datablockSize := if adfVolIsOFS vol1 then 488 else 512 }
    if adfVolIsDosFS vol2 then adfMountHdFile.mountDos K dev1 vol2
    else
      let vol3 : AdfVolume :=
        { vol2 with datablockSize := 0, volName := none, rootBlock := -1,
                    lastBlock := toInt32 (((geometryBlocks dev.geometry + 4294967295)
                      % 4294967296 : Nat)) }
      (ADF_RC_OK, { dev1 with volList := some [vol3] })

/-! ## Mounting a volume (`adf_vol.c`) -/

/-- The function `adfVolUnMount` on a volume of the model, which carries no bitmap. -/
def adfVolUnMount (vol : AdfVolume) : AdfVolume := { vol with mounted := false }

/-- The function `adfVolMount`. The result is the returned volume (`none` for NULL)
and the device, whose volume list holds the volume as the call left it. An index
outside the allocated list (not excluded by the test against `dev->nVol` when the two
disagree) is undefined in C and gives NULL here. -/
def adfVolMount (K : AdfDecls) (dev : Option AdfDevice) (nPart : Int)
    (mode : AdfAccessMode) : Option AdfVolume × Option AdfDevice :=
  match dev with
  | none => (none, none)
  | some d =>
    if d.nVol < 1 then (none, some d)
    else if nPart < 0 ∨ nPart ≥ d.nVol then (none, some d)
    else if mode ≠ ADF_ACCESS_MODE_READONLY ∧ mode ≠ ADF_ACCESS_MODE_READWRITE then
      (none, some d)
    else
      match d.volList.bind (fun l => l.get? nPart.toNat) with
      | none => (none, some d)
      | some vol =>
        let store (v : AdfVolume) : AdfDevice :=
          { d with volList := d.volList.map (fun l => l.set nPart.toNat v) }
        if ¬ adfVolIsDosFS vol then (none, some d)
        else
          let vol1 : AdfVolume := { vol with mounted := true }
          let vol2 : AdfVolume := { vol1 with datablockSize := if adfVolIsOFS vol1 then 488 else 512 }
          let vol3 : AdfVolume :=
            { vol2 with readOnly := if d.readOnly then true
                          else decide (mode ≠ ADF_ACCESS_MODE_READWRITE) }
          let rr := K.adfReadRootBlock (store vol3) vol3 (toUInt32 vol3.rootBlock)
          if rr.1 ≠ ADF_RC_OK then (none, some (store { vol3 with mounted := false }))
          else if K.adfBitmapAllocate (store vol3) vol3 ≠ ADF_RC_OK then
            (none, some (store (adfVolUnMount vol3)))
          else if K.adfReadBitmap (store vol3) vol3 rr.2 ≠ ADF_RC_OK then
            (none, some (store (adfVolUnMount vol3)))
          else
            let vol4 : AdfVolume := { vol3 with curDirPtr := vol3.rootBlock }
            (some vol4, some (store vol4))

/-! ## Sample parameters and images -/

/-- Modelled from the spec: `adfReadRootBlock` of `adf_raw.c`: the block is read with
`adfVolReadBlock` and decoded; it must have primary type `T_HEADER` and secondary type
`ROOT`, and its checksum, stored at offset 20, must be the normal sum of the block,
unless checksum errors are ignored. The name length is the byte at offset 432, the
name follows it, the bitmap flag is the word at offset 312. -/
def sampleReadRootBlock (env : AdfEnv) (dev : AdfDevice) (vol : AdfVolume) (nSect : Nat) :
    ADF_RETCODE × AdfRootBlock :=
  let r := adfVolReadBlock dev vol nSect (fun _ => 0)
  let root : AdfRootBlock :=
    ⟨r.buf 432 % 256, bytesAt r.buf 433 30, swapUint32fromPtr r.buf 312⟩
  if r.rc ≠ ADF_RC_OK then (r.rc, ⟨0, [], 0⟩)
  else if swapUint32fromPtr r.buf 0 ≠ ADF_T_HEADER ∨ swapUint32fromPtr r.buf 508 ≠ ADF_ST_ROOT then
    (ADF_RC_ERROR, root)
  else if swapUint32fromPtr r.buf 20 ≠ adfNormalSum r.buf 20 512
      ∧ ¬ env.ignoreChecksumErrors then
    (ADF_RC_BLOCKSUM, root)
  else (ADF_RC_OK, root)

/-- An instance of the parameters, for evaluating the model on sample images: the
standard block layout, devices of up to `2^23 - 1` blocks, a geometry valid when its
product is the size of the device, the root block reader above and bitmap functions
that succeed. -/
def sampleDecls (env : AdfEnv) : AdfDecls where
  blk := stdBlkLayout
  ADF_DEV_SIZE_MAX_BLOCKS := 8388607
  adfDevIsGeometryValid := fun g sizeBlocks => geometryBlocks g == sizeBlocks
  adfReadRootBlock := sampleReadRootBlock env
  adfBitmapAllocate := fun _ _ => ADF_RC_OK
  adfReadBitmap := fun _ _ _ => ADF_RC_OK

/-- The environment with checksum errors reported. -/
def strictEnv : AdfEnv := ⟨false⟩

/-- The content of an image given by its non-zero big-endian 32-bit words, each with
the byte offset (a multiple of 4) at which it starts. -/
def imageOfWords (ws : List (Nat × Nat)) : Bytes := fun off =>
  match ws.find? (fun w => w.1 == off - off % 4) with
  | some w => (w.2 / 256 ^ (3 - off % 4)) % 256
  | none => 0

/-- The words of an image with a Rigid Disk Block: the RDSK block in sector 0 (5
cylinders, 1 head, 2 sectors, 2 blocks per cylinder, partition list at sector 1, no
filesystem header list), the PART block of `DH0` in sector 1 (cylinder 2, next PART at
sector 2), the PART block of `DH1` in sector 2 (cylinders 3 to 4, last of the chain),
and the boot blocks `DOS\0` in sector 4 and `DOS\1` in sector 6. -/
def rdbWords : List (Nat × Nat) :=
  [ (0, 0x5244534B), (4, 64), (8, 2914757228), (16, 512), (24, 0xFFFFFFFF), (28, 1),
    (32, 0xFFFFFFFF), (64, 5), (68, 2), (72, 1), (144, 2),
    (512, 0x50415254), (516, 64), (520, 2893702326), (528, 2), (548, 0x03444830), (644, 128),
    (676, 2), (680, 2),
    (1024, 0x50415254), (1028, 64), (1032, 2893702325), (1040, 0xFFFFFFFF), (1060, 0x03444831),
    (1156, 128), (1188, 3), (1192, 4),
    (2048, 0x444F5300), (3072, 0x444F5301) ]

/-- The image file with the content `rdbWords` and a given length. -/
def rdbFile (size : Nat) : HostFile := ⟨size, imageOfWords rdbWords⟩

/-- The device that `adfDevDumpOpen` returns for `rdbFile (512 * sizeBlocks)` opened
read-only. -/
def rdbOpened (sizeBlocks : Nat) : AdfDevice where
  name := "hd.img"
  dev_class := adfDevGetClassBySizeBlocks sizeBlocks
  type := ADF_DEVTYPE_UNKNOWN
  readOnly := true
  sizeBlocks := sizeBlocks
  geometry := ⟨0, 0, 0, 512⟩
  rdbStatus := ADF_DEV_RDB_STATUS_NOTFOUND
  rdbBlock := none
  drv := adfDeviceDriverDump
  drvData := ⟨512 * sizeBlocks, imageOfWords rdbWords, false⟩
  mounted := false
  nVol := 0
  volList := none

/-- The device that `adfDevOpen` returns for `rdbFile size` opened read-only through
the dump driver, for a size of `512 * sizeBlocks` bytes. -/
def rdbDevice (sizeBlocks : Nat) : AdfDevice where
  name := "hd.img"
  dev_class := ADF_DEVCLASS_HARDDISK
  type := ADF_DEVTYPE_UNKNOWN
  readOnly := true
  sizeBlocks := sizeBlocks
  geometry := ⟨5, 1, 2, 512⟩
  rdbStatus := ADF_DEV_RDB_STATUS_OK
  rdbBlock := some (decodeRDSK stdBlkLayout (imageOfWords rdbWords))
  drv := adfDeviceDriverDump
  drvData := ⟨512 * sizeBlocks, imageOfWords rdbWords, false⟩
  mounted := false
  nVol := 0
  volList := none

/-- The words of a hardfile image: the boot block `DOS\0` in sector 0 and a root block
named `HDF` in sector 2 (primary type 2, secondary type 1, valid bitmap flag, checksum
at offset 20). -/
def hdfWords : List (Nat × Nat) :=
  [ (0, 0x444F5300),
    (1024, 2), (1044, 4239899576), (1336, 0xFFFFFFFF), (1456, 0x03484446), (1532, 1) ]

/-- The device that `adfDevDumpOpen` returns for an image file with the content
`hdfWords` and `512 * sizeBlocks` bytes. -/
def hdfOpened (sizeBlocks : Nat) (readOnly : Bool) : AdfDevice where
  name := "hdf.img"
  dev_class := adfDevGetClassBySizeBlocks sizeBlocks
  type := ADF_DEVTYPE_UNKNOWN
  readOnly := readOnly
  sizeBlocks := sizeBlocks
  geometry := ⟨0, 0, 0, 512⟩
  rdbStatus := ADF_DEV_RDB_STATUS_NOTFOUND
  rdbBlock := none
  drv := adfDeviceDriverDump
  drvData := ⟨512 * sizeBlocks, imageOfWords hdfWords, !readOnly⟩
  mounted := false
  nVol := 0
  volList := none

/-- The device that `adfDevOpen` returns for that image file: a hardfile with the
calculated geometry. -/
def hdfDevice (sizeBlocks : Nat) (readOnly : Bool) : AdfDevice where
  name := "hdf.img"
  dev_class := ADF_DEVCLASS_HARDFILE
  type := ADF_DEVTYPE_UNKNOWN
  readOnly := readOnly
  sizeBlocks := sizeBlocks
  geometry := ⟨sizeBlocks, 1, 1, 512⟩
  rdbStatus := ADF_DEV_RDB_STATUS_NOTFOUND
  rdbBlock := none
  drv := adfDeviceDriverDump
  drvData := ⟨512 * sizeBlocks, imageOfWords hdfWords, !readOnly⟩
  mounted := false
  nVol := 0
  volList := none

/-- The words of an image whose boot block carries the signature `PFS\1`. -/
def pfsWords : List (Nat × Nat) := [ (0, 0x50465301) ]

/-- The hardfile device that `adfDevOpen` returns for a 5-block image file with the
content `pfsWords`, opened read-only. -/
def pfsDevice : AdfDevice where
  name := "pfs.img"
  dev_class := ADF_DEVCLASS_HARDFILE
  type := ADF_DEVTYPE_UNKNOWN
  readOnly := true
  sizeBlocks := 5
  geometry := ⟨5, 1, 1, 512⟩
  rdbStatus := ADF_DEV_RDB_STATUS_NOTFOUND
  rdbBlock := none
  drv := adfDeviceDriverDump
  drvData := ⟨2560, imageOfWords pfsWords, false⟩
  mounted := false
  nVol := 0
  volList := none

/-- A mounted volume over blocks 4 to 5 of a device, read-only or not. -/
def sampleVolume (readOnly : Bool) : AdfVolume where
  firstBlock := 4
  lastBlock := 5
  rootBlock := 5
  blockSize := 512
  fs_id := [68, 79, 83]
  fs_type := 0
  datablockSize := 488
  volName := some [68, 72, 48]
  mounted := true
  readOnly := readOnly

/-- The device that `adfDevOpen` returns for a 10-block image file filled with the
byte 255 and opened read-write through the dump driver. -/
def onesDevice : AdfDevice where
  name := "ones.img"
  dev_class := ADF_DEVCLASS_HARDFILE
  type := ADF_DEVTYPE_UNKNOWN
  readOnly := false
  sizeBlocks := 10
  geometry := ⟨10, 1, 1, 512⟩
  rdbStatus := ADF_DEV_RDB_STATUS_NOTFOUND
  rdbBlock := none
  drv := adfDeviceDriverDump
  drvData := ⟨5120, fun _ => 255, true⟩
  mounted := false
  nVol := 0
  volList := none

/-- The members of a device that can be compared: all but the functions of the
driver and the content of the container. -/
structure DevSummary where
  name : String
  dev_class : AdfDevClass
  type : Nat
  readOnly : Bool
  sizeBlocks : Nat
  geometry : AdfDevGeometry
  rdbStatus : AdfDevRdbStatus
  rdbBlock : Option AdfRDSKblock
  drvName : String
  isNative : Bool
  fileSize : Nat
  writable : Bool
  mounted : Bool
  nVol : Int
  volList : Option (List AdfVolume)
  deriving DecidableEq, Repr

/-- The comparable members of a device. -/
def AdfDevice.summary (dev : AdfDevice) : DevSummary :=
  ⟨dev.name, dev.dev_class, dev.type, dev.readOnly, dev.sizeBlocks, dev.geometry,
    dev.rdbStatus, dev.rdbBlock, dev.drv.name, dev.drv.isNative, dev.drvData.size,
    dev.drvData.writable, dev.mounted, dev.nVol, dev.volList⟩

/-- The chain of PART blocks of a device from sector `next` on, as the specification
describes it: the chain is empty at -1; otherwise the PART block at `next` is read and
valid, and the chain goes on at its `next` member. -/
def PartChain (L : AdfBlkLayout) (env : AdfEnv) (dev : AdfDevice) :
    Int → List AdfPARTblock → Prop
  | next, [] => next = -1
  | next, part :: rest =>
    next ≠ -1 ∧ adfReadPARTblock L env dev next zeroPART = (ADF_RC_OK, part)
      ∧ PartChain L env dev (toInt32 part.next) rest

/-- The boot block read at the first block of the volume of a PART block. -/
def bootRead (dev : AdfDevice) (rdsk : AdfRDSKblock) (part : AdfPARTblock) : DevRead :=
  adfDevReadBlock dev (toUInt32 (adfMountHd.firstBlock rdsk part)) 512 (fun _ => 0)

/-- The volumes that `adfMountHd` builds for a list of PART blocks, in the same
order. -/
def chainVolumes (dev : AdfDevice) (rdsk : AdfRDSKblock) (parts : List AdfPARTblock) :
    List AdfVolume :=
  parts.map (fun p => adfMountHd.newVolume rdsk p (bootRead dev rdsk p).buf)

/-- The first PART block of the sample image. -/
def rdbPartA : AdfPARTblock :=
  decodePART stdBlkLayout (fun i => imageOfWords rdbWords (512 + i))

/-- The second PART block of the sample image. -/
def rdbPartB : AdfPARTblock :=
  decodePART stdBlkLayout (fun i => imageOfWords rdbWords (1024 + i))

/-! ## Driver interface contracts -/

/-- Interface contract of `readSectors`: a call that returns OK lies inside the device
and has copied the requested sectors of the container to the start of the buffer,
leaving the rest of the buffer as it was. -/
def DriverReads (dev : AdfDevice) : Prop :=
  ∀ block len buf, block < 4294967296 → len < 4294967296 →
    (dev.drv.readSectors dev.drvData dev.sizeBlocks 512 block len buf).1 = ADF_RC_OK →
      block + len ≤ dev.sizeBlocks ∧
      (dev.drv.readSectors dev.drvData dev.sizeBlocks 512 block len buf).2
        = memcpy buf 0 dev.drvData.data (512 * block) (512 * len)

/-- Interface contract of `writeSectors` for requests inside the device: a call that
returns OK has stored the blocks of the buffer at the requested sectors and left the
other bytes of the container as they were. -/
def DriverWrites (drv : AdfDeviceDriver) (sizeBlocks : Nat) : Prop :=
  ∀ c block len buf, block + len ≤ sizeBlocks →
    (drv.writeSectors c sizeBlocks 512 block len buf).1 = ADF_RC_OK →
      (drv.writeSectors c sizeBlocks 512 block len buf).2.data
        = memcpy c.data (512 * block) buf 0 (512 * len)

/-! ## Rigid Disk Block writers (`adf_dev_hd.c`) -/

/-- Modelled from the spec: `ADF_LOGICAL_BLOCK_SIZE` of `adf_blk.h`, the size of a
block in bytes. -/
def ADF_LOGICAL_BLOCK_SIZE : Nat := 512

/-- Modelled from the spec: `swapUint32ToPtr` of `adf_byteorder.h`, which stores a
32-bit word at a byte offset, most significant byte first. -/
def swapUint32ToPtr (buf : Bytes) (off val : Nat) : Bytes :=
  fun i => if off ≤ i ∧ i < off + 4 then (val / 256 ^ (3 - (i - off))) % 256 else buf i

/-- The function `adfWriteRDSKblock`. The record in memory is given by its image in
the byte order of the disk, that is by what `adfSwapEndian` makes of it; the result
carries the record after the call. -/
def adfWriteRDSKblock (L : AdfBlkLayout) (dev : AdfDevice) (rdsk : Bytes) :
    DevWrite × Bytes :=
  if dev.readOnly then (⟨ADF_RC_ERROR, dev, []⟩, rdsk)
  else
    let buf := memset (fun _ => 0) 0 0 ADF_LOGICAL_BLOCK_SIZE
    let rdsk1 := memcpy rdsk L.rdsk_id (bytesOfList idRDSK) 0 4
    let rdsk2 := swapUint32ToPtr rdsk1 L.rdsk_size (L.rdsk_sizeof / 4)
    let rdsk3 := swapUint32ToPtr rdsk2 L.rdsk_blockSize ADF_LOGICAL_BLOCK_SIZE
    let rdsk4 := swapUint32ToPtr rdsk3 L.rdsk_badBlockList 4294967295
    let rdsk5 := memcpy rdsk4 L.rdsk_diskVendor
      (bytesOfList [65, 68, 70, 108, 105, 98, 32, 32]) 0 8
    let rdsk6 := memcpy rdsk5 L.rdsk_diskProduct
      (bytesOfList [104, 97, 114, 100, 100, 105, 115, 107, 46, 97, 100, 102, 32, 32, 32, 32])
      0 16
    let rdsk7 := memcpy rdsk6 L.rdsk_diskRevision (bytesOfList [118, 49, 46, 48]) 0 4
    let buf1 := memcpy buf 0 rdsk7 0 L.rdsk_sizeof
    let newSum := adfNormalSum buf1 8 ADF_LOGICAL_BLOCK_SIZE
    let buf2 := swapUint32ToPtr buf1 8 newSum
    (adfDevWriteBlock dev 0 ADF_LOGICAL_BLOCK_SIZE buf2, rdsk7)

/-- The function `adfWritePARTblock`; `nSect` is an `int32_t`, the record is given as
for `adfWriteRDSKblock`. -/
def adfWritePARTblock (L : AdfBlkLayout) (dev : AdfDevice) (nSect : Int) (part : Bytes) :
    DevWrite × Bytes :=
  if dev.readOnly then (⟨ADF_RC_ERROR, dev, []⟩, part)
  else
    let buf := memset (fun _ => 0) 0 0 ADF_LOGICAL_BLOCK_SIZE
    let part1 := memcpy part L.part_id (bytesOfList idPART) 0 4
    let part2 := swapUint32ToPtr part1 L.part_size (L.part_sizeof / 4)
    let part3 := swapUint32ToPtr part2 L.part_blockSize ADF_LOGICAL_BLOCK_SIZE
    let part4 := swapUint32ToPtr part3 L.part_vectorSize 16
    let part5 := swapUint32ToPtr part4 L.part_blockSize 128
    let part6 := swapUint32ToPtr part5 L.part_sectorsPerBlock 1
    let part7 := swapUint32ToPtr part6 L.part_dosReserved 2
    let buf1 := memcpy buf 0 part7 0 L.part_sizeof
    let newSum := adfNormalSum buf1 8 ADF_LOGICAL_BLOCK_SIZE
    let buf2 := swapUint32ToPtr buf1 8 newSum
    (adfDevWriteBlock dev (toUInt32 nSect) ADF_LOGICAL_BLOCK_SIZE buf2, part7)

/-- The function `adfWriteFSHDblock`. -/
def adfWriteFSHDblock (L : AdfBlkLayout) (dev : AdfDevice) (nSect : Int) (fshd : Bytes) :
    DevWrite × Bytes :=
  if dev.readOnly then (⟨ADF_RC_ERROR, dev, []⟩, fshd)
  else
    let buf := memset (fun _ => 0) 0 0 ADF_LOGICAL_BLOCK_SIZE
    let fshd1 := memcpy fshd L.fshd_id (bytesOfList idFSHD) 0 4
    let fshd2 := swapUint32ToPtr fshd1 L.fshd_size (L.fshd_sizeof / 4)
    let buf1 := memcpy buf 0 fshd2 0 L.fshd_sizeof
    let newSum := adfNormalSum buf1 8 ADF_LOGICAL_BLOCK_SIZE
    let buf2 := swapUint32ToPtr buf1 8 newSum
    (adfDevWriteBlock dev (toUInt32 nSect) ADF_LOGICAL_BLOCK_SIZE buf2, fshd2)

/-- The function `adfWriteLSEGblock`. -/
def adfWriteLSEGblock (L : AdfBlkLayout) (dev : AdfDevice) (nSect : Int) (lseg : Bytes) :
    DevWrite × Bytes :=
  if dev.readOnly then (⟨ADF_RC_ERROR, dev, []⟩, lseg)
  else
    let buf := memset (fun _ => 0) 0 0 ADF_LOGICAL_BLOCK_SIZE
    let lseg1 := memcpy lseg L.lseg_id (bytesOfList idLSEG) 0 4
    let lseg2 := swapUint32ToPtr lseg1 L.lseg_size (L.lseg_sizeof / 4)
    let buf1 := memcpy buf 0 lseg2 0 L.lseg_sizeof
    let newSum := adfNormalSum buf1 8 ADF_LOGICAL_BLOCK_SIZE
    let buf2 := swapUint32ToPtr buf1 8 newSum
    (adfDevWriteBlock dev (toUInt32 nSect) ADF_LOGICAL_BLOCK_SIZE buf2, lseg2)

/-! ## Vectors (`adf_vector.c`) -/

/-- The functions that the member `destroy` of a vector can point to. -/
inductive AdfVectorDestroyFn where
  | adfVectorDestroy
  deriving DecidableEq, Repr

/-- The record `struct AdfVector`: `items` is the address of the allocated array and
`destroy` the function pointed to, both `none` for a null pointer. -/
structure AdfVector where
  items : Option Nat
  nItems : Nat
  itemSize : Nat
  destroy : Option AdfVectorDestroyFn
  deriving DecidableEq, Repr

/-- The function `adfVectorCreate`; `nItems` and `itemSize` are `unsigned`, so their
product wraps at `2^32`. `malloc` gives the address that the allocation of a number of
bytes returns, `none` for NULL. The result is `none` when the assertion
`itemSize > 0` fails. -/
def adfVectorCreate (malloc : Nat → Option Nat) (nItems itemSize : Nat) :
    Option AdfVector :=
  if ¬ itemSize > 0 then none
  else
    let items := if nItems > 0 then malloc ((nItems * itemSize) % 4294967296) else none
    some { items := items
           itemSize := itemSize
           destroy := some AdfVectorDestroyFn.adfVectorDestroy
           nItems := if items ≠ none then nItems else 0 }

/-- The static function `adfVectorDestroy`; `free` has no effect on the record. -/
def adfVectorDestroy (vector : AdfVector) : AdfVector :=
  { vector with items := none, nItems := 0, destroy := none }

/-- The call `vector.destroy( &vector )` through the function pointer of the vector;
`none` when the pointer is null, on which the call is undefined. -/
def AdfVector.callDestroy (vector : AdfVector) : Option AdfVector :=
  match vector.destroy with
  | none => none
  | some AdfVectorDestroyFn.adfVectorDestroy => some (adfVectorDestroy vector)

/-! ## Mounting a floppy, creating a volume, mounting a device -/

/-- The C call `strlen( s )` on the bytes of a character array. -/
def strlen (s : List Nat) : Nat := (s.takeWhile (fun c => c ≠ 0)).length

/-- The volume that `adfMountFlop` allocates and fills before it reads the boot block;
the member `rootBlock`, not set yet, starts as zero. -/
def adfMountFlop.newVolume (dev : AdfDevice) : AdfVolume :=
  { firstBlock := 0
    lastBlock := toInt32 (((dev.geometry.cylinders * dev.geometry.heads
      * dev.geometry.sectors + 4294967295) % 4294967296 : Nat))
    rootBlock := 0, blockSize := 512, fs_id := [], fs_type := 0, datablockSize := 0
    volName := none, mounted := false }

/-- The volume of `adfMountFlop` with the filesystem of the boot block `boot`. -/
def adfMountFlop.fsVolume (dev : AdfDevice) (boot : Bytes) : AdfVolume :=
  { adfMountFlop.newVolume dev with fs_id := bytesAt boot 0 3, fs_type := boot 3 % 256 }

/-- The volume of `adfMountFlop` for a DOS filesystem, before the root block is looked
for. -/
def adfMountFlop.dosVolume (dev : AdfDevice) (boot : Bytes) : AdfVolume :=
  { adfMountFlop.fsVolume dev boot with
    datablockSize := if adfVolIsOFS (adfMountFlop.fsVolume dev boot) then 488 else 512 }

/-- The statements of `adfMountFlop` that set `vol->rootBlock`, set `vol->mounted` and
call `adfReadRootBlock( vol, vol->rootBlock, &root )`. -/
def adfMountFlop.readRoot (K : AdfDecls) (dev : AdfDevice) (vol : AdfVolume)
    (rootBlock : Int) : ADF_RETCODE × AdfRootBlock :=
  K.adfReadRootBlock dev { vol with rootBlock := rootBlock, mounted := true }
    (toUInt32 rootBlock)

/-- The function `adfMountFlop` of `adf_dev_flop.c`. The local `root` starts as
zeroes; `boot.rootBlock` is an `int32_t`. -/
def adfMountFlop (K : AdfDecls) (dev : AdfDevice) : ADF_RETCODE × AdfDevice :=
  let rb := adfDevReadBlock dev (toUInt32 (adfMountFlop.newVolume dev).firstBlock) 512
    (fun _ => 0)
  if rb.rc ≠ ADF_RC_OK then (rb.rc, dev)
  else
    let vol1 := adfMountFlop.fsVolume dev rb.buf
    if adfVolIsDosFS vol1 then
      let vol2 := adfMountFlop.dosVolume dev rb.buf
      let bootRootBlock : Int := toInt32 (swapUint32fromPtr rb.buf K.blk.boot_rootBlock)
      let try1 : ADF_RETCODE × AdfRootBlock × Int :=
        if bootRootBlock > 1 then
          let rr := adfMountFlop.readRoot K dev vol2 bootRootBlock
          (rr.1, rr.2, bootRootBlock)
        else (ADF_RC_OK, ⟨0, [], 0⟩, vol2.rootBlock)
      let try2 : ADF_RETCODE × AdfRootBlock × Int :=
        if bootRootBlock ≤ 1 ∨ try1.1 ≠ ADF_RC_OK then
          let rr := adfMountFlop.readRoot K dev vol2 (adfVolCalcRootBlk vol2)
          (rr.1, rr.2, adfVolCalcRootBlk vol2)
        else try1
      if try2.1 ≠ ADF_RC_OK then (try2.1, dev)
      else
        let volName := strndup try2.2.1.diskName (min try2.2.1.nameLen ADF_MAX_NAME_LEN)
        (ADF_RC_OK,
          { dev with volList := some [{ vol2 with rootBlock := try2.2.2,
                                                  volName := some volName }],
                     nVol := 1 })
    else
      let vol5 : AdfVolume := { vol1 with datablockSize := 0, volName := none, rootBlock := -1 }
      (ADF_RC_OK, { dev with volList := some [vol5], nVol := 1 })

/-- The function `adfVolCreate` of `adf_vol.c`; `start` and `len` are `uint32_t`,
`volName` is the character array of the caller. The calls that write the boot block,
the bitmap, the directory cache and the root block (`adfWriteBootBlock`,
`adfCreateBitmap`, `adfWriteRootBlock`, `adfWriteNewBitmap`, `adfUpdateBitmap`, which
are not among the sources) are the parameter `written`: whether all of them return OK
for the volume. The result is `none` for NULL. -/
def adfVolCreate (written : AdfDevice → AdfVolume → Bool) (dev : AdfDevice)
    (start len : Nat) (volName : List Nat) (volType : Nat) : Option AdfVolume :=
  let firstBlock := toInt32 ((dev.geometry.heads * dev.geometry.sectors * start
    % 4294967296 : Nat))
  let lastBlock := toInt32 (toInt32 (firstBlock + toInt32 ((dev.geometry.heads
    * dev.geometry.sectors * len % 4294967296 : Nat))) - 1)
  let vol0 : AdfVolume :=
    { firstBlock := firstBlock, lastBlock := lastBlock, rootBlock := 0, blockSize := 512
      fs_id := [], fs_type := 0, datablockSize := 0, volName := none, mounted := false }
  let vol1 : AdfVolume := { vol0 with rootBlock := adfVolCalcRootBlk vol0 }
  let vol2 : AdfVolume :=
    { vol1 with curDirPtr := vol1.rootBlock, readOnly := dev.readOnly, mounted := true,
                volName := some (strndup volName (min (strlen volName) ADF_MAX_NAME_LEN)) }
  let vol3 : AdfVolume := { vol2 with fs_id := [68, 79, 83], fs_type := volType % 256 }
  if ¬ written dev vol3 then none
  else some { vol3 with mounted := false }

/-- The function `adfDevMount` of `adf_dev.c`; `fuel` bounds the loops of `adfMountHd`
and the result is `none` when one of them has not ended by then. -/
def adfDevMount (K : AdfDecls) (env : AdfEnv) (fuel : Nat) (dev : Option AdfDevice) :
    Option (ADF_RETCODE × Option AdfDevice) :=
  match dev with
  | none => some (ADF_RC_ERROR, none)
  | some d =>
    let mounted : Option (ADF_RETCODE × AdfDevice) :=
      match d.dev_class with
      | ADF_DEVCLASS_FLOP => some (adfMountFlop K d)
      | ADF_DEVCLASS_HARDDISK => adfMountHd K.blk env fuel d
      | ADF_DEVCLASS_HARDFILE => some (adfMountHdFile K d)
      | ADF_DEVCLASS_UNKNOWN => some (ADF_RC_ERROR, d)
    match mounted with
    | none => none
    | some (rc, d1) =>
      if rc ≠ ADF_RC_OK then some (rc, some d1)
      else some (ADF_RC_OK, some { d1 with mounted := true })

/-! ## Command line of `adfformat` (`examples/adfformat.c`) -/

/-- The record `CmdlineOptions` of `adfformat.c`; `adfName` is `none` for a null
pointer. -/
structure CmdlineOptions where
  adfName : Option String
  label : String
  volidx : Nat
  fsType : Nat
  force : Bool
  verbose : Bool
  help : Bool
  version : Bool
  deriving DecidableEq, Repr

/-- The C library function `strtoul( s, &endptr, 10 )` on a string: white space, an
optional sign and decimal digits. The result is `none` when no digit is found
(`endptr == s`), and otherwise the value as an `unsigned long` of 64 bits: at most
`2^64 - 1`, negated modulo `2^64` after a minus sign. -/
def strtoul (s : List Char) : Option Nat :=
  let s1 := s.dropWhile (fun c => c = ' ' ∨ (9 ≤ c.toNat ∧ c.toNat ≤ 13))
  let neg : Bool := s1.head? = some '-'
  let s2 := if s1.head? = some '-' ∨ s1.head? = some '+' then s1.drop 1 else s1
  let digits := s2.takeWhile (fun c => 48 ≤ c.toNat ∧ c.toNat ≤ 57)
  if digits = [] then none
  else
    let v := min (digits.foldl (fun acc c => 10 * acc + (c.toNat - 48)) 0)
      18446744073709551615
    some (if neg then (18446744073709551616 - v) % 18446744073709551616 else v)

/-- What the body of the `while` loop of `parse_args` does for the options of one
element of `argv`. -/
inductive OptionsEnd where
  | next (options : CmdlineOptions) (nerrors : Nat)
  | needArg (opt : Char) (options : CmdlineOptions) (nerrors : Nat)
  | returned (valid : Bool) (options : CmdlineOptions)

/-- The cases `l`, `p` and `t` of the `switch` of `parse_args`, for an option with its
argument `optarg`. -/
def parse_args.withArg (opt : Char) (optarg : List Char) (options : CmdlineOptions)
    (nerrors : Nat) : CmdlineOptions × Nat :=
  if opt = 'l' then
    let options1 := { options with label := String.mk optarg }
    let labelLen := optarg.length
    if labelLen < 1 ∨ labelLen > ADF_MAX_NAME_LEN then (options1, nerrors + 1)
    else (options1, nerrors)
  else if opt = 'p' then
    let options1 := { options with volidx := ((strtoul optarg).getD 0) % 4294967296 }
    if strtoul optarg = none ∨ options1.volidx > 255 then (options1, nerrors + 1)
    else (options1, nerrors)
  else
    let options1 := { options with fsType := ((strtoul optarg).getD 0) % 256 }
    if strtoul optarg = none ∨ options1.fsType > 7
        ∨ (options1.fsType > 0 ∧ options1.fsType % 2 = 0) then (options1, nerrors + 1)
    else (options1, nerrors)

/-- The rounds of the `while` loop of `parse_args` for the option characters of one
element of `argv` (the characters after its `-`), as `getopt` delivers them for the
option string `"l:p:t:fhvV"`: an option with an argument takes the rest of the element
or, when nothing is left, the next element. -/
def parse_args.cluster : List Char → CmdlineOptions → Nat → OptionsEnd
  | [], options, nerrors => OptionsEnd.next options nerrors
  | c :: rest, options, nerrors =>
    if c = 'f' then parse_args.cluster rest { options with force := true } nerrors
    else if c = 'v' then parse_args.cluster rest { options with verbose := true } nerrors
    else if c = 'h' then OptionsEnd.returned true { options with help := true }
    else if c = 'V' then OptionsEnd.returned true { options with version := true }
    else if c = 'l' ∨ c = 'p' ∨ c = 't' then
      if rest = [] then OptionsEnd.needArg c options nerrors
      else
        let r := parse_args.withArg c rest options nerrors
        OptionsEnd.next r.1 r.2
    else OptionsEnd.returned false options

/-- The `while` loop of `parse_args` and the statements after it, from the element
`argv[ optind ]` on. `getopt` returns -1 at the first element that is not an option (it
does not start with `-`, or is `-`), and after `--`. -/
def parse_args.loop : List String → CmdlineOptions → Nat → Bool × CmdlineOptions
  | [], options, _ => (false, options)
  | arg :: rest, options, nerrors =>
    if arg.data.head? = some '-' ∧ arg.data ≠ ['-'] ∧ arg.data ≠ ['-', '-'] then
      match parse_args.cluster (arg.data.drop 1) options nerrors with
      | OptionsEnd.returned valid options1 => (valid, options1)
      | OptionsEnd.next options1 nerrors1 => parse_args.loop rest options1 nerrors1
      | OptionsEnd.needArg opt options1 nerrors1 =>
        match rest with
        | [] => (false, options1)
        | optarg :: rest1 =>
          let r := parse_args.withArg opt optarg.data options1 nerrors1
          parse_args.loop rest1 r.1 r.2
    else
      let remaining := if arg.data = ['-', '-'] then rest else arg :: rest
      if nerrors > 0 then (false, options)
      else
        match remaining with
        | [adfName] => (true, { options with adfName := some adfName })
        | _ => (false, options)

/-- The function `parse_args` of `adfformat.c` on the argument vector `argv` (with the
name of the program first). The result is the returned value and the options. The
arguments are taken in the order given: `getopt` is the one of POSIX, which does not
move options behind the first operand to the front. -/
def parse_args (argv : List String) : Bool × CmdlineOptions :=
  parse_args.loop (argv.drop 1)
    { adfName := none, label := "Empty", volidx := 0, fsType := 1, force := false,
      verbose := false, help := false, version := false } 0


/-! ## Notions of the specification used in the statements -/

/-- A buffer with bit `b` of the byte at index `i` flipped. -/
def flipBit (buf : Bytes) (i b : Nat) : Bytes :=
  fun k => if k = i then (buf k % 256) ^^^ (2 ^ b) else buf k

/-- A device with bit `b` of the byte at offset `i` of its container flipped. -/
def flipDevice (dev : AdfDevice) (i b : Nat) : AdfDevice :=
  { dev with drvData := { dev.drvData with data := flipBit dev.drvData.data i b } }

/-- Sector `s` of the container of a device has the types of a root block: the
big-endian word at offset 0 is `T_HEADER` and the one at offset 508 is `ROOT`. -/
def rootAt (dev : AdfDevice) (s : Nat) : Bool :=
  swapUint32fromPtr dev.drvData.data (512 * s) == ADF_T_HEADER
    && swapUint32fromPtr dev.drvData.data (512 * s + 508) == ADF_ST_ROOT

/-- Modelled from the spec: what `adfReadRootBlock` of `adf_raw.c`, which is not among
the sources, checks before it returns OK: the block is read with `adfVolReadBlock`,
its primary type is `T_HEADER` and its secondary type is `ROOT`. -/
def ReadRootBlockChecks (K : AdfDecls) : Prop :=
  ∀ dev vol nSect, (K.adfReadRootBlock dev vol nSect).1 = ADF_RC_OK →
    (adfVolReadBlock dev vol nSect (fun _ => 0)).rc = ADF_RC_OK
    ∧ swapUint32fromPtr (adfVolReadBlock dev vol nSect (fun _ => 0)).buf 0 = ADF_T_HEADER
    ∧ swapUint32fromPtr (adfVolReadBlock dev vol nSect (fun _ => 0)).buf 508 = ADF_ST_ROOT

/-- The words of an image whose sector 0 carries the id `RDSK`, the size 64 and a
checksum word of zero. -/
def badSumWords : List (Nat × Nat) := [ (0, 0x5244534B), (4, 64) ]

/-- The device that `adfDevOpen` returns for a 5-block image file with the content
`badSumWords`, opened read-only: the checksum of its RDSK block is wrong. -/
def badSumDevice : AdfDevice where
  name := "badsum.img"
  dev_class := ADF_DEVCLASS_HARDDISK
  type := ADF_DEVTYPE_UNKNOWN
  readOnly := true
  sizeBlocks := 5
  geometry := ⟨0, 0, 0, 512⟩
  rdbStatus := ADF_DEV_RDB_STATUS_CHECKSUMERROR
  rdbBlock := some (decodeRDSK stdBlkLayout (imageOfWords badSumWords))
  drv := adfDeviceDriverDump
  drvData := ⟨2560, imageOfWords badSumWords, false⟩
  mounted := false
  nVol := 0
  volList := none

/-- The words of an image with a Rigid Disk Block and one partition whose PART block
carries a name of 31 characters `A` (cylinder 2, last of the chain), and the boot
block `DOS\0` of the partition in sector 4. -/
def longNameWords : List (Nat × Nat) :=
  [ (0, 0x5244534B), (4, 64), (8, 2914757228), (16, 512), (24, 0xFFFFFFFF), (28, 1),
    (32, 0xFFFFFFFF), (64, 5), (68, 2), (72, 1), (144, 2),
    (512, 0x50415254), (516, 64), (520, 3350504161), (528, 0xFFFFFFFF), (548, 0x1F414141),
    (552, 0x41414141), (556, 0x41414141), (560, 0x41414141), (564, 0x41414141),
    (568, 0x41414141), (572, 0x41414141), (576, 0x41414141), (644, 128),
    (676, 2), (680, 2),
    (2048, 0x444F5300) ]

/-- The words of an image with a Rigid Disk Block and one partition whose PART block
has its high cylinder (0) below its low cylinder (2), and the boot block `DOS\0` in
sector 4. -/
def backwardWords : List (Nat × Nat) :=
  [ (0, 0x5244534B), (4, 64), (8, 2914757228), (16, 512), (24, 0xFFFFFFFF), (28, 1),
    (32, 0xFFFFFFFF), (64, 5), (68, 2), (72, 1), (144, 2),
    (512, 0x50415254), (516, 64), (520, 2893702331), (528, 0xFFFFFFFF), (548, 0x03444830),
    (644, 128), (676, 2), (680, 0),
    (2048, 0x444F5300) ]

/-- The device that `adfDevOpen` returns for a 10-block image file with the given
words, which start with a Rigid Disk Block of 5 cylinders, 1 head and 2 sectors,
opened read-only through the dump driver. -/
def rdbDeviceOf (words : List (Nat × Nat)) : AdfDevice where
  name := "hd.img"
  dev_class := ADF_DEVCLASS_HARDDISK
  type := ADF_DEVTYPE_UNKNOWN
  readOnly := true
  sizeBlocks := 10
  geometry := ⟨5, 1, 2, 512⟩
  rdbStatus := ADF_DEV_RDB_STATUS_OK
  rdbBlock := some (decodeRDSK stdBlkLayout (imageOfWords words))
  drv := adfDeviceDriverDump
  drvData := ⟨5120, imageOfWords words, false⟩
  mounted := false
  nVol := 0
  volList := none

/-- The words of a floppy image: the boot block `DOS\0` with the root block number 880
and a root block named `HDF` in sector 880. -/
def flopWords : List (Nat × Nat) :=
  [ (0, 0x444F5300), (8, 880),
    (450560, 2), (450580, 4239899576), (450872, 0xFFFFFFFF), (450992, 0x03484446),
    (451068, 1) ]

/-- The device that `adfDevOpen` returns for an image file of a double density floppy
(80 cylinders, 2 heads, 11 sectors) with the content `flopWords`, opened read-only. -/
def flopDevice : AdfDevice where
  name := "flop.adf"
  dev_class := ADF_DEVCLASS_FLOP
  type := 1
  readOnly := true
  sizeBlocks := 1760
  geometry := ⟨80, 2, 11, 512⟩
  rdbStatus := ADF_DEV_RDB_STATUS_NOTFOUND
  rdbBlock := none
  drv := adfDeviceDriverDump
  drvData := ⟨901120, imageOfWords flopWords, false⟩
  mounted := false
  nVol := 0
  volList := none

/-! ## The `mounted` flag during `adfVolMount` -/

/-- The volume of `adfVolMount` at the call of `adfReadRootBlock`: `mounted`,
`datablockSize` and `readOnly` have been assigned. -/
def adfVolMount.prepared (d : AdfDevice) (vol : AdfVolume) (mode : AdfAccessMode) :
    AdfVolume :=
  let vol1 : AdfVolume := { vol with mounted := true }
  let vol2 : AdfVolume := { vol1 with datablockSize := if adfVolIsOFS vol1 then 488 else 512 }
  { vol2 with readOnly := if d.readOnly then true
                else decide (mode ≠ ADF_ACCESS_MODE_READWRITE) }

/-- The device whose volume list holds the volume `v` at index `nPart`. -/
def adfVolMount.store (d : AdfDevice) (nPart : Int) (v : AdfVolume) : AdfDevice :=
  { d with volList := d.volList.map (fun l => l.set nPart.toNat v) }

/-- The values that `adfVolMount` assigns to `vol->mounted`, in the order of the
assignments (the one of `adfVolUnMount` included), on each path of the function. -/
def adfVolMount.mountedWrites (K : AdfDecls) (dev : Option AdfDevice) (nPart : Int)
    (mode : AdfAccessMode) : List Bool :=
  match dev with
  | none => []
  | some d =>
    if d.nVol < 1 then []
    else if nPart < 0 ∨ nPart ≥ d.nVol then []
    else if mode ≠ ADF_ACCESS_MODE_READONLY ∧ mode ≠ ADF_ACCESS_MODE_READWRITE then []
    else
      match d.volList.bind (fun l => l.get? nPart.toNat) with
      | none => []
      | some vol =>
        if ¬ adfVolIsDosFS vol then []
        else
          let vol3 := adfVolMount.prepared d vol mode
          let dv := adfVolMount.store d nPart vol3
          let rr := K.adfReadRootBlock dv vol3 (toUInt32 vol3.rootBlock)
          if rr.1 ≠ ADF_RC_OK then [true, false]
          else if K.adfBitmapAllocate dv vol3 ≠ ADF_RC_OK then [true, false]
          else if K.adfReadBitmap dv vol3 rr.2 ≠ ADF_RC_OK then [true, false]
          else [true]

/-- A 10-block device with one DOS volume over blocks 4 to 5 whose root block number,
5, is not inside the volume. -/
def noRootDevice : AdfDevice :=
  { onesDevice with nVol := 1, volList := some [{ sampleVolume false with mounted := false }] }

/-! ## Remounting a volume (`adf_vol.c`) -/

/-- The function `adfVolRemount`; `vol` is `none` for a null pointer and `dev` is the
device `vol->dev`. The result is the return code and the volume after the call. -/
def adfVolRemount (dev : AdfDevice) (vol : Option AdfVolume) (mode : AdfAccessMode) :
    ADF_RETCODE × Option AdfVolume :=
  match vol with
  | none => (ADF_RC_ERROR, none)
  | some v =>
    if ¬ v.mounted then (ADF_RC_ERROR, some v)
    else if mode = ADF_ACCESS_MODE_READWRITE then
      if dev.readOnly then (ADF_RC_ERROR, some v)
      else (ADF_RC_OK, some { v with readOnly := false })
    else if mode = ADF_ACCESS_MODE_READONLY then (ADF_RC_OK, some { v with readOnly := true })
    else (ADF_RC_ERROR, some v)

/-! ## The chains of `next` pointers of a Rigid Disk Block -/

/-- The sector that the PART chain leads to from sector `s`: the `next` member of the
PART block at `s`, and `none` at -1 and at a sector where no valid PART block is
read. -/
def partNext (L : AdfBlkLayout) (env : AdfEnv) (dev : AdfDevice) (s : Int) : Option Int :=
  if s = -1 then none
  else if (adfReadPARTblock L env dev s zeroPART).1 ≠ ADF_RC_OK then none
  else some (toInt32 (adfReadPARTblock L env dev s zeroPART).2.next)

/-- The sector that the FSHD chain leads to from sector `s`. -/
def fshdNext (L : AdfBlkLayout) (env : AdfEnv) (dev : AdfDevice) (s : Int) : Option Int :=
  if s = -1 then none
  else if (adfReadFSHDblock L env dev s initFSHD).1 ≠ ADF_RC_OK then none
  else some (toInt32 (adfReadFSHDblock L env dev s initFSHD).2.next)

/-- The sector that the LSEG chain leads to from sector `s`. -/
def lsegNext (L : AdfBlkLayout) (env : AdfEnv) (dev : AdfDevice) (s : Int) : Option Int :=
  if s = -1 then none
  else if (adfReadLSEGblock L env dev s zeroLSEG).1 ≠ ADF_RC_OK then none
  else some (toInt32 (adfReadLSEGblock L env dev s zeroLSEG).2.next)

/-- The sector reached from `s` after `k` steps along a chain, `none` when the chain
has ended before. -/
def chainOrbit (step : Int → Option Int) (s : Int) : Nat → Option Int
  | 0 => some s
  | k + 1 => (chainOrbit step s k).bind step

/-- The `next` pointers of a chain form no cycle: no sector is reached from itself
after one or more steps. -/
def NoCycle (step : Int → Option Int) : Prop :=
  ∀ s k, 0 < k → chainOrbit step s k ≠ some s

/-! ## Sample images with a filesystem header list -/

/-- The words of the sample image with a Rigid Disk Block whose filesystem header list
starts at sector 3: the RDSK block, the PART blocks of `DH0` and `DH1` in sectors 1 and
2, and the boot blocks in sectors 4 and 6. Sector 3 is left to the FSHD block. -/
def fsListWords : List (Nat × Nat) :=
  [ (0, 0x5244534B), (4, 64), (8, 2914757224), (16, 512), (24, 0xFFFFFFFF), (28, 1),
    (32, 3), (64, 5), (68, 2), (72, 1), (144, 2),
    (512, 0x50415254), (516, 64), (520, 2893702326), (528, 2), (548, 0x03444830), (644, 128),
    (676, 2), (680, 2),
    (1024, 0x50415254), (1028, 64), (1032, 2893702325), (1040, 0xFFFFFFFF), (1060, 0x03444831),
    (1156, 128), (1188, 3), (1192, 4),
    (2048, 0x444F5300), (3072, 0x444F5301) ]

/-- The image with a valid FSHD block in sector 3 that ends the chain (`next` and
`segListBlock` are -1). -/
def fshdEndWords : List (Nat × Nat) :=
  fsListWords ++ [ (1536, 0x46534844), (1540, 64), (1544, 3115104126), (1552, 0xFFFFFFFF),
    (1608, 0xFFFFFFFF) ]

/-- The image with a valid FSHD block in sector 3 whose `next` is 3, the block
itself. -/
def fshdCycleWords : List (Nat × Nat) :=
  fsListWords ++ [ (1536, 0x46534844), (1540, 64), (1544, 3115104122), (1552, 3),
    (1608, 0xFFFFFFFF) ]

/-- The image with a valid FSHD block in sector 3 that ends its chain and has its
segment list at sector 5, and a valid LSEG block in sector 5 whose `next` is 5, the
block itself. -/
def lsegCycleWords : List (Nat × Nat) :=
  fsListWords ++ [ (1536, 0x46534844), (1540, 64), (1544, 3115104120), (1552, 0xFFFFFFFF),
    (1608, 5),
    (2560, 0x4C534547), (2564, 128), (2568, 3014441524), (2576, 5) ]

/-! ## The ramdisk driver (`adf_dev_driver_ramdisk.c`) and the native driver
(`linux/adf_dev_driver_nativ.c`) -/

/-- The bytes of the storage that the `memcpy` of `ramdiskReadSectors` and of
`ramdiskWriteSectors` touches: the offset `block * blockSize` and the length
`blockSize * lenBlocks`, both 32-bit products. -/
def ramdiskTouched (blockSize block lenBlocks : Nat) : Nat × Nat :=
  ((block * blockSize) % 4294967296, (blockSize * lenBlocks) % 4294967296)

/-- The function `ramdiskReadSectors`. The container is the storage `dev->drvData`,
its size the number of bytes allocated; a byte outside the allocated storage is
whatever the function `data` gives there. -/
def ramdiskReadSectors (c : Container) (sizeBlocks blockSize block lenBlocks : Nat)
    (buf : Bytes) : ADF_RETCODE × Bytes :=
  if (block + lenBlocks) % 4294967296 > sizeBlocks then (ADF_RC_ERROR, buf)
  else
    let touched := ramdiskTouched blockSize block lenBlocks
    (ADF_RC_OK, memcpy buf 0 c.data touched.1 touched.2)

/-- The function `ramdiskWriteSectors`. -/
def ramdiskWriteSectors (c : Container) (sizeBlocks blockSize block lenBlocks : Nat)
    (buf : Bytes) : ADF_RETCODE × Container :=
  if (block + lenBlocks) % 4294967296 > sizeBlocks then (ADF_RC_ERROR, c)
  else
    let touched := ramdiskTouched blockSize block lenBlocks
    (ADF_RC_OK, { c with data := memcpy c.data touched.1 buf 0 touched.2 })

/-- The dispatch table `adfDeviceDriverRamdisk`. -/
def adfDeviceDriverRamdisk : AdfDeviceDriver where
  name := "ramdisk"
  isNative := false
  readSectors := ramdiskReadSectors
  writeSectors := ramdiskWriteSectors

/-- The function `adfDevTypeGetClass` of `adf_dev_type.c`. -/
def adfDevTypeGetClass (type : Nat) : AdfDevClass :=
  (adfDevMedia.getD type ⟨none, ⟨0, 0, 0, 512⟩, ADF_DEVCLASS_UNKNOWN, none⟩).dev_class

/-- The function `ramdiskCreate`; `cylinders`, `heads` and `sectors` are `uint32_t`.
`malloc` gives the content of the storage that the allocation of a number of bytes
returns, `none` for NULL; the allocation of the device record succeeds. The size of the
container is the number of bytes allocated, the 64-bit product passed to `malloc`. The
result is `none` for NULL. -/
def ramdiskCreate (malloc : Nat → Option Bytes) (name : String)
    (cylinders heads sectors : Nat) : Option AdfDevice :=
  let geometry : AdfDevGeometry := ⟨cylinders, heads, sectors, 512⟩
  let sizeBlocks := (cylinders * heads * sectors) % 4294967296
  match malloc ((sizeBlocks * sizeBlocks) % 18446744073709551616) with
  | none => none
  | some mem =>
    let type := adfDevGetTypeByGeometry geometry
    some { name := name
           dev_class := if type ≠ ADF_DEVTYPE_UNKNOWN then adfDevTypeGetClass type
             else adfDevGetClassBySizeBlocks sizeBlocks
           type := type
           readOnly := false
           sizeBlocks := sizeBlocks
           geometry := geometry
           rdbStatus := ADF_DEV_RDB_STATUS_NOTFOUND
           rdbBlock := none
           drv := adfDeviceDriverRamdisk
           drvData := ⟨(sizeBlocks * sizeBlocks) % 18446744073709551616, mem, true⟩
           mounted := false
           nVol := 0
           volList := none }

/-- The function `adfLinuxReadSectors`. The container is the block device behind the
file descriptor; the offset and the length are 64-bit products. `lseek` fails for an
offset that is not a non-negative `off_t`, and `read` delivers the bytes that the device
holds from the offset on. -/
def adfLinuxReadSectors (c : Container) (sizeBlocks blockSize block lenBlocks : Nat)
    (buf : Bytes) : ADF_RETCODE × Bytes :=
  if (block + lenBlocks) % 4294967296 > sizeBlocks then (ADF_RC_ERROR, buf)
  else
    let offset := (blockSize * block) % 18446744073709551616
    if offset ≥ 9223372036854775808 then (ADF_RC_ERROR, buf)
    else
      let len := (blockSize * lenBlocks) % 18446744073709551616
      let got := min len (c.size - offset)
      let buf1 := memcpy buf 0 c.data offset got
      if got ≠ len then (ADF_RC_ERROR, buf1) else (ADF_RC_OK, buf1)

/-- The function `adfLinuxWriteSectors`. `write` stores nothing through a descriptor
opened read-only and otherwise the bytes that fit in the device from the offset on. -/
def adfLinuxWriteSectors (c : Container) (sizeBlocks blockSize block lenBlocks : Nat)
    (buf : Bytes) : ADF_RETCODE × Container :=
  if (block + lenBlocks) % 4294967296 > sizeBlocks then (ADF_RC_ERROR, c)
  else
    let offset := (blockSize * block) % 18446744073709551616
    if offset ≥ 9223372036854775808 then (ADF_RC_ERROR, c)
    else
      let len := (blockSize * lenBlocks) % 18446744073709551616
      let put := if c.writable then min len (c.size - offset) else 0
      let c1 : Container := { c with data := memcpy c.data offset buf 0 put }
      if put ≠ len ∨ ¬ c.writable then (ADF_RC_ERROR, c1) else (ADF_RC_OK, c1)

/-! ## Creating the volume of a floppy (`adf_dev_flop.c`) -/

/-- The functions of `adf_raw.c`, `adf_bitm.c` and `adf_cache.c` that `adfVolCreate`
calls to write the boot block, the bitmap, the directory cache and the root block of the
new volume; they are not among the sources and are parameters of the model. `written`
tells whether all of them return OK for the device and the volume, `stored` gives the
container of the device after them. -/
structure AdfVolWriters where
  written : AdfDevice → AdfVolume → Bool
  stored : AdfDevice → AdfVolume → Container

/-- The volume of `adfVolCreate` as it is filled before the blocks are written. -/
def adfVolCreate.filled (dev : AdfDevice) (start len : Nat) (volName : List Nat)
    (volType : Nat) : AdfVolume :=
  let firstBlock := toInt32 ((dev.geometry.heads * dev.geometry.sectors * start
    % 4294967296 : Nat))
  let lastBlock := toInt32 (toInt32 (firstBlock + toInt32 ((dev.geometry.heads
    * dev.geometry.sectors * len % 4294967296 : Nat))) - 1)
  let vol0 : AdfVolume :=
    { firstBlock := firstBlock, lastBlock := lastBlock, rootBlock := 0, blockSize := 512
      fs_id := [], fs_type := 0, datablockSize := 0, volName := none, mounted := false }
  let vol1 : AdfVolume := { vol0 with rootBlock := adfVolCalcRootBlk vol0 }
  let vol2 : AdfVolume :=
    { vol1 with curDirPtr := vol1.rootBlock, readOnly := dev.readOnly, mounted := true,
                volName := some (strndup volName (min (strlen volName) ADF_MAX_NAME_LEN)) }
  { vol2 with fs_id := [68, 79, 83], fs_type := volType % 256 }

/-- The function `adfCreateFlop`; `dev` and `volName` are `none` for null pointers. The
allocation of the volume list succeeds. After `free( dev->volList )` the list is
`none`. -/
def adfCreateFlop (W : AdfVolWriters) (dev : Option AdfDevice) (volName : Option (List Nat))
    (volType : Nat) : ADF_RETCODE × Option AdfDevice :=
  match dev with
  | none => (ADF_RC_NULLPTR, none)
  | some d =>
    match volName with
    | none => (ADF_RC_NULLPTR, some d)
    | some name =>
      let d1 : AdfDevice :=
        { d with drvData := W.stored d (adfVolCreate.filled d 0 80 name volType) }
      match adfVolCreate W.written d 0 80 name volType with
      | none => (ADF_RC_ERROR, some { d1 with volList := none })
      | some vol =>
        (ADF_RC_OK, some { d1 with volList := some [vol], nVol := 1, mounted := true })

/-- A floppy device of the predefined type `dd81` (81 cylinders, 2 heads, 11 sectors),
created blank with the dump driver. -/
def flop81Device : AdfDevice where
  name := "dd81.adf"
  dev_class := ADF_DEVCLASS_FLOP
  type := 5
  readOnly := false
  sizeBlocks := 1782
  geometry := ⟨81, 2, 11, 512⟩
  rdbStatus := ADF_DEV_RDB_STATUS_NOTFOUND
  rdbBlock := none
  drv := adfDeviceDriverDump
  drvData := ⟨912384, fun _ => 0, true⟩
  mounted := false
  nVol := 0
  volList := none

/-! ## Installing a boot block (`adfVolInstallBootBlock`) -/

/-- The record `struct AdfBootBlock`: the four characters of `dosType`, the checksum,
the root block number (an `int32_t`) and the `500 + 512` bytes of `data`, which start
at byte 12 of the two boot blocks. -/
structure AdfBootBlock where
  dosType : List Nat
  checkSum : Nat
  rootBlock : Int
  data : Bytes

/-- The functions `adfReadBootBlock` and `adfWriteBootBlock` of `adf_raw.c`, which are
not among the sources; they are parameters of the model. The reader gives its return
code and the record, the writer its return code and the device after the call. -/
structure AdfBootDecls where
  adfReadBootBlock : AdfDevice → AdfVolume → ADF_RETCODE × AdfBootBlock
  adfWriteBootBlock : AdfDevice → AdfVolume → AdfBootBlock → DevWrite

/-- Outcome of `adfVolInstallBootBlock`: the return code, the device and the volume
after the call, and the record handed to `adfWriteBootBlock`, `none` when the writer was
not called. -/
structure BootInstall where
  rc : ADF_RETCODE
  dev : AdfDevice
  vol : AdfVolume
  written : Option AdfBootBlock

/-- The function `adfVolInstallBootBlock` of `adf_vol.c`; `dev` is `vol->dev`. -/
def adfVolInstallBootBlock (B : AdfBootDecls) (dev : AdfDevice) (vol : AdfVolume)
    (code : Bytes) : BootInstall :=
  if dev.dev_class ≠ ADF_DEVCLASS_FLOP then ⟨ADF_RC_ERROR, dev, vol, none⟩
  else
    let r := B.adfReadBootBlock dev vol
    if r.1 ≠ ADF_RC_OK then ⟨r.1, dev, vol, none⟩
    else
      let boot1 : AdfBootBlock :=
        { r.2 with rootBlock := 880,
                   data := fun i => if i < 1024 - 12 then code (i + 12) else r.2.data i }
      let w := B.adfWriteBootBlock dev vol boot1
      if w.rc ≠ ADF_RC_OK then ⟨w.rc, w.dev, vol, some boot1⟩
      else ⟨ADF_RC_OK, w.dev, { vol with bootCode := true }, some boot1⟩

/-- Modelled from the spec: `adfReadBootBlock` of `adf_raw.c`: the boot blocks, the
blocks 0 and 1 of the volume, are read and decoded: `dosType` in the first four bytes,
then the checksum and the root block number as big-endian words, then the data. -/
def sampleReadBootBlock (dev : AdfDevice) (vol : AdfVolume) : ADF_RETCODE × AdfBootBlock :=
  let r0 := adfVolReadBlock dev vol 0 (fun _ => 0)
  let r1 := adfVolReadBlock dev vol 1 (fun _ => 0)
  if r0.rc ≠ ADF_RC_OK then (r0.rc, ⟨[], 0, 0, fun _ => 0⟩)
  else if r1.rc ≠ ADF_RC_OK then (r1.rc, ⟨[], 0, 0, fun _ => 0⟩)
  else
    (ADF_RC_OK, ⟨bytesAt r0.buf 0 4, swapUint32fromPtr r0.buf 4,
      toInt32 (swapUint32fromPtr r0.buf 8),
      fun i => if i < 500 then r0.buf (12 + i) % 256 else r1.buf (i - 500) % 256⟩)

/-- Modelled from the spec: `adfWriteBootBlock` of `adf_raw.c`: the record is encoded,
with `DOS` in the first three bytes, and written to the blocks 0 and 1 of the volume;
the checksum is stored as the record has it. -/
def sampleWriteBootBlock (dev : AdfDevice) (vol : AdfVolume) (boot : AdfBootBlock) :
    DevWrite :=
  let head : Bytes := fun i =>
    if i < 3 then [68, 79, 83].getD i 0
    else if i = 3 then boot.dosType.getD 3 0 % 256
    else boot.data (i - 12) % 256
  let buf := swapUint32ToPtr (swapUint32ToPtr head 4 boot.checkSum) 8
    (toUInt32 boot.rootBlock)
  let w0 := adfVolWriteBlock dev vol 0 buf
  let w1 := adfVolWriteBlock w0.dev vol 1 (fun i => buf (512 + i))
  if w0.rc ≠ ADF_RC_OK then w0 else ⟨w1.rc, w1.dev, w0.calls ++ w1.calls⟩

/-- The sample boot block reader and writer. -/
def sampleBootDecls : AdfBootDecls := ⟨sampleReadBootBlock, sampleWriteBootBlock⟩

/-- A blank floppy device of the predefined type `hd1760` (80 cylinders, 2 heads, 22
sectors), opened read-write through the dump driver. -/
def flopHdDevice : AdfDevice where
  name := "hd.adf"
  dev_class := ADF_DEVCLASS_FLOP
  type := 4
  readOnly := false
  sizeBlocks := 3520
  geometry := ⟨80, 2, 22, 512⟩
  rdbStatus := ADF_DEV_RDB_STATUS_NOTFOUND
  rdbBlock := none
  drv := adfDeviceDriverDump
  drvData := ⟨1802240, fun _ => 0, true⟩
  mounted := false
  nVol := 0
  volList := none

/-- The mounted volume of that floppy, with its root block at the calculated position,
block 1760. -/
def flopHdVolume : AdfVolume where
  firstBlock := 0
  lastBlock := 3519
  rootBlock := 1760
  blockSize := 512
  fs_id := [68, 79, 83]
  fs_type := 0
  datablockSize := 488
  volName := some [72, 68]
  mounted := true
  readOnly := false

/-! ## Creating a hard disk (`adfCreateHd`, `adfCreateHdHeader`) -/

/-- Modelled from the spec: the record `struct AdfPartition` that describes a partition
to `adfCreateHd`: the first cylinder and the number of cylinders (`int32_t`), the name
of the volume (a character array) and the type of its filesystem (`uint8_t`). -/
structure AdfPartition where
  startCyl : Int
  lenCyl : Int
  volName : List Nat
  volType : Nat
  deriving DecidableEq, Repr

/-- The declarations of `adf_blk.h`, which is not among the sources, that
`adfCreateHdHeader` depends on beyond those of `AdfBlkLayout`: the byte offsets of
further members of the RDSK, PART and FSHD records. They are parameters of the
model. -/
structure AdfHdLayout where
  rdsk_rdbBlockLo : Nat
  rdsk_rdbBlockHi : Nat
  rdsk_loCylinder : Nat
  rdsk_hiCylinder : Nat
  part_surfaces : Nat
  part_blocksPerTrack : Nat
  part_dosType : Nat
  fshd_dosType : Nat
  deriving DecidableEq, Repr

/-- Modelled from the spec: the offsets of those members in the Rigid Disk Block
records of `adf_blk.h`. -/
def stdHdLayout : AdfHdLayout where
  rdsk_rdbBlockLo := 128
  rdsk_rdbBlockHi := 132
  rdsk_loCylinder := 136
  rdsk_hiCylinder := 140
  part_surfaces := 140
  part_blocksPerTrack := 148
  part_dosType := 192
  fshd_dosType := 32

/-- The `for` loop of `adfCreateHd` over the partitions that are left, with the device
and the volumes created so far. The result is the device after the writes of
`adfVolCreate` and the list `dev->volList`, which is `none` once it has been freed
after a call of `adfVolCreate` that returned NULL; the whole result is `none` when the
loop goes on after that and stores into the freed list, which is undefined. -/
def adfCreateHd.volumes (W : AdfVolWriters) :
    AdfDevice → List AdfPartition → List AdfVolume → Option (AdfDevice × Option (List AdfVolume))
  | d, [], acc => some (d, some acc)
  | d, p :: rest, acc =>
    let filled := adfVolCreate.filled d (toUInt32 p.startCyl) (toUInt32 p.lenCyl) p.volName
      p.volType
    let d1 : AdfDevice := { d with drvData := W.stored d filled }
    match adfVolCreate W.written d (toUInt32 p.startCyl) (toUInt32 p.lenCyl) p.volName
        p.volType with
    | some vol => adfCreateHd.volumes W d1 rest (acc ++ [vol])
    | none => if rest = [] then some (d1, none) else none

/-- The record `part` that one round of the PART loop of `adfCreateHdHeader` fills for
the partition of index `i`, as its image in the byte order of the disk. -/
def adfCreateHdHeader.part (L : AdfBlkLayout) (H : AdfHdLayout) (dev : AdfDevice) (i : Nat)
    (p : AdfPartition) : Bytes :=
  let j : Int := 1 + (i : Int)
  let next : Int := if (i : Int) < dev.nVol - 1 then j + 1 else -1
  let len := min ADF_MAX_NAME_LEN (strlen p.volName)
  let part1 := swapUint32ToPtr (fun _ => 0) L.part_next (toUInt32 next)
  let part2 : Bytes := fun k => if k = L.part_nameLen then len % 256 else part1 k
  let part3 := memcpy part2 L.part_name (bytesOfList p.volName) 0 len
  let part4 := swapUint32ToPtr part3 H.part_surfaces (dev.geometry.heads % 4294967296)
  let part5 := swapUint32ToPtr part4 H.part_blocksPerTrack
    (dev.geometry.sectors % 4294967296)
  let part6 := swapUint32ToPtr part5 L.part_lowCyl (toUInt32 p.startCyl)
  let part7 := swapUint32ToPtr part6 L.part_highCyl
    (toUInt32 (toInt32 (toInt32 (p.startCyl + p.lenCyl) - 1)))
  let part8 := memcpy part7 H.part_dosType (bytesOfList [68, 79, 83]) 0 3
  fun k => if k = H.part_dosType + 3 then p.volType % 2 else part8 k

/-- The PART loop of `adfCreateHdHeader` from the partition of index `i` on; it ends at
the first block that is not written. -/
def adfCreateHdHeader.parts (L : AdfBlkLayout) (H : AdfHdLayout) :
    AdfDevice → Nat → List AdfPartition → ADF_RETCODE × AdfDevice
  | dev, _, [] => (ADF_RC_OK, dev)
  | dev, i, p :: rest =>
    let w := adfWritePARTblock L dev (1 + (i : Int)) (adfCreateHdHeader.part L H dev i p)
    if w.1.rc ≠ ADF_RC_OK then (w.1.rc, w.1.dev)
    else adfCreateHdHeader.parts L H w.1.dev (i + 1) rest

/-- The function `adfCreateHdHeader`. `partList` is the array of the caller; the result
is `none` when the function reads it behind its end, which is undefined. `fshd0` and
`lseg0` are the contents of the locals `fshd` and `lseg`, which are not initialised,
before their members are set. -/
def adfCreateHdHeader (L : AdfBlkLayout) (H : AdfHdLayout) (dev : AdfDevice)
    (partList : List AdfPartition) (fshd0 lseg0 : Bytes) : Option (ADF_RETCODE × AdfDevice) :=
  let g := dev.geometry
  let rdsk1 := swapUint32ToPtr (fun _ => 0) H.rdsk_rdbBlockLo 0
  let rdsk2 := swapUint32ToPtr rdsk1 H.rdsk_rdbBlockHi
    ((g.sectors * g.heads * 2 + 4294967295) % 4294967296)
  let rdsk3 := swapUint32ToPtr rdsk2 H.rdsk_loCylinder 2
  let rdsk4 := swapUint32ToPtr rdsk3 H.rdsk_hiCylinder ((g.cylinders + 4294967295) % 4294967296)
  let rdsk5 := swapUint32ToPtr rdsk4 L.rdsk_cylBlocks ((g.sectors * g.heads) % 4294967296)
  let rdsk6 := swapUint32ToPtr rdsk5 L.rdsk_cylinders (g.cylinders % 4294967296)
  let rdsk7 := swapUint32ToPtr rdsk6 L.rdsk_sectors (g.sectors % 4294967296)
  let rdsk8 := swapUint32ToPtr rdsk7 L.rdsk_heads (g.heads % 4294967296)
  let rdsk9 := swapUint32ToPtr rdsk8 L.rdsk_badBlockList 4294967295
  let rdsk10 := swapUint32ToPtr rdsk9 L.rdsk_partitionList 1
  let rdsk11 := swapUint32ToPtr rdsk10 L.rdsk_fileSysHdrList (toUInt32 (1 + dev.nVol))
  let w := adfWriteRDSKblock L dev rdsk11
  if w.1.rc ≠ ADF_RC_OK then some (w.1.rc, w.1.dev)
  else if partList.length < dev.nVol.toNat then none
  else
    let ps := adfCreateHdHeader.parts L H w.1.dev 0 (partList.take dev.nVol.toNat)
    if ps.1 ≠ ADF_RC_OK then some ps
    else
      match partList.head? with
      | none => none
      | some p0 =>
        let j : Int := toInt32 (1 + (dev.nVol.toNat : Int))
        let fshd1 := memcpy fshd0 H.fshd_dosType (bytesOfList [68, 79, 83]) 0 3
        let fshd2 : Bytes := fun k => if k = H.fshd_dosType + 3 then p0.volType % 256 else fshd1 k
        let fshd3 := swapUint32ToPtr fshd2 L.fshd_next 4294967295
        let fshd4 := swapUint32ToPtr fshd3 L.fshd_segListBlock (toUInt32 (j + 1))
        let wf := adfWriteFSHDblock L ps.2 j fshd4
        if wf.1.rc ≠ ADF_RC_OK then some (wf.1.rc, wf.1.dev)
        else
          let lseg1 := swapUint32ToPtr lseg0 L.lseg_next 4294967295
          let wl := adfWriteLSEGblock L wf.1.dev (toInt32 (j + 1)) lseg1
          some (wl.1.rc, wl.1.dev)

/-- The function `adfCreateHd`; `dev` and `partList` are `none` for null pointers, `n`
is `unsigned`. The allocation of the volume list succeeds. The result is `none` when
the behaviour is undefined: when the array `partList` has less than `n` entries, and
when a store into the freed volume list follows a failed `adfVolCreate`. -/
def adfCreateHd (L : AdfBlkLayout) (H : AdfHdLayout) (W : AdfVolWriters)
    (dev : Option AdfDevice) (n : Nat) (partList : Option (List AdfPartition))
    (fshd0 lseg0 : Bytes) : Option (ADF_RETCODE × Option AdfDevice) :=
  match dev, partList with
  | none, _ => some (ADF_RC_ERROR, none)
  | some d, none => some (ADF_RC_ERROR, some d)
  | some d, some pl =>
    if pl.length < n then none
    else
      let d0 : AdfDevice := { d with dev_class := ADF_DEVCLASS_HARDDISK, volList := some [] }
      match adfCreateHd.volumes W d0 (pl.take n) [] with
      | none => none
      | some (d1, vl) =>
        let d2 : AdfDevice := { d1 with volList := vl, nVol := toInt32 (n : Int), mounted := true }
        (adfCreateHdHeader L H d2 pl fshd0 lseg0).map (fun r => (r.1, some r.2))

/-- Modelled from the spec: the writes of `adfVolCreate`, of which the sample has the
first one, that of the zeroed boot block with `dosType` and `rootBlock`, to the blocks
0 and 1 of the volume; the bitmap, the directory cache and the root block are not
written by the sample. -/
def sampleVolWriters : AdfVolWriters where
  written := fun dev vol => decide ((sampleWriteBootBlock dev vol
    ⟨[0, 0, 0, vol.fs_type], 0, vol.rootBlock, fun _ => 0⟩).rc = ADF_RC_OK)
  stored := fun dev vol => (sampleWriteBootBlock dev vol
    ⟨[0, 0, 0, vol.fs_type], 0, vol.rootBlock, fun _ => 0⟩).dev.drvData

/-- A blank device of 10 blocks (5 cylinders, 1 head, 2 sectors), opened read-write
through the dump driver. -/
def blankHdDevice : AdfDevice where
  name := "blank.hdf"
  dev_class := ADF_DEVCLASS_HARDFILE
  type := ADF_DEVTYPE_UNKNOWN
  readOnly := false
  sizeBlocks := 10
  geometry := ⟨5, 1, 2, 512⟩
  rdbStatus := ADF_DEV_RDB_STATUS_NOTFOUND
  rdbBlock := none
  drv := adfDeviceDriverDump
  drvData := ⟨5120, fun _ => 0, true⟩
  mounted := false
  nVol := 0
  volList := none

/-- A partition `DH0` of one cylinder at cylinder 100, behind the end of a device of 5
cylinders. -/
def farPartition : AdfPartition := ⟨100, 1, [68, 72, 48, 0], 0⟩

/-- A partition `DH0` of three cylinders from cylinder 2 on. -/
def nearPartition : AdfPartition := ⟨2, 3, [68, 72, 48, 0], 0⟩

/-- The hardfile device opened from an image file of 8 blocks that starts with `DOS\0`
and holds no root block, after the file has been cut to its first block: the sectors
from 1 on cannot be read any more. -/
def cutHdfDevice : AdfDevice where
  name := "cut.hdf"
  dev_class := ADF_DEVCLASS_HARDFILE
  type := ADF_DEVTYPE_UNKNOWN
  readOnly := true
  sizeBlocks := 8
  geometry := ⟨8, 1, 1, 512⟩
  rdbStatus := ADF_DEV_RDB_STATUS_NOTFOUND
  rdbBlock := none
  drv := adfDeviceDriverDump
  drvData := ⟨512, imageOfWords [(0, 0x444F5300)], false⟩
  mounted := false
  nVol := 0
  volList := none

/-! ## Auxiliary lemmas -/

theorem memcpy_apply (dst : Bytes) (dOff : Nat) (src : Bytes) (sOff n i : Nat) :
    memcpy dst dOff src sOff n i
      = if dOff ≤ i ∧ i < dOff + n then src (sOff + (i - dOff)) else dst i := rfl

theorem memset_apply (dst : Bytes) (off val n i : Nat) :
    memset dst off val n i = if off ≤ i ∧ i < off + n then val else dst i := rfl

/-- The dump driver meets the read contract on images below 4 GiB. -/
theorem dump_DriverReads (dev : AdfDevice) (hdrv : dev.drv = adfDeviceDriverDump)
    (hsz : dev.sizeBlocks < 8388608)
    (hfile : dev.drvData.size < 512 * (dev.sizeBlocks + 1)) : DriverReads dev := by
  intro block len buf hb hl hok
  rw [hdrv] at hok ⊢
  simp only [adfDeviceDriverDump, adfReadDumpSectors] at hok ⊢
  split at hok
  · simp at hok
  · rename_i hbound
    rw [if_neg hbound]
    split at hok
    · simp at hok
    · rename_i hgot
      rw [if_neg hgot]
      simp only [not_not] at hgot
      have hmin : 512 * len ≤ dev.drvData.size - 512 * block % 4294967296 := by
        by_contra hcon
        rw [Nat.min_def, if_neg hcon] at hgot
        have := Nat.div_mul_le_self (dev.drvData.size - 512 * block % 4294967296) 512
        omega
      have hpos : 512 * block % 4294967296 = 512 * block := by omega
      refine ⟨by omega, ?_⟩
      rw [hpos] at hmin
      simp only [hpos, Nat.min_def, if_pos hmin]

/-- The dump driver meets the write contract on images of at most 4 GiB. -/
theorem dump_DriverWrites (sizeBlocks : Nat) (hsz : sizeBlocks ≤ 8388608) :
    DriverWrites adfDeviceDriverDump sizeBlocks := by
  intro c block len buf hin hok
  simp only [adfDeviceDriverDump, adfWriteDumpSectors] at hok ⊢
  have hbound : ¬ (block + len) % 4294967296 > sizeBlocks := by omega
  rw [if_neg hbound] at hok ⊢
  by_cases hw : c.writable = true
  · simp only [hw, if_true] at hok ⊢
    by_cases hl : len = 0
    · subst hl
      funext i
      have hn : ¬ (512 * block ≤ i ∧ i < 512 * block) := by omega
      simp [memcpy_apply, hn]
    · have hpos : 512 * block % 4294967296 = 512 * block := by omega
      simp [hl, hpos]
  · simp only [hw] at hok ⊢
    by_cases hl : len = 0
    · subst hl
      funext i
      have hn : ¬ (512 * block ≤ i ∧ i < 512 * block) := by omega
      simp [memcpy_apply, hn]
    · exfalso
      have : (0 : Nat) ≠ len := fun h => hl h.symm
      simp [this] at hok

/-! ## Device block access -/

/-- The buffer after a successful `adfDevReadBlock` on a driver that meets the read
contract. -/
theorem adfDevReadBlock_ok_buf (dev : AdfDevice) (p size : Nat) (buf : Bytes)
    (hbs : dev.geometry.blockSize = 512) (hdev : dev.sizeBlocks < 4294967296)
    (hp : p < 4294967296) (hsize : size < 4294967296) (hdrv : DriverReads dev)
    (hok : (adfDevReadBlock dev p size buf).rc = ADF_RC_OK) :
    ∀ i, (adfDevReadBlock dev p size buf).buf i
      = if i < size then dev.drvData.data (512 * p + i) else buf i := by
  intro i
  have hq : size / 512 < 4294967296 := by omega
  simp only [adfDevReadBlock, hbs] at hok ⊢
  by_cases h1 : (dev.drv.readSectors dev.drvData dev.sizeBlocks 512 p (size / 512) buf).1
      = ADF_RC_OK
  · obtain ⟨hin1, hbuf1⟩ := hdrv p (size / 512) buf hp hq h1
    simp only [h1, ne_eq, not_true_eq_false, if_false] at hok ⊢
    by_cases hr : size % 512 = 0
    · simp only [hr, not_true_eq_false, if_false] at hok ⊢
      rw [hbuf1, memcpy_apply]
      have : 512 * (size / 512) = size := by omega
      rw [this]
      by_cases hi : i < size
      · simp [hi]
      · simp [hi]
    · have hwrap : (p + size / 512) % 4294967296 = p + size / 512 := by omega
      simp only [hr, not_false_eq_true, if_true, hwrap] at hok ⊢
      by_cases h2 : (dev.drv.readSectors dev.drvData dev.sizeBlocks 512 (p + size / 512) 1
          (fun _ => 0)).1 = ADF_RC_OK
      · obtain ⟨_, hbuf2⟩ := hdrv (p + size / 512) 1 (fun _ => 0) (by omega) (by omega) h2
        simp only [h2, not_true_eq_false, if_false]
        rw [hbuf2, hbuf1]
        simp only [memcpy_apply]
        by_cases hi : i < size
        · by_cases hi2 : size - size % 512 ≤ i
          · have e1 : 512 * (p + size / 512) + (0 + (i - (size - size % 512)) - 0)
                = 512 * p + i := by omega
            have c1 : size - size % 512 ≤ i ∧ i < size - size % 512 + size % 512 := by omega
            have c2 : 0 ≤ 0 + (i - (size - size % 512))
                ∧ 0 + (i - (size - size % 512)) < 0 + 512 * 1 := by omega
            rw [if_pos c1, if_pos c2, if_pos hi, e1]
          · have c1 : ¬ (size - size % 512 ≤ i ∧ i < size - size % 512 + size % 512) := by
              omega
            have c2 : 0 ≤ i ∧ i < 0 + 512 * (size / 512) := by omega
            rw [if_neg c1, if_pos c2, if_pos hi]
            congr 1
        · have c1 : ¬ (size - size % 512 ≤ i ∧ i < size - size % 512 + size % 512) := by
            omega
          have c2 : ¬ (0 ≤ i ∧ i < 0 + 512 * (size / 512)) := by omega
          rw [if_neg c1, if_neg c2, if_neg hi]
      · simp only [h2, not_false_eq_true, if_true] at hok
  · simp only [h1, ne_eq, not_false_eq_true, if_true] at hok


/-! ## Lemmas on 32-bit arithmetic -/

theorem toInt32_modEq (x : Int) : toInt32 x ≡ x [ZMOD 4294967296] := by
  unfold toInt32
  have h : (x + 2147483648) % 4294967296 ≡ x + 2147483648 [ZMOD 4294967296] :=
    Int.mod_modEq _ _
  have h2 := Int.ModEq.sub_right 2147483648 h
  simpa using h2

theorem toInt32_congr {a b : Int} (h : a ≡ b [ZMOD 4294967296]) : toInt32 a = toInt32 b := by
  unfold toInt32
  have h2 : (a + 2147483648) % 4294967296 = (b + 2147483648) % 4294967296 :=
    Int.ModEq.add_right 2147483648 h
  rw [h2]

theorem toInt32_of_range {x : Int} (h1 : -2147483648 ≤ x) (h2 : x < 2147483648) :
    toInt32 x = x := by
  unfold toInt32
  omega

/-! ## Lemmas on `adfMountHd` -/

theorem adfReadPARTblock_ok_indep (L : AdfBlkLayout) (env : AdfEnv) (dev : AdfDevice)
    (n : Int) (blk blk1 : AdfPARTblock)
    (h : (adfReadPARTblock L env dev n blk).1 = ADF_RC_OK) :
    adfReadPARTblock L env dev n blk1 = adfReadPARTblock L env dev n blk := by
  unfold adfReadPARTblock at h ⊢
  simp only at h ⊢
  split_ifs at h ⊢ <;> first | rfl | simp_all

theorem partLoop_complete (L : AdfBlkLayout) (env : AdfEnv) (dev : AdfDevice)
    (rdsk : AdfRDSKblock) (parts : List AdfPARTblock) :
    ∀ (fuel : Nat) (next : Int) (part : AdfPARTblock) (nVol : Int) (vList : List AdfVolume),
      PartChain L env dev next parts →
      (∀ p ∈ parts, (bootRead dev rdsk p).rc = ADF_RC_OK) →
      parts.length ≤ fuel →
      adfMountHd.partLoop L env dev rdsk fuel next part nVol vList
        = some (ADF_RC_OK, nVol + parts.length, vList ++ chainVolumes dev rdsk parts) := by
  induction parts with
  | nil =>
    intro fuel next part nVol vList hc _ _
    have hn : next = -1 := hc
    subst hn
    cases fuel <;> simp [adfMountHd.partLoop, chainVolumes]
  | cons p rest ih =>
    intro fuel next part nVol vList hc hb hf
    obtain ⟨hne, hread, hrest⟩ := hc
    cases fuel with
    | zero => simp at hf
    | succ f =>
      have hok : (adfReadPARTblock L env dev next zeroPART).1 = ADF_RC_OK := by rw [hread]
      have hread2 : adfReadPARTblock L env dev next part = (ADF_RC_OK, p) := by
        rw [adfReadPARTblock_ok_indep L env dev next zeroPART part hok, hread]
      have hboot : (bootRead dev rdsk p).rc = ADF_RC_OK := hb p (List.mem_cons_self _ _)
      have hboot2 : (adfDevReadBlock dev (toUInt32 (adfMountHd.firstBlock rdsk p)) 512
          (fun _ => 0)).rc = ADF_RC_OK := hboot
      have hf2 : rest.length ≤ f := by simpa using hf
      have hb2 : ∀ q ∈ rest, (bootRead dev rdsk q).rc = ADF_RC_OK :=
        fun q hq => hb q (List.mem_cons_of_mem _ hq)
      rw [adfMountHd.partLoop]
      simp only [if_neg hne, hread2, ne_eq, not_true_eq_false, if_false, hboot2]
      rw [ih f (toInt32 p.next) p (nVol + 1) _ hrest hb2 hf2]
      simp only [chainVolumes, bootRead, List.map_cons, List.length_cons, List.append_assoc,
        List.singleton_append, Nat.cast_add, Nat.cast_one]
      have e : nVol + 1 + (rest.length : Int) = nVol + ((rest.length : Int) + 1) := by ring
      rw [e]

theorem partLoop_sound (L : AdfBlkLayout) (env : AdfEnv) (dev : AdfDevice)
    (rdsk : AdfRDSKblock) :
    ∀ (fuel : Nat) (next : Int) (part : AdfPARTblock) (nVol : Int) (vList : List AdfVolume)
      (nVol1 : Int) (vList1 : List AdfVolume),
      adfMountHd.partLoop L env dev rdsk fuel next part nVol vList
        = some (ADF_RC_OK, nVol1, vList1) →
      ∃ parts, PartChain L env dev next parts
        ∧ (∀ p ∈ parts, (bootRead dev rdsk p).rc = ADF_RC_OK)
        ∧ nVol1 = nVol + parts.length
        ∧ vList1 = vList ++ chainVolumes dev rdsk parts := by
  intro fuel
  induction fuel with
  | zero =>
    intro next part nVol vList nVol1 vList1 h
    rw [adfMountHd.partLoop] at h
    by_cases hn : next = -1
    · simp only [hn, if_true, Option.some.injEq, Prod.mk.injEq, true_and] at h
      exact ⟨[], hn, by simp, by simp [h.1], by simp [chainVolumes, h.2]⟩
    · simp [hn] at h
  | succ f ih =>
    intro next part nVol vList nVol1 vList1 h
    rw [adfMountHd.partLoop] at h
    by_cases hn : next = -1
    · simp only [hn, if_true, Option.some.injEq, Prod.mk.injEq, true_and] at h
      exact ⟨[], hn, by simp, by simp [h.1], by simp [chainVolumes, h.2]⟩
    · simp only [if_neg hn] at h
      by_cases hr : (adfReadPARTblock L env dev next part).1 = ADF_RC_OK
      · simp only [hr, ne_eq, not_true_eq_false, if_false] at h
        by_cases hb : (adfDevReadBlock dev (toUInt32 (adfMountHd.firstBlock rdsk
            (adfReadPARTblock L env dev next part).2)) 512 (fun _ => 0)).rc = ADF_RC_OK
        · simp only [hb, not_true_eq_false, if_false] at h
          obtain ⟨parts, hc, hbs, hnv, hvl⟩ := ih _ _ _ _ _ _ h
          refine ⟨(adfReadPARTblock L env dev next part).2 :: parts, ⟨hn, ?_, hc⟩, ?_, ?_, ?_⟩
          · rw [adfReadPARTblock_ok_indep L env dev next part zeroPART hr]
            exact Prod.ext hr rfl
          · intro p hp
            rcases List.mem_cons.mp hp with hp | hp
            · subst hp
              exact hb
            · exact hbs p hp
          · rw [hnv]
            simp only [List.length_cons, Nat.cast_add, Nat.cast_one]
            ring
          · rw [hvl]
            simp [chainVolumes, bootRead]
        · simp only [hb, not_false_eq_true, if_true, Option.some.injEq, Prod.mk.injEq] at h
          exact h.1.elim
      · simp only [hr, ne_eq, not_false_eq_true, if_true, Option.some.injEq,
          Prod.mk.injEq] at h
        exact h.1.elim

theorem fshdLoop_dev (L : AdfBlkLayout) (env : AdfEnv) (dev : AdfDevice) (nVol : Int)
    (vl : Option (List AdfVolume)) :
    ∀ (fuel : Nat) (next : Int) (fshd : AdfFSHDblock),
      adfMountHd.fshdLoop L env { dev with nVol := nVol, volList := vl } fuel next fshd
        = adfMountHd.fshdLoop L env dev fuel next fshd := by
  intro fuel
  induction fuel with
  | zero => intro next fshd; rfl
  | succ f ih =>
    intro next fshd
    rw [adfMountHd.fshdLoop, adfMountHd.fshdLoop]
    have e : adfReadFSHDblock L env { dev with nVol := nVol, volList := vl } next fshd
        = adfReadFSHDblock L env dev next fshd := rfl
    rw [e]
    simp only [ih]

theorem lsegLoop_dev (L : AdfBlkLayout) (env : AdfEnv) (dev : AdfDevice) (nVol : Int)
    (vl : Option (List AdfVolume)) :
    ∀ (fuel : Nat) (next : Int) (lseg : AdfLSEGblock),
      adfMountHd.lsegLoop L env { dev with nVol := nVol, volList := vl } fuel next lseg
        = adfMountHd.lsegLoop L env dev fuel next lseg := by
  intro fuel
  induction fuel with
  | zero => intro next lseg; rfl
  | succ f ih =>
    intro next lseg
    rw [adfMountHd.lsegLoop, adfMountHd.lsegLoop]
    have e : adfReadLSEGblock L env { dev with nVol := nVol, volList := vl } next lseg
        = adfReadLSEGblock L env dev next lseg := rfl
    rw [e]
    simp only [ih]

theorem fshdLoop_mono (L : AdfBlkLayout) (env : AdfEnv) (dev : AdfDevice) :
    ∀ (f : Nat) (next : Int) (fshd x : AdfFSHDblock),
      adfMountHd.fshdLoop L env dev f next fshd = some x →
      ∀ k, adfMountHd.fshdLoop L env dev (f + k) next fshd = some x := by
  intro f
  induction f with
  | zero =>
    intro next fshd x h k
    rw [adfMountHd.fshdLoop] at h
    by_cases hn : next = -1
    · simp only [hn, if_true] at h
      subst hn
      cases k <;> simp [adfMountHd.fshdLoop, h]
    · simp [hn] at h
  | succ f ih =>
    intro next fshd x h k
    rw [adfMountHd.fshdLoop] at h
    have e : f + 1 + k = (f + k) + 1 := by omega
    rw [e, adfMountHd.fshdLoop]
    by_cases hn : next = -1
    · simpa [hn] using h
    · simp only [if_neg hn] at h ⊢
      by_cases hr : (adfReadFSHDblock L env dev next fshd).1 = ADF_RC_OK
      · simp only [hr, ne_eq, not_true_eq_false, if_false] at h ⊢
        exact ih _ _ _ h k
      · simpa [hr] using h

/-- Claim C1: when `adfMountHd` returns OK on a device with an RDB, the PART chain that
starts at `rdsk.partitionList` was read successfully and the volume built from each
PART block, in chain order, has `firstBlock = rdsk.cylBlocks * part.lowCyl` and
`lastBlock = rdsk.cylBlocks * (part.highCyl + 1) - 1` in 32-bit signed arithmetic. -/
theorem adfMountHd_volume_extents (L : AdfBlkLayout) (env : AdfEnv) (fuel : Nat)
    (dev : AdfDevice)
    (h : (adfMountHd L env fuel dev).map Prod.fst = some ADF_RC_OK) :
    ∃ rdsk parts vols,
      adfReadRDSKblock L env dev zeroRDSK = (ADF_RC_OK, rdsk)
      ∧ PartChain L env dev (toInt32 rdsk.partitionList) parts
      ∧ (adfMountHd L env fuel dev).bind (fun r => r.2.volList) = some vols
      ∧ List.Forall₂ (fun part vol =>
          vol.firstBlock = toInt32 (toInt32 rdsk.cylBlocks * toInt32 part.lowCyl)
          ∧ vol.lastBlock
            = toInt32 (toInt32 rdsk.cylBlocks * (toInt32 part.highCyl + 1) - 1))
        parts vols := by
  unfold adfMountHd at h ⊢
  simp only at h ⊢
  by_cases hrr : (adfReadRDSKblock L env dev zeroRDSK).1 = ADF_RC_OK
  · simp only [hrr, ne_eq, not_true_eq_false, if_false] at h ⊢
    cases hpl : adfMountHd.partLoop L env dev (adfReadRDSKblock L env dev zeroRDSK).2 fuel
        (toInt32 (adfReadRDSKblock L env dev zeroRDSK).2.partitionList) zeroPART 0 [] with
    | none => simp [hpl] at h
    | some t =>
      obtain ⟨rc, nVol, vList⟩ := t
      simp only [hpl, fshdLoop_dev, lsegLoop_dev] at h
      simp only [fshdLoop_dev, lsegLoop_dev]
      by_cases hrc : rc = ADF_RC_OK
      · subst hrc
        simp only [ne_eq, not_true_eq_false, if_false] at h ⊢
        obtain ⟨parts, hc, _, hnv, hvl⟩ := partLoop_sound L env dev _ _ _ _ _ _ _ _ hpl
        refine ⟨(adfReadRDSKblock L env dev zeroRDSK).2, parts,
          chainVolumes dev (adfReadRDSKblock L env dev zeroRDSK).2 parts,
          Prod.ext hrr rfl, hc, ?_, ?_⟩
        · cases hfs : adfMountHd.fshdLoop L env dev fuel
              (toInt32 (adfReadRDSKblock L env dev zeroRDSK).2.fileSysHdrList) initFSHD with
          | none => simp [hfs] at h
          | some fshd =>
            simp only [hfs] at h ⊢
            cases hls : adfMountHd.lsegLoop L env dev fuel
                (toInt32 fshd.segListBlock) zeroLSEG with
            | none => simp [hls] at h
            | some u =>
              simp only [Option.some_bind, Option.some.injEq]
              rw [hvl, hnv]
              simp [chainVolumes]
        · unfold chainVolumes
          rw [List.forall₂_map_right_iff]
          apply List.forall₂_same.mpr
          intro p _
          constructor
          · rfl
          · show toInt32 (toInt32 (toInt32 (toInt32 p.highCyl + 1)
                * toInt32 (adfReadRDSKblock L env dev zeroRDSK).2.cylBlocks) - 1) = _
            apply toInt32_congr
            have h1 := toInt32_modEq (toInt32 (toInt32 p.highCyl + 1)
                * toInt32 (adfReadRDSKblock L env dev zeroRDSK).2.cylBlocks)
            have h2 := toInt32_modEq (toInt32 p.highCyl + 1)
            have h3 := Int.ModEq.mul_right
              (toInt32 (adfReadRDSKblock L env dev zeroRDSK).2.cylBlocks) h2
            have h4 := Int.ModEq.sub_right 1 (h1.trans h3)
            rw [mul_comm (toInt32 (adfReadRDSKblock L env dev zeroRDSK).2.cylBlocks)]
            exact h4
      · simp [hrc] at h
  · simp [hrr] at h

set_option maxRecDepth 1000000 in
/-- Witness of `adfMountHd_volume_extents`: the sample device of 10 blocks, whose two
partitions are mounted. -/
theorem adfMountHd_volume_extents_witness :
    (adfMountHd stdBlkLayout strictEnv 5 (rdbDevice 10)).map Prod.fst = some ADF_RC_OK
    ∧ ∃ rdsk parts vols,
      adfReadRDSKblock stdBlkLayout strictEnv (rdbDevice 10) zeroRDSK = (ADF_RC_OK, rdsk)
      ∧ PartChain stdBlkLayout strictEnv (rdbDevice 10) (toInt32 rdsk.partitionList) parts
      ∧ (adfMountHd stdBlkLayout strictEnv 5 (rdbDevice 10)).bind (fun r => r.2.volList)
          = some vols
      ∧ List.Forall₂ (fun part vol =>
          vol.firstBlock = toInt32 (toInt32 rdsk.cylBlocks * toInt32 part.lowCyl)
          ∧ vol.lastBlock
            = toInt32 (toInt32 rdsk.cylBlocks * (toInt32 part.highCyl + 1) - 1))
        parts vols :=
  ⟨by decide, adfMountHd_volume_extents stdBlkLayout strictEnv 5 (rdbDevice 10) (by decide)⟩

theorem adfDevGetClassBySizeBlocks_eq (n : Nat) :
    adfDevGetClassBySizeBlocks n
      = if n = 0 then ADF_DEVCLASS_UNKNOWN
        else if isFloppySize n then ADF_DEVCLASS_FLOP else ADF_DEVCLASS_HARDDISK := by
  by_cases h0 : n = 0
  · subst h0; decide!
  by_cases h1 : n = 1760
  · subst h1; decide!
  by_cases h2 : n = 880
  · subst h2; decide!
  by_cases h3 : n = 3040
  · subst h3; decide!
  by_cases h4 : n = 3520
  · subst h4; decide!
  by_cases h5 : n = 1782
  · subst h5; decide!
  by_cases h6 : n = 1804
  · subst h6; decide!
  by_cases h7 : n = 1826
  · subst h7; decide!
  by_cases h8 : n = 3564
  · subst h8; decide!
  by_cases h9 : n = 3608
  · subst h9; decide!
  by_cases h10 : n = 3652
  · subst h10; decide!
  by_cases h11 : n = 720
  · subst h11; decide!
  by_cases h12 : n = 2400
  · subst h12; decide!
  by_cases h13 : n = 1440
  · subst h13; decide!
  by_cases h14 : n = 2880
  · subst h14; decide!
  by_cases h15 : n = 5760
  · subst h15; decide!
  by_cases h16 : n = 196588
  · subst h16; decide!
  by_cases h17 : n = 42228
  · subst h17; decide!
  by_cases h18 : n = 166600
  · subst h18; decide!
  have e : ∀ s : Nat, ¬ n = s → (s == n) = false := by
    intro s h
    rw [beq_eq_false_iff_ne]
    exact fun h1 => h h1.symm
  unfold adfDevGetClassBySizeBlocks adfDevGetMediumBySizeBlocks isFloppySize
  simp only [adfDevMedia, List.takeWhile, Option.isSome, geometryBlocks, List.find?, List.any]
  norm_num
  simp [e _ h0, e _ h1, e _ h2, e _ h3, e _ h4, e _ h5, e _ h6, e _ h7, e _ h8, e _ h9, e _ h10, e _ h11, e _ h12, e _ h13, e _ h14, e _ h15, e _ h16, e _ h17, e _ h18, h0]
  rw [if_neg (by omega)]

theorem adfDevReadBlock_congr (d1 d2 : AdfDevice) (h1 : d1.drv = d2.drv)
    (h2 : d1.drvData = d2.drvData) (h3 : d1.sizeBlocks = d2.sizeBlocks)
    (h4 : d1.geometry.blockSize = d2.geometry.blockSize) (p size : Nat) (buf : Bytes) :
    adfDevReadBlock d1 p size buf = adfDevReadBlock d2 p size buf := by
  unfold adfDevReadBlock
  rw [h1, h2, h3, h4]

theorem adfReadRDSKblock_congr (L : AdfBlkLayout) (env : AdfEnv) (d1 d2 : AdfDevice)
    (h1 : d1.drv = d2.drv) (h2 : d1.drvData = d2.drvData)
    (h3 : d1.sizeBlocks = d2.sizeBlocks)
    (h4 : d1.geometry.blockSize = d2.geometry.blockSize) (blk : AdfRDSKblock) :
    adfReadRDSKblock L env d1 blk = adfReadRDSKblock L env d2 blk := by
  unfold adfReadRDSKblock
  rw [adfDevReadBlock_congr d1 d2 h1 h2 h3 h4]

theorem bytesAt_congr (b1 b2 : Bytes) (off n : Nat)
    (h : ∀ i, i < n → b1 (off + i) = b2 (off + i)) : bytesAt b1 off n = bytesAt b2 off n := by
  unfold bytesAt
  apply List.map_congr_left
  intro i hi
  rw [h i (List.mem_range.mp hi)]

theorem adfDevTypeGetGeometry_blockSize (t : Nat) :
    (adfDevTypeGetGeometry t).blockSize = 512 := by
  unfold adfDevTypeGetGeometry
  have hall : ∀ dm ∈ adfDevMedia, dm.geometry.blockSize = 512 := by decide!
  rw [List.getD_eq_getElem?_getD]
  cases h : adfDevMedia[t]? with
  | none => rfl
  | some dm => exact hall dm (List.getElem?_mem h)

/-- What `adfDevSetCalculatedGeometry_` keeps, and when it succeeds. -/
theorem adfDevSetCalculatedGeometry__spec (d : AdfDevice) :
    (adfDevSetCalculatedGeometry_ d).2.dev_class = d.dev_class
    ∧ (adfDevSetCalculatedGeometry_ d).2.sizeBlocks = d.sizeBlocks
    ∧ (adfDevSetCalculatedGeometry_ d).2.drv = d.drv
    ∧ (adfDevSetCalculatedGeometry_ d).2.drvData = d.drvData
    ∧ (d.geometry.blockSize = 512 →
        (adfDevSetCalculatedGeometry_ d).2.geometry.blockSize = 512)
    ∧ ((adfDevSetCalculatedGeometry_ d).1 = ADF_RC_OK →
        adfDevGetTypeBySizeBlocks d.sizeBlocks ≠ ADF_DEVTYPE_UNKNOWN
        ∨ d.dev_class = ADF_DEVCLASS_HARDDISK ∨ d.dev_class = ADF_DEVCLASS_HARDFILE) := by
  unfold adfDevSetCalculatedGeometry_
  simp only
  by_cases ht : adfDevGetTypeBySizeBlocks d.sizeBlocks = ADF_DEVTYPE_UNKNOWN
  · by_cases hc : d.dev_class = ADF_DEVCLASS_HARDDISK ∨ d.dev_class = ADF_DEVCLASS_HARDFILE
    · simp [ht, hc]
    · simp [ht, hc]
  · simp [ht, adfDevTypeGetGeometry_blockSize]

/-- What `adfDevReadRdb` keeps, and what it finds on a driver that meets the read
contract. -/
theorem adfDevReadRdb_spec (L : AdfBlkLayout) (env : AdfEnv) (dev : AdfDevice)
    (hbs : dev.geometry.blockSize = 512) (hsz : dev.sizeBlocks < 4294967296)
    (hdrv : DriverReads dev) :
    (adfDevReadRdb L env dev).2.dev_class = dev.dev_class
    ∧ (adfDevReadRdb L env dev).2.geometry = dev.geometry
    ∧ (adfDevReadRdb L env dev).2.sizeBlocks = dev.sizeBlocks
    ∧ ((adfDevReadRdb L env dev).1 = ADF_RC_OK →
        (bytesAt dev.drvData.data 0 4 = idRDSK →
          ADF_DEV_RDB_STATUS_EXIST.rank ≤ (adfDevReadRdb L env dev).2.rdbStatus.rank
          ∧ (adfDevReadRdb L env dev).2.rdbBlock
            = some (adfReadRDSKblock L env dev (dev.rdbBlock.getD zeroRDSK)).2)
        ∧ (bytesAt dev.drvData.data 0 4 ≠ idRDSK →
          (adfDevReadRdb L env dev).2.rdbStatus = ADF_DEV_RDB_STATUS_NOTFOUND)) := by
  unfold adfDevReadRdb
  simp only [hbs]
  by_cases hr : (adfDevReadBlock dev 0 512 (fun _ => 0)).rc = ADF_RC_OK
  · have hbuf := adfDevReadBlock_ok_buf dev 0 512 (fun _ => 0) hbs hsz (by norm_num)
      (by norm_num) hdrv hr
    have hid : bytesAt (adfDevReadBlock dev 0 512 (fun _ => 0)).buf 0 4
        = bytesAt dev.drvData.data 0 4 := by
      apply bytesAt_congr
      intro i hi
      rw [hbuf]
      have h512 : 0 + i < 512 := by omega
      rw [if_pos h512]
      simp
    simp only [hr, ne_eq, not_true_eq_false, if_false, hid]
    by_cases hf : bytesAt dev.drvData.data 0 4 = idRDSK
    · simp only [hf, not_true_eq_false, if_false]
      have e : adfReadRDSKblock L env
          { dev with rdbStatus := ADF_DEV_RDB_STATUS_EXIST,
                     rdbBlock := some (dev.rdbBlock.getD zeroRDSK) }
          (dev.rdbBlock.getD zeroRDSK)
          = adfReadRDSKblock L env dev (dev.rdbBlock.getD zeroRDSK) := rfl
      rw [e]
      by_cases h1 : (adfReadRDSKblock L env dev (dev.rdbBlock.getD zeroRDSK)).1 = ADF_RC_OK
      · simp [h1, AdfDevRdbStatus.rank]
      · by_cases h2 : (adfReadRDSKblock L env dev (dev.rdbBlock.getD zeroRDSK)).1
            = ADF_RC_BLOCKSUM
        · simp [h2, AdfDevRdbStatus.rank]
        · simp [h1, h2, AdfDevRdbStatus.rank]
    · simp [hf]
  · simp [hr]

theorem classify_spec (d : AdfDevice) :
    (adfDevOpenWithDrv_.classify d).sizeBlocks = d.sizeBlocks
    ∧ (adfDevOpenWithDrv_.classify d).rdbBlock = d.rdbBlock
    ∧ (adfDevOpenWithDrv_.classify d).geometry = d.geometry
    ∧ (adfDevOpenWithDrv_.classify d).dev_class
      = if ADF_DEV_RDB_STATUS_EXIST.rank ≤ d.rdbStatus.rank then ADF_DEVCLASS_HARDDISK
        else if d.dev_class = ADF_DEVCLASS_HARDDISK then ADF_DEVCLASS_HARDFILE
        else d.dev_class := by
  unfold adfDevOpenWithDrv_.classify
  by_cases h1 : ADF_DEV_RDB_STATUS_EXIST.rank ≤ d.rdbStatus.rank
  · simp [h1]
  · by_cases h2 : d.dev_class = ADF_DEVCLASS_HARDDISK
    · simp [h1, h2]
    · simp [h1, h2]

theorem rdbGeometry_spec (d d1 : AdfDevice)
    (h : adfDevOpenWithDrv_.rdbGeometry d = some d1) :
    d1.sizeBlocks = d.sizeBlocks ∧ d1.dev_class = d.dev_class ∧ d1.rdbBlock = d.rdbBlock
    ∧ (d.dev_class = ADF_DEVCLASS_HARDDISK →
        ∃ rdsk, d.rdbBlock = some rdsk ∧ d1.geometry.cylinders = rdsk.cylinders
          ∧ d1.geometry.heads = rdsk.heads ∧ d1.geometry.sectors = rdsk.sectors) := by
  unfold adfDevOpenWithDrv_.rdbGeometry at h
  by_cases hc : d.dev_class = ADF_DEVCLASS_HARDDISK
  · simp only [hc, if_true] at h
    cases hb : d.rdbBlock with
    | none => simp [hb] at h
    | some rdsk =>
      simp only [hb] at h
      by_cases hs : d.geometry.cylinders = rdsk.cylinders ∧ d.geometry.heads = rdsk.heads
          ∧ d.geometry.sectors = rdsk.sectors
      · simp only [hs, and_self, if_true, Option.some.injEq] at h
        subst h
        simp [hc, hb, hs]
      · simp only [hs, if_false, Option.some.injEq] at h
        subst h
        simp [hc, hb]
  · simp only [hc, if_false, Option.some.injEq] at h
    subst h
    simp [hc]

/-- What a successful `adfDevOpenWithDrv_` leaves in the device, on a driver that
meets the read contract. -/
theorem adfDevOpenWithDrv__spec (K : AdfDecls) (env : AdfEnv) (dev0 dev : AdfDevice)
    (hbs : dev0.geometry.blockSize = 512) (hsz : dev0.sizeBlocks < 4294967296)
    (hdrv : DriverReads dev0)
    (hopen : adfDevOpenWithDrv_ K env (some dev0) = some dev) :
    dev.sizeBlocks = dev0.sizeBlocks
    ∧ (dev0.drv.isNative = false →
        adfDevGetTypeBySizeBlocks dev0.sizeBlocks ≠ ADF_DEVTYPE_UNKNOWN
        ∨ adfDevGetClassBySizeBlocks dev0.sizeBlocks = ADF_DEVCLASS_HARDDISK
        ∨ adfDevGetClassBySizeBlocks dev0.sizeBlocks = ADF_DEVCLASS_HARDFILE)
    ∧ (bytesAt dev0.drvData.data 0 4 = idRDSK →
        dev.dev_class = ADF_DEVCLASS_HARDDISK
        ∧ dev.rdbBlock = some (adfReadRDSKblock K.blk env dev0 zeroRDSK).2
        ∧ dev.geometry.cylinders = (adfReadRDSKblock K.blk env dev0 zeroRDSK).2.cylinders
        ∧ dev.geometry.heads = (adfReadRDSKblock K.blk env dev0 zeroRDSK).2.heads
        ∧ dev.geometry.sectors = (adfReadRDSKblock K.blk env dev0 zeroRDSK).2.sectors)
    ∧ (bytesAt dev0.drvData.data 0 4 ≠ idRDSK →
        dev.dev_class
          = if adfDevGetClassBySizeBlocks dev0.sizeBlocks = ADF_DEVCLASS_HARDDISK
            then ADF_DEVCLASS_HARDFILE else adfDevGetClassBySizeBlocks dev0.sizeBlocks) := by
  unfold adfDevOpenWithDrv_ at hopen
  simp only at hopen
  have hg : ∀ g : ADF_RETCODE × AdfDevice,
      g = (if ¬ dev0.drv.isNative = true then
            adfDevSetCalculatedGeometry_
              { dev0 with dev_class := adfDevGetClassBySizeBlocks dev0.sizeBlocks }
          else (ADF_RC_OK,
              { dev0 with dev_class := adfDevGetClassBySizeBlocks dev0.sizeBlocks })) →
      g.2.dev_class = adfDevGetClassBySizeBlocks dev0.sizeBlocks
      ∧ g.2.sizeBlocks = dev0.sizeBlocks ∧ g.2.drv = dev0.drv ∧ g.2.drvData = dev0.drvData
      ∧ g.2.geometry.blockSize = 512
      ∧ (g.1 = ADF_RC_OK → dev0.drv.isNative = false →
          adfDevGetTypeBySizeBlocks dev0.sizeBlocks ≠ ADF_DEVTYPE_UNKNOWN
          ∨ adfDevGetClassBySizeBlocks dev0.sizeBlocks = ADF_DEVCLASS_HARDDISK
          ∨ adfDevGetClassBySizeBlocks dev0.sizeBlocks = ADF_DEVCLASS_HARDFILE) := by
    intro g hgdef
    by_cases hn : dev0.drv.isNative = true
    · simp only [hn, not_true_eq_false, if_false] at hgdef
      subst hgdef
      simp [hbs, hn]
    · simp only [hn, not_false_eq_true, if_true] at hgdef
      subst hgdef
      obtain ⟨a1, a2, a3, a4, a5, a6⟩ := adfDevSetCalculatedGeometry__spec
        { dev0 with dev_class := adfDevGetClassBySizeBlocks dev0.sizeBlocks }
      exact ⟨a1, a2, a3, a4, a5 hbs, fun h _ => a6 h⟩
  generalize hgd : (if ¬ dev0.drv.isNative = true then
            adfDevSetCalculatedGeometry_
              { dev0 with dev_class := adfDevGetClassBySizeBlocks dev0.sizeBlocks }
          else (ADF_RC_OK,
              { dev0 with dev_class := adfDevGetClassBySizeBlocks dev0.sizeBlocks })) = g
    at hopen
  obtain ⟨g1, g2, g3, g4, g5, g6⟩ := hg g hgd.symm
  by_cases hgok : g.1 = ADF_RC_OK
  · simp only [hgok, ne_eq, not_true_eq_false, if_false] at hopen
    split_ifs at hopen with hvalid hrdb
    have hrok : (adfDevReadRdb K.blk env { g.2 with rdbBlock := none }).1 = ADF_RC_OK := by
      simpa using hrdb
    have hdrv2 : DriverReads { g.2 with rdbBlock := none } := by
      intro block len buf hb hl hok
      have := hdrv block len buf hb hl
      simp only [g2, g3, g4] at hok ⊢
      exact this hok
    obtain ⟨r1, r2, r3, r4⟩ := adfDevReadRdb_spec K.blk env { g.2 with rdbBlock := none }
      g5 (by simpa [g2] using hsz) hdrv2
    have hrd : adfReadRDSKblock K.blk env { g.2 with rdbBlock := none } zeroRDSK
        = adfReadRDSKblock K.blk env dev0 zeroRDSK :=
      adfReadRDSKblock_congr K.blk env _ _ g3 g4 g2 (by rw [hbs]; exact g5) zeroRDSK
    generalize adfDevReadRdb K.blk env { g.2 with rdbBlock := none } = r at *
    obtain ⟨r4a, r4b⟩ := r4 hrok
    simp only [Option.getD_none, hrd] at r4a r4b
    simp only [g4] at r4a r4b
    simp only at r1 r2 r3
    obtain ⟨c1, c2, c3, c4⟩ := classify_spec r.2
    cases h6 : adfDevOpenWithDrv_.rdbGeometry (adfDevOpenWithDrv_.classify r.2) with
    | none => simp [h6] at hopen
    | some dev6 =>
      simp only [h6] at hopen
      split_ifs at hopen with hmax
      simp only [Option.some.injEq] at hopen
      obtain ⟨q1, q2, q3, q4⟩ := rdbGeometry_spec _ _ h6
      subst hopen
      simp only
      refine ⟨by rw [q1, c1, r3, g2], g6 hgok, ?_, ?_⟩
      · intro hf
        obtain ⟨hrank, hblk⟩ := r4a hf
        have hcl : (adfDevOpenWithDrv_.classify r.2).dev_class = ADF_DEVCLASS_HARDDISK := by
          rw [c4, if_pos hrank]
        obtain ⟨rdsk, hq, hg1, hg2, hg3⟩ := q4 hcl
        rw [c2, hblk] at hq
        simp only [Option.some.injEq] at hq
        subst hq
        exact ⟨by rw [q2, hcl], by rw [q3, c2, hblk], hg1, hg2, hg3⟩
      · intro hf
        have hst := r4b hf
        rw [q2, c4, hst, r1, g1]
        simp [AdfDevRdbStatus.rank]
  · simp [hgok] at hopen

set_option maxRecDepth 1000000 in
/-- The sample device `rdbDevice 10` is what opening the image `rdbFile 5120` through
the dump driver gives. -/
theorem rdbDevice_opened :
    adfDevDumpOpen (some (rdbFile 5120)) "hd.img" ADF_ACCESS_MODE_READONLY
        = some (rdbOpened 10)
    ∧ adfDevOpenWithDrv_ (sampleDecls strictEnv) strictEnv (some (rdbOpened 10))
        = some (rdbDevice 10) :=
  ⟨rfl, rfl⟩

/-- Claim C3: for every device that `adfDevOpen` opens successfully through a
non-native driver, the class is HARDDISK if and only if sector 0 begins with the bytes
`"RDSK"`, whatever the size; otherwise it is FLOP when `sizeBlocks` is the product of
the geometry of one of the predefined floppy media, and HARDFILE for every other
size. -/
theorem adfDevOpen_device_class (K : AdfDecls) (env : AdfEnv) (dev0 dev : AdfDevice)
    (hnn : dev0.drv.isNative = false)
    (hbs : dev0.geometry.blockSize = 512) (hsz : dev0.sizeBlocks < 4294967296)
    (hdrv : DriverReads dev0)
    (hopen : adfDevOpenWithDrv_ K env (some dev0) = some dev) :
    (dev.dev_class = ADF_DEVCLASS_HARDDISK ↔ bytesAt dev0.drvData.data 0 4 = idRDSK)
    ∧ (bytesAt dev0.drvData.data 0 4 ≠ idRDSK →
        (isFloppySize dev.sizeBlocks = true → dev.dev_class = ADF_DEVCLASS_FLOP)
        ∧ (isFloppySize dev.sizeBlocks = false → dev.dev_class = ADF_DEVCLASS_HARDFILE)) := by
  obtain ⟨s1, s2, s3, s4⟩ := adfDevOpenWithDrv__spec K env dev0 dev hbs hsz hdrv hopen
  have hn0 : dev0.sizeBlocks ≠ 0 := by
    intro h0
    have h := s2 hnn
    rw [h0] at h
    revert h
    decide!
  have hcl := adfDevGetClassBySizeBlocks_eq dev0.sizeBlocks
  rw [if_neg hn0] at hcl
  rw [s1]
  by_cases hf : bytesAt dev0.drvData.data 0 4 = idRDSK
  · exact ⟨⟨fun _ => hf, fun _ => (s3 hf).1⟩, fun h => absurd hf h⟩
  · have hc := s4 hf
    by_cases hfl : isFloppySize dev0.sizeBlocks = true
    · rw [hfl, if_pos rfl] at hcl
      rw [hcl] at hc
      simp only [reduceCtorEq, if_false] at hc
      refine ⟨⟨fun h => ?_, fun h => absurd h hf⟩, fun _ => ⟨fun _ => hc, fun h => ?_⟩⟩
      · rw [hc] at h
        exact absurd h (by decide!)
      · rw [hfl] at h
        exact absurd h (by decide!)
    · rw [if_neg hfl] at hcl
      rw [hcl] at hc
      simp only [if_true] at hc
      refine ⟨⟨fun h => ?_, fun h => absurd h hf⟩, fun _ => ⟨fun h => absurd h hfl, fun _ => hc⟩⟩
      rw [hc] at h
      exact absurd h (by decide!)

set_option maxRecDepth 1000000 in
/-- Witness of `adfDevOpen_device_class`: the sample image with an RDB, of 10 blocks,
opened through the dump driver. -/
theorem adfDevOpen_device_class_witness :
    ((rdbDevice 10).dev_class = ADF_DEVCLASS_HARDDISK
      ↔ bytesAt (rdbOpened 10).drvData.data 0 4 = idRDSK)
    ∧ (bytesAt (rdbOpened 10).drvData.data 0 4 ≠ idRDSK →
        (isFloppySize (rdbDevice 10).sizeBlocks = true
          → (rdbDevice 10).dev_class = ADF_DEVCLASS_FLOP)
        ∧ (isFloppySize (rdbDevice 10).sizeBlocks = false
          → (rdbDevice 10).dev_class = ADF_DEVCLASS_HARDFILE)) :=
  adfDevOpen_device_class (sampleDecls strictEnv) strictEnv (rdbOpened 10) (rdbDevice 10)
    rfl rfl (by decide)
    (dump_DriverReads (rdbOpened 10) rfl (by decide) (by decide)) rfl

/-- Claim C4: after a successful `adfDevOpen` of a device whose sector 0 starts with
`"RDSK"`, `dev.rdb.block` is the RDSK block decoded by `adfReadRDSKblock` (from the
first 256 bytes of sector 0, when these are read) and the cylinders, heads and sectors
of `dev.geometry` are those of that block, whatever the geometry detected by the driver
or calculated from the size of the device. -/
theorem adfDevOpen_rdb_geometry (K : AdfDecls) (env : AdfEnv) (dev0 dev : AdfDevice)
    (hbs : dev0.geometry.blockSize = 512) (hsz : dev0.sizeBlocks < 4294967296)
    (hdrv : DriverReads dev0)
    (hopen : adfDevOpenWithDrv_ K env (some dev0) = some dev)
    (hrdsk : bytesAt dev0.drvData.data 0 4 = idRDSK) :
    ∃ rdsk, dev.rdbBlock = some rdsk
      ∧ rdsk = (adfReadRDSKblock K.blk env dev0 zeroRDSK).2
      ∧ ((adfDevReadBlock dev0 0 256 (fun _ => 0)).rc = ADF_RC_OK →
          rdsk = decodeRDSK K.blk (memcpy (fun _ => 0) 0 dev0.drvData.data 0 256))
      ∧ dev.geometry.cylinders = rdsk.cylinders
      ∧ dev.geometry.heads = rdsk.heads
      ∧ dev.geometry.sectors = rdsk.sectors := by
  obtain ⟨_, _, s3, _⟩ := adfDevOpenWithDrv__spec K env dev0 dev hbs hsz hdrv hopen
  obtain ⟨_, t2, t3, t4, t5⟩ := s3 hrdsk
  refine ⟨_, t2, rfl, ?_, t3, t4, t5⟩
  intro hr
  have hbuf : (adfDevReadBlock dev0 0 256 (fun _ => 0)).buf
      = memcpy (fun _ => 0) 0 dev0.drvData.data 0 256 := by
    funext i
    rw [adfDevReadBlock_ok_buf dev0 0 256 (fun _ => 0) hbs hsz (by norm_num) (by norm_num)
      hdrv hr i, memcpy_apply]
    by_cases hi : i < 256
    · simp [hi]
    · simp [hi]
  unfold adfReadRDSKblock
  simp only [hr, ne_eq, not_true_eq_false, if_false, hbuf]
  split_ifs <;> rfl

set_option maxRecDepth 1000000 in
/-- Witness of `adfDevOpen_rdb_geometry`: the sample image with an RDB, whose size
gives the calculated geometry 10 x 1 x 1 and whose RDSK block says 5 x 1 x 2. -/
theorem adfDevOpen_rdb_geometry_witness :
    ∃ rdsk, (rdbDevice 10).rdbBlock = some rdsk
      ∧ rdsk = (adfReadRDSKblock (sampleDecls strictEnv).blk strictEnv (rdbOpened 10)
          zeroRDSK).2
      ∧ ((adfDevReadBlock (rdbOpened 10) 0 256 (fun _ => 0)).rc = ADF_RC_OK →
          rdsk = decodeRDSK (sampleDecls strictEnv).blk
            (memcpy (fun _ => 0) 0 (rdbOpened 10).drvData.data 0 256))
      ∧ (rdbDevice 10).geometry.cylinders = rdsk.cylinders
      ∧ (rdbDevice 10).geometry.heads = rdsk.heads
      ∧ (rdbDevice 10).geometry.sectors = rdsk.sectors :=
  adfDevOpen_rdb_geometry (sampleDecls strictEnv) strictEnv (rdbOpened 10) (rdbDevice 10)
    rfl (by decide) (dump_DriverReads (rdbOpened 10) rfl (by decide) (by decide)) rfl
    (by decide)

/-! ## Reading and writing blocks of a device -/

/-- Claim C10: when the driver reads succeed (the driver meeting the contract of its
interface), `adfDevReadBlock( dev, p, size, buf )` fills `buf[0..size)` with the
device bytes at offsets `512*p .. 512*p + size - 1`, for every size, a multiple of 512
or not, below 512 or not, and leaves every byte of `buf` from index `size` on as it
was. -/
theorem adfDevReadBlock_fills_exactly (dev : AdfDevice) (p size : Nat) (buf : Bytes)
    (hbs : dev.geometry.blockSize = 512) (hdev : dev.sizeBlocks < 4294967296)
    (hp : p < 4294967296) (hsize : size < 4294967296) (hdrv : DriverReads dev)
    (hok : (adfDevReadBlock dev p size buf).rc = ADF_RC_OK) :
    (∀ i, i < size → (adfDevReadBlock dev p size buf).buf i = dev.drvData.data (512 * p + i))
    ∧ (∀ i, size ≤ i → (adfDevReadBlock dev p size buf).buf i = buf i) := by
  have h := adfDevReadBlock_ok_buf dev p size buf hbs hdev hp hsize hdrv hok
  constructor
  · intro i hi
    rw [h i, if_pos hi]
  · intro i hi
    rw [h i, if_neg (by omega)]

set_option maxRecDepth 1000000 in
/-- Witness of `adfDevReadBlock_fills_exactly`: 256 bytes, the size of an RDB block,
read at sector 1 of the sample device. -/
theorem adfDevReadBlock_fills_exactly_witness :
    (adfDevReadBlock (rdbDevice 10) 1 256 (fun _ => 255)).rc = ADF_RC_OK
    ∧ (∀ i, i < 256 → (adfDevReadBlock (rdbDevice 10) 1 256 (fun _ => 255)).buf i
        = (rdbDevice 10).drvData.data (512 * 1 + i))
    ∧ (∀ i, 256 ≤ i → (adfDevReadBlock (rdbDevice 10) 1 256 (fun _ => 255)).buf i
        = (fun _ => 255) i) :=
  ⟨by decide,
    adfDevReadBlock_fills_exactly (rdbDevice 10) 1 256 (fun _ => 255) rfl (by decide)
      (by decide) (by decide)
      (dump_DriverReads (rdbDevice 10) rfl (by decide) (by decide)) (by decide)⟩


/-! ## Mounting a hardfile -/

set_option maxRecDepth 1000000 in
/-- The sample device `hdfDevice 5 true` is what opening the 5-block hardfile image
gives. -/
theorem hdfDevice_opened :
    adfDevOpenWithDrv_ (sampleDecls strictEnv) strictEnv (some (hdfOpened 5 true))
      = some (hdfDevice 5 true) :=
  rfl

theorem scan_le (dev : AdfDevice) :
    ∀ (fuel : Nat) (r : Int), 0 ≤ r → r < 2147483648 →
      (adfMountHdFile.scan dev fuel r).2.1 ≤ r ∧ -1 ≤ (adfMountHdFile.scan dev fuel r).2.1 := by
  intro fuel
  induction fuel with
  | zero =>
    intro r h0 h1
    rw [adfMountHdFile.scan]
    simp only
    split_ifs
    · exact ⟨le_refl r, h0.trans' (by norm_num)⟩
    · exact ⟨le_refl r, h0.trans' (by norm_num)⟩
    · simp only
      rw [toInt32_of_range (by omega) (by omega)]
      omega
  | succ f ih =>
    intro r h0 h1
    rw [adfMountHdFile.scan]
    simp only
    split_ifs with hr hfound hcont hcont
    · exact ⟨le_refl r, h0.trans' (by norm_num)⟩
    · exact absurd hfound hcont.2
    · exact ⟨le_refl r, h0.trans' (by norm_num)⟩
    · have e : toInt32 (r - 1) = r - 1 := toInt32_of_range (by omega) (by omega)
      rw [e] at hcont ⊢
      have := ih (r - 1) (by omega) (by omega)
      omega
    · simp only
      rw [toInt32_of_range (by omega) (by omega)]
      omega

set_option maxRecDepth 1000000 in
/-- Counterexample to claim C5 as stated: the 5-block hardfile image with a DOS boot
block and its root block in sector 2 is mounted successfully, and its single volume
ends at block 3, not at block `sizeBlocks - 1 = 4`. -/
theorem adfMountHdFile_not_whole_device :
    (adfMountHdFile (sampleDecls strictEnv) (hdfDevice 5 true)).1 = ADF_RC_OK
    ∧ (adfMountHdFile (sampleDecls strictEnv) (hdfDevice 5 true)).2.volList.map
        (fun l => l.map (fun v => (adfVolIsDosFS v, v.firstBlock, v.rootBlock, v.lastBlock)))
      = some [(true, 0, 2, 3)]
    ∧ ((hdfDevice 5 true).sizeBlocks : Int) - 1 = 4 := by
  decide!

theorem mountDos_spec (K : AdfDecls) (dev1 : AdfDevice) (vol : AdfVolume)
    (hsz : dev1.sizeBlocks < 2147483648)
    (hok : (adfMountHdFile.mountDos K dev1 vol).1 = ADF_RC_OK) :
    ∃ vol4, (adfMountHdFile.mountDos K dev1 vol).2.volList = some [vol4]
      ∧ (adfMountHdFile.mountDos K dev1 vol).2.nVol = dev1.nVol
      ∧ vol4.firstBlock = vol.firstBlock
      ∧ vol4.fs_id = vol.fs_id
      ∧ vol4.lastBlock = 2 * vol4.rootBlock - 1
      ∧ vol4.rootBlock ≤ ((dev1.sizeBlocks / 2 : Nat) : Int)
      ∧ vol4.lastBlock ≤ (dev1.sizeBlocks : Int) - 1 := by
  have hstart : toInt32 ((dev1.sizeBlocks / 2 : Nat) : Int)
      = ((dev1.sizeBlocks / 2 : Nat) : Int) := toInt32_of_range (by omega) (by omega)
  obtain ⟨hle, hge⟩ := scan_le dev1 dev1.sizeBlocks
    ((dev1.sizeBlocks / 2 : Nat) : Int) (by omega) (by omega)
  generalize hres : adfMountHdFile.mountDos K dev1 vol = res at hok ⊢
  unfold adfMountHdFile.mountDos at hres
  dsimp only at hres
  rw [hstart] at hres
  generalize adfMountHdFile.scan dev1 dev1.sizeBlocks
    ((dev1.sizeBlocks / 2 : Nat) : Int) = sc at hres hle hge
  have hlast : toInt32 (sc.2.1 * 2 - 1) = 2 * sc.2.1 - 1 := by
    rw [toInt32_of_range (by omega) (by omega)]
    ring
  by_cases h1 : sc.1 = ADF_RC_OK
  · have h1n : ¬ sc.1 ≠ ADF_RC_OK := not_not.mpr h1
    rw [if_neg h1n] at hres
    by_cases h2 : sc.2.1 = 1
    · rw [if_pos h2] at hres
      rw [← hres] at hok
      dsimp only at hok
      exact absurd hok (by decide!)
    · rw [if_neg h2] at hres
      split_ifs at hres with h3
      · rw [← hres] at hok
        exact absurd hok h3
      · rw [← hres]
        exact ⟨_, rfl, rfl, rfl, rfl, hlast, hle, by dsimp only; rw [hlast]; omega⟩
  · rw [if_pos h1] at hres
    rw [← hres] at hok
    exact absurd hok h1

/-- Claim C5, amended: for every hardfile with a DOS filesystem that `adfMountHdFile`
mounts successfully, the single volume starts at block 0 and ends at block
`2 * rootBlock - 1`, where `rootBlock`, at most `sizeBlocks / 2`, is the sector where
the scan found the root block; so `lastBlock` is at most `sizeBlocks - 1`. -/
theorem adfMountHdFile_extent (K : AdfDecls) (dev : AdfDevice)
    (hsz : dev.sizeBlocks < 2147483648)
    (hok : (adfMountHdFile K dev).1 = ADF_RC_OK) :
    ∃ vol, (adfMountHdFile K dev).2.volList = some [vol]
      ∧ (adfMountHdFile K dev).2.nVol = 1
      ∧ vol.firstBlock = 0
      ∧ (adfVolIsDosFS vol = true →
          vol.lastBlock = 2 * vol.rootBlock - 1
          ∧ vol.rootBlock ≤ ((dev.sizeBlocks / 2 : Nat) : Int)
          ∧ vol.lastBlock ≤ (dev.sizeBlocks : Int) - 1) := by
  generalize hres : adfMountHdFile K dev = res at hok ⊢
  unfold adfMountHdFile at hres
  dsimp only at hres
  generalize adfDevReadBlock { dev with nVol := 1, volList := some [adfMountHdFile.newVolume] }
    (toUInt32 adfMountHdFile.newVolume.firstBlock) 512 (fun _ => 0) = rb at hres
  generalize (if adfVolIsOFS { adfMountHdFile.newVolume with
      fs_id := bytesAt rb.buf 0 3, fs_type := rb.buf 3 % 256 } = true then 488 else 512 : Nat)
    = dbs at hres
  by_cases h1 : rb.rc = ADF_RC_OK
  · have h1n : ¬ rb.rc ≠ ADF_RC_OK := not_not.mpr h1
    rw [if_neg h1n] at hres
    split_ifs at hres with h2
    · rw [← hres] at hok
      obtain ⟨vol4, m1, m2, m3, m4, m5, m6, m7⟩ := mountDos_spec K _ _ (by exact hsz) hok
      rw [← hres]
      exact ⟨vol4, m1, m2, m3, fun _ => ⟨m5, m6, m7⟩⟩
    · rw [← hres]
      refine ⟨_, rfl, rfl, rfl, ?_⟩
      intro hdos
      unfold adfVolIsDosFS at hdos h2
      dsimp only at hdos h2
      exact absurd hdos h2
  · rw [if_pos h1] at hres
    rw [← hres] at hok
    exact absurd hok h1

set_option maxRecDepth 1000000 in
/-- Witness of `adfMountHdFile_extent`: the 5-block hardfile image. -/
theorem adfMountHdFile_extent_witness :
    ∃ vol, (adfMountHdFile (sampleDecls strictEnv) (hdfDevice 5 true)).2.volList = some [vol]
      ∧ (adfMountHdFile (sampleDecls strictEnv) (hdfDevice 5 true)).2.nVol = 1
      ∧ vol.firstBlock = 0
      ∧ (adfVolIsDosFS vol = true →
          vol.lastBlock = 2 * vol.rootBlock - 1
          ∧ vol.rootBlock ≤ (((hdfDevice 5 true).sizeBlocks / 2 : Nat) : Int)
          ∧ vol.lastBlock ≤ ((hdfDevice 5 true).sizeBlocks : Int) - 1) :=
  adfMountHdFile_extent (sampleDecls strictEnv) (hdfDevice 5 true) (by decide) (by decide)

/-! ## Mounting a volume -/

/-- Claim C6: `adfVolMount` returns NULL and leaves the device, and with it every
volume of its list and that volume's `mounted` flag, as it was: for a partition index
outside `0 .. nVol - 1`, for a mode other than read-only and read-write, and for a
volume whose filesystem id is not `"DOS"` (a `"PFS"` volume for instance). -/
theorem adfVolMount_refuses (K : AdfDecls) (dev : AdfDevice) (nPart : Int)
    (mode : AdfAccessMode)
    (h : (nPart < 0 ∨ dev.nVol ≤ nPart)
      ∨ (mode ≠ ADF_ACCESS_MODE_READONLY ∧ mode ≠ ADF_ACCESS_MODE_READWRITE)
      ∨ (∃ l vol, dev.volList = some l ∧ l.get? nPart.toNat = some vol
          ∧ adfVolIsDosFS vol = false)) :
    adfVolMount K (some dev) nPart mode = (none, some dev) := by
  unfold adfVolMount
  dsimp only
  by_cases h1 : dev.nVol < 1
  · rw [if_pos h1]
  · rw [if_neg h1]
    by_cases h2 : nPart < 0 ∨ nPart ≥ dev.nVol
    · rw [if_pos h2]
    · rw [if_neg h2]
      by_cases h3 : mode ≠ ADF_ACCESS_MODE_READONLY ∧ mode ≠ ADF_ACCESS_MODE_READWRITE
      · rw [if_pos h3]
      · rw [if_neg h3]
        rcases h with h | h | ⟨l, vol, hl, hv, hd⟩
        · exact absurd h h2
        · exact absurd h h3
        · have hb : dev.volList.bind (fun l => l.get? nPart.toNat) = some vol := by
            rw [hl]
            exact hv
          rw [hb]
          dsimp only
          rw [if_pos (by rw [hd]; decide!)]

set_option maxRecDepth 1000000 in
/-- Witness of `adfVolMount_refuses`: the volume of a hardfile whose boot block starts
with `PFS`. -/
theorem adfVolMount_refuses_witness :
    (∃ vol, (adfMountHdFile (sampleDecls strictEnv) pfsDevice).2.volList = some [vol]
        ∧ adfVolIsPFS vol = true ∧ vol.mounted = false)
    ∧ adfVolMount (sampleDecls strictEnv)
        (some (adfMountHdFile (sampleDecls strictEnv) pfsDevice).2) 0
        ADF_ACCESS_MODE_READONLY
      = (none, some (adfMountHdFile (sampleDecls strictEnv) pfsDevice).2) :=
  ⟨⟨_, rfl, by decide, by decide⟩,
    adfVolMount_refuses (sampleDecls strictEnv)
      (adfMountHdFile (sampleDecls strictEnv) pfsDevice).2 0 ADF_ACCESS_MODE_READONLY
      (Or.inr (Or.inr ⟨_, _, rfl, rfl, by decide⟩))⟩

/-! ## Block access of a volume -/

theorem adfDevReadBlock_calls_ne_nil (dev : AdfDevice) (p size : Nat) (buf : Bytes) :
    (adfDevReadBlock dev p size buf).calls ≠ [] := by
  unfold adfDevReadBlock
  dsimp only
  split_ifs <;> simp

theorem adfDevWriteBlock_calls_ne_nil (dev : AdfDevice) (p size : Nat) (buf : Bytes) :
    (adfDevWriteBlock dev p size buf).calls ≠ [] := by
  unfold adfDevWriteBlock
  dsimp only
  split_ifs <;> simp

theorem sectNumValid_iff (vol : AdfVolume) (n : Nat)
    (h0 : 0 ≤ vol.firstBlock) (h1 : vol.firstBlock ≤ vol.lastBlock)
    (h2 : vol.lastBlock < 2147483648) (hn : n < 4294967296) :
    adfVolIsSectNumValid vol (toInt32 n) = true ↔ (n : Int) ≤ vol.lastBlock - vol.firstBlock := by
  unfold adfVolIsSectNumValid
  rw [toInt32_of_range (x := vol.lastBlock - vol.firstBlock) (by omega) (by omega)]
  simp only [Bool.and_eq_true, decide_eq_true_eq]
  unfold toInt32
  omega

theorem volRange_iff (vol : AdfVolume) (n : Nat)
    (h0 : 0 ≤ vol.firstBlock) (h1 : vol.firstBlock ≤ vol.lastBlock)
    (h2 : vol.lastBlock < 2147483648) (hn : n < 4294967296) :
    toUInt32 vol.firstBlock = vol.firstBlock.toNat
    ∧ (((n + toUInt32 vol.firstBlock) % 4294967296 < toUInt32 vol.firstBlock
        ∨ (n + toUInt32 vol.firstBlock) % 4294967296 > toUInt32 vol.lastBlock)
      ↔ ¬ (n : Int) ≤ vol.lastBlock - vol.firstBlock)
    ∧ ((n : Int) ≤ vol.lastBlock - vol.firstBlock →
        (n + toUInt32 vol.firstBlock) % 4294967296 = vol.firstBlock.toNat + n) := by
  have e1 : toUInt32 vol.firstBlock = vol.firstBlock.toNat := by
    unfold toUInt32
    rw [Int.emod_eq_of_lt (by omega) (by omega)]
  have e2 : toUInt32 vol.lastBlock = vol.lastBlock.toNat := by
    unfold toUInt32
    rw [Int.emod_eq_of_lt (by omega) (by omega)]
  rw [e1, e2]
  refine ⟨rfl, ?_, ?_⟩
  · omega
  · intro h
    omega

/-- Claim C7: on a mounted volume with `0 ≤ firstBlock ≤ lastBlock`, the sector number
`n` is invalid for `adfVolIsSectNumValid` exactly when `n > lastBlock - firstBlock`;
`adfVolReadBlock` returns `ADF_RC_BLOCKOUTOFRANGE` without a driver call exactly for
the invalid `n` (also when `n + firstBlock` wraps around `2^32`) and for every other
`n` it is the access of the device at physical sector `firstBlock + n`; the same holds
for `adfVolWriteBlock` on a read-write volume, which leaves the device as it was when
`n` is invalid. -/
theorem adfVol_block_range (dev : AdfDevice) (vol : AdfVolume) (n : Nat) (buf : Bytes)
    (hm : vol.mounted = true) (h0 : 0 ≤ vol.firstBlock)
    (h1 : vol.firstBlock ≤ vol.lastBlock) (h2 : vol.lastBlock < 2147483648)
    (hn : n < 4294967296) :
    (adfVolIsSectNumValid vol (toInt32 n) = false ↔ vol.lastBlock - vol.firstBlock < n)
    ∧ (((adfVolReadBlock dev vol n buf).rc = ADF_RC_BLOCKOUTOFRANGE
          ∧ (adfVolReadBlock dev vol n buf).calls = [])
        ↔ adfVolIsSectNumValid vol (toInt32 n) = false)
    ∧ (adfVolIsSectNumValid vol (toInt32 n) = true →
        adfVolReadBlock dev vol n buf
          = adfDevReadBlock dev (vol.firstBlock.toNat + n) 512 buf)
    ∧ (vol.readOnly = false →
        (((adfVolWriteBlock dev vol n buf).rc = ADF_RC_BLOCKOUTOFRANGE
            ∧ (adfVolWriteBlock dev vol n buf).calls = []
            ∧ (adfVolWriteBlock dev vol n buf).dev = dev)
          ↔ adfVolIsSectNumValid vol (toInt32 n) = false)
        ∧ (adfVolIsSectNumValid vol (toInt32 n) = true →
            adfVolWriteBlock dev vol n buf
              = adfDevWriteBlock dev (vol.firstBlock.toNat + n) 512 buf)) := by
  have hv := sectNumValid_iff vol n h0 h1 h2 hn
  obtain ⟨_, hr, hp⟩ := volRange_iff vol n h0 h1 h2 hn
  have hf : adfVolIsSectNumValid vol (toInt32 n) = false
      ↔ ¬ (n : Int) ≤ vol.lastBlock - vol.firstBlock := by
    rw [← hv]
    simp
  have hnm : ¬ ¬ vol.mounted = true := not_not.mpr hm
  by_cases hle : (n : Int) ≤ vol.lastBlock - vol.firstBlock
  · have hin := mt hr.mp (not_not.mpr hle)
    have hvalid := hv.mpr hle
    have hR : adfVolReadBlock dev vol n buf
        = adfDevReadBlock dev (vol.firstBlock.toNat + n) 512 buf := by
      unfold adfVolReadBlock
      rw [if_neg hnm]
      dsimp only
      rw [if_neg hin, hp hle]
    have hW : vol.readOnly = false → adfVolWriteBlock dev vol n buf
        = adfDevWriteBlock dev (vol.firstBlock.toNat + n) 512 buf := by
      intro hro
      unfold adfVolWriteBlock
      rw [if_neg hnm, if_neg (by rw [hro]; decide!)]
      dsimp only
      rw [if_neg hin, hp hle]
    refine ⟨?_, ?_, fun _ => hR, fun hro => ⟨?_, fun _ => hW hro⟩⟩
    · rw [hf]
      omega
    · rw [hvalid, hR]
      constructor
      · intro h
        exact absurd h.2 (adfDevReadBlock_calls_ne_nil _ _ _ _)
      · intro h
        exact absurd h (by decide!)
    · rw [hvalid, hW hro]
      constructor
      · intro h
        exact absurd h.2.1 (adfDevWriteBlock_calls_ne_nil _ _ _ _)
      · intro h
        exact absurd h (by decide!)
  · have hout := hr.mpr hle
    have hinvalid := hf.mpr hle
    have hR : adfVolReadBlock dev vol n buf = ⟨ADF_RC_BLOCKOUTOFRANGE, buf, []⟩ := by
      unfold adfVolReadBlock
      rw [if_neg hnm]
      dsimp only
      rw [if_pos hout]
    have hW : vol.readOnly = false →
        adfVolWriteBlock dev vol n buf = ⟨ADF_RC_BLOCKOUTOFRANGE, dev, []⟩ := by
      intro hro
      unfold adfVolWriteBlock
      rw [if_neg hnm, if_neg (by rw [hro]; decide!)]
      dsimp only
      rw [if_pos hout]
    refine ⟨?_, ?_, ?_, fun hro => ⟨?_, ?_⟩⟩
    · rw [hf]
      omega
    · rw [hR]
      exact ⟨fun _ => hinvalid, fun _ => ⟨rfl, rfl⟩⟩
    · intro h
      rw [hinvalid] at h
      exact absurd h (by decide!)
    · rw [hW hro]
      exact ⟨fun _ => hinvalid, fun _ => ⟨rfl, rfl, rfl⟩⟩
    · intro h
      rw [hinvalid] at h
      exact absurd h (by decide!)

set_option maxRecDepth 1000000 in
/-- Witness of `adfVol_block_range`: sector 1 of a volume over blocks 4 to 5 of the
10-block device. -/
theorem adfVol_block_range_witness :
    (sampleVolume false).mounted = true
    ∧ (adfVolIsSectNumValid (sampleVolume false) (toInt32 1) = true →
        adfVolReadBlock onesDevice (sampleVolume false) 1 (fun _ => 0)
          = adfDevReadBlock onesDevice ((sampleVolume false).firstBlock.toNat + 1) 512
              (fun _ => 0)) :=
  ⟨by decide,
    (adfVol_block_range onesDevice (sampleVolume false) 1 (fun _ => 0) (by decide)
      (by decide) (by decide) (by decide) (by decide)).2.2.1⟩

/-- Claim C8, refuted as stated: a write to a mounted read-only volume does not return
the code `deviceReadOnly`. -/
theorem adfVolWriteBlock_readOnly_not_dedicated :
    (sampleVolume true).mounted = true ∧ (sampleVolume true).readOnly = true
    ∧ (adfVolWriteBlock onesDevice (sampleVolume true) 0 (fun _ => 0)).rc
        ≠ deviceReadOnly := by
  decide!

/-- Claim C8, amended: `adfVolWriteBlock` on a mounted read-only volume fails with the
generic code `ADF_RC_ERROR`, makes no driver call and leaves the device as it was. -/
theorem adfVolWriteBlock_readOnly (dev : AdfDevice) (vol : AdfVolume) (n : Nat)
    (buf : Bytes) (hm : vol.mounted = true) (hro : vol.readOnly = true) :
    (adfVolWriteBlock dev vol n buf).rc = ADF_RC_ERROR
    ∧ (adfVolWriteBlock dev vol n buf).calls = []
    ∧ (adfVolWriteBlock dev vol n buf).dev = dev := by
  unfold adfVolWriteBlock
  rw [if_neg (not_not.mpr hm), if_pos hro]
  exact ⟨rfl, rfl, rfl⟩

/-- Witness of `adfVolWriteBlock_readOnly`: the read-only sample volume. -/
theorem adfVolWriteBlock_readOnly_witness :
    (adfVolWriteBlock onesDevice (sampleVolume true) 0 (fun _ => 0)).rc = ADF_RC_ERROR
    ∧ (adfVolWriteBlock onesDevice (sampleVolume true) 0 (fun _ => 0)).calls = []
    ∧ (adfVolWriteBlock onesDevice (sampleVolume true) 0 (fun _ => 0)).dev = onesDevice :=
  adfVolWriteBlock_readOnly onesDevice (sampleVolume true) 0 (fun _ => 0) rfl rfl

/-! ## Writing a size that is not a multiple of the block size -/

set_option maxRecDepth 1000000 in
/-- Claim C9, refuted as stated: after 256 bytes are written at sector 0 of a device
filled with the byte 255, byte 300 of that sector is 0: it has not kept its content. -/
theorem adfDevWriteBlock_tail_not_kept :
    onesDevice.drvData.data 300 = 255
    ∧ (adfDevWriteBlock onesDevice 0 256 (fun _ => 7)).rc = ADF_RC_OK
    ∧ (adfDevWriteBlock onesDevice 0 256 (fun _ => 7)).dev.drvData.data 300 = 0 := by
  decide!

/-- Claim C9, amended: `adfDevWriteBlock` with a size that is not a multiple of the block
size writes the trailing block from a zeroed buffer: after a successful write of
`size = 512*q + r` bytes (`0 < r < 512`) at sector `p`, bytes `0 .. r-1` of sector
`p + q` are the last `r` bytes of the data and bytes `r .. 511` of that sector are
zero. -/
theorem adfDevWriteBlock_trailing_block (dev : AdfDevice) (p q r : Nat) (buf : Bytes)
    (j : Nat) (hbs : dev.geometry.blockSize = 512)
    (hdrv : DriverWrites dev.drv dev.sizeBlocks) (hr0 : 0 < r) (hr : r < 512)
    (hpq : p + q < dev.sizeBlocks) (hdev : dev.sizeBlocks < 4294967296)
    (hok : (adfDevWriteBlock dev p (512 * q + r) buf).rc = ADF_RC_OK) (hj : j < 512) :
    (adfDevWriteBlock dev p (512 * q + r) buf).dev.drvData.data (512 * (p + q) + j)
      = if j < r then buf (512 * q + j) else 0 := by
  have hq : (512 * q + r) / 512 = q := by omega
  have hrem : (512 * q + r) % 512 = r := by omega
  have hlast : (p + q) % 4294967296 = p + q := by omega
  generalize hres : adfDevWriteBlock dev p (512 * q + r) buf = res at hok ⊢
  unfold adfDevWriteBlock at hres
  dsimp only at hres
  rw [hbs, hq, hrem, hlast] at hres
  generalize dev.drv.writeSectors dev.drvData dev.sizeBlocks 512 p q buf = w1 at hres
  by_cases h1 : w1.1 = ADF_RC_OK
  · rw [if_neg (not_not.mpr h1), if_pos (by omega)] at hres
    have hc := hdrv w1.2 (p + q) 1
      (memset (memcpy (fun _ => 0) 0 buf (512 * q + r - r) r) r 0 (512 - r)) (by omega)
    rw [← hres] at hok ⊢
    dsimp only at hok ⊢
    rw [hc hok, memcpy_apply, if_pos (by omega), memset_apply, memcpy_apply]
    by_cases hjr : j < r
    · rw [if_neg (by omega), if_pos (by omega), if_pos hjr]
      congr 1
      omega
    · rw [if_pos (by omega), if_neg hjr]
  · rw [if_pos h1] at hres
    rw [← hres] at hok
    exact absurd hok h1

set_option maxRecDepth 1000000 in
/-- Witness of `adfDevWriteBlock_trailing_block`: 256 bytes written at sector 0 of the
device filled with the byte 255. -/
theorem adfDevWriteBlock_trailing_block_witness :
    (adfDevWriteBlock onesDevice 0 (512 * 0 + 256) (fun _ => 7)).rc = ADF_RC_OK
    ∧ (adfDevWriteBlock onesDevice 0 (512 * 0 + 256) (fun _ => 7)).dev.drvData.data
        (512 * (0 + 0) + 300)
      = if 300 < 256 then (fun _ => 7) (512 * 0 + 300) else 0 :=
  ⟨by decide,
    adfDevWriteBlock_trailing_block onesDevice 0 0 256 (fun _ => 7) 300 rfl
      (dump_DriverWrites 10 (by decide)) (by decide) (by decide) (by decide) (by decide)
      (by decide) (by decide)⟩

/-! ## Lemmas on `adfNormalSum` -/

theorem swapUint32fromPtr_lt (buf : Bytes) (off : Nat) :
    swapUint32fromPtr buf off < 4294967296 := by
  unfold swapUint32fromPtr
  omega

theorem swapUint32fromPtr_congr (b1 b2 : Bytes) (off : Nat)
    (h : ∀ k, k < 4 → b1 (off + k) = b2 (off + k)) :
    swapUint32fromPtr b1 off = swapUint32fromPtr b2 off := by
  unfold swapUint32fromPtr
  have h0 := h 0 (by omega)
  rw [Nat.add_zero] at h0
  rw [h0, h 1 (by omega), h 2 (by omega), h 3 (by omega)]

/-- The loop of `adfNormalSum` computes the sum of the words other than the checksum
word, modulo `2^32`. -/
theorem normalSum_fold (buf : Bytes) (c n : Nat) :
    (List.range n).foldl
        (fun sum i => if i = c then sum
          else (sum + swapUint32fromPtr buf (4 * i)) % 4294967296) 0
      = (∑ k in Finset.range n, if k = c then 0 else swapUint32fromPtr buf (4 * k))
          % 4294967296 := by
  induction n with
  | zero => rfl
  | succ n ih =>
    rw [List.range_succ, List.foldl_append, ih, Finset.sum_range_succ]
    simp only [List.foldl_cons, List.foldl_nil]
    by_cases hc : n = c
    · rw [if_pos hc, if_pos hc, Nat.add_zero]
    · rw [if_neg hc, if_neg hc]
      omega

theorem adfNormalSum_eq (buf : Bytes) (offset bufLen : Nat) :
    adfNormalSum buf offset bufLen
      = (4294967296 - (∑ k in Finset.range (bufLen / 4),
          if k = offset / 4 then 0 else swapUint32fromPtr buf (4 * k)) % 4294967296)
        % 4294967296 := by
  unfold adfNormalSum
  rw [normalSum_fold]

/-- The normal sum depends only on the words other than the checksum word. -/
theorem adfNormalSum_congr (b1 b2 : Bytes) (offset bufLen : Nat)
    (h : ∀ k, k < bufLen / 4 → k ≠ offset / 4 →
      swapUint32fromPtr b1 (4 * k) = swapUint32fromPtr b2 (4 * k)) :
    adfNormalSum b1 offset bufLen = adfNormalSum b2 offset bufLen := by
  rw [adfNormalSum_eq, adfNormalSum_eq]
  have hs : (∑ k in Finset.range (bufLen / 4),
        if k = offset / 4 then 0 else swapUint32fromPtr b1 (4 * k))
      = ∑ k in Finset.range (bufLen / 4),
        if k = offset / 4 then 0 else swapUint32fromPtr b2 (4 * k) := by
    apply Finset.sum_congr rfl
    intro k hk
    by_cases hc : k = offset / 4
    · rw [if_pos hc, if_pos hc]
    · rw [if_neg hc, if_neg hc]
      exact h k (Finset.mem_range.mp hk) hc
  rw [hs]

theorem sum_range_zero_tail (g : Nat → Nat) (n m : Nat)
    (h : ∀ k, n ≤ k → k < n + m → g k = 0) :
    ∑ k in Finset.range (n + m), g k = ∑ k in Finset.range n, g k := by
  induction m with
  | zero => rfl
  | succ m ih =>
    rw [← Nat.add_assoc, Finset.sum_range_succ, ih (fun k h1 h2 => h k h1 (by omega)),
      h (n + m) (by omega) (by omega), Nat.add_zero]

/-- Words of zero after the first `n4` bytes do not change the normal sum. -/
theorem adfNormalSum_zero_tail (buf : Bytes) (offset n m : Nat)
    (h : ∀ k, n ≤ k → k < n + m → swapUint32fromPtr buf (4 * k) = 0) :
    adfNormalSum buf offset (4 * (n + m)) = adfNormalSum buf offset (4 * n) := by
  rw [adfNormalSum_eq, adfNormalSum_eq]
  have e1 : 4 * (n + m) / 4 = n + m := by omega
  have e2 : 4 * n / 4 = n := by omega
  rw [e1, e2, sum_range_zero_tail]
  intro k h1 h2
  by_cases hc : k = offset / 4
  · rw [if_pos hc]
  · rw [if_neg hc]
    exact h k h1 h2

/-- A change of one word other than the checksum word changes the normal sum. -/
theorem adfNormalSum_ne (b1 b2 : Bytes) (offset bufLen j : Nat)
    (hj : j < bufLen / 4) (hjc : j ≠ offset / 4)
    (hne : swapUint32fromPtr b1 (4 * j) ≠ swapUint32fromPtr b2 (4 * j))
    (h : ∀ k, k < bufLen / 4 → k ≠ j →
      swapUint32fromPtr b1 (4 * k) = swapUint32fromPtr b2 (4 * k)) :
    adfNormalSum b1 offset bufLen ≠ adfNormalSum b2 offset bufLen := by
  rw [adfNormalSum_eq, adfNormalSum_eq]
  have hmem : j ∈ Finset.range (bufLen / 4) := Finset.mem_range.mpr hj
  rw [← Finset.add_sum_erase _ _ hmem, ← Finset.add_sum_erase _ _ hmem]
  have hrest : (∑ k in (Finset.range (bufLen / 4)).erase j,
        if k = offset / 4 then 0 else swapUint32fromPtr b1 (4 * k))
      = ∑ k in (Finset.range (bufLen / 4)).erase j,
        if k = offset / 4 then 0 else swapUint32fromPtr b2 (4 * k) := by
    apply Finset.sum_congr rfl
    intro k hk
    obtain ⟨hkj, hkr⟩ := Finset.mem_erase.mp hk
    by_cases hc : k = offset / 4
    · rw [if_pos hc, if_pos hc]
    · rw [if_neg hc, if_neg hc]
      exact h k (Finset.mem_range.mp hkr) hkj
  rw [hrest, if_neg hjc, if_neg hjc]
  have l1 := swapUint32fromPtr_lt b1 (4 * j)
  have l2 := swapUint32fromPtr_lt b2 (4 * j)
  generalize swapUint32fromPtr b1 (4 * j) = w1 at hne l1
  generalize swapUint32fromPtr b2 (4 * j) = w2 at hne l2
  generalize (∑ k in (Finset.range (bufLen / 4)).erase j,
        if k = offset / 4 then 0 else swapUint32fromPtr b2 (4 * k)) = r
  omega

/-! ## Checksums of the Rigid Disk Block family -/

/-- Claim C11: when the block read carries the expected id (and, for PART, the block
size 128) and its stored checksum differs from the normal sum computed over the block,
each of `adfReadRDSKblock`, `adfReadPARTblock`, `adfReadFSHDblock`,
`adfReadLSEGblock` and `adfReadBADBblock` returns `ADF_RC_BLOCKSUM` when
`ignoreChecksumErrors` is off and `ADF_RC_OK` when it is on. -/
theorem readers_checksum_mismatch (L : AdfBlkLayout) (env : AdfEnv) (dev : AdfDevice)
    (nSect : Int) :
    (∀ blk, (adfDevReadBlock dev 0 256 (fun _ => 0)).rc = ADF_RC_OK →
      (decodeRDSK L (adfDevReadBlock dev 0 256 (fun _ => 0)).buf).id = idRDSK →
      (decodeRDSK L (adfDevReadBlock dev 0 256 (fun _ => 0)).buf).checksum
        ≠ adfNormalSum (adfDevReadBlock dev 0 256 (fun _ => 0)).buf 8 256 →
      (adfReadRDSKblock L env dev blk).1
        = if env.ignoreChecksumErrors then ADF_RC_OK else ADF_RC_BLOCKSUM)
    ∧ (∀ blk,
      (adfDevReadBlock dev (toUInt32 nSect) L.part_sizeof (fun _ => 0)).rc = ADF_RC_OK →
      (decodePART L (adfDevReadBlock dev (toUInt32 nSect) L.part_sizeof (fun _ => 0)).buf).id
        = idPART →
      (decodePART L
        (adfDevReadBlock dev (toUInt32 nSect) L.part_sizeof (fun _ => 0)).buf).blockSize
        = 128 →
      (decodePART L
        (adfDevReadBlock dev (toUInt32 nSect) L.part_sizeof (fun _ => 0)).buf).checksum
        ≠ adfNormalSum
          (adfDevReadBlock dev (toUInt32 nSect) L.part_sizeof (fun _ => 0)).buf 8 256 →
      (adfReadPARTblock L env dev nSect blk).1
        = if env.ignoreChecksumErrors then ADF_RC_OK else ADF_RC_BLOCKSUM)
    ∧ (∀ blk,
      (adfDevReadBlock dev (toUInt32 nSect) L.fshd_sizeof (fun _ => 0)).rc = ADF_RC_OK →
      (decodeFSHD L (adfDevReadBlock dev (toUInt32 nSect) L.fshd_sizeof (fun _ => 0)).buf).id
        = idFSHD →
      (decodeFSHD L
        (adfDevReadBlock dev (toUInt32 nSect) L.fshd_sizeof (fun _ => 0)).buf).checksum
        ≠ adfNormalSum
          (adfDevReadBlock dev (toUInt32 nSect) L.fshd_sizeof (fun _ => 0)).buf 8 256 →
      (adfReadFSHDblock L env dev nSect blk).1
        = if env.ignoreChecksumErrors then ADF_RC_OK else ADF_RC_BLOCKSUM)
    ∧ (∀ blk,
      (adfDevReadBlock dev (toUInt32 nSect) L.lseg_sizeof (fun _ => 0)).rc = ADF_RC_OK →
      (decodeLSEG L (adfDevReadBlock dev (toUInt32 nSect) L.lseg_sizeof (fun _ => 0)).buf).id
        = idLSEG →
      (decodeLSEG L
        (adfDevReadBlock dev (toUInt32 nSect) L.lseg_sizeof (fun _ => 0)).buf).checksum
        ≠ adfNormalSum
          (adfDevReadBlock dev (toUInt32 nSect) L.lseg_sizeof (fun _ => 0)).buf 8
          L.lseg_sizeof →
      (adfReadLSEGblock L env dev nSect blk).1
        = if env.ignoreChecksumErrors then ADF_RC_OK else ADF_RC_BLOCKSUM)
    ∧ (∀ blk,
      (adfDevReadBlock dev (toUInt32 nSect) L.badb_sizeof (fun _ => 0)).rc = ADF_RC_OK →
      (decodeBADB L (adfDevReadBlock dev (toUInt32 nSect) L.badb_sizeof (fun _ => 0)).buf).id
        = idBADB →
      (decodeBADB L
        (adfDevReadBlock dev (toUInt32 nSect) L.badb_sizeof (fun _ => 0)).buf).checksum
        ≠ adfNormalSum
          (adfDevReadBlock dev (toUInt32 nSect) L.badb_sizeof (fun _ => 0)).buf 8
          L.badb_sizeof →
      (adfReadBADBblock L env dev nSect blk).1
        = if env.ignoreChecksumErrors then ADF_RC_OK else ADF_RC_BLOCKSUM) := by
  refine ⟨?_, ?_, ?_, ?_, ?_⟩
  · intro blk hrc hid hsum
    unfold adfReadRDSKblock
    dsimp only
    rw [if_neg (not_not.mpr hrc), if_neg (not_not.mpr hid)]
    cases hig : env.ignoreChecksumErrors
    · rw [if_pos ⟨hsum, by decide!⟩, if_neg (by decide!)]
    · rw [if_neg (fun h => h.2 rfl), if_pos rfl]
  · intro blk hrc hid hbs hsum
    unfold adfReadPARTblock
    dsimp only
    rw [if_neg (not_not.mpr hrc), if_neg (not_not.mpr hid), if_neg (not_not.mpr hbs)]
    cases hig : env.ignoreChecksumErrors
    · rw [if_pos ⟨hsum, by decide!⟩, if_neg (by decide!)]
    · rw [if_neg (fun h => h.2 rfl), if_pos rfl]
  · intro blk hrc hid hsum
    unfold adfReadFSHDblock
    dsimp only
    rw [if_neg (not_not.mpr hrc), if_neg (not_not.mpr hid)]
    cases hig : env.ignoreChecksumErrors
    · rw [if_pos ⟨hsum, by decide!⟩, if_neg (by decide!)]
    · rw [if_neg (fun h => h.2 rfl), if_pos rfl]
  · intro blk hrc hid hsum
    unfold adfReadLSEGblock
    dsimp only
    rw [if_neg (not_not.mpr hrc), if_neg (not_not.mpr hid)]
    cases hig : env.ignoreChecksumErrors
    · rw [if_pos ⟨hsum, by decide!⟩, if_neg (by decide!)]
    · rw [if_neg (fun h => h.2 rfl), if_pos rfl]
  · intro blk hrc hid hsum
    unfold adfReadBADBblock
    dsimp only
    rw [if_neg (not_not.mpr hrc), if_neg (not_not.mpr hid)]
    cases hig : env.ignoreChecksumErrors
    · rw [if_pos ⟨hsum, by decide!⟩, if_neg (by decide!)]
    · rw [if_neg (fun h => h.2 rfl), if_pos rfl]

set_option maxRecDepth 1000000 in
/-- Witness of `readers_checksum_mismatch`: the RDSK block of the image `badSumWords`,
read with checksum errors reported and with checksum errors ignored. -/
theorem readers_checksum_mismatch_witness :
    (adfReadRDSKblock stdBlkLayout strictEnv badSumDevice zeroRDSK).1 = ADF_RC_BLOCKSUM
    ∧ (adfReadRDSKblock stdBlkLayout ⟨true⟩ badSumDevice zeroRDSK).1 = ADF_RC_OK :=
  ⟨(readers_checksum_mismatch stdBlkLayout strictEnv badSumDevice 0).1 zeroRDSK
      (by decide) (by decide) (by decide),
    (readers_checksum_mismatch stdBlkLayout ⟨true⟩ badSumDevice 0).1 zeroRDSK
      (by decide) (by decide) (by decide)⟩

/-! ## Single-bit flips in RDSK and PART blocks -/

theorem toUInt32_lt (x : Int) : toUInt32 x < 4294967296 := by
  unfold toUInt32
  omega

theorem flip_byte_ne (v b : Nat) (hb : b < 8) : (v % 256 ^^^ 2 ^ b) % 256 ≠ v % 256 := by
  intro h
  have h1 := congrArg (fun x => Nat.testBit x b) h
  have e : (256 : Nat) = 2 ^ 8 := by norm_num
  simp only [e, Nat.testBit_mod_two_pow, Nat.testBit_xor, Nat.testBit_two_pow_self, hb,
    decide_True, Bool.true_and] at h1
  cases hv : v.testBit b <;> simp [hv] at h1

theorem flipBit_same (buf : Bytes) (i b : Nat) :
    flipBit buf i b i = buf i % 256 ^^^ 2 ^ b := by
  unfold flipBit
  rw [if_pos rfl]

theorem flipBit_other (buf : Bytes) (i b k : Nat) (h : k ≠ i) :
    flipBit buf i b k = buf k := by
  unfold flipBit
  rw [if_neg h]

/-- The word that holds the flipped byte changes. -/
theorem flip_word_ne (buf : Bytes) (i b : Nat) (hb : b < 8) :
    swapUint32fromPtr (flipBit buf i b) (4 * (i / 4))
      ≠ swapUint32fromPtr buf (4 * (i / 4)) := by
  have hne := flip_byte_ne (buf i) b hb
  rw [← flipBit_same] at hne
  unfold swapUint32fromPtr
  have ht : i % 4 = 0 ∨ i % 4 = 1 ∨ i % 4 = 2 ∨ i % 4 = 3 := by omega
  rcases ht with ht | ht | ht | ht
  · have e : 4 * (i / 4) = i := by omega
    rw [e, flipBit_other buf i b (i + 1) (by omega), flipBit_other buf i b (i + 2) (by omega),
      flipBit_other buf i b (i + 3) (by omega)]
    omega
  · have e : 4 * (i / 4) + 1 = i := by omega
    rw [e, flipBit_other buf i b (4 * (i / 4)) (by omega),
      flipBit_other buf i b (4 * (i / 4) + 2) (by omega),
      flipBit_other buf i b (4 * (i / 4) + 3) (by omega)]
    omega
  · have e : 4 * (i / 4) + 2 = i := by omega
    rw [e, flipBit_other buf i b (4 * (i / 4)) (by omega),
      flipBit_other buf i b (4 * (i / 4) + 1) (by omega),
      flipBit_other buf i b (4 * (i / 4) + 3) (by omega)]
    omega
  · have e : 4 * (i / 4) + 3 = i := by omega
    rw [e, flipBit_other buf i b (4 * (i / 4)) (by omega),
      flipBit_other buf i b (4 * (i / 4) + 1) (by omega),
      flipBit_other buf i b (4 * (i / 4) + 2) (by omega)]
    omega

/-- The other words do not change. -/
theorem flip_word_eq (buf : Bytes) (i b off : Nat) (h : i < off ∨ off + 4 ≤ i) :
    swapUint32fromPtr (flipBit buf i b) off = swapUint32fromPtr buf off := by
  apply swapUint32fromPtr_congr
  intro k hk
  exact flipBit_other buf i b (off + k) (by omega)

/-- A flip outside the checksum word changes the normal sum of a 256-byte block. -/
theorem flip_sum_ne (buf : Bytes) (i b : Nat) (hi : i < 256) (hb : b < 8)
    (hsum : ¬ (8 ≤ i ∧ i < 12)) :
    adfNormalSum (flipBit buf i b) 8 256 ≠ adfNormalSum buf 8 256 := by
  apply adfNormalSum_ne (flipBit buf i b) buf 8 256 (i / 4) (by omega) (by omega)
    (flip_word_ne buf i b hb)
  intro k _ hkj
  exact flip_word_eq buf i b (4 * k) (by omega)

/-- A flip in the four bytes of an id changes the id. -/
theorem flip_id_ne (buf : Bytes) (i b : Nat) (hi : i < 4) (hb : b < 8) :
    bytesAt (flipBit buf i b) 0 4 ≠ bytesAt buf 0 4 := by
  have hne := flip_byte_ne (buf i) b hb
  rw [← flipBit_same] at hne
  intro h
  have hg : ∀ k, k < 4 → flipBit buf i b (0 + k) % 256 = buf (0 + k) % 256 := by
    intro k hk
    have := congrArg (fun l => l.getD k 0) h
    simpa [bytesAt, List.getD_eq_getElem?_getD, hk] using this
  have := hg i hi
  rw [Nat.zero_add] at this
  exact hne this

theorem flip_id_eq (buf : Bytes) (i b : Nat) (hi : 4 ≤ i) :
    bytesAt (flipBit buf i b) 0 4 = bytesAt buf 0 4 := by
  apply bytesAt_congr
  intro k hk
  exact flipBit_other buf i b _ (by omega)

/-- What a 256-byte read gives on a device with a flipped bit in that block. -/
theorem read_flipDevice (dev : AdfDevice) (p i b : Nat)
    (hbs : dev.geometry.blockSize = 512) (hdev : dev.sizeBlocks < 4294967296)
    (hp : p < 4294967296) (hi : i < 256)
    (hdrv : DriverReads dev) (hdrv1 : DriverReads (flipDevice dev (512 * p + i) b))
    (hok : (adfDevReadBlock dev p 256 (fun _ => 0)).rc = ADF_RC_OK)
    (hok1 : (adfDevReadBlock (flipDevice dev (512 * p + i) b) p 256 (fun _ => 0)).rc
      = ADF_RC_OK) :
    (adfDevReadBlock (flipDevice dev (512 * p + i) b) p 256 (fun _ => 0)).buf
      = flipBit (adfDevReadBlock dev p 256 (fun _ => 0)).buf i b := by
  funext k
  rw [adfDevReadBlock_ok_buf (flipDevice dev (512 * p + i) b) p 256 _ hbs hdev hp (by omega)
    hdrv1 hok1 k]
  by_cases hk : k = i
  · subst hk
    rw [flipBit_same, adfDevReadBlock_ok_buf dev p 256 _ hbs hdev hp (by omega) hdrv hok k,
      if_pos hi, if_pos hi]
    exact flipBit_same _ _ _
  · rw [flipBit_other _ _ _ _ hk,
      adfDevReadBlock_ok_buf dev p 256 _ hbs hdev hp (by omega) hdrv hok k]
    by_cases hk2 : k < 256
    · rw [if_pos hk2, if_pos hk2]
      exact flipBit_other _ _ _ _ (by omega)
    · rw [if_neg hk2, if_neg hk2]

theorem adfReadRDSKblock_std (env : AdfEnv) (dev : AdfDevice) (blk : AdfRDSKblock) :
    (adfReadRDSKblock stdBlkLayout env dev blk).1
      = if (adfDevReadBlock dev 0 256 (fun _ => 0)).rc ≠ ADF_RC_OK then
          (adfDevReadBlock dev 0 256 (fun _ => 0)).rc
        else if bytesAt (adfDevReadBlock dev 0 256 (fun _ => 0)).buf 0 4 ≠ idRDSK then
          ADF_RC_ERROR
        else if swapUint32fromPtr (adfDevReadBlock dev 0 256 (fun _ => 0)).buf 8
            ≠ adfNormalSum (adfDevReadBlock dev 0 256 (fun _ => 0)).buf 8 256
            ∧ ¬ env.ignoreChecksumErrors then ADF_RC_BLOCKSUM
        else ADF_RC_OK := by
  unfold adfReadRDSKblock
  dsimp only [decodeRDSK, stdBlkLayout]
  split_ifs <;> rfl

theorem adfReadPARTblock_std (env : AdfEnv) (dev : AdfDevice) (nSect : Int)
    (blk : AdfPARTblock) :
    (adfReadPARTblock stdBlkLayout env dev nSect blk).1
      = if (adfDevReadBlock dev (toUInt32 nSect) 256 (fun _ => 0)).rc ≠ ADF_RC_OK then
          (adfDevReadBlock dev (toUInt32 nSect) 256 (fun _ => 0)).rc
        else if bytesAt (adfDevReadBlock dev (toUInt32 nSect) 256 (fun _ => 0)).buf 0 4
            ≠ idPART then ADF_RC_ERROR
        else if swapUint32fromPtr
            (adfDevReadBlock dev (toUInt32 nSect) 256 (fun _ => 0)).buf 132 ≠ 128 then
          ADF_RC_ERROR
        else if swapUint32fromPtr (adfDevReadBlock dev (toUInt32 nSect) 256 (fun _ => 0)).buf 8
            ≠ adfNormalSum (adfDevReadBlock dev (toUInt32 nSect) 256 (fun _ => 0)).buf 8 256
            ∧ ¬ env.ignoreChecksumErrors then ADF_RC_BLOCKSUM
        else ADF_RC_OK := by
  unfold adfReadPARTblock
  dsimp only [decodePART, stdBlkLayout]
  split_ifs <;> rfl

/-- The checks that a block buffer has passed when `adfReadRDSKblock` returns OK with
checksum errors reported, and the outcome of the checks on the buffer with one bit
flipped. -/
theorem rdsk_checks_flip (buf : Bytes) (rc : ADF_RETCODE) (i b : Nat) (hi : i < 256)
    (hb : b < 8) (hsum : ¬ (8 ≤ i ∧ i < 12))
    (hvalid : (if rc ≠ ADF_RC_OK then rc
        else if bytesAt buf 0 4 ≠ idRDSK then ADF_RC_ERROR
        else if swapUint32fromPtr buf 8 ≠ adfNormalSum buf 8 256
            ∧ ¬ strictEnv.ignoreChecksumErrors then ADF_RC_BLOCKSUM
        else ADF_RC_OK) = ADF_RC_OK) :
    (if bytesAt (flipBit buf i b) 0 4 ≠ idRDSK then ADF_RC_ERROR
      else if swapUint32fromPtr (flipBit buf i b) 8 ≠ adfNormalSum (flipBit buf i b) 8 256
          ∧ ¬ strictEnv.ignoreChecksumErrors then ADF_RC_BLOCKSUM
      else ADF_RC_OK) = if i < 4 then ADF_RC_ERROR else ADF_RC_BLOCKSUM := by
  by_cases h1 : rc = ADF_RC_OK
  · rw [if_neg (not_not.mpr h1)] at hvalid
    by_cases h2 : bytesAt buf 0 4 = idRDSK
    · rw [if_neg (not_not.mpr h2)] at hvalid
      by_cases h3 : swapUint32fromPtr buf 8 = adfNormalSum buf 8 256
      · by_cases h4 : i < 4
        · rw [if_pos h4, if_pos]
          rw [← h2]
          exact flip_id_ne buf i b h4 hb
        · rw [if_neg h4, flip_id_eq buf i b (by omega), if_neg (not_not.mpr h2),
            flip_word_eq buf i b 8 (by omega), h3, if_pos]
          exact ⟨fun h => flip_sum_ne buf i b hi hb hsum h.symm, by decide!⟩
      · rw [if_pos ⟨h3, by decide!⟩] at hvalid
        exact absurd hvalid (by decide!)
    · rw [if_pos h2] at hvalid
      exact absurd hvalid (by decide!)
  · rw [if_pos h1] at hvalid
    exact absurd hvalid h1

/-- The same for the checks of `adfReadPARTblock`. -/
theorem part_checks_flip (buf : Bytes) (rc : ADF_RETCODE) (i b : Nat) (hi : i < 256)
    (hb : b < 8) (hsum : ¬ (8 ≤ i ∧ i < 12))
    (hvalid : (if rc ≠ ADF_RC_OK then rc
        else if bytesAt buf 0 4 ≠ idPART then ADF_RC_ERROR
        else if swapUint32fromPtr buf 132 ≠ 128 then ADF_RC_ERROR
        else if swapUint32fromPtr buf 8 ≠ adfNormalSum buf 8 256
            ∧ ¬ strictEnv.ignoreChecksumErrors then ADF_RC_BLOCKSUM
        else ADF_RC_OK) = ADF_RC_OK) :
    (if bytesAt (flipBit buf i b) 0 4 ≠ idPART then ADF_RC_ERROR
      else if swapUint32fromPtr (flipBit buf i b) 132 ≠ 128 then ADF_RC_ERROR
      else if swapUint32fromPtr (flipBit buf i b) 8 ≠ adfNormalSum (flipBit buf i b) 8 256
          ∧ ¬ strictEnv.ignoreChecksumErrors then ADF_RC_BLOCKSUM
      else ADF_RC_OK)
      = if i < 4 ∨ (132 ≤ i ∧ i < 136) then ADF_RC_ERROR else ADF_RC_BLOCKSUM := by
  by_cases h1 : rc = ADF_RC_OK
  · rw [if_neg (not_not.mpr h1)] at hvalid
    by_cases h2 : bytesAt buf 0 4 = idPART
    · rw [if_neg (not_not.mpr h2)] at hvalid
      by_cases h5 : swapUint32fromPtr buf 132 = 128
      · rw [if_neg (not_not.mpr h5)] at hvalid
        by_cases h3 : swapUint32fromPtr buf 8 = adfNormalSum buf 8 256
        · by_cases h4 : i < 4
          · rw [if_pos (Or.inl h4), if_pos]
            rw [← h2]
            exact flip_id_ne buf i b h4 hb
          · rw [flip_id_eq buf i b (by omega), if_neg (not_not.mpr h2)]
            by_cases h6 : 132 ≤ i ∧ i < 136
            · rw [if_pos (Or.inr h6), if_pos]
              have hw := flip_word_ne buf i b hb
              have e : 4 * (i / 4) = 132 := by omega
              rw [e, h5] at hw
              exact hw
            · have h7 : ¬ (i < 4 ∨ (132 ≤ i ∧ i < 136)) := by omega
              rw [if_neg h7, flip_word_eq buf i b 132 (by omega),
                if_neg (not_not.mpr h5), flip_word_eq buf i b 8 (by omega), h3, if_pos]
              exact ⟨fun h => flip_sum_ne buf i b hi hb hsum h.symm, by decide!⟩
        · rw [if_pos ⟨h3, by decide!⟩] at hvalid
          exact absurd hvalid (by decide!)
      · rw [if_pos h5] at hvalid
        exact absurd hvalid (by decide!)
    · rw [if_pos h2] at hvalid
      exact absurd hvalid (by decide!)
  · rw [if_pos h1] at hvalid
    exact absurd hvalid h1

set_option maxRecDepth 1000000 in
/-- Claim C12, refuted as stated: the RDSK block of the sample image is valid, and with
bit 0 of its first byte flipped (a bit outside the checksum word) `adfReadRDSKblock`
returns `ADF_RC_ERROR`, not `ADF_RC_BLOCKSUM`; and with bit 0 of byte 300 of its sector
flipped, a bit of the block behind the 256 bytes that the reader reads,
`adfReadRDSKblock` returns OK. -/
theorem adfReadRDSKblock_flip_in_id :
    (adfReadRDSKblock stdBlkLayout strictEnv (rdbDevice 10) zeroRDSK).1 = ADF_RC_OK
    ∧ (adfReadRDSKblock stdBlkLayout strictEnv (flipDevice (rdbDevice 10) 0 0) zeroRDSK).1
      = ADF_RC_ERROR
    ∧ (adfReadRDSKblock stdBlkLayout strictEnv (flipDevice (rdbDevice 10) 300 0)
        zeroRDSK).1 = ADF_RC_OK
    ∧ (flipDevice (rdbDevice 10) 300 0).drvData.data 300
        ≠ (rdbDevice 10).drvData.data 300 := by
  decide!

/-- Claim C12, amended: with `ignoreChecksumErrors` off, flipping any single bit
outside the checksum word in the first 256 bytes of a valid RDSK or PART block, the
bytes that the readers read, makes `adfReadRDSKblock` / `adfReadPARTblock` fail: with
`ADF_RC_BLOCKSUM` when the bit lies outside the id (and, for PART, outside the
`blockSize` word), and with `ADF_RC_ERROR` when it lies in the id or in the `blockSize`
word of a PART block. The bit is bit `b` of byte `i` of the block, with `i < 256`. -/
theorem single_bit_flip_detected (dev : AdfDevice) (nSect : Int) (i b : Nat)
    (hbs : dev.geometry.blockSize = 512) (hdev : dev.sizeBlocks < 4294967296)
    (hi : i < 256) (hb : b < 8) (hsum : ¬ (8 ≤ i ∧ i < 12)) :
    (∀ blk, DriverReads dev → DriverReads (flipDevice dev i b) →
      (adfReadRDSKblock stdBlkLayout strictEnv dev blk).1 = ADF_RC_OK →
      (adfDevReadBlock (flipDevice dev i b) 0 256 (fun _ => 0)).rc = ADF_RC_OK →
      (adfReadRDSKblock stdBlkLayout strictEnv (flipDevice dev i b) blk).1
        = if i < 4 then ADF_RC_ERROR else ADF_RC_BLOCKSUM)
    ∧ (∀ blk, DriverReads dev →
      DriverReads (flipDevice dev (512 * toUInt32 nSect + i) b) →
      (adfReadPARTblock stdBlkLayout strictEnv dev nSect blk).1 = ADF_RC_OK →
      (adfDevReadBlock (flipDevice dev (512 * toUInt32 nSect + i) b) (toUInt32 nSect) 256
        (fun _ => 0)).rc = ADF_RC_OK →
      (adfReadPARTblock stdBlkLayout strictEnv
          (flipDevice dev (512 * toUInt32 nSect + i) b) nSect blk).1
        = if i < 4 ∨ (132 ≤ i ∧ i < 136) then ADF_RC_ERROR else ADF_RC_BLOCKSUM) := by
  constructor
  · intro blk hd hd1 hvalid hread1
    rw [adfReadRDSKblock_std] at hvalid ⊢
    have hread : (adfDevReadBlock dev 0 256 (fun _ => 0)).rc = ADF_RC_OK := by
      by_contra hne
      rw [if_pos hne] at hvalid
      exact hne hvalid
    have e : 512 * 0 + i = i := by omega
    have hf := read_flipDevice dev 0 i b hbs hdev (by omega) hi hd (by rw [e]; exact hd1)
      hread (by rw [e]; exact hread1)
    rw [e] at hf
    rw [if_neg (not_not.mpr hread1), hf]
    exact rdsk_checks_flip _ _ i b hi hb hsum hvalid
  · intro blk hd hd1 hvalid hread1
    rw [adfReadPARTblock_std] at hvalid ⊢
    have hread : (adfDevReadBlock dev (toUInt32 nSect) 256 (fun _ => 0)).rc = ADF_RC_OK := by
      by_contra hne
      rw [if_pos hne] at hvalid
      exact hne hvalid
    rw [if_neg (not_not.mpr hread1),
      read_flipDevice dev (toUInt32 nSect) i b hbs hdev (toUInt32_lt nSect) hi hd hd1 hread
        hread1]
    exact part_checks_flip _ _ i b hi hb hsum hvalid

set_option maxRecDepth 1000000 in
/-- Witness of `single_bit_flip_detected`: bit 3 of byte 67 (the number of cylinders) of
the RDSK block of the sample image. -/
theorem single_bit_flip_detected_witness :
    (adfReadRDSKblock stdBlkLayout strictEnv (rdbDevice 10) zeroRDSK).1 = ADF_RC_OK
    ∧ (adfReadRDSKblock stdBlkLayout strictEnv
        (flipDevice (rdbDevice 10) 67 3) zeroRDSK).1
      = if 67 < 4 then ADF_RC_ERROR else ADF_RC_BLOCKSUM :=
  ⟨by decide,
    (single_bit_flip_detected (rdbDevice 10) 1 67 3 rfl (by decide) (by decide) (by decide)
      (by decide)).1 zeroRDSK
      (dump_DriverReads (rdbDevice 10) rfl (by decide) (by decide))
      (dump_DriverReads (flipDevice (rdbDevice 10) 67 3) rfl (by decide)
        (by decide))
      (by decide) (by decide)⟩

/-! ## Writing and reading back the blocks of the Rigid Disk Block family -/

theorem swapUint32ToPtr_apply (buf : Bytes) (off val i : Nat) :
    swapUint32ToPtr buf off val i
      = if off ≤ i ∧ i < off + 4 then (val / 256 ^ (3 - (i - off))) % 256 else buf i := rfl

theorem swapUint32fromPtr_swapUint32ToPtr (buf : Bytes) (off val : Nat) :
    swapUint32fromPtr (swapUint32ToPtr buf off val) off = val % 4294967296 := by
  unfold swapUint32fromPtr
  rw [swapUint32ToPtr_apply, swapUint32ToPtr_apply, swapUint32ToPtr_apply,
    swapUint32ToPtr_apply, if_pos (by omega), if_pos (by omega), if_pos (by omega),
    if_pos (by omega)]
  have e0 : 3 - (off - off) = 3 := by omega
  have e1 : 3 - (off + 1 - off) = 2 := by omega
  have e2 : 3 - (off + 2 - off) = 1 := by omega
  have e3 : 3 - (off + 3 - off) = 0 := by omega
  rw [e0, e1, e2, e3]
  norm_num
  omega

/-- What a read gives at the sector to which a whole block has just been written. -/
theorem write_then_read (dev : AdfDevice) (p size : Nat) (buf : Bytes)
    (hbs : dev.geometry.blockSize = 512) (hdev : dev.sizeBlocks < 4294967296)
    (hp : p < dev.sizeBlocks) (hsize : size ≤ 512)
    (hdrv : DriverWrites dev.drv dev.sizeBlocks)
    (hw : (adfDevWriteBlock dev p 512 buf).rc = ADF_RC_OK)
    (hdrv1 : DriverReads (adfDevWriteBlock dev p 512 buf).dev)
    (hr : (adfDevReadBlock (adfDevWriteBlock dev p 512 buf).dev p size (fun _ => 0)).rc
      = ADF_RC_OK) (k : Nat) :
    (adfDevReadBlock (adfDevWriteBlock dev p 512 buf).dev p size (fun _ => 0)).buf k
      = if k < size then buf k else 0 := by
  have hd : (adfDevWriteBlock dev p 512 buf).dev
      = { dev with drvData := (dev.drv.writeSectors dev.drvData dev.sizeBlocks 512 p 1 buf).2 }
      ∧ (dev.drv.writeSectors dev.drvData dev.sizeBlocks 512 p 1 buf).1 = ADF_RC_OK := by
    unfold adfDevWriteBlock at hw ⊢
    dsimp only at hw ⊢
    rw [hbs] at hw ⊢
    have e1 : 512 / 512 = 1 := by norm_num
    have e2 : 512 % 512 = 0 := by norm_num
    rw [e1, e2] at hw ⊢
    by_cases h1 : (dev.drv.writeSectors dev.drvData dev.sizeBlocks 512 p 1 buf).1 = ADF_RC_OK
    · rw [if_neg (not_not.mpr h1), if_neg (by decide!)]
      exact ⟨rfl, h1⟩
    · rw [if_pos h1] at hw
      exact absurd hw h1
  have hdata := hdrv dev.drvData p 1 buf (by omega) hd.2
  generalize hdev1 : (adfDevWriteBlock dev p 512 buf).dev = dev1 at hd hdrv1 hr ⊢
  have hbs1 : dev1.geometry.blockSize = 512 := by rw [hd.1]; exact hbs
  have hsz1 : dev1.sizeBlocks < 4294967296 := by rw [hd.1]; exact hdev
  rw [adfDevReadBlock_ok_buf dev1 p size _ hbs1 hsz1 (by omega) (by omega) hdrv1 hr k]
  by_cases hk : k < size
  · rw [if_pos hk, if_pos hk, hd.1]
    dsimp only
    rw [hdata, memcpy_apply, if_pos (by omega)]
    congr 1
    omega
  · rw [if_neg hk, if_neg hk]

/-- The buffer read back from a written block, compared with the record written:
the members outside the checksum word are those of the record, and the checksum word
is the normal sum of the buffer read back. -/
theorem written_block_read (record rbuf : Bytes) (sz : Nat) (h1 : 256 ≤ sz) (h2 : sz ≤ 512)
    (h4 : sz % 4 = 0)
    (hr : ∀ k, rbuf k = if k < sz
      then swapUint32ToPtr (memcpy (memset (fun _ => 0) 0 0 512) 0 record 0 sz) 8
        (adfNormalSum (memcpy (memset (fun _ => 0) 0 0 512) 0 record 0 sz) 8 512) k
      else 0) :
    (∀ off, off + 4 ≤ 8 ∨ (12 ≤ off ∧ off + 4 ≤ sz) →
      swapUint32fromPtr rbuf off = swapUint32fromPtr record off)
    ∧ (∀ off n, off + n ≤ 8 ∨ (12 ≤ off ∧ off + n ≤ sz) →
      bytesAt rbuf off n = bytesAt record off n)
    ∧ swapUint32fromPtr rbuf 8 = adfNormalSum rbuf 8 sz := by
  have hbyte : ∀ k, k < sz → ¬ (8 ≤ k ∧ k < 12) → rbuf k = record k := by
    intro k hk hc
    rw [hr k, if_pos hk, swapUint32ToPtr_apply, if_neg (by omega), memcpy_apply,
      if_pos (by omega)]
    congr 1
    omega
  refine ⟨?_, ?_, ?_⟩
  · intro off hoff
    apply swapUint32fromPtr_congr
    intro k hk
    exact hbyte (off + k) (by omega) (by omega)
  · intro off n hoff
    apply bytesAt_congr
    intro k hk
    exact hbyte (off + k) (by omega) (by omega)
  · generalize hb1 : memcpy (memset (fun _ => 0) 0 0 512) 0 record 0 sz = buf1 at hr
    have hsum : swapUint32fromPtr rbuf 8 = adfNormalSum buf1 8 512 := by
      have hlt : adfNormalSum buf1 8 512 < 4294967296 := by
        unfold adfNormalSum
        omega
      rw [swapUint32fromPtr_congr rbuf (swapUint32ToPtr buf1 8 (adfNormalSum buf1 8 512)) 8
          (fun k hk => by rw [hr (8 + k), if_pos (by omega)]),
        swapUint32fromPtr_swapUint32ToPtr, Nat.mod_eq_of_lt hlt]
    rw [hsum]
    have e512 : 512 = 4 * (sz / 4 + (128 - sz / 4)) := by omega
    have esz : sz = 4 * (sz / 4) := by omega
    have htail : adfNormalSum buf1 8 512 = adfNormalSum buf1 8 sz := by
      conv_lhs => rw [e512]
      conv_rhs => rw [esz]
      apply adfNormalSum_zero_tail
      intro k hk1 hk2
      unfold swapUint32fromPtr
      rw [← hb1, memcpy_apply, memcpy_apply, memcpy_apply, memcpy_apply, if_neg (by omega),
        if_neg (by omega), if_neg (by omega), if_neg (by omega), memset_apply, memset_apply,
        memset_apply, memset_apply]
      simp
    rw [htail]
    apply adfNormalSum_congr
    intro k hk hk2
    apply swapUint32fromPtr_congr
    intro t ht
    have e8 : 8 / 4 = 2 := by norm_num
    rw [e8] at hk2
    rw [hr (4 * k + t), if_pos (by omega), swapUint32ToPtr_apply, if_neg (by omega)]

/-- The three facts of `written_block_read` for the buffer that a read gives after a
block record has been written with its checksum. -/
theorem round_trip_buffer (dev : AdfDevice) (p sz : Nat) (record : Bytes)
    (hbs : dev.geometry.blockSize = 512) (hdev : dev.sizeBlocks < 4294967296)
    (hp : p < dev.sizeBlocks) (h1 : 256 ≤ sz) (h2 : sz ≤ 512) (h4 : sz % 4 = 0)
    (hdrv : DriverWrites dev.drv dev.sizeBlocks) (dw : DevWrite)
    (hdw : dw = adfDevWriteBlock dev p 512
      (swapUint32ToPtr (memcpy (memset (fun _ => 0) 0 0 512) 0 record 0 sz) 8
        (adfNormalSum (memcpy (memset (fun _ => 0) 0 0 512) 0 record 0 sz) 8 512)))
    (hw : dw.rc = ADF_RC_OK) (hdrv1 : DriverReads dw.dev)
    (hr : (adfDevReadBlock dw.dev p sz (fun _ => 0)).rc = ADF_RC_OK) :
    (∀ off, off + 4 ≤ 8 ∨ (12 ≤ off ∧ off + 4 ≤ sz) →
      swapUint32fromPtr (adfDevReadBlock dw.dev p sz (fun _ => 0)).buf off
        = swapUint32fromPtr record off)
    ∧ (∀ off n, off + n ≤ 8 ∨ (12 ≤ off ∧ off + n ≤ sz) →
      bytesAt (adfDevReadBlock dw.dev p sz (fun _ => 0)).buf off n = bytesAt record off n)
    ∧ swapUint32fromPtr (adfDevReadBlock dw.dev p sz (fun _ => 0)).buf 8
      = adfNormalSum (adfDevReadBlock dw.dev p sz (fun _ => 0)).buf 8 sz := by
  subst hdw
  exact written_block_read record _ sz h1 h2 h4
    (write_then_read dev p sz _ hbs hdev hp h2 hdrv hw hdrv1 hr)

theorem adfWriteRDSKblock_std (dev : AdfDevice) (rdsk : Bytes)
    (hrw : dev.readOnly = false) :
    (adfWriteRDSKblock stdBlkLayout dev rdsk).1
      = adfDevWriteBlock dev 0 512
        (swapUint32ToPtr (memcpy (memset (fun _ => 0) 0 0 512) 0
          (adfWriteRDSKblock stdBlkLayout dev rdsk).2 0 256) 8
          (adfNormalSum (memcpy (memset (fun _ => 0) 0 0 512) 0
            (adfWriteRDSKblock stdBlkLayout dev rdsk).2 0 256) 8 512))
    ∧ bytesAt (adfWriteRDSKblock stdBlkLayout dev rdsk).2 0 4 = idRDSK := by
  unfold adfWriteRDSKblock
  rw [if_neg (by rw [hrw]; decide!)]
  refine ⟨rfl, ?_⟩
  dsimp only [stdBlkLayout]
  simp [bytesAt, List.range, List.range.loop, memcpy_apply, swapUint32ToPtr, bytesOfList,
    idRDSK]

theorem adfWritePARTblock_std (dev : AdfDevice) (nSect : Int) (part : Bytes)
    (hrw : dev.readOnly = false) :
    (adfWritePARTblock stdBlkLayout dev nSect part).1
      = adfDevWriteBlock dev (toUInt32 nSect) 512
        (swapUint32ToPtr (memcpy (memset (fun _ => 0) 0 0 512) 0
          (adfWritePARTblock stdBlkLayout dev nSect part).2 0 256) 8
          (adfNormalSum (memcpy (memset (fun _ => 0) 0 0 512) 0
            (adfWritePARTblock stdBlkLayout dev nSect part).2 0 256) 8 512))
    ∧ bytesAt (adfWritePARTblock stdBlkLayout dev nSect part).2 0 4 = idPART
    ∧ swapUint32fromPtr (adfWritePARTblock stdBlkLayout dev nSect part).2 132 = 128 := by
  unfold adfWritePARTblock
  rw [if_neg (by rw [hrw]; decide!)]
  refine ⟨rfl, ?_, ?_⟩
  · dsimp only [stdBlkLayout]
    simp [bytesAt, List.range, List.range.loop, memcpy_apply, swapUint32ToPtr, bytesOfList,
      idPART]
  · dsimp only [stdBlkLayout]
    simp [swapUint32fromPtr, swapUint32ToPtr]

theorem adfWriteFSHDblock_std (dev : AdfDevice) (nSect : Int) (fshd : Bytes)
    (hrw : dev.readOnly = false) :
    (adfWriteFSHDblock stdBlkLayout dev nSect fshd).1
      = adfDevWriteBlock dev (toUInt32 nSect) 512
        (swapUint32ToPtr (memcpy (memset (fun _ => 0) 0 0 512) 0
          (adfWriteFSHDblock stdBlkLayout dev nSect fshd).2 0 256) 8
          (adfNormalSum (memcpy (memset (fun _ => 0) 0 0 512) 0
            (adfWriteFSHDblock stdBlkLayout dev nSect fshd).2 0 256) 8 512))
    ∧ bytesAt (adfWriteFSHDblock stdBlkLayout dev nSect fshd).2 0 4 = idFSHD := by
  unfold adfWriteFSHDblock
  rw [if_neg (by rw [hrw]; decide!)]
  refine ⟨rfl, ?_⟩
  dsimp only [stdBlkLayout]
  simp [bytesAt, List.range, List.range.loop, memcpy_apply, swapUint32ToPtr, bytesOfList,
    idFSHD]

theorem adfWriteLSEGblock_std (dev : AdfDevice) (nSect : Int) (lseg : Bytes)
    (hrw : dev.readOnly = false) :
    (adfWriteLSEGblock stdBlkLayout dev nSect lseg).1
      = adfDevWriteBlock dev (toUInt32 nSect) 512
        (swapUint32ToPtr (memcpy (memset (fun _ => 0) 0 0 512) 0
          (adfWriteLSEGblock stdBlkLayout dev nSect lseg).2 0 512) 8
          (adfNormalSum (memcpy (memset (fun _ => 0) 0 0 512) 0
            (adfWriteLSEGblock stdBlkLayout dev nSect lseg).2 0 512) 8 512))
    ∧ bytesAt (adfWriteLSEGblock stdBlkLayout dev nSect lseg).2 0 4 = idLSEG := by
  unfold adfWriteLSEGblock
  rw [if_neg (by rw [hrw]; decide!)]
  refine ⟨rfl, ?_⟩
  dsimp only [stdBlkLayout]
  simp [bytesAt, List.range, List.range.loop, memcpy_apply, swapUint32ToPtr, bytesOfList,
    idLSEG]

/-- Claim C13: on a read-write device, after `adfWriteRDSKblock`, `adfWritePARTblock`,
`adfWriteFSHDblock` or `adfWriteLSEGblock` has written a record, the matching reader
of the same sector returns OK, the members it decodes are those of the record as
written, and the checksum stored in the block is the normal sum that the reader
computes, over 256 bytes for RDSK, PART and FSHD and over 512 bytes for LSEG, although
the writers sum the 512 bytes of the sector. The driver meets the contracts of its
interface and the read of the sector succeeds. -/
theorem rdb_block_round_trip (env : AdfEnv) (dev : AdfDevice) (nSect : Int)
    (hrw : dev.readOnly = false) (hbs : dev.geometry.blockSize = 512)
    (hdev : dev.sizeBlocks < 4294967296) (hdrv : DriverWrites dev.drv dev.sizeBlocks) :
    (∀ rdsk blk, 0 < dev.sizeBlocks →
      (adfWriteRDSKblock stdBlkLayout dev rdsk).1.rc = ADF_RC_OK →
      DriverReads (adfWriteRDSKblock stdBlkLayout dev rdsk).1.dev →
      (adfDevReadBlock (adfWriteRDSKblock stdBlkLayout dev rdsk).1.dev 0 256
        (fun _ => 0)).rc = ADF_RC_OK →
      adfReadRDSKblock stdBlkLayout env (adfWriteRDSKblock stdBlkLayout dev rdsk).1.dev blk
        = (ADF_RC_OK,
          { decodeRDSK stdBlkLayout (adfWriteRDSKblock stdBlkLayout dev rdsk).2 with
            checksum := adfNormalSum
              (adfDevReadBlock (adfWriteRDSKblock stdBlkLayout dev rdsk).1.dev 0 256
                (fun _ => 0)).buf 8 256 }))
    ∧ (∀ part blk, toUInt32 nSect < dev.sizeBlocks →
      (adfWritePARTblock stdBlkLayout dev nSect part).1.rc = ADF_RC_OK →
      DriverReads (adfWritePARTblock stdBlkLayout dev nSect part).1.dev →
      (adfDevReadBlock (adfWritePARTblock stdBlkLayout dev nSect part).1.dev
        (toUInt32 nSect) 256 (fun _ => 0)).rc = ADF_RC_OK →
      adfReadPARTblock stdBlkLayout env (adfWritePARTblock stdBlkLayout dev nSect part).1.dev
          nSect blk
        = (ADF_RC_OK,
          { decodePART stdBlkLayout (adfWritePARTblock stdBlkLayout dev nSect part).2 with
            checksum := adfNormalSum
              (adfDevReadBlock (adfWritePARTblock stdBlkLayout dev nSect part).1.dev
                (toUInt32 nSect) 256 (fun _ => 0)).buf 8 256 }))
    ∧ (∀ fshd blk, toUInt32 nSect < dev.sizeBlocks →
      (adfWriteFSHDblock stdBlkLayout dev nSect fshd).1.rc = ADF_RC_OK →
      DriverReads (adfWriteFSHDblock stdBlkLayout dev nSect fshd).1.dev →
      (adfDevReadBlock (adfWriteFSHDblock stdBlkLayout dev nSect fshd).1.dev
        (toUInt32 nSect) 256 (fun _ => 0)).rc = ADF_RC_OK →
      adfReadFSHDblock stdBlkLayout env (adfWriteFSHDblock stdBlkLayout dev nSect fshd).1.dev
          nSect blk
        = (ADF_RC_OK,
          { decodeFSHD stdBlkLayout (adfWriteFSHDblock stdBlkLayout dev nSect fshd).2 with
            checksum := adfNormalSum
              (adfDevReadBlock (adfWriteFSHDblock stdBlkLayout dev nSect fshd).1.dev
                (toUInt32 nSect) 256 (fun _ => 0)).buf 8 256 }))
    ∧ (∀ lseg blk, toUInt32 nSect < dev.sizeBlocks →
      (adfWriteLSEGblock stdBlkLayout dev nSect lseg).1.rc = ADF_RC_OK →
      DriverReads (adfWriteLSEGblock stdBlkLayout dev nSect lseg).1.dev →
      (adfDevReadBlock (adfWriteLSEGblock stdBlkLayout dev nSect lseg).1.dev
        (toUInt32 nSect) 512 (fun _ => 0)).rc = ADF_RC_OK →
      adfReadLSEGblock stdBlkLayout env (adfWriteLSEGblock stdBlkLayout dev nSect lseg).1.dev
          nSect blk
        = (ADF_RC_OK,
          { decodeLSEG stdBlkLayout (adfWriteLSEGblock stdBlkLayout dev nSect lseg).2 with
            checksum := adfNormalSum
              (adfDevReadBlock (adfWriteLSEGblock stdBlkLayout dev nSect lseg).1.dev
                (toUInt32 nSect) 512 (fun _ => 0)).buf 8 512 })) := by
  refine ⟨?_, ?_, ?_, ?_⟩
  · intro rdsk blk hp hw hd1 hr
    obtain ⟨hstd, hid⟩ := adfWriteRDSKblock_std dev rdsk hrw
    generalize (adfWriteRDSKblock stdBlkLayout dev rdsk).2 = record at hstd hid ⊢
    generalize (adfWriteRDSKblock stdBlkLayout dev rdsk).1 = dw at hstd hw hd1 hr ⊢
    obtain ⟨hword, hbytes, hsum⟩ := round_trip_buffer dev 0 256 record hbs hdev hp
      (by omega) (by omega) (by omega) hdrv dw hstd hw hd1 hr
    unfold adfReadRDSKblock
    dsimp only [decodeRDSK, stdBlkLayout]
    rw [if_neg (not_not.mpr hr), hbytes 0 4 (by omega), if_neg (not_not.mpr hid),
      if_neg (fun h => h.1 hsum), hword 4 (by omega), hword 16 (by omega),
      hword 24 (by omega), hword 28 (by omega), hword 32 (by omega), hword 64 (by omega),
      hword 68 (by omega), hword 72 (by omega), hword 144 (by omega), hsum]
  · intro part blk hp hw hd1 hr
    obtain ⟨hstd, hid, hblk⟩ := adfWritePARTblock_std dev nSect part hrw
    generalize (adfWritePARTblock stdBlkLayout dev nSect part).2 = record at hstd hid hblk ⊢
    generalize (adfWritePARTblock stdBlkLayout dev nSect part).1 = dw at hstd hw hd1 hr ⊢
    obtain ⟨hword, hbytes, hsum⟩ := round_trip_buffer dev (toUInt32 nSect) 256 record hbs
      hdev hp (by omega) (by omega) (by omega) hdrv dw hstd hw hd1 hr
    unfold adfReadPARTblock
    dsimp only [decodePART, stdBlkLayout]
    have hb1 := hbytes 36 1 (by omega)
    simp only [bytesAt, List.range, List.range.loop, List.map_cons, List.map_nil,
      Nat.add_zero, List.cons.injEq, and_true] at hb1
    rw [if_neg (not_not.mpr hr), hbytes 0 4 (by omega), if_neg (not_not.mpr hid),
      hword 132 (by omega), if_neg (not_not.mpr hblk),
      if_neg (fun h => h.1 hsum), hword 4 (by omega), hword 16 (by omega),
      hbytes 37 31 (by omega), hword 164 (by omega), hword 168 (by omega), hsum, hb1]
  · intro fshd blk hp hw hd1 hr
    obtain ⟨hstd, hid⟩ := adfWriteFSHDblock_std dev nSect fshd hrw
    generalize (adfWriteFSHDblock stdBlkLayout dev nSect fshd).2 = record at hstd hid ⊢
    generalize (adfWriteFSHDblock stdBlkLayout dev nSect fshd).1 = dw at hstd hw hd1 hr ⊢
    obtain ⟨hword, hbytes, hsum⟩ := round_trip_buffer dev (toUInt32 nSect) 256 record hbs
      hdev hp (by omega) (by omega) (by omega) hdrv dw hstd hw hd1 hr
    unfold adfReadFSHDblock
    dsimp only [decodeFSHD, stdBlkLayout]
    rw [if_neg (not_not.mpr hr), hbytes 0 4 (by omega), if_neg (not_not.mpr hid),
      if_neg (fun h => h.1 hsum), hword 4 (by omega), hword 16 (by omega),
      hword 72 (by omega), hsum]
  · intro lseg blk hp hw hd1 hr
    obtain ⟨hstd, hid⟩ := adfWriteLSEGblock_std dev nSect lseg hrw
    generalize (adfWriteLSEGblock stdBlkLayout dev nSect lseg).2 = record at hstd hid ⊢
    generalize (adfWriteLSEGblock stdBlkLayout dev nSect lseg).1 = dw at hstd hw hd1 hr ⊢
    obtain ⟨hword, hbytes, hsum⟩ := round_trip_buffer dev (toUInt32 nSect) 512 record hbs
      hdev hp (by omega) (by omega) (by omega) hdrv dw hstd hw hd1 hr
    unfold adfReadLSEGblock
    dsimp only [decodeLSEG, stdBlkLayout]
    rw [if_neg (not_not.mpr hr), hbytes 0 4 (by omega), if_neg (not_not.mpr hid),
      if_neg (fun h => h.1 hsum), hword 4 (by omega), hword 16 (by omega), hsum]

set_option maxRecDepth 1000000 in
/-- Witness of `rdb_block_round_trip`: a RDSK record of zeroes written to the 10-block
read-write device and read back. -/
theorem rdb_block_round_trip_witness :
    (adfWriteRDSKblock stdBlkLayout onesDevice (fun _ => 0)).1.rc = ADF_RC_OK
    ∧ adfReadRDSKblock stdBlkLayout strictEnv
        (adfWriteRDSKblock stdBlkLayout onesDevice (fun _ => 0)).1.dev zeroRDSK
      = (ADF_RC_OK,
        { (decodeRDSK stdBlkLayout
            (adfWriteRDSKblock stdBlkLayout onesDevice (fun _ => 0)).2) with
          checksum := adfNormalSum
            (adfDevReadBlock (adfWriteRDSKblock stdBlkLayout onesDevice (fun _ => 0)).1.dev
              0 256 (fun _ => 0)).buf 8 256 }) :=
  ⟨by decide,
    (rdb_block_round_trip strictEnv onesDevice 0 rfl rfl (by decide)
      (dump_DriverWrites 10 (by decide))).1 (fun _ => 0) zeroRDSK (by decide) (by decide)
      (dump_DriverReads _ rfl (by decide) (by decide)) (by decide)⟩

/-! ## Vectors -/

/-- Claim C14: for every `itemSize > 0`, `adfVectorCreate` returns a vector with a
non-null `destroy`; for `nItems = 0` its `items` is NULL and its `nItems` is 0; for
`nItems > 0` whose allocation succeeds its `items` is non-null and its `nItems` is the
requested count; when the allocation fails its `items` is NULL and its `nItems` is 0;
so `nItems > 0` implies that `items` is non-null. -/
theorem adfVectorCreate_spec (malloc : Nat → Option Nat) (nItems itemSize : Nat)
    (hsize : itemSize > 0) :
    ∃ vector, adfVectorCreate malloc nItems itemSize = some vector
      ∧ vector.destroy ≠ none
      ∧ vector.itemSize = itemSize
      ∧ (nItems = 0 → vector.items = none ∧ vector.nItems = 0)
      ∧ (nItems > 0 → malloc ((nItems * itemSize) % 4294967296) ≠ none →
          vector.items ≠ none ∧ vector.nItems = nItems)
      ∧ (nItems > 0 → malloc ((nItems * itemSize) % 4294967296) = none →
          vector.items = none ∧ vector.nItems = 0)
      ∧ (vector.nItems > 0 → vector.items ≠ none) := by
  unfold adfVectorCreate
  rw [if_neg (not_not.mpr hsize)]
  refine ⟨_, rfl, by simp, rfl, ?_, ?_, ?_, ?_⟩
  · intro h0
    have hn : ¬ nItems > 0 := by omega
    dsimp only
    rw [if_neg hn]
    exact ⟨rfl, by simp⟩
  · intro hpos hm
    dsimp only
    rw [if_pos hpos]
    exact ⟨hm, by rw [if_pos hm]⟩
  · intro hpos hm
    dsimp only
    rw [if_pos hpos, hm]
    exact ⟨rfl, by simp⟩
  · dsimp only
    intro hn hitems
    rw [hitems] at hn
    simp at hn

/-- Witness of `adfVectorCreate_spec`: 256 items of 8 bytes, with an allocator that
returns the address 4096. -/
theorem adfVectorCreate_spec_witness :
    ∃ vector, adfVectorCreate (fun _ => some 4096) 256 8 = some vector
      ∧ vector.destroy ≠ none
      ∧ vector.itemSize = 8
      ∧ (256 = 0 → vector.items = none ∧ vector.nItems = 0)
      ∧ (256 > 0 → (fun _ => some 4096) ((256 * 8) % 4294967296) ≠ (none : Option Nat) →
          vector.items ≠ none ∧ vector.nItems = 256)
      ∧ (256 > 0 → (fun _ => some 4096) ((256 * 8) % 4294967296) = (none : Option Nat) →
          vector.items = none ∧ vector.nItems = 0)
      ∧ (vector.nItems > 0 → vector.items ≠ none) :=
  adfVectorCreate_spec (fun _ => some 4096) 256 8 (by decide)

/-- Claim C15: for every vector returned by `adfVectorCreate`, empty or not, the call of
its `destroy` function on it leaves `items` NULL, `nItems` 0 and `destroy` NULL, and
leaves `itemSize` as it was. -/
theorem adfVector_destroy (malloc : Nat → Option Nat) (nItems itemSize : Nat)
    (vector : AdfVector) (h : adfVectorCreate malloc nItems itemSize = some vector) :
    ∃ destroyed, vector.callDestroy = some destroyed
      ∧ destroyed.items = none ∧ destroyed.nItems = 0 ∧ destroyed.destroy = none
      ∧ destroyed.itemSize = vector.itemSize := by
  unfold adfVectorCreate at h
  by_cases hs : itemSize > 0
  · rw [if_neg (not_not.mpr hs)] at h
    have hv := (Option.some.inj h).symm
    have hd : vector.destroy = some AdfVectorDestroyFn.adfVectorDestroy := by
      rw [hv]
    unfold AdfVector.callDestroy
    rw [hd]
    exact ⟨_, rfl, rfl, rfl, rfl, rfl⟩
  · rw [if_pos hs] at h
    exact absurd h (by simp)

/-- Witness of `adfVector_destroy`: the empty vector and a vector of 256 items. -/
theorem adfVector_destroy_witness :
    (∃ destroyed, (AdfVector.mk none 0 8 (some AdfVectorDestroyFn.adfVectorDestroy)).callDestroy
        = some destroyed
      ∧ destroyed.items = none ∧ destroyed.nItems = 0 ∧ destroyed.destroy = none
      ∧ destroyed.itemSize
        = (AdfVector.mk none 0 8 (some AdfVectorDestroyFn.adfVectorDestroy)).itemSize)
    ∧ (∃ destroyed,
      (AdfVector.mk (some 4096) 256 8 (some AdfVectorDestroyFn.adfVectorDestroy)).callDestroy
        = some destroyed
      ∧ destroyed.items = none ∧ destroyed.nItems = 0 ∧ destroyed.destroy = none
      ∧ destroyed.itemSize
        = (AdfVector.mk (some 4096) 256 8
            (some AdfVectorDestroyFn.adfVectorDestroy)).itemSize) :=
  ⟨adfVector_destroy (fun _ => some 4096) 0 8 _ rfl,
    adfVector_destroy (fun _ => some 4096) 256 8 _ rfl⟩



/-! ## Mounting a floppy -/

/-- The result of `adfMountFlop` on a floppy whose boot block is read and carries a DOS
filesystem, by the outcome of the two attempts to read the root block. -/
theorem adfMountFlop_dos (K : AdfDecls) (dev : AdfDevice) (boot : Bytes) (b : Int)
    (vol : AdfVolume)
    (hrc : (adfDevReadBlock dev 0 512 (fun _ => 0)).rc = ADF_RC_OK)
    (hboot : (adfDevReadBlock dev 0 512 (fun _ => 0)).buf = boot)
    (hdos : adfVolIsDosFS (adfMountFlop.fsVolume dev boot) = true)
    (hb : toInt32 (swapUint32fromPtr boot K.blk.boot_rootBlock) = b)
    (hvol : adfMountFlop.dosVolume dev boot = vol) :
    adfMountFlop K dev
      = if b > 1 ∧ (adfMountFlop.readRoot K dev vol b).1 = ADF_RC_OK then
          (ADF_RC_OK, { dev with
            volList := some [{ vol with
              rootBlock := b,
              volName := some (strndup (adfMountFlop.readRoot K dev vol b).2.diskName
                (min (adfMountFlop.readRoot K dev vol b).2.nameLen ADF_MAX_NAME_LEN)) }],
            nVol := 1 })
        else if (adfMountFlop.readRoot K dev vol (adfVolCalcRootBlk vol)).1 = ADF_RC_OK then
          (ADF_RC_OK, { dev with
            volList := some [{ vol with
              rootBlock := adfVolCalcRootBlk vol,
              volName := some (strndup
                (adfMountFlop.readRoot K dev vol (adfVolCalcRootBlk vol)).2.diskName
                (min (adfMountFlop.readRoot K dev vol (adfVolCalcRootBlk vol)).2.nameLen
                  ADF_MAX_NAME_LEN)) }],
            nVol := 1 })
        else ((adfMountFlop.readRoot K dev vol (adfVolCalcRootBlk vol)).1, dev) := by
  have h0 : toUInt32 (adfMountFlop.newVolume dev).firstBlock = 0 := rfl
  unfold adfMountFlop
  dsimp only
  rw [h0, if_neg (not_not.mpr hrc), hboot, if_pos hdos, hb, hvol]
  by_cases h1 : b > 1
  · rw [if_pos h1]
    dsimp only
    by_cases h2 : (adfMountFlop.readRoot K dev vol b).1 = ADF_RC_OK
    · have h3 : ¬ (b ≤ 1 ∨ (adfMountFlop.readRoot K dev vol b).1 ≠ ADF_RC_OK) := by
        intro h
        rcases h with h | h
        · omega
        · exact h h2
      have h5 : b > 1 ∧ (adfMountFlop.readRoot K dev vol b).1 = ADF_RC_OK := ⟨h1, h2⟩
      rw [if_neg h3, if_pos h5]
      dsimp only
      rw [if_neg (not_not.mpr h2)]
    · have h3 : b ≤ 1 ∨ (adfMountFlop.readRoot K dev vol b).1 ≠ ADF_RC_OK := Or.inr h2
      have h5 : ¬ (b > 1 ∧ (adfMountFlop.readRoot K dev vol b).1 = ADF_RC_OK) :=
        fun h => h2 h.2
      rw [if_pos h3, if_neg h5]
      dsimp only
      by_cases h4 : (adfMountFlop.readRoot K dev vol (adfVolCalcRootBlk vol)).1 = ADF_RC_OK
      · rw [if_neg (not_not.mpr h4), if_pos h4]
      · rw [if_pos h4, if_neg h4]
  · rw [if_neg h1]
    dsimp only
    have h3 : b ≤ 1 ∨ ADF_RC_OK ≠ ADF_RC_OK := Or.inl (by omega)
    have h5 : ¬ (b > 1 ∧ (adfMountFlop.readRoot K dev vol b).1 = ADF_RC_OK) :=
      fun h => h1 h.1
    rw [if_pos h3, if_neg h5]
    dsimp only
    by_cases h4 : (adfMountFlop.readRoot K dev vol (adfVolCalcRootBlk vol)).1 = ADF_RC_OK
    · rw [if_neg (not_not.mpr h4), if_pos h4]
    · rw [if_pos h4, if_neg h4]

/-- Claim C20: on a floppy whose boot block is read and carries a DOS filesystem,
`adfMountFlop` sets the root block of the volume to the value `b` stored in the boot
block when `b > 1` and the root block is read at that sector; in every other case it
sets it to the calculated position `adfVolCalcRootBlk`, that is
`(firstBlock + lastBlock + 1) / 2`, and the mount fails exactly when the root block
cannot be read at the calculated position either. -/
theorem adfMountFlop_rootBlock (K : AdfDecls) (dev : AdfDevice) (boot : Bytes) (b : Int)
    (vol : AdfVolume)
    (hrc : (adfDevReadBlock dev 0 512 (fun _ => 0)).rc = ADF_RC_OK)
    (hboot : (adfDevReadBlock dev 0 512 (fun _ => 0)).buf = boot)
    (hdos : adfVolIsDosFS (adfMountFlop.fsVolume dev boot) = true)
    (hb : toInt32 (swapUint32fromPtr boot K.blk.boot_rootBlock) = b)
    (hvol : adfMountFlop.dosVolume dev boot = vol) :
    (b > 1 ∧ (adfMountFlop.readRoot K dev vol b).1 = ADF_RC_OK →
      (adfMountFlop K dev).1 = ADF_RC_OK
      ∧ ∃ v, (adfMountFlop K dev).2.volList = some [v] ∧ v.rootBlock = b)
    ∧ (¬ (b > 1 ∧ (adfMountFlop.readRoot K dev vol b).1 = ADF_RC_OK) →
      ((adfMountFlop.readRoot K dev vol (adfVolCalcRootBlk vol)).1 = ADF_RC_OK →
        (adfMountFlop K dev).1 = ADF_RC_OK
        ∧ ∃ v, (adfMountFlop K dev).2.volList = some [v]
          ∧ v.rootBlock = adfVolCalcRootBlk vol)
      ∧ ((adfMountFlop.readRoot K dev vol (adfVolCalcRootBlk vol)).1 ≠ ADF_RC_OK →
        (adfMountFlop K dev).1 ≠ ADF_RC_OK ∧ (adfMountFlop K dev).2 = dev))
    ∧ ((adfMountFlop K dev).1 ≠ ADF_RC_OK →
      (adfMountFlop.readRoot K dev vol (adfVolCalcRootBlk vol)).1 ≠ ADF_RC_OK)
    ∧ adfVolCalcRootBlk vol
      = toInt32 (Int.tdiv (toInt32 (toInt32 (vol.firstBlock + vol.lastBlock) + 1)) 2) := by
  rw [adfMountFlop_dos K dev boot b vol hrc hboot hdos hb hvol]
  refine ⟨?_, ?_, ?_, rfl⟩
  · intro h1
    rw [if_pos h1]
    exact ⟨rfl, _, rfl, rfl⟩
  · intro h1
    rw [if_neg h1]
    constructor
    · intro h2
      rw [if_pos h2]
      exact ⟨rfl, _, rfl, rfl⟩
    · intro h2
      rw [if_neg h2]
      exact ⟨h2, rfl⟩
  · intro hfail
    by_cases h1 : b > 1 ∧ (adfMountFlop.readRoot K dev vol b).1 = ADF_RC_OK
    · rw [if_pos h1] at hfail
      exact absurd rfl hfail
    · rw [if_neg h1] at hfail
      intro h2
      rw [if_pos h2] at hfail
      exact absurd rfl hfail

set_option maxRecDepth 1000000 in
/-- Witness of `adfMountFlop_rootBlock`: the double density floppy whose boot block
names sector 880, where its root block is. -/
theorem adfMountFlop_rootBlock_witness :
    (adfMountFlop (sampleDecls strictEnv) flopDevice).1 = ADF_RC_OK
    ∧ ∃ v, (adfMountFlop (sampleDecls strictEnv) flopDevice).2.volList = some [v]
      ∧ v.rootBlock = 880 :=
  (adfMountFlop_rootBlock (sampleDecls strictEnv) flopDevice
    (adfDevReadBlock flopDevice 0 512 (fun _ => 0)).buf 880
    (adfMountFlop.dosVolume flopDevice (adfDevReadBlock flopDevice 0 512 (fun _ => 0)).buf)
    (by decide) rfl (by decide) (by decide) rfl).1 ⟨by decide, by decide⟩

/-! ## Volume names -/

theorem strlen_le_length (s : List Nat) : strlen s ≤ s.length := by
  unfold strlen
  exact (List.takeWhile_sublist _).length_le

theorem strndup_length_le (s : List Nat) (n : Nat) : (strndup s n).length ≤ n := by
  unfold strndup
  calc ((s.take n).takeWhile (fun c => c ≠ 0)).length
      ≤ (s.take n).length := (List.takeWhile_sublist _).length_le
    _ ≤ n := by rw [List.length_take]; exact Nat.min_le_left _ _

/-- A name made by `strndup` with a length bounded by `ADF_MAX_NAME_LEN` has at most 30
characters. -/
theorem strlen_strndup_le (s : List Nat) (n : Nat) :
    strlen (strndup s (min n ADF_MAX_NAME_LEN)) ≤ 30 := by
  have h1 := strlen_le_length (strndup s (min n ADF_MAX_NAME_LEN))
  have h2 := strndup_length_le s (min n ADF_MAX_NAME_LEN)
  have h3 : min n ADF_MAX_NAME_LEN ≤ 30 := Nat.min_le_right _ _
  omega

theorem adfMountFlop_fail (K : AdfDecls) (dev : AdfDevice)
    (hrc : (adfDevReadBlock dev 0 512 (fun _ => 0)).rc ≠ ADF_RC_OK) :
    adfMountFlop K dev = ((adfDevReadBlock dev 0 512 (fun _ => 0)).rc, dev) := by
  have h0 : toUInt32 (adfMountFlop.newVolume dev).firstBlock = 0 := rfl
  unfold adfMountFlop
  dsimp only
  rw [h0, if_pos hrc]

theorem adfMountFlop_nodos (K : AdfDecls) (dev : AdfDevice)
    (hrc : (adfDevReadBlock dev 0 512 (fun _ => 0)).rc = ADF_RC_OK)
    (hdos : ¬ adfVolIsDosFS (adfMountFlop.fsVolume dev
      (adfDevReadBlock dev 0 512 (fun _ => 0)).buf) = true) :
    adfMountFlop K dev
      = (ADF_RC_OK, { dev with
          volList := some [{ adfMountFlop.fsVolume dev
            (adfDevReadBlock dev 0 512 (fun _ => 0)).buf with
            datablockSize := 0, volName := none, rootBlock := -1 }],
          nVol := 1 }) := by
  have h0 : toUInt32 (adfMountFlop.newVolume dev).firstBlock = 0 := rfl
  unfold adfMountFlop
  dsimp only
  rw [h0, if_neg (not_not.mpr hrc), if_neg hdos]

/-- The volume of a successful `adfMountFlop`: it starts at block 0 and ends at the
last block of the geometry; when its filesystem is DOS its root block is where the root
block was read (the value of the boot block, above 1, or the calculated position) and
its name was made by `strndup`; otherwise it has no name. -/
theorem adfMountFlop_ok (K : AdfDecls) (dev : AdfDevice)
    (hok : (adfMountFlop K dev).1 = ADF_RC_OK) :
    ∃ vol, (adfMountFlop K dev).2.volList = some [vol]
      ∧ vol.firstBlock = 0
      ∧ vol.lastBlock = (adfMountFlop.newVolume dev).lastBlock
      ∧ (∀ name, vol.volName = some name → strlen name ≤ 30)
      ∧ (adfVolIsDosFS vol = true →
          ∃ dosVol, dosVol.firstBlock = 0
            ∧ dosVol.lastBlock = (adfMountFlop.newVolume dev).lastBlock
            ∧ (adfMountFlop.readRoot K dev dosVol vol.rootBlock).1 = ADF_RC_OK
            ∧ ((1 < vol.rootBlock ∧ vol.rootBlock < 2147483648)
              ∨ vol.rootBlock = adfVolCalcRootBlk dosVol)) := by
  by_cases hrc : (adfDevReadBlock dev 0 512 (fun _ => 0)).rc = ADF_RC_OK
  · by_cases hdos : adfVolIsDosFS (adfMountFlop.fsVolume dev
        (adfDevReadBlock dev 0 512 (fun _ => 0)).buf) = true
    · have h := adfMountFlop_dos K dev _ _ _ hrc rfl hdos rfl rfl
      have hblt : toInt32 (swapUint32fromPtr (adfDevReadBlock dev 0 512 (fun _ => 0)).buf
          K.blk.boot_rootBlock) < 2147483648 := by
        unfold toInt32
        omega
      generalize toInt32 (swapUint32fromPtr (adfDevReadBlock dev 0 512 (fun _ => 0)).buf
        K.blk.boot_rootBlock) = b at h hblt
      have hv1 : (adfMountFlop.dosVolume dev
          (adfDevReadBlock dev 0 512 (fun _ => 0)).buf).firstBlock = 0 := rfl
      have hv2 : (adfMountFlop.dosVolume dev
          (adfDevReadBlock dev 0 512 (fun _ => 0)).buf).lastBlock
          = (adfMountFlop.newVolume dev).lastBlock := rfl
      generalize adfMountFlop.dosVolume dev (adfDevReadBlock dev 0 512 (fun _ => 0)).buf
        = dosVol at h hv1 hv2
      rw [h] at hok ⊢
      by_cases h1 : b > 1 ∧ (adfMountFlop.readRoot K dev dosVol b).1 = ADF_RC_OK
      · rw [if_pos h1]
        refine ⟨_, rfl, hv1, hv2, ?_, ?_⟩
        · intro name hname
          rw [← Option.some.inj hname]
          exact strlen_strndup_le _ _
        · intro _
          exact ⟨dosVol, hv1, hv2, h1.2, Or.inl ⟨h1.1, hblt⟩⟩
      · rw [if_neg h1] at hok ⊢
        by_cases h2 : (adfMountFlop.readRoot K dev dosVol (adfVolCalcRootBlk dosVol)).1
            = ADF_RC_OK
        · rw [if_pos h2]
          refine ⟨_, rfl, hv1, hv2, ?_, ?_⟩
          · intro name hname
            rw [← Option.some.inj hname]
            exact strlen_strndup_le _ _
          · intro _
            exact ⟨dosVol, hv1, hv2, h2, Or.inr rfl⟩
        · rw [if_neg h2] at hok
          exact absurd hok h2
    · rw [adfMountFlop_nodos K dev hrc hdos]
      refine ⟨_, rfl, rfl, rfl, ?_, ?_⟩
      · intro name hname
        exact absurd hname (by simp)
      · intro hd
        exact absurd hd hdos
  · rw [adfMountFlop_fail K dev hrc] at hok
    exact absurd hok hrc

theorem mountDos_name (K : AdfDecls) (dev1 : AdfDevice) (vol : AdfVolume)
    (hok : (adfMountHdFile.mountDos K dev1 vol).1 = ADF_RC_OK) :
    ∃ v, (adfMountHdFile.mountDos K dev1 vol).2.volList = some [v]
      ∧ ∀ name, v.volName = some name → strlen name ≤ 30 := by
  generalize hres : adfMountHdFile.mountDos K dev1 vol = res at hok ⊢
  unfold adfMountHdFile.mountDos at hres
  dsimp only at hres
  generalize adfMountHdFile.scan dev1 dev1.sizeBlocks
    (toInt32 ((dev1.sizeBlocks / 2 : Nat) : Int)) = sc at hres
  by_cases h1 : sc.1 = ADF_RC_OK
  · have h1n : ¬ sc.1 ≠ ADF_RC_OK := not_not.mpr h1
    rw [if_neg h1n] at hres
    by_cases h2 : sc.2.1 = 1
    · rw [if_pos h2] at hres
      rw [← hres] at hok
      dsimp only at hok
      exact absurd hok (by decide!)
    · rw [if_neg h2] at hres
      split_ifs at hres with h3
      · rw [← hres] at hok
        exact absurd hok h3
      · rw [← hres]
        refine ⟨_, rfl, ?_⟩
        intro name hname
        rw [← Option.some.inj hname]
        exact strlen_strndup_le _ _
  · rw [if_pos h1] at hres
    rw [← hres] at hok
    exact absurd hok h1

/-- The volume of a successful `adfMountHdFile`. -/
theorem adfMountHdFile_ok (K : AdfDecls) (dev : AdfDevice)
    (hsz : dev.sizeBlocks < 2147483648)
    (hok : (adfMountHdFile K dev).1 = ADF_RC_OK) :
    ∃ vol, (adfMountHdFile K dev).2.volList = some [vol]
      ∧ vol.firstBlock = 0
      ∧ (∀ name, vol.volName = some name → strlen name ≤ 30)
      ∧ (adfVolIsDosFS vol = true → vol.lastBlock = 2 * vol.rootBlock - 1) := by
  generalize hres : adfMountHdFile K dev = res at hok ⊢
  unfold adfMountHdFile at hres
  dsimp only at hres
  generalize adfDevReadBlock { dev with nVol := 1, volList := some [adfMountHdFile.newVolume] }
    (toUInt32 adfMountHdFile.newVolume.firstBlock) 512 (fun _ => 0) = rb at hres
  generalize (if adfVolIsOFS { adfMountHdFile.newVolume with
      fs_id := bytesAt rb.buf 0 3, fs_type := rb.buf 3 % 256 } = true then 488 else 512 : Nat)
    = dbs at hres
  by_cases h1 : rb.rc = ADF_RC_OK
  · have h1n : ¬ rb.rc ≠ ADF_RC_OK := not_not.mpr h1
    rw [if_neg h1n] at hres
    split_ifs at hres with h2
    · rw [← hres] at hok
      obtain ⟨vol4, m1, m2, m3, m4, m5, m6, m7⟩ := mountDos_spec K _ _ (by exact hsz) hok
      obtain ⟨v, n1, n2⟩ := mountDos_name K _ _ hok
      rw [← hres]
      rw [m1] at n1
      have hv : vol4 = v := List.head_eq_of_cons_eq (Option.some.inj n1)
      subst hv
      exact ⟨vol4, m1, m3, n2, fun _ => m5⟩
    · rw [← hres]
      refine ⟨_, rfl, rfl, ?_, ?_⟩
      · intro name hname
        exact absurd hname (by simp)
      · intro hdos
        unfold adfVolIsDosFS at hdos h2
        dsimp only at hdos h2
        exact absurd hdos h2
  · rw [if_pos h1] at hres
    rw [← hres] at hok
    exact absurd hok h1

/-- The volumes of a successful `adfMountHd`: those built from the PART blocks of the
chain, in chain order. -/
theorem adfMountHd_ok_volumes (L : AdfBlkLayout) (env : AdfEnv) (fuel : Nat)
    (dev : AdfDevice)
    (h : (adfMountHd L env fuel dev).map Prod.fst = some ADF_RC_OK) :
    ∃ rdsk parts,
      adfReadRDSKblock L env dev zeroRDSK = (ADF_RC_OK, rdsk)
      ∧ PartChain L env dev (toInt32 rdsk.partitionList) parts
      ∧ (adfMountHd L env fuel dev).bind (fun r => r.2.volList)
        = some (chainVolumes dev rdsk parts) := by
  unfold adfMountHd at h ⊢
  simp only at h ⊢
  by_cases hrr : (adfReadRDSKblock L env dev zeroRDSK).1 = ADF_RC_OK
  · simp only [hrr, ne_eq, not_true_eq_false, if_false] at h ⊢
    cases hpl : adfMountHd.partLoop L env dev (adfReadRDSKblock L env dev zeroRDSK).2 fuel
        (toInt32 (adfReadRDSKblock L env dev zeroRDSK).2.partitionList) zeroPART 0 [] with
    | none => simp [hpl] at h
    | some t =>
      obtain ⟨rc, nVol, vList⟩ := t
      simp only [hpl, fshdLoop_dev, lsegLoop_dev] at h
      simp only [fshdLoop_dev, lsegLoop_dev]
      by_cases hrc : rc = ADF_RC_OK
      · subst hrc
        simp only [ne_eq, not_true_eq_false, if_false] at h ⊢
        obtain ⟨parts, hc, _, hnv, hvl⟩ := partLoop_sound L env dev _ _ _ _ _ _ _ _ hpl
        refine ⟨(adfReadRDSKblock L env dev zeroRDSK).2, parts, Prod.ext hrr rfl, hc, ?_⟩
        cases hfs : adfMountHd.fshdLoop L env dev fuel
            (toInt32 (adfReadRDSKblock L env dev zeroRDSK).2.fileSysHdrList) initFSHD with
        | none => simp [hfs] at h
        | some fshd =>
          simp only [hfs] at h ⊢
          cases hls : adfMountHd.lsegLoop L env dev fuel
              (toInt32 fshd.segListBlock) zeroLSEG with
          | none => simp [hls] at h
          | some u =>
            simp only [Option.some_bind, Option.some.injEq]
            rw [hvl, hnv]
            simp [chainVolumes]
      · simp [hrc] at h
  · simp [hrr] at h

/-- The name that `adfMountHd` gives a volume has at most 31 characters when the
`nameLen` of the PART block is not negative as a `char`. -/
theorem newVolume_name (rdsk : AdfRDSKblock) (part : AdfPARTblock) (boot : Bytes)
    (hlen : 0 ≤ toInt8 part.nameLen) (name : List Nat)
    (hname : (adfMountHd.newVolume rdsk part boot).volName = some name) :
    strlen name ≤ 31 := by
  unfold adfMountHd.newVolume at hname
  dsimp only at hname
  rw [← Option.some.inj hname]
  have h1 := strlen_le_length (List.take (toUInt32 (min 31 (toInt8 part.nameLen))) part.name)
  have h2 : toUInt32 (min 31 (toInt8 part.nameLen)) ≤ 31 := by
    unfold toUInt32
    omega
  have h3 : (List.take (toUInt32 (min 31 (toInt8 part.nameLen))) part.name).length
      ≤ toUInt32 (min 31 (toInt8 part.nameLen)) := by
    rw [List.length_take]
    exact Nat.min_le_left _ _
  omega

set_option maxRecDepth 1000000 in
/-- Claim C16, refuted as stated: `adfMountHd` mounts the partition of the sample image
whose PART block carries a name of 31 characters, and the name of its volume has 31
characters. -/
theorem adfMountHd_name_31 :
    (adfMountHd stdBlkLayout strictEnv 5 (rdbDeviceOf longNameWords)).map
        (fun r => (r.1, r.2.volList.map (fun l => l.map (fun v => v.volName.map strlen))))
      = some (ADF_RC_OK, some [some 31]) := by
  decide!

/-- Claim C16, amended: the volume names produced by `adfMountFlop`, `adfMountHdFile`
(from any root block, whatever its `nameLen`) and `adfVolCreate` (from any `volName`
argument) have at most 30 characters; the volume name that `adfMountHd` produces from
a PART block whose `nameLen` is not negative as a `char` has at most 31 characters. -/
theorem volume_name_length (K : AdfDecls) (env : AdfEnv) (fuel : Nat) (dev : AdfDevice)
    (hsz : dev.sizeBlocks < 2147483648) :
    ((adfMountFlop K dev).1 = ADF_RC_OK →
      ∃ vol, (adfMountFlop K dev).2.volList = some [vol]
        ∧ ∀ name, vol.volName = some name → strlen name ≤ 30)
    ∧ ((adfMountHdFile K dev).1 = ADF_RC_OK →
      ∃ vol, (adfMountHdFile K dev).2.volList = some [vol]
        ∧ ∀ name, vol.volName = some name → strlen name ≤ 30)
    ∧ (∀ written start len volName volType vol name,
      adfVolCreate written dev start len volName volType = some vol →
      vol.volName = some name → strlen name ≤ 30)
    ∧ ((adfMountHd K.blk env fuel dev).map Prod.fst = some ADF_RC_OK →
      ∃ rdsk parts vols,
        adfReadRDSKblock K.blk env dev zeroRDSK = (ADF_RC_OK, rdsk)
        ∧ PartChain K.blk env dev (toInt32 rdsk.partitionList) parts
        ∧ (adfMountHd K.blk env fuel dev).bind (fun r => r.2.volList) = some vols
        ∧ List.Forall₂ (fun part vol => 0 ≤ toInt8 part.nameLen →
            ∀ name, vol.volName = some name → strlen name ≤ 31) parts vols) := by
  refine ⟨?_, ?_, ?_, ?_⟩
  · intro hok
    obtain ⟨vol, h1, _, _, h4, _⟩ := adfMountFlop_ok K dev hok
    exact ⟨vol, h1, h4⟩
  · intro hok
    obtain ⟨vol, h1, _, h3, _⟩ := adfMountHdFile_ok K dev hsz hok
    exact ⟨vol, h1, h3⟩
  · intro written start len volName volType vol name hvol hname
    unfold adfVolCreate at hvol
    dsimp only at hvol
    split_ifs at hvol with hw
    rw [← Option.some.inj hvol] at hname
    dsimp only at hname
    rw [← Option.some.inj hname]
    exact strlen_strndup_le _ _
  · intro hok
    obtain ⟨rdsk, parts, h1, h2, h3⟩ := adfMountHd_ok_volumes K.blk env fuel dev hok
    refine ⟨rdsk, parts, _, h1, h2, h3, ?_⟩
    unfold chainVolumes
    rw [List.forall₂_map_right_iff]
    apply List.forall₂_same.mpr
    intro p _ hlen name hname
    exact newVolume_name rdsk p _ hlen name hname

set_option maxRecDepth 1000000 in
/-- Witness of `volume_name_length`: the floppy image, whose volume is named `HDF`. -/
theorem volume_name_length_witness :
    ∃ vol, (adfMountFlop (sampleDecls strictEnv) flopDevice).2.volList = some [vol]
      ∧ ∀ name, vol.volName = some name → strlen name ≤ 30 :=
  (volume_name_length (sampleDecls strictEnv) strictEnv 5 flopDevice (by decide)).1
    (by decide)

/-! ## The root block lies inside the volume -/

/-- The calculated position of the root block lies inside a volume that is not empty
and whose block numbers are below `2^30`. -/
theorem adfVolCalcRootBlk_range (vol : AdfVolume) (h0 : 0 ≤ vol.firstBlock)
    (h1 : vol.firstBlock ≤ vol.lastBlock) (h2 : vol.lastBlock < 1073741824) :
    vol.firstBlock ≤ adfVolCalcRootBlk vol ∧ adfVolCalcRootBlk vol ≤ vol.lastBlock := by
  unfold adfVolCalcRootBlk
  rw [toInt32_of_range (x := vol.firstBlock + vol.lastBlock) (by omega) (by omega),
    toInt32_of_range (x := vol.firstBlock + vol.lastBlock + 1) (by omega) (by omega),
    Int.tdiv_eq_ediv (by omega) (by omega)]
  rw [toInt32_of_range (by omega) (by omega)]
  omega

theorem adfVolCalcRootBlk_congr (v1 v2 : AdfVolume) (h1 : v1.firstBlock = v2.firstBlock)
    (h2 : v1.lastBlock = v2.lastBlock) : adfVolCalcRootBlk v1 = adfVolCalcRootBlk v2 := by
  unfold adfVolCalcRootBlk
  rw [h1, h2]

/-- With the checks of `adfReadRootBlock`, a root block read on a volume that starts
at block 0 lies at a sector of the volume. -/
theorem readRoot_in_range (K : AdfDecls) (hK : ReadRootBlockChecks K) (dev : AdfDevice)
    (vol : AdfVolume) (root : Int) (hf : vol.firstBlock = 0) (hl0 : 0 ≤ vol.lastBlock)
    (hl : vol.lastBlock < 2147483648) (hr0 : 0 ≤ root) (hr : root < 2147483648)
    (hok : (adfMountFlop.readRoot K dev vol root).1 = ADF_RC_OK) :
    root ≤ vol.lastBlock := by
  unfold adfMountFlop.readRoot at hok
  have h := (hK _ _ _ hok).1
  unfold adfVolReadBlock at h
  dsimp only at h
  rw [if_neg (by decide!), hf] at h
  have e0 : toUInt32 0 = 0 := rfl
  have e1 : toUInt32 root = root.toNat := by
    unfold toUInt32
    rw [Int.emod_eq_of_lt (by omega) (by omega)]
  have e2 : toUInt32 vol.lastBlock = vol.lastBlock.toNat := by
    unfold toUInt32
    rw [Int.emod_eq_of_lt (by omega) (by omega)]
  rw [e0, e1, e2] at h
  by_contra hgt
  have hout : (root.toNat + 0) % 4294967296 < 0
      ∨ (root.toNat + 0) % 4294967296 > vol.lastBlock.toNat := by
    right
    omega
  rw [if_pos hout] at h
  exact absurd h (by decide!)

theorem newVolume_root (rdsk : AdfRDSKblock) (part : AdfPARTblock) (boot : Bytes)
    (hdos : adfVolIsDosFS (adfMountHd.newVolume rdsk part boot) = true) :
    (adfMountHd.newVolume rdsk part boot).rootBlock
      = adfVolCalcRootBlk (adfMountHd.newVolume rdsk part boot) := by
  unfold adfMountHd.newVolume at hdos ⊢
  unfold adfVolIsDosFS at hdos ⊢
  dsimp only at hdos ⊢
  rw [if_pos hdos]
  exact adfVolCalcRootBlk_congr _ _ rfl rfl

set_option maxRecDepth 1000000 in
/-- Claim C17, refuted as stated: `adfDevMount` mounts the sample hard disk whose PART
block has its high cylinder below its low cylinder; its DOS volume starts at block 4,
ends at block 1 and has its root block at 3, below its first block. -/
theorem adfDevMount_root_outside :
    (adfDevMount (sampleDecls strictEnv) strictEnv 5 (some (rdbDeviceOf backwardWords))).map
        (fun r => (r.1, r.2.map (fun d => d.volList.map (fun l => l.map
          (fun v => (adfVolIsDosFS v, v.firstBlock, v.rootBlock, v.lastBlock))))))
      = some (ADF_RC_OK, some (some [(true, 4, 3, 1)])) := by
  rfl

/-- Claim C17, amended: every DOS volume produced by a successful `adfDevMount`
(floppy, hardfile or hard disk partition) or by `adfVolCreate` whose extent is not
empty and lies below block `2^30` (`0 ≤ firstBlock ≤ lastBlock < 2^30`) satisfies
`firstBlock ≤ rootBlock ≤ lastBlock`. `adfReadRootBlock` makes the checks of a root
block reader. -/
theorem dos_volume_root_in_extent (K : AdfDecls) (env : AdfEnv) (fuel : Nat)
    (dev dev1 : AdfDevice) (hK : ReadRootBlockChecks K)
    (hsz : dev.sizeBlocks < 2147483648) :
    (adfDevMount K env fuel (some dev) = some (ADF_RC_OK, some dev1) →
      ∀ l vol, dev1.volList = some l → vol ∈ l → adfVolIsDosFS vol = true →
        0 ≤ vol.firstBlock → vol.firstBlock ≤ vol.lastBlock → vol.lastBlock < 1073741824 →
        vol.firstBlock ≤ vol.rootBlock ∧ vol.rootBlock ≤ vol.lastBlock)
    ∧ (∀ written start len volName volType vol,
      adfVolCreate written dev start len volName volType = some vol →
        0 ≤ vol.firstBlock → vol.firstBlock ≤ vol.lastBlock → vol.lastBlock < 1073741824 →
        vol.firstBlock ≤ vol.rootBlock ∧ vol.rootBlock ≤ vol.lastBlock) := by
  constructor
  · intro h l vol hl hmem hdos h0 h1 h2
    unfold adfDevMount at h
    dsimp only at h
    cases hc : dev.dev_class
    · rw [hc] at h
      dsimp only at h
      rw [if_pos (by decide!)] at h
      have hne := congrArg Prod.fst (Option.some.inj h)
      dsimp only at hne
      exact absurd hne (by decide!)
    · rw [hc] at h
      dsimp only at h
      by_cases hrc : (adfMountFlop K dev).1 = ADF_RC_OK
      · rw [if_neg (not_not.mpr hrc)] at h
        have hd := Option.some.inj (congrArg Prod.snd (Option.some.inj h))
        rw [← hd] at hl
        dsimp only at hl
        obtain ⟨v, f1, f2, f3, _, f5⟩ := adfMountFlop_ok K dev hrc
        rw [f1] at hl
        rw [← Option.some.inj hl] at hmem
        rw [List.mem_singleton] at hmem
        subst hmem
        obtain ⟨dosVol, g1, g2, g3, g4⟩ := f5 hdos
        rw [← f3] at g2
        rcases g4 with g4 | g4
        · have := readRoot_in_range K hK dev dosVol vol.rootBlock g1 (by omega) (by omega)
            (by omega) g4.2 g3
          omega
        · rw [g4]
          have := adfVolCalcRootBlk_range dosVol (by omega) (by omega) (by omega)
          omega
      · rw [if_pos hrc] at h
        exact (hrc (congrArg Prod.fst (Option.some.inj h))).elim
    · rw [hc] at h
      dsimp only at h
      cases hm : adfMountHd K.blk env fuel dev with
      | none =>
        rw [hm] at h
        exact absurd h (by simp)
      | some r =>
        obtain ⟨rc, d1⟩ := r
        rw [hm] at h
        dsimp only at h
        by_cases hrc : rc = ADF_RC_OK
        · rw [if_neg (not_not.mpr hrc)] at h
          have hd := Option.some.inj (congrArg Prod.snd (Option.some.inj h))
          rw [← hd] at hl
          dsimp only at hl
          obtain ⟨rdsk, parts, _, _, k3⟩ := adfMountHd_ok_volumes K.blk env fuel dev
            (by rw [hm, hrc]; rfl)
          rw [hm] at k3
          simp only [Option.some_bind] at k3
          rw [hl] at k3
          rw [Option.some.inj k3] at hmem
          unfold chainVolumes at hmem
          obtain ⟨p, _, hp⟩ := List.mem_map.mp hmem
          subst hp
          rw [newVolume_root rdsk p _ hdos]
          exact adfVolCalcRootBlk_range _ h0 h1 h2
        · rw [if_pos hrc] at h
          exact (hrc (congrArg Prod.fst (Option.some.inj h))).elim
    · rw [hc] at h
      dsimp only at h
      by_cases hrc : (adfMountHdFile K dev).1 = ADF_RC_OK
      · rw [if_neg (not_not.mpr hrc)] at h
        have hd := Option.some.inj (congrArg Prod.snd (Option.some.inj h))
        rw [← hd] at hl
        dsimp only at hl
        obtain ⟨v, f1, f2, _, f4⟩ := adfMountHdFile_ok K dev hsz hrc
        rw [f1] at hl
        rw [← Option.some.inj hl] at hmem
        rw [List.mem_singleton] at hmem
        subst hmem
        have := f4 hdos
        omega
      · rw [if_pos hrc] at h
        exact (hrc (congrArg Prod.fst (Option.some.inj h))).elim
  · intro written start len volName volType vol hvol h0 h1 h2
    unfold adfVolCreate at hvol
    dsimp only at hvol
    generalize toInt32 ((dev.geometry.heads * dev.geometry.sectors * start % 4294967296 : Nat)
      : Int) = first at hvol
    generalize toInt32 (toInt32 (first + toInt32 ((dev.geometry.heads * dev.geometry.sectors
      * len % 4294967296 : Nat) : Int)) - 1) = last at hvol
    split_ifs at hvol with hw
    have hv := Option.some.inj hvol
    subst hv
    dsimp only at h0 h1 h2 ⊢
    have hr := adfVolCalcRootBlk_range
      { firstBlock := first, lastBlock := last, rootBlock := 0, blockSize := 512,
        fs_id := [], fs_type := 0, datablockSize := 0, volName := none, mounted := false }
      h0 h1 h2
    exact hr

/-- The root block reader of the sample parameters makes the checks of a root block
reader. -/
theorem sampleDecls_checks (env : AdfEnv) : ReadRootBlockChecks (sampleDecls env) := by
  intro dev vol nSect h
  have h1 : (sampleReadRootBlock env dev vol nSect).1 = ADF_RC_OK := h
  unfold sampleReadRootBlock at h1
  dsimp only at h1
  by_cases hrc : (adfVolReadBlock dev vol nSect (fun _ => 0)).rc = ADF_RC_OK
  · rw [if_neg (not_not.mpr hrc)] at h1
    by_cases ht : swapUint32fromPtr (adfVolReadBlock dev vol nSect (fun _ => 0)).buf 0
        ≠ ADF_T_HEADER
        ∨ swapUint32fromPtr (adfVolReadBlock dev vol nSect (fun _ => 0)).buf 508 ≠ ADF_ST_ROOT
    · rw [if_pos ht] at h1
      dsimp only at h1
      exact absurd h1 (by decide!)
    · exact ⟨hrc, by_contra (fun h2 => ht (Or.inl h2)), by_contra (fun h2 => ht (Or.inr h2))⟩
  · rw [if_pos hrc] at h1
    exact absurd h1 hrc

set_option maxRecDepth 1000000 in
/-- Witness of `dos_volume_root_in_extent`: the volume of the floppy image. -/
theorem dos_volume_root_in_extent_witness :
    ∃ vol, (adfMountFlop (sampleDecls strictEnv) flopDevice).2.volList = some [vol]
      ∧ vol.firstBlock ≤ vol.rootBlock ∧ vol.rootBlock ≤ vol.lastBlock :=
  ⟨_, rfl,
    (dos_volume_root_in_extent (sampleDecls strictEnv) strictEnv 5 flopDevice
      { (adfMountFlop (sampleDecls strictEnv) flopDevice).2 with mounted := true }
      (sampleDecls_checks strictEnv) (by decide)).1 rfl _ _ rfl (List.mem_singleton_self _)
      (by decide) (by decide) (by decide) (by decide)⟩

/-! ## The option `-t` of `adfformat` -/

/-- Claim C18, evaluated at the failing inputs: `parse_args` accepts the filesystem
types 0, 1, 3, 5 and 7; it rejects the types 2, 4 and 6, which the usage text documents
as valid; and it accepts `-t 256`, whose value is outside `0 .. 7`, as type 0. -/
theorem parse_args_fstype :
    (parse_args ["adfformat", "-t", "0", "disk.adf"]).1 = true
    ∧ (parse_args ["adfformat", "-t", "1", "disk.adf"]).1 = true
    ∧ (parse_args ["adfformat", "-t", "3", "disk.adf"]).1 = true
    ∧ (parse_args ["adfformat", "-t", "5", "disk.adf"]).1 = true
    ∧ (parse_args ["adfformat", "-t", "7", "disk.adf"]).1 = true
    ∧ (parse_args ["adfformat", "-t", "2", "disk.adf"]).1 = false
    ∧ (parse_args ["adfformat", "-t", "4", "disk.adf"]).1 = false
    ∧ (parse_args ["adfformat", "-t", "6", "disk.adf"]).1 = false
    ∧ (parse_args ["adfformat", "-t", "8", "disk.adf"]).1 = false
    ∧ (parse_args ["adfformat", "-t", "256", "disk.adf"]).1 = true
    ∧ (parse_args ["adfformat", "-t", "256", "disk.adf"]).2.fsType = 0 := by
  decide!

/-! ## The search for the root block of a hardfile -/

theorem toInt32_lt (x : Int) : -2147483648 ≤ toInt32 x ∧ toInt32 x < 2147483648 := by
  unfold toInt32
  omega

theorem toUInt32_of_nonneg (x : Int) (h0 : 0 ≤ x) (h1 : x < 4294967296) :
    toUInt32 x = x.toNat := by
  unfold toUInt32
  rw [Int.emod_eq_of_lt h0 h1]

theorem DriverReads_congr (d1 d2 : AdfDevice) (h1 : d1.drv = d2.drv)
    (h2 : d1.drvData = d2.drvData) (h3 : d1.sizeBlocks = d2.sizeBlocks)
    (h : DriverReads d1) : DriverReads d2 := by
  unfold DriverReads at h ⊢
  rw [← h1, ← h2, ← h3]
  exact h

/-- The test of the scan on a sector that was read: whether the sector of the container
has the types of a root block. -/
theorem scan_found (dev : AdfDevice) (hbs : dev.geometry.blockSize = 512)
    (hdrv : DriverReads dev) (s : Nat) (hs : s < 4294967296)
    (hok : (dev.drv.readSectors dev.drvData dev.sizeBlocks dev.geometry.blockSize s 1
      (fun _ => 0)).1 = ADF_RC_OK) :
    (swapUint32fromPtr (dev.drv.readSectors dev.drvData dev.sizeBlocks
        dev.geometry.blockSize s 1 (fun _ => 0)).2 0 == ADF_T_HEADER
      && swapUint32fromPtr (dev.drv.readSectors dev.drvData dev.sizeBlocks
        dev.geometry.blockSize s 1 (fun _ => 0)).2 508 == ADF_ST_ROOT)
      = rootAt dev s := by
  rw [hbs] at hok ⊢
  have h := (hdrv s 1 (fun _ => 0) hs (by omega) hok).2
  rw [h]
  unfold rootAt
  have e1 : swapUint32fromPtr (memcpy (fun _ => 0) 0 dev.drvData.data (512 * s) (512 * 1)) 0
      = swapUint32fromPtr dev.drvData.data (512 * s) := by
    unfold swapUint32fromPtr
    rw [memcpy_apply, memcpy_apply, memcpy_apply, memcpy_apply, if_pos (by omega),
      if_pos (by omega), if_pos (by omega), if_pos (by omega)]
    rfl
  have e2 : swapUint32fromPtr (memcpy (fun _ => 0) 0 dev.drvData.data (512 * s) (512 * 1)) 508
      = swapUint32fromPtr dev.drvData.data (512 * s + 508) := by
    unfold swapUint32fromPtr
    rw [memcpy_apply, memcpy_apply, memcpy_apply, memcpy_apply, if_pos (by omega),
      if_pos (by omega), if_pos (by omega), if_pos (by omega)]
  rw [e1, e2]

/-- One round of the scan, by the outcome of its read and of its test; `r` is the
sector it reads. -/
theorem scan_round (dev : AdfDevice) (hbs : dev.geometry.blockSize = 512)
    (hdrv : DriverReads dev) (fuel : Nat) (r : Int) (h0 : 0 ≤ r) (h1 : r < 2147483648) :
    ((dev.drv.readSectors dev.drvData dev.sizeBlocks 512 r.toNat 1 (fun _ => 0)).1
        ≠ ADF_RC_OK →
      (adfMountHdFile.scan dev fuel r).1 ≠ ADF_RC_OK)
    ∧ ((dev.drv.readSectors dev.drvData dev.sizeBlocks 512 r.toNat 1 (fun _ => 0)).1
        = ADF_RC_OK →
      (rootAt dev r.toNat = true → adfMountHdFile.scan dev fuel r = (ADF_RC_OK, r, true))
      ∧ (rootAt dev r.toNat = false →
        (fuel = 0 ∨ r ≤ 2 → adfMountHdFile.scan dev fuel r = (ADF_RC_OK, r - 1, false))
        ∧ (∀ f, fuel = f + 1 → 2 < r →
          adfMountHdFile.scan dev fuel r = adfMountHdFile.scan dev f (r - 1)))) := by
  have hu : toUInt32 r = r.toNat := toUInt32_of_nonneg r h0 (by omega)
  have e1 : toInt32 (r - 1) = r - 1 := toInt32_of_range (by omega) (by omega)
  constructor
  · intro hrd
    cases fuel with
    | zero =>
      rw [adfMountHdFile.scan]
      dsimp only
      rw [hu, hbs, if_pos hrd]
      exact hrd
    | succ f =>
      rw [adfMountHdFile.scan]
      dsimp only
      rw [hu, hbs, if_pos hrd]
      exact hrd
  · intro hrd
    have hrd1 : (dev.drv.readSectors dev.drvData dev.sizeBlocks dev.geometry.blockSize
        r.toNat 1 (fun _ => 0)).1 = ADF_RC_OK := by rw [hbs]; exact hrd
    have hfound := scan_found dev hbs hdrv r.toNat (by omega) hrd1
    rw [hbs] at hfound
    constructor
    · intro hroot
      rw [hroot] at hfound
      have hc : ¬ (r > 1 ∧ ¬ (true = true)) := fun h => h.2 rfl
      cases fuel with
      | zero =>
        rw [adfMountHdFile.scan]
        dsimp only
        rw [hu, hbs, if_neg (not_not.mpr hrd), hfound, if_pos rfl]
      | succ f =>
        rw [adfMountHdFile.scan]
        dsimp only
        rw [hu, hbs, if_neg (not_not.mpr hrd), hfound, if_pos rfl, if_neg hc]
    · intro hroot
      rw [hroot] at hfound
      have hft : ¬ (false = true) := by decide!
      constructor
      · intro hstop
        cases fuel with
        | zero =>
          rw [adfMountHdFile.scan]
          dsimp only
          rw [hu, hbs, if_neg (not_not.mpr hrd), hfound, if_neg hft, e1]
        | succ f =>
          rw [adfMountHdFile.scan]
          dsimp only
          rw [hu, hbs, if_neg (not_not.mpr hrd), hfound, if_neg hft, e1]
          have hr2 : r ≤ 2 := by
            rcases hstop with h | h
            · exact absurd h (by omega)
            · exact h
          have hc : ¬ (r - 1 > 1 ∧ ¬ (false = true)) := fun h => absurd h.1 (by omega)
          rw [if_neg hc]
      · intro f hf hr2
        subst hf
        rw [adfMountHdFile.scan]
        dsimp only
        have hc : r - 1 > 1 ∧ ¬ (false = true) := ⟨by omega, hft⟩
        rw [hu, hbs, if_neg (not_not.mpr hrd), hfound, if_neg hft, e1, if_pos hc]

/-- What the scan has established when it ends without a read error: either it has
found the greatest sector up to its start that has the types of a root block, or no
sector from 2 up to its start has them, and it ends at sector 1, or one below a start
of at most 1. -/
theorem scan_spec (dev : AdfDevice) (hbs : dev.geometry.blockSize = 512)
    (hdrv : DriverReads dev) :
    ∀ (fuel : Nat) (r : Int), 0 ≤ r → r < 2147483648 → r.toNat ≤ fuel →
      (adfMountHdFile.scan dev fuel r).1 = ADF_RC_OK →
      ((adfMountHdFile.scan dev fuel r).2.2 = true →
        0 ≤ (adfMountHdFile.scan dev fuel r).2.1
        ∧ (adfMountHdFile.scan dev fuel r).2.1 ≤ r
        ∧ rootAt dev (adfMountHdFile.scan dev fuel r).2.1.toNat = true
        ∧ (∀ s, (adfMountHdFile.scan dev fuel r).2.1.toNat < s → s ≤ r.toNat →
            rootAt dev s = false)
        ∧ (2 ≤ (adfMountHdFile.scan dev fuel r).2.1
            ∨ (adfMountHdFile.scan dev fuel r).2.1 = r))
      ∧ ((adfMountHdFile.scan dev fuel r).2.2 = false →
        (∀ s, 2 ≤ s → s ≤ r.toNat → rootAt dev s = false)
        ∧ rootAt dev r.toNat = false
        ∧ ((2 ≤ r ∧ (adfMountHdFile.scan dev fuel r).2.1 = 1)
            ∨ (r ≤ 1 ∧ (adfMountHdFile.scan dev fuel r).2.1 = r - 1))) := by
  intro fuel
  induction fuel with
  | zero =>
    intro r h0 h1 hf hok
    obtain ⟨k1, k2⟩ := scan_round dev hbs hdrv 0 r h0 h1
    by_cases hrd : (dev.drv.readSectors dev.drvData dev.sizeBlocks 512 r.toNat 1
        (fun _ => 0)).1 = ADF_RC_OK
    · obtain ⟨k3, k4⟩ := k2 hrd
      by_cases hroot : rootAt dev r.toNat = true
      · rw [k3 hroot]
        refine ⟨fun _ => ⟨h0, le_refl _, hroot, ?_, Or.inr rfl⟩, fun h => absurd h (by simp)⟩
        intro s hs1 hs2
        dsimp only at hs1
        omega
      · have hroot1 : rootAt dev r.toNat = false := by
          cases h : rootAt dev r.toNat
          · rfl
          · exact absurd h hroot
        rw [(k4 hroot1).1 (Or.inl rfl)]
        refine ⟨fun h => absurd h (by simp), fun _ => ⟨?_, hroot1, Or.inr ⟨by omega, rfl⟩⟩⟩
        intro s hs1 hs2
        omega
    · exact absurd hok (k1 hrd)
  | succ f ih =>
    intro r h0 h1 hf hok
    obtain ⟨k1, k2⟩ := scan_round dev hbs hdrv (f + 1) r h0 h1
    by_cases hrd : (dev.drv.readSectors dev.drvData dev.sizeBlocks 512 r.toNat 1
        (fun _ => 0)).1 = ADF_RC_OK
    · obtain ⟨k3, k4⟩ := k2 hrd
      by_cases hroot : rootAt dev r.toNat = true
      · rw [k3 hroot]
        refine ⟨fun _ => ⟨h0, le_refl _, hroot, ?_, Or.inr rfl⟩, fun h => absurd h (by simp)⟩
        intro s hs1 hs2
        dsimp only at hs1
        omega
      · have hroot1 : rootAt dev r.toNat = false := by
          cases h : rootAt dev r.toNat
          · rfl
          · exact absurd h hroot
        by_cases hr2 : r ≤ 2
        · rw [(k4 hroot1).1 (Or.inr hr2)]
          refine ⟨fun h => absurd h (by simp), fun _ => ⟨?_, hroot1, ?_⟩⟩
          · intro s hs1 hs2
            have hsr : s = r.toNat := by omega
            rw [hsr]
            exact hroot1
          · by_cases h2 : 2 ≤ r
            · exact Or.inl ⟨h2, by dsimp only; omega⟩
            · exact Or.inr ⟨by omega, rfl⟩
        · have hstep := (k4 hroot1).2 f rfl (by omega)
          rw [hstep] at hok ⊢
          obtain ⟨ih1, ih2⟩ := ih (r - 1) (by omega) (by omega) (by omega) hok
          constructor
          · intro hfound
            obtain ⟨a1, a2, a3, a4, a5⟩ := ih1 hfound
            refine ⟨a1, by omega, a3, ?_, Or.inl ?_⟩
            · intro s hs1 hs2
              by_cases hsr : s = r.toNat
              · rw [hsr]
                exact hroot1
              · exact a4 s hs1 (by omega)
            · rcases a5 with a5 | a5
              · exact a5
              · omega
          · intro hnf
            obtain ⟨b1, b2, b3⟩ := ih2 hnf
            refine ⟨?_, hroot1, Or.inl ⟨by omega, ?_⟩⟩
            · intro s hs1 hs2
              by_cases hsr : s = r.toNat
              · rw [hsr]
                exact hroot1
              · exact b1 s hs1 (by omega)
            · rcases b3 with b3 | b3
              · exact b3.2
              · omega
    · exact absurd hok (k1 hrd)

/-- The scan ends without a read error when the sectors up to its start can be read. -/
theorem scan_reads (dev : AdfDevice) (hbs : dev.geometry.blockSize = 512)
    (hdrv : DriverReads dev) :
    ∀ (fuel : Nat) (r : Int), 0 ≤ r → r < 2147483648 →
      (∀ s, s ≤ r.toNat → (dev.drv.readSectors dev.drvData dev.sizeBlocks 512 s 1
        (fun _ => 0)).1 = ADF_RC_OK) →
      (adfMountHdFile.scan dev fuel r).1 = ADF_RC_OK := by
  intro fuel
  induction fuel with
  | zero =>
    intro r h0 h1 hreads
    obtain ⟨_, k2⟩ := scan_round dev hbs hdrv 0 r h0 h1
    obtain ⟨k3, k4⟩ := k2 (hreads r.toNat (le_refl _))
    cases hroot : rootAt dev r.toNat
    · rw [(k4 hroot).1 (Or.inl rfl)]
    · rw [k3 hroot]
  | succ f ih =>
    intro r h0 h1 hreads
    obtain ⟨_, k2⟩ := scan_round dev hbs hdrv (f + 1) r h0 h1
    obtain ⟨k3, k4⟩ := k2 (hreads r.toNat (le_refl _))
    cases hroot : rootAt dev r.toNat
    · by_cases hr2 : r ≤ 2
      · rw [(k4 hroot).1 (Or.inr hr2)]
      · rw [(k4 hroot).2 f rfl (by omega)]
        exact ih (r - 1) (by omega) (by omega) (fun s hs => hreads s (by omega))
    · rw [k3 hroot]

/-- The first sector of a container that starts with `DOS` does not have the types of a
root block. -/
theorem rootAt_zero_of_dos (dev : AdfDevice)
    (hdos : bytesAt dev.drvData.data 0 3 = [68, 79, 83]) : rootAt dev 0 = false := by
  have h0 : dev.drvData.data 0 % 256 = 68 := by
    have := congrArg (fun l => l.getD 0 0) hdos
    simpa [bytesAt, List.range, List.range.loop] using this
  unfold rootAt swapUint32fromPtr ADF_T_HEADER
  have hne : ¬ (dev.drvData.data (512 * 0) % 256 * 16777216
      + dev.drvData.data (512 * 0 + 1) % 256 * 65536
      + dev.drvData.data (512 * 0 + 2) % 256 * 256
      + dev.drvData.data (512 * 0 + 3) % 256 = 2) := by
    have e : 512 * 0 = 0 := rfl
    rw [e]
    omega
  rw [Bool.and_eq_false_iff]
  left
  exact beq_eq_false_iff_ne.mpr hne

/-- With the checks of `adfReadRootBlock`, the root block is not read at sector 0 of a
container that starts with `DOS`, nor at sector -1. -/
theorem root_read_fails (K : AdfDecls) (hK : ReadRootBlockChecks K) (dev : AdfDevice)
    (vol : AdfVolume) (res : Int) (hbs : dev.geometry.blockSize = 512)
    (hsz : dev.sizeBlocks < 4294967296) (hdrv : DriverReads dev)
    (h0 : rootAt dev 0 = false) (hm : vol.mounted = true) (hf : vol.firstBlock = 0)
    (hl : vol.lastBlock = toInt32 (res * 2 - 1)) (hres : res = 0 ∨ res = -1) :
    (K.adfReadRootBlock dev vol (toUInt32 res)).1 ≠ ADF_RC_OK := by
  intro hok
  obtain ⟨c1, c2, c3⟩ := hK _ _ _ hok
  unfold adfVolReadBlock at c1 c2 c3
  rw [if_neg (not_not.mpr hm)] at c1 c2 c3
  dsimp only at c1 c2 c3
  rw [hf, hl] at c1 c2 c3
  rcases hres with hres | hres
  · subst hres
    have e1 : (toUInt32 0 + toUInt32 0) % 4294967296 = 0 := by decide!
    have e2 : toUInt32 0 = 0 := by decide!
    have e3 : toUInt32 (toInt32 (0 * 2 - 1)) = 4294967295 := by decide!
    rw [e1, e2, e3] at c1 c2 c3
    have hin : ¬ (0 < 0 ∨ 0 > 4294967295) := by omega
    rw [if_neg hin] at c1 c2 c3
    have hb := adfDevReadBlock_ok_buf dev 0 512 (fun _ => 0) hbs hsz (by omega) (by omega)
      hdrv c1
    have w0 : swapUint32fromPtr (adfDevReadBlock dev 0 512 (fun _ => 0)).buf 0
        = swapUint32fromPtr dev.drvData.data (512 * 0) := by
      apply swapUint32fromPtr_congr
      intro k hk
      rw [hb (0 + k), if_pos (by omega)]
      congr 1
      omega
    have w508 : swapUint32fromPtr (adfDevReadBlock dev 0 512 (fun _ => 0)).buf 508
        = swapUint32fromPtr dev.drvData.data (512 * 0 + 508) := by
      apply swapUint32fromPtr_congr
      intro k hk
      rw [hb (508 + k), if_pos (by omega)]
      congr 1
      omega
    unfold rootAt at h0
    rw [← w0, ← w508, c2, c3] at h0
    exact absurd h0 (by decide!)
  · subst hres
    have e1 : (toUInt32 (-1) + toUInt32 0) % 4294967296 = 4294967295 := by decide!
    have e2 : toUInt32 0 = 0 := by decide!
    have e3 : toUInt32 (toInt32 (-1 * 2 - 1)) = 4294967293 := by decide!
    rw [e1, e2, e3] at c1
    have hout : 4294967295 < 0 ∨ 4294967295 > 4294967293 := by omega
    rw [if_pos hout] at c1
    exact absurd c1 (by decide!)

/-- The DOS branch of `adfMountHdFile`: when it succeeds the root block of the volume is
the greatest sector from 2 to half the size of the device that has the types of a root
block; when no such sector has them and the sectors can be read, it fails and leaves no
volume. -/
theorem mountDos_root (K : AdfDecls) (hK : ReadRootBlockChecks K) (dev1 : AdfDevice)
    (vol : AdfVolume) (hbs : dev1.geometry.blockSize = 512)
    (hsz : dev1.sizeBlocks < 2147483648) (hdrv : DriverReads dev1)
    (hv : vol.firstBlock = 0) (h0 : rootAt dev1 0 = false) :
    ((adfMountHdFile.mountDos K dev1 vol).1 = ADF_RC_OK →
      ∃ v, ∃ r : Nat, (adfMountHdFile.mountDos K dev1 vol).2.volList = some [v]
        ∧ v.rootBlock = (r : Int) ∧ 2 ≤ r ∧ r ≤ dev1.sizeBlocks / 2
        ∧ rootAt dev1 r = true
        ∧ (∀ s, r < s → s ≤ dev1.sizeBlocks / 2 → rootAt dev1 s = false)
        ∧ v.lastBlock = 2 * (r : Int) - 1)
    ∧ ((∀ s, s ≤ dev1.sizeBlocks / 2 →
        (dev1.drv.readSectors dev1.drvData dev1.sizeBlocks 512 s 1 (fun _ => 0)).1
          = ADF_RC_OK) →
      (∀ s, 2 ≤ s → s ≤ dev1.sizeBlocks / 2 → rootAt dev1 s = false) →
      (adfMountHdFile.mountDos K dev1 vol).1 ≠ ADF_RC_OK
      ∧ (adfMountHdFile.mountDos K dev1 vol).2.nVol = 0) := by
  have hstart : toInt32 ((dev1.sizeBlocks / 2 : Nat) : Int)
      = ((dev1.sizeBlocks / 2 : Nat) : Int) := toInt32_of_range (by omega) (by omega)
  have hnat : (((dev1.sizeBlocks / 2 : Nat) : Int)).toNat = dev1.sizeBlocks / 2 :=
    Int.toNat_natCast _
  have hspec := scan_spec dev1 hbs hdrv dev1.sizeBlocks ((dev1.sizeBlocks / 2 : Nat) : Int)
    (by omega) (by omega) (by omega)
  have hreads := scan_reads dev1 hbs hdrv dev1.sizeBlocks ((dev1.sizeBlocks / 2 : Nat) : Int)
    (by omega) (by omega)
  obtain ⟨hle, hge⟩ := scan_le dev1 dev1.sizeBlocks
    ((dev1.sizeBlocks / 2 : Nat) : Int) (by omega) (by omega)
  rw [hnat] at hspec hreads
  generalize hres : adfMountHdFile.mountDos K dev1 vol = res
  unfold adfMountHdFile.mountDos at hres
  dsimp only at hres
  rw [hstart] at hres
  generalize adfMountHdFile.scan dev1 dev1.sizeBlocks
    ((dev1.sizeBlocks / 2 : Nat) : Int) = sc at hres hle hge hspec hreads
  have hlast : toInt32 (sc.2.1 * 2 - 1) = 2 * sc.2.1 - 1 := by
    rw [toInt32_of_range (by omega) (by omega)]
    ring
  by_cases h1 : sc.1 = ADF_RC_OK
  · have h1n : ¬ sc.1 ≠ ADF_RC_OK := not_not.mpr h1
    obtain ⟨sp1, sp2⟩ := hspec h1
    rw [if_neg h1n] at hres
    by_cases h2 : sc.2.1 = 1
    · rw [if_pos h2] at hres
      rw [← hres]
      exact ⟨fun hok => absurd hok (by simp), fun _ _ => ⟨by simp, rfl⟩⟩
    · rw [if_neg h2] at hres
      cases hfound : sc.2.2
      · obtain ⟨b1, b2, b3⟩ := sp2 hfound
        have hr : sc.2.1 = 0 ∨ sc.2.1 = -1 := by omega
        split_ifs at hres with h3
        · rw [← hres]
          exact ⟨fun hok => absurd hok h3, fun _ _ => ⟨h3, rfl⟩⟩
        · exact absurd (not_not.mp h3) (root_read_fails K hK _ _ sc.2.1 hbs
            (by show dev1.sizeBlocks < 4294967296; omega)
            (DriverReads_congr dev1 _ rfl rfl rfl hdrv) h0 rfl hv rfl hr)
      · obtain ⟨a1, a2, a3, a4, a5⟩ := sp1 hfound
        have h2le : 2 ≤ sc.2.1 := by
          rcases a5 with a5 | a5
          · exact a5
          · by_contra hlt
            have hz : sc.2.1 = 0 := by omega
            rw [hz] at a3
            have e : (0 : Int).toNat = 0 := rfl
            rw [e, h0] at a3
            exact absurd a3 (by decide!)
        have hcast : ((sc.2.1.toNat : Nat) : Int) = sc.2.1 := Int.toNat_of_nonneg a1
        constructor
        · intro hok
          split_ifs at hres with h3
          · rw [← hres] at hok
            exact absurd hok h3
          · rw [← hres]
            refine ⟨_, sc.2.1.toNat, rfl, hcast.symm, by omega, by omega, a3, a4, ?_⟩
            dsimp only
            rw [hlast, hcast]
        · intro _ hnone
          have := hnone sc.2.1.toNat (by omega) (by omega)
          rw [a3] at this
          exact absurd this (by decide!)
  · rw [if_pos h1] at hres
    rw [← hres]
    exact ⟨fun hok => absurd hok h1, fun hr _ => absurd (hreads hr) h1⟩

theorem adfDevReadBlock_rc_512 (dev : AdfDevice) (p : Nat) (buf : Bytes)
    (hbs : dev.geometry.blockSize = 512) :
    (adfDevReadBlock dev p 512 buf).rc
      = (dev.drv.readSectors dev.drvData dev.sizeBlocks 512 p 1 buf).1 := by
  unfold adfDevReadBlock
  dsimp only
  rw [hbs]
  have e1 : 512 / 512 = 1 := by norm_num
  have e2 : 512 % 512 = 0 := by norm_num
  rw [e1, e2]
  by_cases h : (dev.drv.readSectors dev.drvData dev.sizeBlocks 512 p 1 buf).1 = ADF_RC_OK
  · rw [if_neg (not_not.mpr h), if_neg (by decide!), h]
  · rw [if_pos h]

/-- The search of `adfMountHdFile` for the root block: for a hardfile whose container
starts with the DOS boot signature, whenever `adfMountHdFile` succeeds the root block `r` of the volume is the greatest
sector with `2 ≤ r ≤ sizeBlocks / 2` whose big-endian word at offset 0 is 2 and whose
word at offset 508 is 1, and `lastBlock = 2 * r - 1`; when no sector from 2 to
`sizeBlocks / 2` has these types (and the sectors up to `sizeBlocks / 2` can be read)
the mount fails and leaves `nVol = 0`. The driver meets the contract of its interface
and `adfReadRootBlock` makes the checks of a root block reader. -/
theorem adfMountHdFile_root_scan (K : AdfDecls) (dev : AdfDevice)
    (hK : ReadRootBlockChecks K) (hbs : dev.geometry.blockSize = 512)
    (hsz : dev.sizeBlocks < 2147483648) (hdrv : DriverReads dev)
    (hdos : bytesAt dev.drvData.data 0 3 = [68, 79, 83]) :
    ((adfMountHdFile K dev).1 = ADF_RC_OK →
      ∃ vol, ∃ r : Nat, (adfMountHdFile K dev).2.volList = some [vol]
        ∧ vol.rootBlock = (r : Int) ∧ 2 ≤ r ∧ r ≤ dev.sizeBlocks / 2
        ∧ rootAt dev r = true
        ∧ (∀ s, r < s → s ≤ dev.sizeBlocks / 2 → rootAt dev s = false)
        ∧ vol.lastBlock = 2 * (r : Int) - 1)
    ∧ ((∀ s, s ≤ dev.sizeBlocks / 2 →
        (dev.drv.readSectors dev.drvData dev.sizeBlocks 512 s 1 (fun _ => 0)).1
          = ADF_RC_OK) →
      (∀ s, 2 ≤ s → s ≤ dev.sizeBlocks / 2 → rootAt dev s = false) →
      (adfMountHdFile K dev).1 ≠ ADF_RC_OK ∧ (adfMountHdFile K dev).2.nVol = 0) := by
  have hrbeq : adfDevReadBlock
      { dev with nVol := 1, volList := some [adfMountHdFile.newVolume] }
      (toUInt32 adfMountHdFile.newVolume.firstBlock) 512 (fun _ => 0)
      = adfDevReadBlock dev 0 512 (fun _ => 0) :=
    adfDevReadBlock_congr _ _ rfl rfl rfl rfl _ _ _
  generalize hres : adfMountHdFile K dev = res
  unfold adfMountHdFile at hres
  dsimp only at hres
  rw [hrbeq] at hres
  by_cases hrc : (adfDevReadBlock dev 0 512 (fun _ => 0)).rc = ADF_RC_OK
  · have hb := adfDevReadBlock_ok_buf dev 0 512 (fun _ => 0) hbs (by omega) (by omega)
      (by omega) hdrv hrc
    have hid : bytesAt (adfDevReadBlock dev 0 512 (fun _ => 0)).buf 0 3 = [68, 79, 83] := by
      rw [← hdos]
      apply bytesAt_congr
      intro k hk
      rw [hb (0 + k), if_pos (by omega)]
      congr 1
      omega
    generalize (if adfVolIsOFS { adfMountHdFile.newVolume with
        fs_id := bytesAt (adfDevReadBlock dev 0 512 (fun _ => 0)).buf 0 3,
        fs_type := (adfDevReadBlock dev 0 512 (fun _ => 0)).buf 3 % 256 } = true
      then 488 else 512 : Nat) = dbs at hres
    rw [if_neg (not_not.mpr hrc), hid] at hres
    split_ifs at hres with h2
    · rw [← hres]
      exact mountDos_root K hK _ _ hbs hsz (DriverReads_congr dev _ rfl rfl rfl hdrv) rfl
        (rootAt_zero_of_dos dev hdos)
    · exact absurd rfl h2
  · rw [if_pos hrc] at hres
    rw [← hres]
    refine ⟨fun hok => absurd hok hrc, fun hreads _ => ?_⟩
    have h0 := hreads 0 (Nat.zero_le _)
    rw [← adfDevReadBlock_rc_512 dev 0 (fun _ => 0) hbs] at h0
    exact absurd h0 hrc

set_option maxRecDepth 1000000 in
/-- An instance of `adfMountHdFile_root_scan`: the 5-block hardfile image, whose root
block is in sector 2. -/
theorem adfMountHdFile_root_scan_witness :
    ∃ vol, ∃ r : Nat,
      (adfMountHdFile (sampleDecls strictEnv) (hdfDevice 5 true)).2.volList = some [vol]
        ∧ vol.rootBlock = (r : Int) ∧ 2 ≤ r ∧ r ≤ (hdfDevice 5 true).sizeBlocks / 2
        ∧ rootAt (hdfDevice 5 true) r = true
        ∧ (∀ s, r < s → s ≤ (hdfDevice 5 true).sizeBlocks / 2 →
            rootAt (hdfDevice 5 true) s = false)
        ∧ vol.lastBlock = 2 * (r : Int) - 1 :=
  (adfMountHdFile_root_scan (sampleDecls strictEnv) (hdfDevice 5 true)
    (sampleDecls_checks strictEnv) rfl (by decide)
    (dump_DriverReads (hdfDevice 5 true) rfl (by decide) (by decide)) (by decide)).1
    (by decide)

/-! ## The `mounted` flag during `adfVolMount` -/

/-- The function `adfVolMount` on a DOS volume of the list, with a valid index and a
valid mode: the three calls that can fail and what is returned after each. -/
theorem adfVolMount_eq (K : AdfDecls) (d : AdfDevice) (nPart : Int) (mode : AdfAccessMode)
    (vol : AdfVolume) (hn : 1 ≤ d.nVol) (hp : 0 ≤ nPart ∧ nPart < d.nVol)
    (hm : mode = ADF_ACCESS_MODE_READONLY ∨ mode = ADF_ACCESS_MODE_READWRITE)
    (hv : d.volList.bind (fun l => l.get? nPart.toNat) = some vol)
    (hdos : adfVolIsDosFS vol = true) :
    adfVolMount K (some d) nPart mode
      = if (K.adfReadRootBlock (adfVolMount.store d nPart (adfVolMount.prepared d vol mode))
            (adfVolMount.prepared d vol mode)
            (toUInt32 (adfVolMount.prepared d vol mode).rootBlock)).1 ≠ ADF_RC_OK then
          (none, some (adfVolMount.store d nPart
            { adfVolMount.prepared d vol mode with mounted := false }))
        else if K.adfBitmapAllocate
            (adfVolMount.store d nPart (adfVolMount.prepared d vol mode))
            (adfVolMount.prepared d vol mode) ≠ ADF_RC_OK then
          (none, some (adfVolMount.store d nPart
            (adfVolUnMount (adfVolMount.prepared d vol mode))))
        else if K.adfReadBitmap
            (adfVolMount.store d nPart (adfVolMount.prepared d vol mode))
            (adfVolMount.prepared d vol mode)
            (K.adfReadRootBlock (adfVolMount.store d nPart (adfVolMount.prepared d vol mode))
              (adfVolMount.prepared d vol mode)
              (toUInt32 (adfVolMount.prepared d vol mode).rootBlock)).2 ≠ ADF_RC_OK then
          (none, some (adfVolMount.store d nPart
            (adfVolUnMount (adfVolMount.prepared d vol mode))))
        else
          (some { adfVolMount.prepared d vol mode with
                  curDirPtr := (adfVolMount.prepared d vol mode).rootBlock },
            some (adfVolMount.store d nPart
              { adfVolMount.prepared d vol mode with
                curDirPtr := (adfVolMount.prepared d vol mode).rootBlock })) := by
  have h1 : ¬ d.nVol < 1 := by omega
  have h2 : ¬ (nPart < 0 ∨ nPart ≥ d.nVol) := by omega
  have h3 : ¬ (mode ≠ ADF_ACCESS_MODE_READONLY ∧ mode ≠ ADF_ACCESS_MODE_READWRITE) := by
    rcases hm with h | h <;> simp [h]
  have h4 : ¬ ¬ adfVolIsDosFS vol = true := by simp [hdos]
  unfold adfVolMount
  dsimp only
  rw [if_neg h1, if_neg h2, if_neg h3, hv]
  dsimp only
  rw [if_neg h4]
  rfl

/-- The assignments to `vol->mounted` on the same paths. -/
theorem mountedWrites_eq (K : AdfDecls) (d : AdfDevice) (nPart : Int) (mode : AdfAccessMode)
    (vol : AdfVolume) (hn : 1 ≤ d.nVol) (hp : 0 ≤ nPart ∧ nPart < d.nVol)
    (hm : mode = ADF_ACCESS_MODE_READONLY ∨ mode = ADF_ACCESS_MODE_READWRITE)
    (hv : d.volList.bind (fun l => l.get? nPart.toNat) = some vol)
    (hdos : adfVolIsDosFS vol = true) :
    adfVolMount.mountedWrites K (some d) nPart mode
      = if (K.adfReadRootBlock (adfVolMount.store d nPart (adfVolMount.prepared d vol mode))
            (adfVolMount.prepared d vol mode)
            (toUInt32 (adfVolMount.prepared d vol mode).rootBlock)).1 ≠ ADF_RC_OK then
          [true, false]
        else if K.adfBitmapAllocate
            (adfVolMount.store d nPart (adfVolMount.prepared d vol mode))
            (adfVolMount.prepared d vol mode) ≠ ADF_RC_OK then [true, false]
        else if K.adfReadBitmap
            (adfVolMount.store d nPart (adfVolMount.prepared d vol mode))
            (adfVolMount.prepared d vol mode)
            (K.adfReadRootBlock (adfVolMount.store d nPart (adfVolMount.prepared d vol mode))
              (adfVolMount.prepared d vol mode)
              (toUInt32 (adfVolMount.prepared d vol mode).rootBlock)).2 ≠ ADF_RC_OK then
          [true, false]
        else [true] := by
  have h1 : ¬ d.nVol < 1 := by omega
  have h2 : ¬ (nPart < 0 ∨ nPart ≥ d.nVol) := by omega
  have h3 : ¬ (mode ≠ ADF_ACCESS_MODE_READONLY ∧ mode ≠ ADF_ACCESS_MODE_READWRITE) := by
    rcases hm with h | h <;> simp [h]
  have h4 : ¬ ¬ adfVolIsDosFS vol = true := by simp [hdos]
  unfold adfVolMount.mountedWrites
  dsimp only
  rw [if_neg h1, if_neg h2, if_neg h3, hv]
  dsimp only
  rw [if_neg h4]

/-- The volume stored at an index of the list is the one found there afterwards. -/
theorem store_get (d : AdfDevice) (nPart : Int) (vol v : AdfVolume)
    (hv : d.volList.bind (fun l => l.get? nPart.toNat) = some vol) :
    (adfVolMount.store d nPart v).volList.bind (fun l => l.get? nPart.toNat) = some v := by
  unfold adfVolMount.store
  cases hl : d.volList with
  | none => rw [hl] at hv; simp at hv
  | some l =>
    rw [hl] at hv
    simp only [Option.some_bind] at hv
    simp only [Option.map_some', Option.some_bind]
    have hlt : nPart.toNat < l.length := by
      rcases List.get?_eq_some.mp hv with ⟨h, _⟩
      exact h
    simp [List.getElem?_set, hlt]

/-- Claim C21: a counterexample. On a device whose volume has its root block outside
the volume, reading the root block fails and `adfVolMount` returns NULL, and yet
`vol->mounted` has been set to true, before the root block was read. -/
theorem adfVolMount_sets_mounted_first :
    ((sampleDecls strictEnv).adfReadRootBlock
        (adfVolMount.store noRootDevice 0
          (adfVolMount.prepared noRootDevice { sampleVolume false with mounted := false }
            ADF_ACCESS_MODE_READONLY))
        (adfVolMount.prepared noRootDevice { sampleVolume false with mounted := false }
          ADF_ACCESS_MODE_READONLY) 5).1 = ADF_RC_BLOCKOUTOFRANGE
    ∧ (adfVolMount (sampleDecls strictEnv) (some noRootDevice) 0
        ADF_ACCESS_MODE_READONLY).1 = none
    ∧ adfVolMount.mountedWrites (sampleDecls strictEnv) (some noRootDevice) 0
        ADF_ACCESS_MODE_READONLY = [true, false] := by
  refine ⟨by decide!, by decide!, by decide!⟩

/-- Claim C21, amended: `adfVolMount` sets the `mounted` flag of the volume to true
before it reads the root block, and in every execution in which reading the root block,
allocating the bitmap or loading the bitmap fails it sets the flag back to false: the
assignments are `true` and then `false`, the function returns NULL and the volume of
the list has `mounted = false`. -/
theorem adfVolMount_mounted_reset (K : AdfDecls) (d : AdfDevice) (nPart : Int)
    (mode : AdfAccessMode) (vol : AdfVolume) (hn : 1 ≤ d.nVol)
    (hp : 0 ≤ nPart ∧ nPart < d.nVol)
    (hm : mode = ADF_ACCESS_MODE_READONLY ∨ mode = ADF_ACCESS_MODE_READWRITE)
    (hv : d.volList.bind (fun l => l.get? nPart.toNat) = some vol)
    (hdos : adfVolIsDosFS vol = true)
    (hfail : (K.adfReadRootBlock (adfVolMount.store d nPart (adfVolMount.prepared d vol mode))
            (adfVolMount.prepared d vol mode)
            (toUInt32 (adfVolMount.prepared d vol mode).rootBlock)).1 ≠ ADF_RC_OK
      ∨ K.adfBitmapAllocate (adfVolMount.store d nPart (adfVolMount.prepared d vol mode))
            (adfVolMount.prepared d vol mode) ≠ ADF_RC_OK
      ∨ K.adfReadBitmap (adfVolMount.store d nPart (adfVolMount.prepared d vol mode))
            (adfVolMount.prepared d vol mode)
            (K.adfReadRootBlock (adfVolMount.store d nPart (adfVolMount.prepared d vol mode))
              (adfVolMount.prepared d vol mode)
              (toUInt32 (adfVolMount.prepared d vol mode).rootBlock)).2 ≠ ADF_RC_OK) :
    (adfVolMount.prepared d vol mode).mounted = true
    ∧ adfVolMount.mountedWrites K (some d) nPart mode = [true, false]
    ∧ (adfVolMount K (some d) nPart mode).1 = none
    ∧ ∃ d1 v, (adfVolMount K (some d) nPart mode).2 = some d1
        ∧ d1.volList.bind (fun l => l.get? nPart.toNat) = some v ∧ v.mounted = false := by
  refine ⟨rfl, ?_, ?_⟩
  · rw [mountedWrites_eq K d nPart mode vol hn hp hm hv hdos]
    by_cases h1 : (K.adfReadRootBlock
        (adfVolMount.store d nPart (adfVolMount.prepared d vol mode))
        (adfVolMount.prepared d vol mode)
        (toUInt32 (adfVolMount.prepared d vol mode).rootBlock)).1 ≠ ADF_RC_OK
    · rw [if_pos h1]
    · rw [if_neg h1]
      by_cases h2 : K.adfBitmapAllocate
          (adfVolMount.store d nPart (adfVolMount.prepared d vol mode))
          (adfVolMount.prepared d vol mode) ≠ ADF_RC_OK
      · rw [if_pos h2]
      · rw [if_neg h2]
        rcases hfail with h | h | h
        · exact absurd h h1
        · exact absurd h h2
        · rw [if_pos h]
  · rw [adfVolMount_eq K d nPart mode vol hn hp hm hv hdos]
    by_cases h1 : (K.adfReadRootBlock
        (adfVolMount.store d nPart (adfVolMount.prepared d vol mode))
        (adfVolMount.prepared d vol mode)
        (toUInt32 (adfVolMount.prepared d vol mode).rootBlock)).1 ≠ ADF_RC_OK
    · rw [if_pos h1]
      exact ⟨rfl, _, _, rfl, store_get d nPart vol _ hv, rfl⟩
    · rw [if_neg h1]
      by_cases h2 : K.adfBitmapAllocate
          (adfVolMount.store d nPart (adfVolMount.prepared d vol mode))
          (adfVolMount.prepared d vol mode) ≠ ADF_RC_OK
      · rw [if_pos h2]
        exact ⟨rfl, _, _, rfl, store_get d nPart vol _ hv, rfl⟩
      · rw [if_neg h2]
        rcases hfail with h | h | h
        · exact absurd h h1
        · exact absurd h h2
        · rw [if_pos h]
          exact ⟨rfl, _, _, rfl, store_get d nPart vol _ hv, rfl⟩

set_option maxRecDepth 1000000 in
/-- Witness of `adfVolMount_mounted_reset`: the device whose volume has its root block
outside the volume. -/
theorem adfVolMount_mounted_reset_witness :
    (adfVolMount.prepared noRootDevice { sampleVolume false with mounted := false }
        ADF_ACCESS_MODE_READONLY).mounted = true
    ∧ adfVolMount.mountedWrites (sampleDecls strictEnv) (some noRootDevice) 0
        ADF_ACCESS_MODE_READONLY = [true, false]
    ∧ (adfVolMount (sampleDecls strictEnv) (some noRootDevice) 0
        ADF_ACCESS_MODE_READONLY).1 = none
    ∧ ∃ d1 v, (adfVolMount (sampleDecls strictEnv) (some noRootDevice) 0
          ADF_ACCESS_MODE_READONLY).2 = some d1
        ∧ d1.volList.bind (fun l => l.get? (0 : Int).toNat) = some v ∧ v.mounted = false :=
  adfVolMount_mounted_reset (sampleDecls strictEnv) noRootDevice 0 ADF_ACCESS_MODE_READONLY
    { sampleVolume false with mounted := false } (by decide) (by decide) (Or.inl rfl) rfl
    (by decide) (Or.inl (by decide))

/-! ## Volumes of a read-only device -/

/-- A volume returned by `adfVolMount` is the volume of the list as prepared for the
reading of the root block, with the current directory set. -/
theorem adfVolMount_some (K : AdfDecls) (d : AdfDevice) (nPart : Int) (mode : AdfAccessMode)
    (v : AdfVolume) (h : (adfVolMount K (some d) nPart mode).1 = some v) :
    ∃ vol, d.volList.bind (fun l => l.get? nPart.toNat) = some vol
      ∧ v = { adfVolMount.prepared d vol mode with
              curDirPtr := (adfVolMount.prepared d vol mode).rootBlock }
      ∧ (adfVolMount K (some d) nPart mode).2 = some (adfVolMount.store d nPart v) := by
  by_cases h1 : d.nVol < 1
  · unfold adfVolMount at h
    dsimp only at h
    rw [if_pos h1] at h
    exact absurd h (by simp)
  by_cases h2 : nPart < 0 ∨ nPart ≥ d.nVol
  · unfold adfVolMount at h
    dsimp only at h
    rw [if_neg h1, if_pos h2] at h
    exact absurd h (by simp)
  by_cases h3 : mode ≠ ADF_ACCESS_MODE_READONLY ∧ mode ≠ ADF_ACCESS_MODE_READWRITE
  · unfold adfVolMount at h
    dsimp only at h
    rw [if_neg h1, if_neg h2, if_pos h3] at h
    exact absurd h (by simp)
  have hm : mode = ADF_ACCESS_MODE_READONLY ∨ mode = ADF_ACCESS_MODE_READWRITE := by
    by_cases hr : mode = ADF_ACCESS_MODE_READONLY
    · exact Or.inl hr
    · by_cases hw : mode = ADF_ACCESS_MODE_READWRITE
      · exact Or.inr hw
      · exact absurd ⟨hr, hw⟩ h3
  cases hb : d.volList.bind (fun l => l.get? nPart.toNat) with
  | none =>
    unfold adfVolMount at h
    dsimp only at h
    rw [if_neg h1, if_neg h2, if_neg h3, hb] at h
    exact absurd h (by simp)
  | some vol =>
    by_cases h4 : adfVolIsDosFS vol = true
    · have heq := adfVolMount_eq K d nPart mode vol (by omega) (by omega) hm hb h4
      rw [heq] at h ⊢
      by_cases g1 : (K.adfReadRootBlock
          (adfVolMount.store d nPart (adfVolMount.prepared d vol mode))
          (adfVolMount.prepared d vol mode)
          (toUInt32 (adfVolMount.prepared d vol mode).rootBlock)).1 ≠ ADF_RC_OK
      · rw [if_pos g1] at h
        exact absurd h (by simp)
      rw [if_neg g1] at h ⊢
      by_cases g2 : K.adfBitmapAllocate
            (adfVolMount.store d nPart (adfVolMount.prepared d vol mode))
            (adfVolMount.prepared d vol mode) ≠ ADF_RC_OK
      · rw [if_pos g2] at h
        exact absurd h (by simp)
      rw [if_neg g2] at h ⊢
      by_cases g3 : K.adfReadBitmap
            (adfVolMount.store d nPart (adfVolMount.prepared d vol mode))
            (adfVolMount.prepared d vol mode)
            (K.adfReadRootBlock (adfVolMount.store d nPart (adfVolMount.prepared d vol mode))
              (adfVolMount.prepared d vol mode)
              (toUInt32 (adfVolMount.prepared d vol mode).rootBlock)).2 ≠ ADF_RC_OK
      · rw [if_pos g3] at h
        exact absurd h (by simp)
      rw [if_neg g3] at h ⊢
      dsimp only at h
      have hv : v = { adfVolMount.prepared d vol mode with
          curDirPtr := (adfVolMount.prepared d vol mode).rootBlock } :=
        (Option.some.inj h).symm
      refine ⟨vol, rfl, hv, ?_⟩
      rw [hv]
    · unfold adfVolMount at h
      dsimp only at h
      rw [if_neg h1, if_neg h2, if_neg h3, hb] at h
      dsimp only at h
      rw [if_pos h4] at h
      exact absurd h (by simp)

/-- Claim C23: on a read-only device `d`, every volume that `adfVolMount` returns, in
any mode, is read-only, and so is the volume after every `adfVolRemount` that returns
OK; `adfVolRemount` in read-write mode returns an error and leaves the volume as it was.
On any device, `adfVolRemount` returns an error and leaves the volume as it was when the
volume is not mounted or the mode is neither read-only nor read-write. -/
theorem readOnly_device_volumes (K : AdfDecls) (d d2 : AdfDevice) (nPart : Int)
    (mode mode2 : AdfAccessMode) (v0 : AdfVolume) (hro : d.readOnly = true) :
    (∀ v, (adfVolMount K (some d) nPart mode).1 = some v →
        v.readOnly = true
        ∧ ∃ d1, (adfVolMount K (some d) nPart mode).2 = some d1
            ∧ d1.volList.bind (fun l => l.get? nPart.toNat) = some v)
    ∧ (∀ v1, adfVolRemount d (some v0) mode2 = (ADF_RC_OK, some v1) → v1.readOnly = true)
    ∧ adfVolRemount d (some v0) ADF_ACCESS_MODE_READWRITE = (ADF_RC_ERROR, some v0)
    ∧ ((v0.mounted = false
          ∨ (mode2 ≠ ADF_ACCESS_MODE_READONLY ∧ mode2 ≠ ADF_ACCESS_MODE_READWRITE)) →
        adfVolRemount d2 (some v0) mode2 = (ADF_RC_ERROR, some v0)) := by
  refine ⟨?_, ?_, ?_, ?_⟩
  · intro v hv
    obtain ⟨vol, hb, hveq, hst⟩ := adfVolMount_some K d nPart mode v hv
    refine ⟨?_, _, hst, store_get d nPart vol v hb⟩
    rw [hveq]
    unfold adfVolMount.prepared
    dsimp only
    rw [if_pos hro]
  · intro v1 h
    unfold adfVolRemount at h
    dsimp only at h
    by_cases g1 : ¬ v0.mounted = true
    · rw [if_pos g1] at h
      exact absurd (congrArg Prod.fst h) (by simp)
    rw [if_neg g1] at h
    by_cases g2 : mode2 = ADF_ACCESS_MODE_READWRITE
    · rw [if_pos g2, if_pos hro] at h
      exact absurd (congrArg Prod.fst h) (by simp)
    rw [if_neg g2] at h
    by_cases g3 : mode2 = ADF_ACCESS_MODE_READONLY
    · rw [if_pos g3] at h
      have h2 := Option.some.inj (congrArg Prod.snd h)
      rw [← h2]
    · rw [if_neg g3] at h
      exact absurd (congrArg Prod.fst h) (by simp)
  · unfold adfVolRemount
    dsimp only
    by_cases g1 : ¬ v0.mounted = true
    · rw [if_pos g1]
    · rw [if_neg g1, if_pos rfl, if_pos hro]
  · intro h
    unfold adfVolRemount
    dsimp only
    by_cases g1 : ¬ v0.mounted = true
    · rw [if_pos g1]
    · rw [if_neg g1]
      rcases h with h | ⟨hr, hw⟩
      · exact absurd h (by simpa using g1)
      · rw [if_neg hw, if_neg hr]

set_option maxRecDepth 1000000 in
/-- Witness of `readOnly_device_volumes`: the read-only hardfile of 5 blocks, whose
volume mounts. -/
theorem readOnly_device_volumes_witness :
    (adfMountHdFile (sampleDecls strictEnv) (hdfDevice 5 true)).2.readOnly = true
    ∧ (adfVolMount (sampleDecls strictEnv)
          (some (adfMountHdFile (sampleDecls strictEnv) (hdfDevice 5 true)).2) 0
          ADF_ACCESS_MODE_READWRITE).1.isSome = true
    ∧ ((∀ v, (adfVolMount (sampleDecls strictEnv)
          (some (adfMountHdFile (sampleDecls strictEnv) (hdfDevice 5 true)).2) 0
          ADF_ACCESS_MODE_READWRITE).1 = some v →
        v.readOnly = true
        ∧ ∃ d1, (adfVolMount (sampleDecls strictEnv)
              (some (adfMountHdFile (sampleDecls strictEnv) (hdfDevice 5 true)).2) 0
              ADF_ACCESS_MODE_READWRITE).2 = some d1
            ∧ d1.volList.bind (fun l => l.get? (0 : Int).toNat) = some v)
      ∧ (∀ v1, adfVolRemount (adfMountHdFile (sampleDecls strictEnv) (hdfDevice 5 true)).2
          (some (sampleVolume true)) ADF_ACCESS_MODE_READONLY = (ADF_RC_OK, some v1) →
          v1.readOnly = true)
      ∧ adfVolRemount (adfMountHdFile (sampleDecls strictEnv) (hdfDevice 5 true)).2
          (some (sampleVolume true)) ADF_ACCESS_MODE_READWRITE
          = (ADF_RC_ERROR, some (sampleVolume true))
      ∧ ((((sampleVolume true).mounted = false
          ∨ (ADF_ACCESS_MODE_READONLY ≠ ADF_ACCESS_MODE_READONLY
              ∧ ADF_ACCESS_MODE_READONLY ≠ ADF_ACCESS_MODE_READWRITE)) →
        adfVolRemount onesDevice (some (sampleVolume true)) ADF_ACCESS_MODE_READONLY
          = (ADF_RC_ERROR, some (sampleVolume true))))) :=
  ⟨by decide, by decide,
    readOnly_device_volumes (sampleDecls strictEnv)
      (adfMountHdFile (sampleDecls strictEnv) (hdfDevice 5 true)).2 onesDevice 0
      ADF_ACCESS_MODE_READWRITE ADF_ACCESS_MODE_READONLY (sampleVolume true) (by decide)⟩

/-! ## Termination of the chain walks of `adfMountHd` -/

theorem chainOrbit_none_le (step : Int → Option Int) (s : Int) (k j : Nat) (h : k ≤ j)
    (hk : chainOrbit step s k = none) : chainOrbit step s j = none := by
  induction j with
  | zero =>
    have : k = 0 := by omega
    subst this
    exact hk
  | succ j ih =>
    by_cases hkj : k = j + 1
    · subst hkj
      exact hk
    · have h2 := ih (by omega)
      show (chainOrbit step s j).bind step = none
      rw [h2]
      rfl

theorem chainOrbit_add (step : Int → Option Int) (s : Int) (a b : Nat) :
    chainOrbit step s (a + b) = (chainOrbit step s a).bind (fun t => chainOrbit step t b) := by
  induction b with
  | zero =>
    show chainOrbit step s a = (chainOrbit step s a).bind some
    rw [Option.bind_some]
  | succ b ih =>
    show (chainOrbit step s (a + b)).bind step
      = (chainOrbit step s a).bind (fun t => (chainOrbit step t b).bind step)
    rw [ih, Option.bind_assoc]

theorem chainOrbit_succ (step : Int → Option Int) (s : Int) (k : Nat) :
    chainOrbit step s (k + 1) = (step s).bind (fun t => chainOrbit step t k) := by
  have h := chainOrbit_add step s 1 k
  rw [Nat.add_comm] at h
  rw [h]
  show ((some s).bind step).bind _ = _
  rfl

/-- A chain of pointers that are 32-bit integers and form no cycle ends within
`2^32 + 1` steps. -/
theorem chainOrbit_ends (step : Int → Option Int)
    (hr : ∀ s t, step s = some t → -2147483648 ≤ t ∧ t < 2147483648)
    (hn : NoCycle step) (s : Int) : chainOrbit step s 4294967297 = none := by
  by_contra hne
  have hall : ∀ k, k ≤ 4294967297 → ∃ t, chainOrbit step s k = some t := by
    intro k hk
    cases hc : chainOrbit step s k with
    | none => exact absurd (chainOrbit_none_le step s k _ hk hc) hne
    | some t => exact ⟨t, rfl⟩
  have hrange : ∀ k, k < 4294967297 → ∀ t, chainOrbit step s (k + 1) = some t →
      -2147483648 ≤ t ∧ t < 2147483648 := by
    intro k hk t ht
    obtain ⟨u, hu⟩ := hall k (by omega)
    have h1 : chainOrbit step s (k + 1) = (chainOrbit step s k).bind step := rfl
    rw [h1, hu] at ht
    exact hr u t ht
  have hmap : ∀ k ∈ Finset.range 4294967297,
      (chainOrbit step s (k + 1)).getD 0 ∈ Finset.Icc (-2147483648 : Int) 2147483647 := by
    intro k hk
    have hk2 : k < 4294967297 := Finset.mem_range.mp hk
    obtain ⟨t, ht⟩ := hall (k + 1) (by omega)
    have h2 := hrange k hk2 t ht
    rw [ht]
    simp only [Option.getD_some, Finset.mem_Icc]
    omega
  have hcard : (Finset.Icc (-2147483648 : Int) 2147483647).card
      < (Finset.range 4294967297).card := by
    rw [Int.card_Icc, Finset.card_range]
    norm_num
  obtain ⟨x, hx, y, hy, hxy, hfxy⟩ :=
    Finset.exists_ne_map_eq_of_card_lt_of_maps_to hcard hmap
  have key : ∀ a b, a < b → b < 4294967297 →
      (chainOrbit step s (a + 1)).getD 0 = (chainOrbit step s (b + 1)).getD 0 → False := by
    intro a b hab hb hf
    obtain ⟨t, ht⟩ := hall (a + 1) (by omega)
    obtain ⟨u, hu⟩ := hall (b + 1) (by omega)
    rw [ht, hu] at hf
    simp only [Option.getD_some] at hf
    subst hf
    have e : b + 1 = (a + 1) + (b - a) := by omega
    have h3 := chainOrbit_add step s (a + 1) (b - a)
    rw [← e, hu, ht] at h3
    exact hn t (b - a) (by omega) h3.symm
  have hx2 : x < 4294967297 := Finset.mem_range.mp hx
  have hy2 : y < 4294967297 := Finset.mem_range.mp hy
  rcases Nat.lt_or_gt_of_ne hxy with h | h
  · exact key x y h hy2 hfxy
  · exact key y x h hx2 hfxy.symm

theorem adfReadFSHDblock_ok_indep (L : AdfBlkLayout) (env : AdfEnv) (dev : AdfDevice)
    (n : Int) (blk blk1 : AdfFSHDblock) :
    (adfReadFSHDblock L env dev n blk1).1 = (adfReadFSHDblock L env dev n blk).1
    ∧ ((adfReadFSHDblock L env dev n blk).1 = ADF_RC_OK →
        adfReadFSHDblock L env dev n blk1 = adfReadFSHDblock L env dev n blk) := by
  unfold adfReadFSHDblock
  simp only
  split_ifs <;> simp_all

theorem adfReadLSEGblock_ok_indep (L : AdfBlkLayout) (env : AdfEnv) (dev : AdfDevice)
    (n : Int) (blk blk1 : AdfLSEGblock) :
    (adfReadLSEGblock L env dev n blk1).1 = (adfReadLSEGblock L env dev n blk).1
    ∧ ((adfReadLSEGblock L env dev n blk).1 = ADF_RC_OK →
        adfReadLSEGblock L env dev n blk1 = adfReadLSEGblock L env dev n blk) := by
  unfold adfReadLSEGblock
  simp only
  split_ifs <;> simp_all

theorem adfReadPARTblock_rc_indep (L : AdfBlkLayout) (env : AdfEnv) (dev : AdfDevice)
    (n : Int) (blk blk1 : AdfPARTblock) :
    (adfReadPARTblock L env dev n blk1).1 = (adfReadPARTblock L env dev n blk).1 := by
  unfold adfReadPARTblock
  simp only
  split_ifs <;> simp_all

/-- The PART loop ends when the chain from its first sector ends within `fuel`
steps. -/
theorem partLoop_ends (L : AdfBlkLayout) (env : AdfEnv) (dev : AdfDevice)
    (rdsk : AdfRDSKblock) :
    ∀ (fuel : Nat) (next : Int) (part : AdfPARTblock) (nVol : Int) (vList : List AdfVolume),
      chainOrbit (partNext L env dev) next fuel = none →
      (adfMountHd.partLoop L env dev rdsk fuel next part nVol vList).isSome = true := by
  intro fuel
  induction fuel with
  | zero =>
    intro next part nVol vList h
    exact absurd h (by simp [chainOrbit])
  | succ f ih =>
    intro next part nVol vList h
    rw [chainOrbit_succ] at h
    rw [adfMountHd.partLoop]
    by_cases hn : next = -1
    · rw [if_pos hn]; rfl
    rw [if_neg hn]
    dsimp only
    by_cases hrc : (adfReadPARTblock L env dev next part).1 ≠ ADF_RC_OK
    · rw [if_pos hrc]; rfl
    rw [if_neg hrc]
    by_cases hb : (adfDevReadBlock dev (toUInt32 (adfMountHd.firstBlock rdsk
        (adfReadPARTblock L env dev next part).2)) 512 (fun _ => 0)).rc ≠ ADF_RC_OK
    · rw [if_pos hb]; rfl
    rw [if_neg hb]
    have hok : (adfReadPARTblock L env dev next part).1 = ADF_RC_OK := not_not.mp hrc
    have heq := adfReadPARTblock_ok_indep L env dev next part zeroPART hok
    have hstep : partNext L env dev next
        = some (toInt32 (adfReadPARTblock L env dev next part).2.next) := by
      unfold partNext
      rw [if_neg hn, heq, if_neg hrc]
    rw [hstep] at h
    exact ih _ _ _ _ h

/-- The FSHD loop ends when the chain from its first sector ends within `fuel`
steps. -/
theorem fshdLoop_ends (L : AdfBlkLayout) (env : AdfEnv) (dev : AdfDevice) :
    ∀ (fuel : Nat) (next : Int) (fshd : AdfFSHDblock),
      chainOrbit (fshdNext L env dev) next fuel = none →
      (adfMountHd.fshdLoop L env dev fuel next fshd).isSome = true := by
  intro fuel
  induction fuel with
  | zero =>
    intro next fshd h
    exact absurd h (by simp [chainOrbit])
  | succ f ih =>
    intro next fshd h
    rw [chainOrbit_succ] at h
    rw [adfMountHd.fshdLoop]
    by_cases hn : next = -1
    · rw [if_pos hn]; rfl
    rw [if_neg hn]
    dsimp only
    by_cases hrc : (adfReadFSHDblock L env dev next fshd).1 ≠ ADF_RC_OK
    · rw [if_pos hrc]; rfl
    rw [if_neg hrc]
    have hok : (adfReadFSHDblock L env dev next fshd).1 = ADF_RC_OK := not_not.mp hrc
    have heq := (adfReadFSHDblock_ok_indep L env dev next fshd initFSHD).2 hok
    have hstep : fshdNext L env dev next
        = some (toInt32 (adfReadFSHDblock L env dev next fshd).2.next) := by
      unfold fshdNext
      rw [if_neg hn, heq, if_neg hrc]
    rw [hstep] at h
    exact ih _ _ h

/-- The LSEG loop ends when the chain from its first sector ends within `fuel`
steps. -/
theorem lsegLoop_ends (L : AdfBlkLayout) (env : AdfEnv) (dev : AdfDevice) :
    ∀ (fuel : Nat) (next : Int) (lseg : AdfLSEGblock),
      chainOrbit (lsegNext L env dev) next fuel = none →
      (adfMountHd.lsegLoop L env dev fuel next lseg).isSome = true := by
  intro fuel
  induction fuel with
  | zero =>
    intro next lseg h
    exact absurd h (by simp [chainOrbit])
  | succ f ih =>
    intro next lseg h
    rw [chainOrbit_succ] at h
    rw [adfMountHd.lsegLoop]
    by_cases hn : next = -1
    · rw [if_pos hn]; rfl
    rw [if_neg hn]
    dsimp only
    by_cases hrc : (adfReadLSEGblock L env dev next lseg).1 ≠ ADF_RC_OK
    · rw [if_pos hrc]; rfl
    rw [if_neg hrc]
    have hok : (adfReadLSEGblock L env dev next lseg).1 = ADF_RC_OK := not_not.mp hrc
    have heq := (adfReadLSEGblock_ok_indep L env dev next lseg zeroLSEG).2 hok
    have hstep : lsegNext L env dev next
        = some (toInt32 (adfReadLSEGblock L env dev next lseg).2.next) := by
      unfold lsegNext
      rw [if_neg hn, heq, if_neg hrc]
    rw [hstep] at h
    exact ih _ _ h

theorem partNext_range (L : AdfBlkLayout) (env : AdfEnv) (dev : AdfDevice) (s t : Int)
    (h : partNext L env dev s = some t) : -2147483648 ≤ t ∧ t < 2147483648 := by
  unfold partNext at h
  split_ifs at h
  rw [← Option.some.inj h]
  exact toInt32_lt _

theorem fshdNext_range (L : AdfBlkLayout) (env : AdfEnv) (dev : AdfDevice) (s t : Int)
    (h : fshdNext L env dev s = some t) : -2147483648 ≤ t ∧ t < 2147483648 := by
  unfold fshdNext at h
  split_ifs at h
  rw [← Option.some.inj h]
  exact toInt32_lt _

theorem lsegNext_range (L : AdfBlkLayout) (env : AdfEnv) (dev : AdfDevice) (s t : Int)
    (h : lsegNext L env dev s = some t) : -2147483648 ≤ t ∧ t < 2147483648 := by
  unfold lsegNext at h
  split_ifs at h
  rw [← Option.some.inj h]
  exact toInt32_lt _

/-- The function `adfMountHd` returns when each of its three loops ends. -/
theorem adfMountHd_isSome (L : AdfBlkLayout) (env : AdfEnv) (dev : AdfDevice) (fuel : Nat)
    (hp : ∀ next part nVol vList,
      (adfMountHd.partLoop L env dev (adfReadRDSKblock L env dev zeroRDSK).2 fuel next part
        nVol vList).isSome = true)
    (hf : ∀ next fshd, (adfMountHd.fshdLoop L env dev fuel next fshd).isSome = true)
    (hl : ∀ next lseg, (adfMountHd.lsegLoop L env dev fuel next lseg).isSome = true) :
    (adfMountHd L env fuel dev).isSome = true := by
  unfold adfMountHd
  dsimp only
  by_cases h1 : (adfReadRDSKblock L env dev zeroRDSK).1 ≠ ADF_RC_OK
  · rw [if_pos h1]; rfl
  rw [if_neg h1]
  obtain ⟨⟨rc, nVol, vList⟩, hpl⟩ := Option.isSome_iff_exists.mp
    (hp (toInt32 (adfReadRDSKblock L env dev zeroRDSK).2.partitionList) zeroPART 0 [])
  rw [hpl]
  dsimp only
  by_cases h2 : rc ≠ ADF_RC_OK
  · rw [if_pos h2]; rfl
  rw [if_neg h2, fshdLoop_dev]
  obtain ⟨fshd, hfs⟩ := Option.isSome_iff_exists.mp
    (hf (toInt32 (adfReadRDSKblock L env dev zeroRDSK).2.fileSysHdrList) initFSHD)
  rw [hfs]
  dsimp only
  rw [lsegLoop_dev]
  obtain ⟨u, hu⟩ := Option.isSome_iff_exists.mp
    (hl (toInt32 fshd.segListBlock) zeroLSEG)
  rw [hu]
  rfl

/-! ## The sample images with a filesystem header list -/

theorem toUInt32_idem (s : Int) : toUInt32 ((toUInt32 s : Nat) : Int) = toUInt32 s := by
  unfold toUInt32
  omega

set_option maxRecDepth 1000000 in
theorem fsList_facts :
    adfReadRDSKblock stdBlkLayout strictEnv (rdbDeviceOf fshdCycleWords) zeroRDSK
      = (ADF_RC_OK, decodeRDSK stdBlkLayout (imageOfWords fsListWords))
    ∧ adfReadRDSKblock stdBlkLayout strictEnv (rdbDeviceOf lsegCycleWords) zeroRDSK
      = (ADF_RC_OK, decodeRDSK stdBlkLayout (imageOfWords fsListWords))
    ∧ adfReadRDSKblock stdBlkLayout strictEnv (rdbDeviceOf fshdEndWords) zeroRDSK
      = (ADF_RC_OK, decodeRDSK stdBlkLayout (imageOfWords fsListWords))
    ∧ adfReadRDSKblock stdBlkLayout strictEnv (rdbDeviceOf fsListWords) zeroRDSK
      = (ADF_RC_OK, decodeRDSK stdBlkLayout (imageOfWords fsListWords)) := by
  refine ⟨by decide!, by decide!, by decide!, by decide!⟩

set_option maxRecDepth 1000000 in
theorem fsList_start :
    toInt32 (decodeRDSK stdBlkLayout (imageOfWords fsListWords)).partitionList = 1
    ∧ toInt32 (decodeRDSK stdBlkLayout (imageOfWords fsListWords)).fileSysHdrList = 3 := by
  refine ⟨by decide!, by decide!⟩

set_option maxRecDepth 1000000 in
theorem lsegCycle_chain :
    PartChain stdBlkLayout strictEnv (rdbDeviceOf lsegCycleWords) 1 [rdbPartA, rdbPartB] := by
  simp only [PartChain]
  decide!

set_option maxRecDepth 1000000 in
/-- On the image whose LSEG block points to itself the LSEG loop does not end. -/
theorem lsegCycle_loop : ∀ (fuel : Nat) (lseg : AdfLSEGblock),
    adfMountHd.lsegLoop stdBlkLayout strictEnv (rdbDeviceOf lsegCycleWords) fuel 5 lseg
      = none := by
  have h0 : (adfReadLSEGblock stdBlkLayout strictEnv (rdbDeviceOf lsegCycleWords) 5
      zeroLSEG).1 = ADF_RC_OK
      ∧ toInt32 (adfReadLSEGblock stdBlkLayout strictEnv (rdbDeviceOf lsegCycleWords) 5
        zeroLSEG).2.next = 5 := by
    refine ⟨by decide!, by decide!⟩
  intro fuel
  induction fuel with
  | zero => intro lseg; rfl
  | succ f ih =>
    intro lseg
    have h1 := adfReadLSEGblock_ok_indep stdBlkLayout strictEnv (rdbDeviceOf lsegCycleWords)
      5 zeroLSEG lseg
    have h2 := h1.2 h0.1
    rw [adfMountHd.lsegLoop]
    have hn : ¬ (5 : Int) = -1 := by decide!
    rw [if_neg hn]
    dsimp only
    rw [h2, if_neg (by simp [h0.1]), h0.2]
    exact ih _

/-- The result of `adfMountHd` when the RDSK block and the PART chain are read and the
boot blocks of the partitions too, by the outcome of the two other loops. -/
theorem adfMountHd_after_parts (L : AdfBlkLayout) (env : AdfEnv) (dev : AdfDevice)
    (rdsk : AdfRDSKblock) (parts : List AdfPARTblock) (fuel : Nat)
    (hr : adfReadRDSKblock L env dev zeroRDSK = (ADF_RC_OK, rdsk))
    (hc : PartChain L env dev (toInt32 rdsk.partitionList) parts)
    (hb : ∀ p ∈ parts, (bootRead dev rdsk p).rc = ADF_RC_OK)
    (hf : parts.length ≤ fuel) :
    adfMountHd L env fuel dev
      = match adfMountHd.fshdLoop L env dev fuel (toInt32 rdsk.fileSysHdrList) initFSHD with
        | none => none
        | some fshd =>
          match adfMountHd.lsegLoop L env dev fuel (toInt32 fshd.segListBlock) zeroLSEG with
          | none => none
          | some _ => some (ADF_RC_OK,
              { dev with nVol := (parts.length : Int),
                         volList := some (chainVolumes dev rdsk parts) }) := by
  have hpl := partLoop_complete L env dev rdsk parts fuel (toInt32 rdsk.partitionList)
    zeroPART 0 [] hc hb hf
  have ht : (chainVolumes dev rdsk parts).take parts.length = chainVolumes dev rdsk parts :=
    List.take_of_length_le (by simp [chainVolumes])
  unfold adfMountHd
  simp only [hr, ne_eq, not_true_eq_false, if_false, hpl, fshdLoop_dev, lsegLoop_dev,
    zero_add, List.nil_append, Int.toNat_natCast, ht]

theorem rdbDeviceOf_far256 (words : List (Nat × Nat)) (n : Nat) (h : 10 ≤ n)
    (hn : n < 4294967296) (buf : Bytes) :
    (adfDevReadBlock (rdbDeviceOf words) n 256 buf).rc ≠ ADF_RC_OK := by
  unfold adfDevReadBlock
  have e1 : (rdbDeviceOf words).geometry.blockSize = 512 := rfl
  have e2 : (rdbDeviceOf words).drv.readSectors = adfReadDumpSectors := rfl
  have e3 : (rdbDeviceOf words).sizeBlocks = 10 := rfl
  have e4 : (rdbDeviceOf words).drvData.size = 5120 := rfl
  simp only [e1, e2, e3]
  unfold adfReadDumpSectors
  simp only [e4]
  norm_num
  by_cases h10 : n = 10
  · subst h10
    simp
  · have h11 : 10 < n % 4294967296 := by omega
    simp [h11]

theorem rdbDeviceOf_far512 (words : List (Nat × Nat)) (n : Nat) (h : 10 ≤ n)
    (hn : n < 4294967296) (buf : Bytes) :
    (adfDevReadBlock (rdbDeviceOf words) n 512 buf).rc ≠ ADF_RC_OK := by
  unfold adfDevReadBlock
  have e1 : (rdbDeviceOf words).geometry.blockSize = 512 := rfl
  have e2 : (rdbDeviceOf words).drv.readSectors = adfReadDumpSectors := rfl
  have e3 : (rdbDeviceOf words).sizeBlocks = 10 := rfl
  have e4 : (rdbDeviceOf words).drvData.size = 5120 := rfl
  simp only [e1, e2, e3]
  unfold adfReadDumpSectors
  simp only [e4]
  norm_num
  by_cases h10 : n = 4294967295
  · subst h10
    simp
  · have h11 : 10 < (n + 1) % 4294967296 := by omega
    simp [h11]


theorem noCycle_of_rank (step : Int → Option Int) (rank : Int → Nat)
    (h : ∀ s t, step s = some t → rank t < rank s) : NoCycle step := by
  have aux : ∀ (k : Nat) (s t : Int), chainOrbit step s k = some t → rank t + k ≤ rank s := by
    intro k
    induction k with
    | zero =>
      intro s t hst
      have : s = t := Option.some.inj hst
      subst this
      omega
    | succ k ih =>
      intro s t hst
      have h1 : (chainOrbit step s k).bind step = some t := hst
      obtain ⟨u, hu, hut⟩ := Option.bind_eq_some.mp h1
      have h2 := ih s u hu
      have h3 := h u t hut
      omega
  intro s k hk hc
  have := aux k s s hc
  omega

theorem adfReadPARTblock_sector (L : AdfBlkLayout) (env : AdfEnv) (dev : AdfDevice)
    (s : Int) (blk : AdfPARTblock) :
    adfReadPARTblock L env dev s blk
      = adfReadPARTblock L env dev ((toUInt32 s : Nat) : Int) blk := by
  unfold adfReadPARTblock
  rw [toUInt32_idem]

theorem adfReadFSHDblock_sector (L : AdfBlkLayout) (env : AdfEnv) (dev : AdfDevice)
    (s : Int) (blk : AdfFSHDblock) :
    adfReadFSHDblock L env dev s blk
      = adfReadFSHDblock L env dev ((toUInt32 s : Nat) : Int) blk := by
  unfold adfReadFSHDblock
  rw [toUInt32_idem]

theorem adfReadLSEGblock_sector (L : AdfBlkLayout) (env : AdfEnv) (dev : AdfDevice)
    (s : Int) (blk : AdfLSEGblock) :
    adfReadLSEGblock L env dev s blk
      = adfReadLSEGblock L env dev ((toUInt32 s : Nat) : Int) blk := by
  unfold adfReadLSEGblock
  rw [toUInt32_idem]

set_option maxRecDepth 1000000 in
/-- The PART blocks of the image with a FSHD block that ends the chain: sector 1 leads
to sector 2, sector 2 ends the chain, and no other sector holds a valid PART block. -/
theorem fshdEnd_partNext (s t : Int)
    (h : partNext stdBlkLayout strictEnv (rdbDeviceOf fshdEndWords) s = some t) :
    (toUInt32 s = 1 ∧ t = 2) ∨ (toUInt32 s = 2 ∧ t = -1) := by
  have key : ∀ n, n < 10 →
      (adfReadPARTblock stdBlkLayout strictEnv (rdbDeviceOf fshdEndWords) ((n : Nat) : Int)
        zeroPART).1 = ADF_RC_OK →
      (n = 1 ∧ toInt32 (adfReadPARTblock stdBlkLayout strictEnv (rdbDeviceOf fshdEndWords)
          ((n : Nat) : Int) zeroPART).2.next = 2)
      ∨ (n = 2 ∧ toInt32 (adfReadPARTblock stdBlkLayout strictEnv (rdbDeviceOf fshdEndWords)
          ((n : Nat) : Int) zeroPART).2.next = -1) := by
    decide!
  unfold partNext at h
  split_ifs at h with h1 h2
  rw [adfReadPARTblock_sector] at h h2
  have hlt := toUInt32_lt s
  by_cases h10 : toUInt32 s < 10
  · have hk := key (toUInt32 s) h10 (not_not.mp h2)
    have ht := Option.some.inj h
    rw [ht] at hk
    exact hk
  · exfalso
    apply h2
    unfold adfReadPARTblock
    dsimp only
    rw [toUInt32_idem]
    have hfar := rdbDeviceOf_far256 fshdEndWords (toUInt32 s) (by omega) hlt (fun _ => 0)
    have e : stdBlkLayout.part_sizeof = 256 := rfl
    rw [e, if_pos hfar]
    exact hfar

set_option maxRecDepth 1000000 in
/-- The FSHD blocks of that image: sector 3 ends the chain, and no other sector holds a
valid FSHD block. -/
theorem fshdEnd_fshdNext (s t : Int)
    (h : fshdNext stdBlkLayout strictEnv (rdbDeviceOf fshdEndWords) s = some t) :
    toUInt32 s = 3 ∧ t = -1 := by
  have key : ∀ n, n < 10 →
      (adfReadFSHDblock stdBlkLayout strictEnv (rdbDeviceOf fshdEndWords) ((n : Nat) : Int)
        initFSHD).1 = ADF_RC_OK →
      (n = 3 ∧ toInt32 (adfReadFSHDblock stdBlkLayout strictEnv (rdbDeviceOf fshdEndWords)
          ((n : Nat) : Int) initFSHD).2.next = -1) := by
    decide!
  unfold fshdNext at h
  split_ifs at h with h1 h2
  rw [adfReadFSHDblock_sector] at h h2
  have hlt := toUInt32_lt s
  by_cases h10 : toUInt32 s < 10
  · have hk := key (toUInt32 s) h10 (not_not.mp h2)
    have ht := Option.some.inj h
    rw [ht] at hk
    exact hk
  · exfalso
    apply h2
    unfold adfReadFSHDblock
    dsimp only
    rw [toUInt32_idem]
    have hfar := rdbDeviceOf_far256 fshdEndWords (toUInt32 s) (by omega) hlt (fun _ => 0)
    have e : stdBlkLayout.fshd_sizeof = 256 := rfl
    rw [e, if_pos hfar]
    exact hfar

set_option maxRecDepth 1000000 in
/-- No sector of that image holds a valid LSEG block. -/
theorem fshdEnd_lsegNext (s : Int) :
    lsegNext stdBlkLayout strictEnv (rdbDeviceOf fshdEndWords) s = none := by
  have key : ∀ n, n < 10 →
      (adfReadLSEGblock stdBlkLayout strictEnv (rdbDeviceOf fshdEndWords) ((n : Nat) : Int)
        zeroLSEG).1 ≠ ADF_RC_OK := by
    decide!
  unfold lsegNext
  by_cases h1 : s = -1
  · rw [if_pos h1]
  rw [if_neg h1]
  have hlt := toUInt32_lt s
  have h2 : (adfReadLSEGblock stdBlkLayout strictEnv (rdbDeviceOf fshdEndWords) s
      zeroLSEG).1 ≠ ADF_RC_OK := by
    rw [adfReadLSEGblock_sector]
    by_cases h10 : toUInt32 s < 10
    · exact key (toUInt32 s) h10
    · unfold adfReadLSEGblock
      dsimp only
      rw [toUInt32_idem]
      have hfar := rdbDeviceOf_far512 fshdEndWords (toUInt32 s) (by omega) hlt (fun _ => 0)
      have e : stdBlkLayout.lseg_sizeof = 512 := rfl
      rw [e, if_pos hfar]
      exact hfar
  rw [if_pos h2]

/-- The three chains of that image form no cycle. -/
theorem fshdEnd_noCycle :
    NoCycle (partNext stdBlkLayout strictEnv (rdbDeviceOf fshdEndWords))
    ∧ NoCycle (fshdNext stdBlkLayout strictEnv (rdbDeviceOf fshdEndWords))
    ∧ NoCycle (lsegNext stdBlkLayout strictEnv (rdbDeviceOf fshdEndWords)) := by
  refine ⟨?_, ?_, ?_⟩
  · apply noCycle_of_rank _
      (fun s => if toUInt32 s = 1 then 2 else if toUInt32 s = 2 then 1 else 0)
    intro s t h
    rcases fshdEnd_partNext s t h with ⟨h1, h2⟩ | ⟨h1, h2⟩
    · subst h2
      rw [if_pos h1]
      decide!
    · subst h2
      have h3 : ¬ toUInt32 s = 1 := by omega
      rw [if_neg h3, if_pos h1]
      decide!
  · apply noCycle_of_rank _ (fun s => if toUInt32 s = 3 then 1 else 0)
    intro s t h
    obtain ⟨h1, h2⟩ := fshdEnd_fshdNext s t h
    subst h2
    rw [if_pos h1]
    decide!
  · apply noCycle_of_rank _ (fun _ => 0)
    intro s t h
    rw [fshdEnd_lsegNext] at h
    exact absurd h (by simp)

/-! ## The FSHD and LSEG blocks and the result of `adfMountHd` -/

set_option maxRecDepth 1000000 in
/-- Claim C24: a counterexample. On the image whose LSEG block points to itself, so
that its `next` pointers form a cycle, `adfMountHd` does not return, whatever the
number of rounds allowed. -/
theorem adfMountHd_lseg_cycle :
    lsegNext stdBlkLayout strictEnv (rdbDeviceOf lsegCycleWords) 5 = some 5
    ∧ ∀ fuel, adfMountHd stdBlkLayout strictEnv fuel (rdbDeviceOf lsegCycleWords) = none := by
  refine ⟨by decide!, ?_⟩
  intro fuel
  by_cases hf : 2 ≤ fuel
  · have hc : PartChain stdBlkLayout strictEnv (rdbDeviceOf lsegCycleWords)
        (toInt32 (decodeRDSK stdBlkLayout (imageOfWords fsListWords)).partitionList)
        [rdbPartA, rdbPartB] := by
      rw [fsList_start.1]
      exact lsegCycle_chain
    have h1 : adfMountHd.fshdLoop stdBlkLayout strictEnv (rdbDeviceOf lsegCycleWords) 1 3
        initFSHD = some (decodeFSHD stdBlkLayout
          (fun i => imageOfWords lsegCycleWords (1536 + i))) := by
      decide!
    have h2 := fshdLoop_mono stdBlkLayout strictEnv (rdbDeviceOf lsegCycleWords) 1 3
      initFSHD _ h1 (fuel - 1)
    have e : 1 + (fuel - 1) = fuel := by omega
    rw [e] at h2
    have h3 : toInt32 (decodeFSHD stdBlkLayout
        (fun i => imageOfWords lsegCycleWords (1536 + i))).segListBlock = 5 := by
      decide!
    rw [adfMountHd_after_parts stdBlkLayout strictEnv (rdbDeviceOf lsegCycleWords) _
      [rdbPartA, rdbPartB] fuel fsList_facts.2.1 hc (by decide!) hf, fsList_start.2, h2]
    dsimp only
    rw [h3, lsegCycle_loop]
  · have h01 : fuel = 0 ∨ fuel = 1 := by omega
    rcases h01 with h | h
    · subst h; exact Option.isNone_iff_eq_none.mp (by decide!)
    · subst h; exact Option.isNone_iff_eq_none.mp (by decide!)

/-- Claim C24, amended: `adfMountHd` terminates on every device image in which the
`next` pointers of the PART blocks, of the FSHD blocks and of the LSEG blocks form no
cycle: each of the three chain walks then visits at most `2^32 + 1` blocks, and with
that many rounds allowed, or more, the function returns. -/
theorem adfMountHd_terminates_acyclic (L : AdfBlkLayout) (env : AdfEnv) (dev : AdfDevice)
    (hP : NoCycle (partNext L env dev)) (hF : NoCycle (fshdNext L env dev))
    (hS : NoCycle (lsegNext L env dev)) :
    ∀ fuel, 4294967297 ≤ fuel → (adfMountHd L env fuel dev).isSome = true := by
  intro fuel hf
  apply adfMountHd_isSome
  · intro next part nVol vList
    apply partLoop_ends
    exact chainOrbit_none_le _ _ 4294967297 fuel hf
      (chainOrbit_ends _ (partNext_range L env dev) hP next)
  · intro next fshd
    apply fshdLoop_ends
    exact chainOrbit_none_le _ _ 4294967297 fuel hf
      (chainOrbit_ends _ (fshdNext_range L env dev) hF next)
  · intro next lseg
    apply lsegLoop_ends
    exact chainOrbit_none_le _ _ 4294967297 fuel hf
      (chainOrbit_ends _ (lsegNext_range L env dev) hS next)

/-- Witness of `adfMountHd_terminates_acyclic`: the image with two PART blocks and a
FSHD block that ends the chain. -/
theorem adfMountHd_terminates_acyclic_witness :
    (adfMountHd stdBlkLayout strictEnv 4294967297 (rdbDeviceOf fshdEndWords)).isSome = true :=
  adfMountHd_terminates_acyclic stdBlkLayout strictEnv (rdbDeviceOf fshdEndWords)
    fshdEnd_noCycle.1 fshdEnd_noCycle.2.1 fshdEnd_noCycle.2.2 4294967297 (le_refl _)

set_option maxRecDepth 1000000 in
/-- Claim C25 (the code departs from it): on the hard disk image of 5 blocks, where the
PART chain has two blocks and the boot block of the second partition lies behind the
end of the image, `adfDevMount` fails and leaves the device unmounted, but with
`dev.nVol = 2` and the null volume list that it had before the call, so that a later
`adfVolMount( dev, 0, mode )` passes the tests against `dev->nVol` and takes its volume
from the null list. -/
theorem adfDevMount_failure_keeps_nVol :
    (adfDevMount (sampleDecls strictEnv) strictEnv 5 (some (rdbDevice 5))).map
        (fun r => (r.1, r.2.map (fun d => (d.mounted, d.nVol, d.volList))))
      = some (ADF_RC_ERROR, some (false, 2, none))
    ∧ (rdbDevice 5).nVol = 0 ∧ (rdbDevice 5).volList = none := by
  refine ⟨by rfl, by decide!, by rfl⟩

/-! ## The bounds check of the drivers -/

set_option maxRecDepth 1000000 in
/-- Claim C29 (the code departs from it): the request for 1 block at block `2^32 - 1`
of a device of 10 blocks is not inside the device, but its 32-bit sum
`block + lenBlocks` is 0 and passes the test of the drivers: `adfWriteDumpSectors`
returns OK and has extended the image file to `2^32` bytes, and so does
`adfDevWriteBlock` on the device; `ramdiskReadSectors` and `ramdiskWriteSectors` return
OK, and their `memcpy` touches the 512 bytes from offset `2^32 - 512` on, outside a
storage of 5120 bytes. -/
theorem writeSectors_wrapped_sum :
    4294967295 + 1 > onesDevice.sizeBlocks
    ∧ (adfWriteDumpSectors onesDevice.drvData onesDevice.sizeBlocks 512 4294967295 1
        (fun _ => 7)).1 = ADF_RC_OK
    ∧ (adfWriteDumpSectors onesDevice.drvData onesDevice.sizeBlocks 512 4294967295 1
        (fun _ => 7)).2.size = 4294967296
    ∧ onesDevice.drvData.size = 5120
    ∧ (ramdiskReadSectors onesDevice.drvData onesDevice.sizeBlocks 512 4294967295 1
        (fun _ => 7)).1 = ADF_RC_OK
    ∧ (ramdiskWriteSectors onesDevice.drvData onesDevice.sizeBlocks 512 4294967295 1
        (fun _ => 7)).1 = ADF_RC_OK
    ∧ ramdiskTouched 512 4294967295 1 = (4294966784, 512)
    ∧ ¬ (4294966784 + 512 ≤ onesDevice.drvData.size)
    ∧ (adfDevWriteBlock onesDevice 4294967295 512 (fun _ => 7)).rc = ADF_RC_OK
    ∧ (adfDevWriteBlock onesDevice 4294967295 512 (fun _ => 7)).dev.drvData.size
        = 4294967296 := by
  refine ⟨by decide!, by decide!, by decide!, by decide!, by decide!, by decide!,
    by decide!, by decide!, by decide!, by decide!⟩

/-- The bounds check of the drivers: the `readSectors` and `writeSectors` functions of
the dump, the ramdisk and the native driver return an error, with the buffer and the
container as they were, whenever the 32-bit sum `block + lenBlocks` is greater than
`sizeBlocks`; this is the case of every request that is not entirely inside the device
and whose sum `block + lenBlocks` is below `2^32`. -/
theorem drivers_reject_out_of_range (c : Container)
    (sizeBlocks blockSize block lenBlocks : Nat) (buf : Bytes)
    (h : (block + lenBlocks) % 4294967296 > sizeBlocks
      ∨ (block + lenBlocks < 4294967296 ∧ block + lenBlocks > sizeBlocks)) :
    adfReadDumpSectors c sizeBlocks blockSize block lenBlocks buf = (ADF_RC_ERROR, buf)
    ∧ adfWriteDumpSectors c sizeBlocks blockSize block lenBlocks buf = (ADF_RC_ERROR, c)
    ∧ ramdiskReadSectors c sizeBlocks blockSize block lenBlocks buf = (ADF_RC_ERROR, buf)
    ∧ ramdiskWriteSectors c sizeBlocks blockSize block lenBlocks buf = (ADF_RC_ERROR, c)
    ∧ adfLinuxReadSectors c sizeBlocks blockSize block lenBlocks buf = (ADF_RC_ERROR, buf)
    ∧ adfLinuxWriteSectors c sizeBlocks blockSize block lenBlocks buf = (ADF_RC_ERROR, c) := by
  have hg : (block + lenBlocks) % 4294967296 > sizeBlocks := by
    rcases h with h | ⟨h1, h2⟩
    · exact h
    · rw [Nat.mod_eq_of_lt h1]
      exact h2
  refine ⟨?_, ?_, ?_, ?_, ?_, ?_⟩
  · unfold adfReadDumpSectors
    rw [if_pos hg]
  · unfold adfWriteDumpSectors
    rw [if_pos hg]
  · unfold ramdiskReadSectors
    rw [if_pos hg]
  · unfold ramdiskWriteSectors
    rw [if_pos hg]
  · unfold adfLinuxReadSectors
    rw [if_pos hg]
  · unfold adfLinuxWriteSectors
    rw [if_pos hg]

/-- An instance of `drivers_reject_out_of_range`: 2 blocks at block 9 of the device of
10 blocks. -/
theorem drivers_reject_out_of_range_witness :
    adfReadDumpSectors onesDevice.drvData 10 512 9 2 (fun _ => 0) = (ADF_RC_ERROR, fun _ => 0)
    ∧ adfWriteDumpSectors onesDevice.drvData 10 512 9 2 (fun _ => 0)
      = (ADF_RC_ERROR, onesDevice.drvData)
    ∧ ramdiskReadSectors onesDevice.drvData 10 512 9 2 (fun _ => 0)
      = (ADF_RC_ERROR, fun _ => 0)
    ∧ ramdiskWriteSectors onesDevice.drvData 10 512 9 2 (fun _ => 0)
      = (ADF_RC_ERROR, onesDevice.drvData)
    ∧ adfLinuxReadSectors onesDevice.drvData 10 512 9 2 (fun _ => 0)
      = (ADF_RC_ERROR, fun _ => 0)
    ∧ adfLinuxWriteSectors onesDevice.drvData 10 512 9 2 (fun _ => 0)
      = (ADF_RC_ERROR, onesDevice.drvData) :=
  drivers_reject_out_of_range onesDevice.drvData 10 512 9 2 (fun _ => 0)
    (Or.inr ⟨by decide, by decide⟩)

/-! ## The storage of a ramdisk -/

/-- Claim C30 (the code departs from it): the ramdisk created with 5 cylinders, 1 head
and 2 sectors has 10 blocks and a storage of `10 * 10 = 100` bytes, not of
`10 * 512 = 5120` bytes. The read and the write of block 9 pass the bounds check of the
driver and return OK, and they touch the 512 bytes from offset 4608 on, which lie
outside the storage. -/
theorem ramdiskCreate_storage_size :
    ∃ dev, ramdiskCreate (fun _ => some (fun _ => 0)) "ram" 5 1 2 = some dev
      ∧ dev.sizeBlocks = 10 ∧ dev.geometry.blockSize = 512
      ∧ dev.drvData.size = 100
      ∧ 9 + 1 ≤ dev.sizeBlocks
      ∧ (dev.drv.readSectors dev.drvData dev.sizeBlocks dev.geometry.blockSize 9 1
          (fun _ => 0)).1 = ADF_RC_OK
      ∧ (dev.drv.writeSectors dev.drvData dev.sizeBlocks dev.geometry.blockSize 9 1
          (fun _ => 0)).1 = ADF_RC_OK
      ∧ ramdiskTouched dev.geometry.blockSize 9 1 = (4608, 512)
      ∧ ¬ (4608 + 512 ≤ dev.drvData.size) := by
  refine ⟨_, rfl, ?_, ?_, ?_, ?_, ?_, ?_, ?_, ?_⟩ <;> decide!

/-! ## The volume created on a floppy -/

theorem adfVolCreate_filled (written : AdfDevice → AdfVolume → Bool) (dev : AdfDevice)
    (start len : Nat) (volName : List Nat) (volType : Nat) :
    adfVolCreate written dev start len volName volType
      = if ¬ written dev (adfVolCreate.filled dev start len volName volType) then none
        else some { adfVolCreate.filled dev start len volName volType with
                    mounted := false } := rfl

/-- The result of `adfCreateFlop` when it returns OK: one volume, with the extent that
`adfVolCreate` gives to 80 cylinders from cylinder 0 on. -/
theorem adfCreateFlop_ok (W : AdfVolWriters) (d : AdfDevice) (name : List Nat)
    (volType : Nat) (d1 : AdfDevice)
    (h : adfCreateFlop W (some d) (some name) volType = (ADF_RC_OK, some d1)) :
    ∃ v, d1.volList = some [v] ∧ d1.nVol = 1
      ∧ v.firstBlock = (adfVolCreate.filled d 0 80 name volType).firstBlock
      ∧ v.lastBlock = (adfVolCreate.filled d 0 80 name volType).lastBlock := by
  unfold adfCreateFlop at h
  dsimp only at h
  rw [adfVolCreate_filled] at h
  by_cases hw : ¬ W.written d (adfVolCreate.filled d 0 80 name volType) = true
  · rw [if_pos hw] at h
    exact absurd (congrArg Prod.fst h) (by simp)
  · rw [if_neg hw] at h
    dsimp only at h
    have h2 := Option.some.inj (congrArg Prod.snd h)
    rw [← h2]
    exact ⟨_, rfl, rfl, rfl, rfl⟩

set_option maxRecDepth 1000000 in
/-- Claim C27 (the code departs from it): on a floppy device of the predefined type
`dd81`, of 81 cylinders, 2 heads and 11 sectors, the volume that `adfCreateFlop`
creates, whenever it returns OK (as it does when the writes of `adfVolCreate` succeed),
starts at block 0 and ends at block 1759, the last block of 80 cylinders, while the
device ends at block `81 * 2 * 11 - 1 = 1781`, which is the last block that
`adfMountFlop` gives to the volume. -/
theorem adfCreateFlop_80_cylinders (W : AdfVolWriters) (name : List Nat) (volType : Nat) :
    adfDevMedia.get? 5 = some ⟨some "dd81", flop81Device.geometry, ADF_DEVCLASS_FLOP,
      some "891 KiB floppy (81 tracks)"⟩
    ∧ (∀ d1, adfCreateFlop W (some flop81Device) (some name) volType = (ADF_RC_OK, some d1) →
        ∃ v, d1.volList = some [v] ∧ v.firstBlock = 0 ∧ v.lastBlock = 1759)
    ∧ (∃ d1, adfCreateFlop ⟨fun _ _ => true, fun d _ => d.drvData⟩ (some flop81Device)
        (some name) volType = (ADF_RC_OK, some d1))
    ∧ (adfMountFlop.newVolume flop81Device).lastBlock = 1781
    ∧ ((flop81Device.geometry.cylinders * flop81Device.geometry.heads
        * flop81Device.geometry.sectors : Nat) : Int) - 1 = 1781 := by
  refine ⟨by decide!, ?_, ⟨_, rfl⟩, by decide!, by decide!⟩
  intro d1 h
  obtain ⟨v, hv, _, hf, hl⟩ := adfCreateFlop_ok W flop81Device name volType d1 h
  refine ⟨v, hv, ?_, ?_⟩
  · rw [hf]
    have e : (adfVolCreate.filled flop81Device 0 80 name volType).firstBlock
        = toInt32 ((2 * 11 * 0 % 4294967296 : Nat)) := rfl
    rw [e]
    decide!
  · rw [hl]
    have e : (adfVolCreate.filled flop81Device 0 80 name volType).lastBlock
        = toInt32 (toInt32 (toInt32 ((2 * 11 * 0 % 4294967296 : Nat))
            + toInt32 ((2 * 11 * 80 % 4294967296 : Nat))) - 1) := rfl
    rw [e]
    decide!

/-! ## Installing a boot block -/

/-- On a device that is not a floppy `adfVolInstallBootBlock` returns an error and
calls neither the reader nor the writer of the boot block. -/
theorem adfVolInstallBootBlock_not_flop (B : AdfBootDecls) (dev : AdfDevice)
    (vol : AdfVolume) (code : Bytes) (h : dev.dev_class ≠ ADF_DEVCLASS_FLOP) :
    adfVolInstallBootBlock B dev vol code = ⟨ADF_RC_ERROR, dev, vol, none⟩ := by
  unfold adfVolInstallBootBlock
  rw [if_pos h]

/-- The record that `adfVolInstallBootBlock` hands to `adfWriteBootBlock`: the record
read, with the root block number 880 and the data taken from byte 12 of the code on. -/
theorem adfVolInstallBootBlock_written (B : AdfBootDecls) (dev : AdfDevice)
    (vol : AdfVolume) (code : Bytes) (boot : AdfBootBlock)
    (h : (adfVolInstallBootBlock B dev vol code).written = some boot) :
    dev.dev_class = ADF_DEVCLASS_FLOP
    ∧ (B.adfReadBootBlock dev vol).1 = ADF_RC_OK
    ∧ boot.rootBlock = 880
    ∧ boot.dosType = (B.adfReadBootBlock dev vol).2.dosType
    ∧ (∀ i, i < 1012 → boot.data i = code (i + 12))
    ∧ (adfVolInstallBootBlock B dev vol code).rc = (B.adfWriteBootBlock dev vol boot).rc
    ∧ (adfVolInstallBootBlock B dev vol code).dev = (B.adfWriteBootBlock dev vol boot).dev := by
  unfold adfVolInstallBootBlock at h ⊢
  by_cases h1 : dev.dev_class ≠ ADF_DEVCLASS_FLOP
  · rw [if_pos h1] at h
    exact absurd h (by simp)
  rw [if_neg h1] at h ⊢
  dsimp only at h ⊢
  by_cases h2 : (B.adfReadBootBlock dev vol).1 ≠ ADF_RC_OK
  · rw [if_pos h2] at h
    exact absurd h (by simp)
  rw [if_neg h2] at h ⊢
  by_cases h3 : (B.adfWriteBootBlock dev vol
      { (B.adfReadBootBlock dev vol).2 with
        rootBlock := 880,
        data := fun i => if i < 1024 - 12 then code (i + 12)
          else (B.adfReadBootBlock dev vol).2.data i }).rc ≠ ADF_RC_OK
  · rw [if_pos h3] at h ⊢
    have hb := Option.some.inj h
    subst hb
    refine ⟨not_not.mp h1, not_not.mp h2, rfl, rfl, ?_, rfl, rfl⟩
    intro i hi
    have hi2 : i < 1024 - 12 := by omega
    simp only [if_pos hi2]
  · rw [if_neg h3] at h ⊢
    have hb := Option.some.inj h
    subst hb
    refine ⟨not_not.mp h1, not_not.mp h2, rfl, rfl, ?_, (not_not.mp h3).symm, rfl⟩
    intro i hi
    have hi2 : i < 1024 - 12 := by omega
    simp only [if_pos hi2]

set_option maxRecDepth 1000000 in
/-- Claim C28 (the code departs from it): on the floppy of type `hd1760`, whose volume
has its root block at block 1760, every boot block that `adfVolInstallBootBlock` hands
to `adfWriteBootBlock` has the root block number 880 (and the `dosType` read before and
the code from byte 12 on as data); with the sample reader and writer the call returns
OK and the boot block read back from the device has the root block number 880. -/
theorem adfVolInstallBootBlock_rootBlock_880 (B : AdfBootDecls) (code : Bytes) :
    flopHdVolume.rootBlock = 1760
    ∧ adfVolCalcRootBlk flopHdVolume = 1760
    ∧ (∀ boot, (adfVolInstallBootBlock B flopHdDevice flopHdVolume code).written = some boot →
        boot.rootBlock = 880
        ∧ boot.dosType = (B.adfReadBootBlock flopHdDevice flopHdVolume).2.dosType
        ∧ ∀ i, i < 1012 → boot.data i = code (i + 12))
    ∧ (adfVolInstallBootBlock sampleBootDecls flopHdDevice flopHdVolume (fun _ => 1)).rc
        = ADF_RC_OK
    ∧ (sampleReadBootBlock
        (adfVolInstallBootBlock sampleBootDecls flopHdDevice flopHdVolume (fun _ => 1)).dev
        flopHdVolume).2.rootBlock = 880 := by
  refine ⟨rfl, by decide!, ?_, by decide!, by decide!⟩
  intro boot h
  obtain ⟨_, _, h3, h4, h5, _, _⟩ :=
    adfVolInstallBootBlock_written B flopHdDevice flopHdVolume code boot h
  exact ⟨h3, h4, h5⟩

/-! ## Creating a hard disk and mounting it -/

set_option maxHeartbeats 4000000 in
set_option maxRecDepth 1000000 in
/-- Claim C26 (the code departs from it): on the blank device of 10 blocks with one
partition that lies behind the end of the device, `adfVolCreate` returns NULL, and yet
`adfCreateHd` writes the header and returns OK; `adfMountHd` on the device then fails
at the boot block of the partition, and finds no volume. With a partition inside the
device, `adfMountHd` finds the volume with the extent and the name of the created
one. -/
theorem adfCreateHd_ok_without_volume :
    adfVolCreate sampleVolWriters.written
        { blankHdDevice with dev_class := ADF_DEVCLASS_HARDDISK, volList := some [] }
        100 1 farPartition.volName 0 = none
    ∧ (adfCreateHd stdBlkLayout stdHdLayout sampleVolWriters (some blankHdDevice) 1
        (some [farPartition]) (fun _ => 0) (fun _ => 0)).map (fun r => r.1) = some ADF_RC_OK
    ∧ ((adfCreateHd stdBlkLayout stdHdLayout sampleVolWriters (some blankHdDevice) 1
          (some [farPartition]) (fun _ => 0) (fun _ => 0)).bind
        (fun r => r.2.bind (fun d => (adfMountHd stdBlkLayout strictEnv 5 d).map
          (fun m => (m.1, m.2.volList))))) = some (ADF_RC_ERROR, none)
    ∧ ((adfCreateHd stdBlkLayout stdHdLayout sampleVolWriters (some blankHdDevice) 1
          (some [nearPartition]) (fun _ => 0) (fun _ => 0)).bind
        (fun r => r.2.bind (fun d => (adfMountHd stdBlkLayout strictEnv 5 d).map
          (fun m => (m.1, m.2.nVol))))) = some (ADF_RC_OK, 1)
    ∧ ((adfCreateHd stdBlkLayout stdHdLayout sampleVolWriters (some blankHdDevice) 1
          (some [nearPartition]) (fun _ => 0) (fun _ => 0)).bind
        (fun r => r.2.bind (fun d => (adfMountHd stdBlkLayout strictEnv 5 d).bind
          (fun m => m.2.volList.map (fun l => l.map
            (fun v => (v.firstBlock, v.lastBlock, v.volName)))))))
        = some [(4, 9, some [68, 72, 48])] := by
  refine ⟨by decide!, by decide!, by decide!, by decide!, by decide!⟩

/-! ## A PART chain that is read and a mount that does not return -/

set_option maxRecDepth 1000000 in
/-- Claim C19 (the code departs from it): the hardfile of 8 blocks starts with the DOS
boot signature and none of its sectors 2 to 4 has the types of a root block; its boot
block is read, and the read of sector 4, the first of the scan, fails. `adfMountHdFile`
then returns that error, with a null volume list and `nVol = 1`, not 0. -/
theorem adfMountHdFile_scan_read_failure :
    bytesAt cutHdfDevice.drvData.data 0 3 = [68, 79, 83]
    ∧ cutHdfDevice.sizeBlocks / 2 = 4
    ∧ rootAt cutHdfDevice 2 = false ∧ rootAt cutHdfDevice 3 = false
    ∧ rootAt cutHdfDevice 4 = false
    ∧ (adfDevReadBlock cutHdfDevice 0 512 (fun _ => 0)).rc = ADF_RC_OK
    ∧ (cutHdfDevice.drv.readSectors cutHdfDevice.drvData cutHdfDevice.sizeBlocks 512 4 1
        (fun _ => 0)).1 = ADF_RC_ERROR
    ∧ (adfMountHdFile (sampleDecls strictEnv) cutHdfDevice).1 = ADF_RC_ERROR
    ∧ (adfMountHdFile (sampleDecls strictEnv) cutHdfDevice).2.nVol = 1
    ∧ (adfMountHdFile (sampleDecls strictEnv) cutHdfDevice).2.volList = none := by
  refine ⟨by decide!, by decide!, by decide!, by decide!, by decide!, by decide!,
    by decide!, by decide!, by decide!, by decide!⟩

end ADFlib
